import Mathlib

/-!
# upat_follower: path generator and path follower

A shallow embedding of `src/src/generator.cpp` and `src/src/follower.cpp`.

Modelling conventions.

* `double` and `float` values are rational numbers: arithmetic is exact, and a division
  by zero (which yields an infinity or a NaN in the program) is the fault
  `Fault.nonFinite`.
* The conversion of a `double` to `float` is `toFloat`.  It is applied where the
  coordinates of a `Vector3f` are used, in `Follower::calculateVelocity`; where only the
  norm of a difference of two `Vector3f` is taken, the rounding is part of the parameter
  `norm`.
* `int` values are integers in the range from `INT_MIN` to `INT_MAX`: a conversion from
  a floating value to `int` truncates toward zero, and gives `INT_MIN` for a value out of
  that range (`truncToInt`).  Sizes and indices of vectors are natural numbers.  A vector
  constructed with a negative `int` size throws `std::length_error`, the fault
  `Fault.lengthError`.
* Eigen's `Vector3f::norm` is a parameter `norm : Vec3 → ℚ` of every function that
  measures a distance.  Theorems state what they need of it.  `euclid` is a computable
  norm that is the Euclidean norm wherever that norm is rational.
* `ecl::CubicSpline` is a parameter `ecl : EclSpline`.
* The parameter service queried by `Generator::updateParam` is a parameter
  `srv : String → Option ℚ`.
* Unchecked accesses outside a vector, `back()` on an empty vector, dereferencing an end
  iterator, flowing off the end of a value-returning function, reading a local that
  was never assigned and incrementing an `int` at `INT_MAX` are
  `Fault.undefinedBehaviour`; `vector::at` outside the vector is `Fault.outOfRange`.
* The unbounded loop of `Generator::createTrajectory` runs on fuel; running out of fuel
  is `Fault.outOfFuel`.
-/

namespace upat_follower

/-! ## Data model -/

/-- A 3-D point or vector (`geometry_msgs::Point`, `Eigen::Vector3f`). -/
structure Vec3 where
  x : ℚ
  y : ℚ
  z : ℚ
deriving DecidableEq

/-- Componentwise difference of two vectors. -/
def Vec3.sub (a b : Vec3) : Vec3 := ⟨a.x - b.x, a.y - b.y, a.z - b.z⟩

/-- Division of a vector by a scalar. -/
def Vec3.divScalar (a : Vec3) (d : ℚ) : Vec3 := ⟨a.x / d, a.y / d, a.z / d⟩

/-- The squared Euclidean length of a vector. -/
def Vec3.sq (a : Vec3) : ℚ := a.x * a.x + a.y * a.y + a.z * a.z

/-- An orientation quaternion (`geometry_msgs::Quaternion`). -/
structure Orientation where
  x : ℚ
  y : ℚ
  z : ℚ
  w : ℚ
deriving DecidableEq

/-- A waypoint (`geometry_msgs::PoseStamped`, of which only the pose is ever used). -/
structure Pose where
  position : Vec3
  orientation : Orientation
deriving DecidableEq

/-- A path (`nav_msgs::Path`): the frame id of its header and its poses. -/
structure Path where
  frame_id : String
  poses : List Pose
deriving DecidableEq

/-- The default-constructed `nav_msgs::Path`. -/
def Path.empty : Path := ⟨"", []⟩

/-- The ways in which a call can fail to produce a value. -/
inductive Fault where
  | undefinedBehaviour
  | outOfRange
  | nonFinite
  | lengthError
  | outOfFuel
deriving DecidableEq

deriving instance DecidableEq for Except

/-- Modelled from the spec: the mode enumeration declared in `generator.h`, which is not
among the sources; its enumerators are the four that `generator.cpp` names. -/
inductive Mode where
  | mode_interp1_
  | mode_cubic_spline_loyal_
  | mode_cubic_spline_
  | mode_trajectory_
deriving DecidableEq

/-- The part of `ecl::CubicSpline` the generator uses: `Natural t x` is the function
computed by `operator()` of the natural spline through the points `(t, x)`, and
`derivative t x` the function computed by its `derivative`. -/
structure EclSpline where
  Natural : List ℚ → List ℚ → ℚ → ℚ
  derivative : List ℚ → List ℚ → ℚ → ℚ

/-- The data members of `Generator`. `vxy`, `vz_up` and `vz_dn` are the entries
`MPC_XY_VEL_MAX`, `MPC_Z_VEL_MAX_UP` and `MPC_Z_VEL_MAX_DN` of `mavros_params_`. -/
structure Generator where
  mode_ : Mode
  interp1_final_size_ : ℤ
  size_vec_percentage_ : ℤ
  smallest_max_vel_ : ℚ
  max_velocity_ : ℚ
  out_path_ : Path
  generated_path_vel_percentage_ : Path
  generated_times_ : List ℚ
  vxy : ℚ
  vz_up : ℚ
  vz_dn : ℚ
  debug_ : Bool
deriving DecidableEq

/-! ## Numeric helpers -/

/-- The smallest value of the 32-bit `int`. -/
def INT_MIN : ℤ := -2147483648

/-- The largest value of the 32-bit `int`. -/
def INT_MAX : ℤ := 2147483647

/-- Conversion of a floating value to `int`: truncation toward zero of a value whose
truncation is an `int`. For the other values the conversion is undefined in C++; the model
gives the result of the conversion instruction of x86-64, which is `INT_MIN`. -/
def truncToInt (q : ℚ) : ℤ :=
  let t : ℤ := if 0 ≤ q then ⌊q⌋ else ⌈q⌉
  if INT_MIN ≤ t ∧ t ≤ INT_MAX then t else INT_MIN

/-- Newton's iteration for the integer square root of `n` from the guess `x`, for at most
`fuel` steps. -/
def sqrtIter (n : Nat) : Nat → Nat → Nat
  | 0, guess => guess
  | fuel + 1, guess =>
    if (guess + n / guess) / 2 < guess then sqrtIter n fuel ((guess + n / guess) / 2)
    else guess

/-- The integer square root, `Nat.sqrt` with its recursion unrolled on a counter. -/
def isqrt (n : Nat) : Nat := if n ≤ 1 then n else sqrtIter n n (n / 2)

/-- A computable square root on the rationals, exact on squares of rationals: the integer
square roots of the numerator and of the denominator. -/
def qsqrt (q : ℚ) : ℚ := (isqrt q.num.toNat : ℚ) / (isqrt q.den : ℚ)

/-- A computable norm: the Euclidean norm of `v` whenever that norm is rational. -/
def euclid (v : Vec3) : ℚ := qsqrt v.sq

/-- The power `2 ^ k` of an integer exponent `k`. -/
def pow2 (k : ℤ) : ℚ :=
  if 0 ≤ k then ((2 ^ k.toNat : ℕ) : ℚ) else 1 / ((2 ^ (-k).toNat : ℕ) : ℚ)

/-- Rounding to the nearest integer, a tie to the even one. -/
def roundHalfEven (q : ℚ) : ℤ :=
  if q - ⌊q⌋ < 1 / 2 then ⌊q⌋
  else if 1 / 2 < q - ⌊q⌋ then ⌊q⌋ + 1
  else if ⌊q⌋ % 2 = 0 then ⌊q⌋ else ⌊q⌋ + 1

/-- The number of halvings that bring `n` below `2`, on a counter. -/
def log2Iter : Nat → Nat → Nat
  | 0, _ => 0
  | fuel + 1, n => if 2 ≤ n then log2Iter fuel (n / 2) + 1 else 0

/-- The binary logarithm of a natural number, rounded down. -/
def ilog2 (n : Nat) : Nat := log2Iter n n

/-- The binary exponent of a value that is not zero: the `e` with
`2 ^ e ≤ |q| < 2 ^ (e + 1)`. -/
def binaryExponent (q : ℚ) : ℤ :=
  let k : ℤ := (ilog2 q.num.natAbs : ℤ) - (ilog2 q.den : ℤ)
  if pow2 k ≤ |q| then k else k - 1

/-- Conversion of a `double` to `float` (IEEE 754 single precision, rounding to nearest,
ties to even): the value is rounded to a multiple of `2 ^ (e - 23)`, where `e` is its
binary exponent and at least `-126`, which leaves 24 significant bits. The result is `none`
when the rounded magnitude reaches `2 ^ 128`, where the conversion gives an infinity. -/
def toFloat (q : ℚ) : Option ℚ :=
  if q = 0 then some 0
  else
    let e := max (binaryExponent q) (-126)
    let r : ℚ := (roundHalfEven (q / pow2 (e - 23)) : ℚ) * pow2 (e - 23)
    if |r| < pow2 128 then some r else none

/-- The constructor `Eigen::Vector3f(x, y, z)` called with the three `double` coordinates
of a point: each is converted to `float`. The result is `none` when a coordinate converts
to an infinity. -/
def Vector3f (p : Vec3) : Option Vec3 := do
  let x ← toFloat p.x
  let y ← toFloat p.y
  let z ← toFloat p.z
  pure ⟨x, y, z⟩

/-- The value `d` is the Euclidean length of `v`. -/
def IsLength (v : Vec3) (d : ℚ) : Prop := 0 ≤ d ∧ d * d = v.sq

/-- An unchecked read `v[i]`. -/
def rd {α : Type} (v : List α) (i : Nat) : Except Fault α :=
  match v[i]? with
  | some a => .ok a
  | none => .error .undefinedBehaviour

/-- A checked read `v.at(i)`. -/
def rdAt {α : Type} (v : List α) (i : Nat) : Except Fault α :=
  match v[i]? with
  | some a => .ok a
  | none => .error .outOfRange

/-! ## Generator -/

/-- The comparison `newDist <= dist`, where `none` is the initial
`std::numeric_limits<double>::max()`. -/
def leDist (newDist : ℚ) : Option ℚ → Bool
  | none => true
  | some d => decide (newDist ≤ d)

/-- The loop of `Generator::nearestNeighbourIndex` from index `i` on, with the running
`dist` and `idx`. -/
def nearestScan (_value : ℚ) : List ℚ → Nat → Option ℚ → Nat → Nat
  | [], _, _, idx => idx
  | xi :: rest, i, dist, idx =>
    let newDist := |_value - xi|
    if leDist newDist dist then nearestScan _value rest (i + 1) (some newDist) i
    else nearestScan _value rest (i + 1) dist idx

/-- `Generator::nearestNeighbourIndex`. -/
def nearestNeighbourIndex (_x : List ℚ) (_value : ℚ) : Nat :=
  nearestScan _value _x 0 none 0

/-- The difference `v[hi] - v[lo]` of two unchecked reads. -/
def diffAt (v : List ℚ) (hi lo : Nat) : Except Fault ℚ := do
  let a ← rd v hi
  let b ← rd v lo
  pure (a - b)

/-- The difference `v[idx] - v[idx - 1]`, where `idx - 1` wraps around (and the read is
outside the vector) when `idx` is `0`. -/
def diffPrev (v : List ℚ) (idx : Nat) : Except Fault ℚ :=
  if idx = 0 then .error .undefinedBehaviour else diffAt v idx (idx - 1)

/-- One iteration of the loop of `Generator::linealInterp1`: the value pushed for the
query `xn`. Here `_x` is not empty when `x_max_idx` is used, since `_x[idx]` is read
first. -/
def interpPoint (_x _y : List ℚ) (xn : ℚ) : Except Fault ℚ := do
  let x_max_idx := _x.length - 1
  let idx := nearestNeighbourIndex _x xn
  let xi ← rd _x idx
  let dx ← if xi > xn then (if idx > 0 then diffPrev _x idx else diffAt _x (idx + 1) idx)
           else (if idx < x_max_idx then diffAt _x (idx + 1) idx else diffPrev _x idx)
  let dy ← if xi > xn then (if idx > 0 then diffPrev _y idx else diffAt _y (idx + 1) idx)
           else (if idx < x_max_idx then diffAt _y (idx + 1) idx else diffPrev _y idx)
  if dx = 0 then .error .nonFinite
  else do
    let m := dy / dx
    let yi ← rd _y idx
    let b := yi - xi * m
    pure (xn * m + b)

/-- `Generator::linealInterp1`. -/
def linealInterp1 (_x _y : List ℚ) : List ℚ → Except Fault (List ℚ)
  | [] => .ok []
  | xn :: rest => do
    let v ← interpPoint _x _y xn
    let vs ← linealInterp1 _x _y rest
    pure (v :: vs)

/-- The loop `for (int i = 1; i < _amount_of_points; i++)` of
`Generator::interpWaypointList`: the values pushed by `k` iterations from `new_pose`. -/
def stepAxis (portion : ℚ) : Nat → ℚ → List ℚ
  | 0, _ => []
  | k + 1, new_pose => (new_pose + portion) :: stepAxis portion k (new_pose + portion)

/-- The vector `0, 1, ..., size - 1` of the loops `aux_axis.push_back(i)` and
`t_set[i] = (double)i`. -/
def indexAxis (size : Nat) : List ℚ := (List.range size).map (fun (i : ℕ) => (i : ℚ))

/-- `Generator::interpWaypointList`. -/
def interpWaypointList (_list_pose_axis : List ℚ) (_amount_of_points : ℤ) :
    Except Fault (List ℚ) :=
  let aux_axis : List ℚ := indexAxis _list_pose_axis.length
  match aux_axis.getLast?, aux_axis.head? with
  | some back, some front =>
    let portion := (back - front) / (_amount_of_points : ℚ)
    let new_aux_axis := front :: stepAxis portion (_amount_of_points - 1).toNat front
    linealInterp1 aux_axis _list_pose_axis new_aux_axis
  | _, _ => .error .undefinedBehaviour

/-- `Generator::constructPath`. -/
def constructPath (_wps_x _wps_y _wps_z : List ℚ) : Except Fault Path :=
  if _wps_x.length ≤ _wps_y.length ∧ _wps_x.length ≤ _wps_z.length then
    .ok { frame_id := "",
          poses := List.zipWith
            (fun x (yz : ℚ × ℚ) => (⟨⟨x, yz.1, yz.2⟩, ⟨0, 0, 0, 1⟩⟩ : Pose))
            _wps_x (List.zip _wps_y _wps_z) }
  else .error .undefinedBehaviour

/-- `Generator::createPathInterp1`. -/
def createPathInterp1 (_list_x _list_y _list_z : List ℚ) (_path_size : ℤ)
    (_new_path_size : ℤ) : Except Fault Path :=
  if _path_size > 1 then do
    let interp1_list_x ← interpWaypointList _list_x _new_path_size
    let interp1_list_y ← interpWaypointList _list_y _new_path_size
    let interp1_list_z ← interpWaypointList _list_z _new_path_size
    constructPath interp1_list_x interp1_list_y interp1_list_z
  else .ok Path.empty

/-- The points `(x[i], y[i], z[i])` of three coordinate lists. -/
def points (xs ys zs : List ℚ) : List Vec3 :=
  List.zipWith (fun x (yz : ℚ × ℚ) => (⟨x, yz.1, yz.2⟩ : Vec3)) xs (List.zip ys zs)

/-- The loop `total_distance = total_distance + (point_2 - point_1).norm()` over the
consecutive points of a list, with the `int` accumulator `total_distance`. -/
def accumDistance (norm : Vec3 → ℚ) : ℤ → List Vec3 → ℤ
  | total_distance, point_1 :: point_2 :: rest =>
    accumDistance norm (truncToInt ((total_distance : ℚ) + norm (point_2.sub point_1)))
      (point_2 :: rest)
  | total_distance, _ => total_distance

/-- The constructor `std::vector<double>(n)` called with an `int`: a negative `n` is
converted to a size above `max_size()`, and the constructor throws `std::length_error`. -/
def vectorOfSize (n : ℤ) : Except Fault Unit :=
  if n < 0 then .error .lengthError else .ok ()

/-- The samples `f(i / sp_pts)` for `i = 0 .. amount - 1`. -/
def sampleSpline (f : ℚ → ℚ) (sp_pts : ℚ) (amount : ℤ) : List ℚ :=
  (List.range amount.toNat).map (fun (i : ℕ) => f ((i : ℚ) / sp_pts))

/-- The `switch (mode_)` of `Generator::createPathCubicSpline`, which leaves `num_joints`
at its initial `0` in the modes it has no case for. -/
def jointCount (mode_ : Mode) (_path_size : ℤ) : ℤ :=
  match mode_ with
  | .mode_cubic_spline_loyal_ => (_path_size - 1) * 2
  | .mode_cubic_spline_ => _path_size - 1
  | _ => 0

/-- `Generator::createPathCubicSpline`. -/
def createPathCubicSpline (norm : Vec3 → ℚ) (ecl : EclSpline) (g : Generator)
    (_list_x _list_y _list_z : List ℚ) (_path_size : ℤ) : Except Fault Path :=
  if _path_size > 1 then do
    let total_distance :=
      accumDistance norm 0 ((points _list_x _list_y _list_z).take _path_size.toNat)
    let num_joints := jointCount g.mode_ _path_size
    let interp1_list_x ← interpWaypointList _list_x num_joints
    let interp1_list_y ← interpWaypointList _list_y num_joints
    let interp1_list_z ← interpWaypointList _list_z num_joints
    if interp1_list_y.length < interp1_list_x.length
        ∨ interp1_list_z.length < interp1_list_x.length then .error .undefinedBehaviour
    else do
      let t_set : List ℚ := indexAxis interp1_list_x.length
      let x_set := interp1_list_x
      let y_set := interp1_list_y.take interp1_list_x.length
      let z_set := interp1_list_z.take interp1_list_x.length
      let sp_pts : ℚ := total_distance
      let _amount_of_points := truncToInt (((interp1_list_x.length : ℚ) - 1) * sp_pts)
      vectorOfSize _amount_of_points
      let spline_list_x := sampleSpline (ecl.Natural t_set x_set) sp_pts _amount_of_points
      let spline_list_y := sampleSpline (ecl.Natural t_set y_set) sp_pts _amount_of_points
      let spline_list_z := sampleSpline (ecl.Natural t_set z_set) sp_pts _amount_of_points
      constructPath spline_list_x spline_list_y spline_list_z
  else .ok Path.empty

/-- `Generator::pathManagement`. -/
def pathManagement (norm : Vec3 → ℚ) (ecl : EclSpline) (g : Generator)
    (_list_pose_x _list_pose_y _list_pose_z : List ℚ) : Except Fault Path :=
  match g.mode_ with
  | .mode_interp1_ =>
    createPathInterp1 _list_pose_x _list_pose_y _list_pose_z _list_pose_x.length
      g.interp1_final_size_
  | .mode_cubic_spline_loyal_ =>
    createPathCubicSpline norm ecl g _list_pose_x _list_pose_y _list_pose_z
      _list_pose_x.length
  | .mode_cubic_spline_ =>
    createPathCubicSpline norm ecl g _list_pose_x _list_pose_y _list_pose_z
      _list_pose_x.length
  | .mode_trajectory_ => .error .undefinedBehaviour

/-- The orientation loops of `Generator::generatePath`: for each `i < n - 1` and each
`j < size / n` the pose at the running index `k` receives the orientation of waypoint
`i`. The state of the fold is `(k, poses)`. -/
def setOrientations (list_orient : List Orientation) (n : Nat) (poses : List Pose) :
    List Pose :=
  ((List.range (n - 1)).foldl
    (fun (st : Nat × List Pose) i =>
      (List.range (poses.length / n)).foldl
        (fun (st : Nat × List Pose) _ =>
          (st.1 + 1,
            st.2.modify (fun p => { p with orientation := list_orient.getD i ⟨0, 0, 0, 1⟩ })
              st.1))
        st)
    (0, poses)).2

/-- The tail of `Generator::generatePath` and `Generator::generateTrajectory`: the frame
id of the stored path is set and the stored path is returned. -/
def returnOutPath (g : Generator) (_init_path : Path) : Generator × Path :=
  let out := { g.out_path_ with frame_id := _init_path.frame_id }
  ({ g with out_path_ := out }, out)

/-- `Generator::generatePath`. -/
def generatePath (norm : Vec3 → ℚ) (ecl : EclSpline) (g : Generator) (_init_path : Path)
    (_generator_mode : ℤ) : Except Fault (Generator × Path) :=
  match _init_path.poses.getLast? with
  | none => .error .undefinedBehaviour
  | some last =>
    let list_pose_x := _init_path.poses.map (fun p => p.position.x) ++ [last.position.x]
    let list_pose_y := _init_path.poses.map (fun p => p.position.y) ++ [last.position.y]
    let list_pose_z := _init_path.poses.map (fun p => p.position.z) ++ [last.position.z]
    let list_orient := _init_path.poses.map (fun p => p.orientation) ++ [last.orientation]
    if _generator_mode = 0 then do
      let g := { g with mode_ := .mode_interp1_ }
      let total_distance := accumDistance norm 0
        ((points list_pose_x list_pose_y list_pose_z).take _init_path.poses.length)
      let g := { g with interp1_final_size_ := truncToInt ((total_distance : ℚ) / 0.02) }
      let out ← pathManagement norm ecl g list_pose_x list_pose_y list_pose_z
      let out := { out with
        poses := setOrientations list_orient _init_path.poses.length out.poses }
      pure (returnOutPath { g with out_path_ := out } _init_path)
    else if _generator_mode = 1 then do
      let g := { g with mode_ := .mode_cubic_spline_loyal_ }
      let out ← pathManagement norm ecl g list_pose_x list_pose_y list_pose_z
      pure (returnOutPath { g with out_path_ := out } _init_path)
    else if _generator_mode = 2 then do
      let g := { g with mode_ := .mode_cubic_spline_ }
      let out ← pathManagement norm ecl g list_pose_x list_pose_y list_pose_z
      pure (returnOutPath { g with out_path_ := out } _init_path)
    else pure (returnOutPath g _init_path)

/-- `Generator::updateParam` for the entry of `mavros_params_` whose value is `current`:
a successful service call stores the answered value, a failed one leaves the entry (which
the constructors always create) as it is; the entry is returned. -/
def updateParam (srv : String → Option ℚ) (current : ℚ) (_param_id : String) : ℚ :=
  match srv _param_id with
  | some v => v
  | none => current

/-- `Generator::checkSmallestMaxVel`. -/
def checkSmallestMaxVel (srv : String → Option ℚ) (g : Generator) : Generator × ℚ :=
  let mpc_xy_vel_max := updateParam srv g.vxy "MPC_XY_VEL_MAX"
  let mpc_z_vel_max_up := updateParam srv g.vz_up "MPC_Z_VEL_MAX_UP"
  let mpc_z_vel_max_dn := updateParam srv g.vz_dn "MPC_Z_VEL_MAX_DN"
  ({ g with vxy := mpc_xy_vel_max, vz_up := mpc_z_vel_max_up, vz_dn := mpc_z_vel_max_dn },
    min mpc_xy_vel_max (min mpc_z_vel_max_up mpc_z_vel_max_dn))

/-- The value `*std::max_element(v.begin(), v.end())`, absent for an empty vector. -/
def maxElement : List ℚ → Option ℚ
  | [] => none
  | a :: l => some (l.foldl max a)

/-- The value `*std::min_element(v.begin(), v.end())`, absent for an empty vector. -/
def minElement : List ℚ → Option ℚ
  | [] => none
  | a :: l => some (l.foldl min a)

/-- The vector `vec_check_vel` of `Generator::createTrajectory`: the three derivatives at
every sample. -/
def checkVel (dx dy dz : ℚ → ℚ) (sp_pts : ℚ) (amount : ℤ) : List ℚ :=
  (List.range amount.toNat).flatMap
    (fun (i : ℕ) => [dx ((i : ℚ) / sp_pts), dy ((i : ℚ) / sp_pts), dz ((i : ℚ) / sp_pts)])

/-- The `while (try_fit_spline)` loop of `Generator::createTrajectory`, started with
`num_joints` joints, on `fuel` iterations. The increment `num_joints++` of the `int`
counter at `INT_MAX` is undefined. -/
def fitSpline (ecl : EclSpline) (g : Generator) (_list_x _list_y _list_z : List ℚ)
    (total_distance : ℤ) : Nat → ℤ → Except Fault Path
  | 0, _ => .error .outOfFuel
  | fuel + 1, num_joints => do
    let interp1_list_x ← interpWaypointList _list_x num_joints
    let interp1_list_y ← interpWaypointList _list_y num_joints
    let interp1_list_z ← interpWaypointList _list_z num_joints
    if interp1_list_y.length < interp1_list_x.length
        ∨ interp1_list_z.length < interp1_list_x.length then .error .undefinedBehaviour
    else do
      let t_set : List ℚ := indexAxis interp1_list_x.length
      let x_set := interp1_list_x
      let y_set := interp1_list_y.take interp1_list_x.length
      let z_set := interp1_list_z.take interp1_list_x.length
      let sp_pts : ℚ := total_distance
      let _amount_of_points := truncToInt (((interp1_list_x.length : ℚ) - 1) * sp_pts)
      vectorOfSize _amount_of_points
      let spline_list_x := sampleSpline (ecl.Natural t_set x_set) sp_pts _amount_of_points
      let spline_list_y := sampleSpline (ecl.Natural t_set y_set) sp_pts _amount_of_points
      let spline_list_z := sampleSpline (ecl.Natural t_set z_set) sp_pts _amount_of_points
      let vec_check_vel := checkVel (ecl.derivative t_set x_set) (ecl.derivative t_set y_set)
        (ecl.derivative t_set z_set) sp_pts _amount_of_points
      match maxElement vec_check_vel, minElement vec_check_vel with
      | some spline_max_vel, some spline_min_vel =>
        if g.size_vec_percentage_ = 0 then .error .undefinedBehaviour
        else
          let rem := (spline_list_x.length : ℤ) % g.size_vec_percentage_
          if spline_max_vel > g.smallest_max_vel_ ∨ |spline_min_vel| > g.smallest_max_vel_
              ∨ rem ≠ 0 then
            if num_joints = INT_MAX then .error .undefinedBehaviour
            else fitSpline ecl g _list_x _list_y _list_z total_distance fuel (num_joints + 1)
          else constructPath spline_list_x spline_list_y spline_list_z
      | _, _ => .error .undefinedBehaviour

/-- `Generator::createTrajectory`; the generator is returned with the refreshed
parameters and `smallest_max_vel_`. -/
def createTrajectory (norm : Vec3 → ℚ) (ecl : EclSpline) (srv : String → Option ℚ)
    (fuel : Nat) (g : Generator) (_list_x _list_y _list_z : List ℚ) (_path_size : ℤ)
    (_times : List ℚ) : Except Fault (Generator × Path) :=
  if _path_size > 1 then do
    let total_distance :=
      accumDistance norm 0 ((points _list_x _list_y _list_z).take _path_size.toNat)
    let num_joints := _path_size
    let (g, smallest) := checkSmallestMaxVel srv g
    let g := { g with smallest_max_vel_ := smallest }
    let cubic_spline_path ← fitSpline ecl g _list_x _list_y _list_z total_distance fuel
      num_joints
    pure (g, cubic_spline_path)
  else .ok (g, Path.empty)

/-- The two nested `for` loops of `Generator::generateTrajectory`: `block` copies of every
element of `_times`, in order. -/
def timeBlocks (_times : List ℚ) (block : Nat) : List ℚ :=
  _times.flatMap (fun t => List.replicate block t)

/-- `Generator::generateTrajectory`. -/
def generateTrajectory (norm : Vec3 → ℚ) (ecl : EclSpline) (srv : String → Option ℚ)
    (fuel : Nat) (g : Generator) (_init_path : Path) (_times : List ℚ) :
    Except Fault (Generator × Path) :=
  match _init_path.poses.getLast? with
  | none => .error .undefinedBehaviour
  | some last =>
    let list_pose_x := _init_path.poses.map (fun p => p.position.x) ++ [last.position.x]
    let list_pose_y := _init_path.poses.map (fun p => p.position.y) ++ [last.position.y]
    let list_pose_z := _init_path.poses.map (fun p => p.position.z) ++ [last.position.z]
    if _init_path.poses.length - 1 = _times.length then do
      let g := { g with mode_ := .mode_trajectory_, size_vec_percentage_ := _times.length }
      let (g, out) ← createTrajectory norm ecl srv fuel g list_pose_x list_pose_y list_pose_z
        list_pose_x.length _times
      let g := { g with out_path_ := out, mode_ := .mode_interp1_,
                        interp1_final_size_ := out.poses.length }
      let vel ← pathManagement norm ecl g list_pose_x list_pose_y list_pose_z
      let g := { g with generated_path_vel_percentage_ := vel }
      let generated_times :=
        g.generated_times_ ++ timeBlocks _times (vel.poses.length / (_times.length + 1))
      let pad := g.out_path_.poses.length - generated_times.length
      if pad = 0 then
        pure (returnOutPath
          { g with generated_times_ := generated_times,
                   max_velocity_ := |g.smallest_max_vel_| } _init_path)
      else
        match _times.getLast? with
        | none => .error .undefinedBehaviour
        | some back =>
          pure (returnOutPath
            { g with generated_times_ := generated_times ++ List.replicate pad back,
                     max_velocity_ := |g.smallest_max_vel_| } _init_path)
    else pure (returnOutPath g _init_path)


/-! ## Follower -/

/-- A velocity command (`geometry_msgs::TwistStamped`): the frame id of its header and its
linear part; the angular part is never written. -/
structure Twist where
  frame_id : String
  linear : Vec3
deriving DecidableEq

/-- The data members of `Follower` that the path preparation and the tick use. -/
structure Follower where
  follower_mode_ : ℤ
  target_path_ : Path
  target_vel_path_ : Path
  generated_times_ : List ℚ
  max_vel_ : ℚ
  cruising_speed_ : ℚ
  look_ahead_ : ℚ
  prev_normal_pos_on_path_ : Nat
  prev_normal_vel_on_path_ : Nat
  flag_run_ : Bool
  out_velocity_ : Twist
  ual_pose_ : Pose
  vxy_ : ℚ
  vz_up_ : ℚ
  vz_dn_ : ℚ
  smallest_max_velocity_ : ℚ
  debug_ : Bool
deriving DecidableEq

/-- The constructor `Generator(_vxy, _vz_up, _vz_dn, _debug)`: it assigns the three
parameters and `debug_`; the paths and the vector start empty; the other members keep the
values `init` that `generator.h`, which is not among the sources, gives them. -/
def Generator.construct (init : Generator) (_vxy _vz_up _vz_dn : ℚ) (_debug : Bool) :
    Generator :=
  { init with
    out_path_ := Path.empty, generated_path_vel_percentage_ := Path.empty,
    generated_times_ := [], vxy := _vxy, vz_up := _vz_up, vz_dn := _vz_dn,
    debug_ := _debug }

/-- `Follower::preparePath`. -/
def preparePath (norm : Vec3 → ℚ) (ecl : EclSpline) (init : Generator) (f : Follower)
    (_init_path : Path) (_generator_mode : ℤ) (_look_ahead _cruising_speed : ℚ) :
    Follower × Except Fault Path :=
  let f := { f with follower_mode_ := 0 }
  let generator := Generator.construct init f.vxy_ f.vz_up_ f.vz_dn_ f.debug_
  match generatePath norm ecl generator _init_path _generator_mode with
  | .error e => (f, .error e)
  | .ok (generator, _) =>
    let f := { f with look_ahead_ := _look_ahead, cruising_speed_ := _cruising_speed }
    let f := if _cruising_speed > f.smallest_max_velocity_ then
      { f with cruising_speed_ := f.smallest_max_velocity_ } else f
    let f := if _cruising_speed ≤ 0 then { f with cruising_speed_ := 0.1 } else f
    ({ f with target_path_ := generator.out_path_ }, .ok generator.out_path_)

/-- The value pushed by one iteration of `Follower::timesToMaxVelPercentage`. A quotient
by zero is an infinity, which the two clamps turn into `1`, unless it is `0 / 0`. -/
def maxVelPercentage (smallest_max_velocity_ temp_distance temp_time : ℚ) :
    Except Fault ℚ :=
  if temp_time = 0 ∨ smallest_max_velocity_ = 0 then
    (if temp_distance = 0 then .error .nonFinite else .ok 1)
  else
    let temp_percentage := temp_distance / temp_time / smallest_max_velocity_
    let temp_percentage := if temp_percentage > 1 then 1 else temp_percentage
    let temp_percentage := if temp_percentage < 0 then 1 else temp_percentage
    .ok temp_percentage

/-- The loop of `Follower::timesToMaxVelPercentage` from index `i` on, for `k`
iterations. A NaN is pushed like any other value and does not end the loop, so that an
`at` of a later iteration still throws; a vector that holds a NaN is `Fault.nonFinite`. -/
def timesLoop (norm : Vec3 → ℚ) (f : Follower) (poses : List Pose) (_times : List ℚ) :
    Nat → Nat → Except Fault (List ℚ)
  | 0, _ => .ok []
  | k + 1, i => do
    let point_1 ← rdAt poses i
    let point_2 ← rdAt poses (i + 1)
    let temp_distance := norm (point_2.position.sub point_1.position)
    let t1 ← rdAt _times (i + 1)
    let t0 ← rdAt _times i
    match maxVelPercentage f.smallest_max_velocity_ temp_distance (t1 - t0) with
    | .ok temp_percentage => do
      let rest ← timesLoop norm f poses _times k (i + 1)
      pure (temp_percentage :: rest)
    | .error e =>
      match timesLoop norm f poses _times k (i + 1) with
      | .error .outOfRange => .error .outOfRange
      | _ => .error e

/-- `Follower::timesToMaxVelPercentage`. With no pose the bound `size() - 1` wraps around
and the first `at` throws. -/
def timesToMaxVelPercentage (norm : Vec3 → ℚ) (f : Follower) (_init_path : Path)
    (_times : List ℚ) : Except Fault (List ℚ) :=
  if _init_path.poses.length = 0 then .error .outOfRange
  else timesLoop norm f _init_path.poses _times (_init_path.poses.length - 1) 0

/-- `Follower::prepareTrajectory`. The first component is the follower after the call,
also when the call ends in an exception. -/
def prepareTrajectory (norm : Vec3 → ℚ) (ecl : EclSpline) (srv : String → Option ℚ)
    (fuel : Nat) (init : Generator) (f : Follower) (_init_path : Path) (_times : List ℚ) :
    Follower × Except Fault Path :=
  let f := { f with follower_mode_ := 1 }
  match timesToMaxVelPercentage norm f _init_path _times with
  | .error e => (f, .error e)
  | .ok _ =>
    let generator := Generator.construct init f.vxy_ f.vz_up_ f.vz_dn_ f.debug_
    match timesToMaxVelPercentage norm f _init_path _times with
    | .error e => (f, .error e)
    | .ok percentages =>
      match generateTrajectory norm ecl srv fuel generator _init_path percentages with
      | .error e => (f, .error e)
      | .ok (generator, _) =>
        ({ f with
            target_vel_path_ :=
              { generator.generated_path_vel_percentage_ with
                frame_id := generator.out_path_.frame_id },
            generated_times_ := f.generated_times_ ++ generator.generated_times_,
            max_vel_ := generator.max_velocity_,
            target_path_ := generator.out_path_ },
          .ok generator.out_path_)

/-- The loop shared by `Follower::calculateDistanceOnPath` (forward branch) and
`Follower::calculatePosLookAhead`: from index `i`, for at most `k` iterations, the
segment lengths are accumulated in `temp_dist`; while the sum is below `limit` the index
is recorded, and the first sum that is not ends the loop. The result is the recorded
index, absent when none was recorded. -/
def forwardScan (norm : Vec3 → ℚ) (poses : List Pose) (limit : ℚ) :
    Nat → Nat → ℚ → Option Nat → Except Fault (Option Nat)
  | 0, _, _, pos => .ok pos
  | k + 1, i, temp_dist, pos => do
    let p1 ← rdAt poses i
    let p2 ← rdAt poses (i + 1)
    let temp_dist := temp_dist + norm (p2.position.sub p1.position)
    if temp_dist < limit then forwardScan norm poses limit k (i + 1) temp_dist (some i)
    else .ok pos

/-- The backward loop of `Follower::calculateDistanceOnPath`, from index `i` down to `1`. -/
def backwardScan (norm : Vec3 → ℚ) (poses : List Pose) (limit : ℚ) :
    Nat → ℚ → Nat → Except Fault Nat
  | 0, _, pos => .ok pos
  | i + 1, temp_dist, pos => do
    let p1 ← rdAt poses (i + 1)
    let p0 ← rdAt poses i
    let temp_dist := temp_dist + norm (p1.position.sub p0.position)
    if temp_dist < limit then backwardScan norm poses limit i temp_dist (i + 1)
    else .ok pos

/-- A local `int` that is returned: a fault when it was never assigned. -/
def assigned (v : Option Nat) : Except Fault Nat :=
  match v with
  | some i => .ok i
  | none => .error .undefinedBehaviour

/-- `Follower::calculateDistanceOnPath`. -/
def calculateDistanceOnPath (norm : Vec3 → ℚ) (f : Follower)
    (_prev_normal_pos_on_path : Nat) (_meters : ℚ) : Except Fault Nat := do
  let poses := f.target_path_.poses
  let p_prev ← rdAt poses _prev_normal_pos_on_path
  let p_front ← rd poses 0
  let p_back ← rd poses (poses.length - 1)
  let dist_to_front := norm (p_prev.position.sub p_front.position)
  let dist_to_back := norm (p_prev.position.sub p_back.position)
  if _meters > 0 then
    if _meters < dist_to_back then do
      let pos_equals_dist ← forwardScan norm poses _meters
        (poses.length - 1 - _prev_normal_pos_on_path) _prev_normal_pos_on_path 0 none
      assigned pos_equals_dist
    else pure (poses.length - 1)
  else
    if _meters < dist_to_front then
      backwardScan norm poses |_meters / 2| _prev_normal_pos_on_path 0 0
    else pure 0

/-- The scan of `std::min_element` from position `i` on: the position of the first
smallest element, `best` being the smallest so far and `idx` its position. -/
def minScan : List ℚ → Nat → ℚ → Nat → Nat
  | [], _, _, idx => idx
  | d :: rest, i, best, idx =>
    if d < best then minScan rest (i + 1) d i else minScan rest (i + 1) best idx

/-- The offset `std::min_element(v.begin(), v.end()) - v.begin()`, which is `0` for an
empty vector. -/
def minElementIndex : List ℚ → Nat
  | [] => 0
  | d :: rest => minScan rest 1 d 0

/-- The distances gathered by the loop of `Follower::calculatePosOnPath` for the indices
`start, ..., start + k - 1`. -/
def windowDistances (norm : Vec3 → ℚ) (poses : List Pose) (_current_point : Vec3) :
    Nat → Nat → Except Fault (List ℚ)
  | 0, _ => .ok []
  | k + 1, i => do
    let target_path_point ← rdAt poses i
    let rest ← windowDistances norm poses _current_point k (i + 1)
    pure (norm (target_path_point.position.sub _current_point) :: rest)

/-- `Follower::calculatePosOnPath`. -/
def calculatePosOnPath (norm : Vec3 → ℚ) (f : Follower) (_current_point : Vec3)
    (_search_range : ℚ) (_prev_normal_pos_on_path : Nat) (_path_search : Path) :
    Except Fault Nat := do
  let start_search_pos_on_path ←
    calculateDistanceOnPath norm f _prev_normal_pos_on_path (-_search_range)
  let end_search_pos_on_path ←
    calculateDistanceOnPath norm f _prev_normal_pos_on_path _search_range
  let vec_distances ← windowDistances norm _path_search.poses _current_point
    (end_search_pos_on_path - start_search_pos_on_path) start_search_pos_on_path
  let pos_on_path := minElementIndex vec_distances
  pure (pos_on_path + start_search_pos_on_path)

/-- `Follower::calculatePosLookAhead`. With no pose the bound `size() - 1` wraps around
and the first `at` throws. -/
def calculatePosLookAhead (norm : Vec3 → ℚ) (f : Follower) (_pos_on_path : Nat) :
    Except Fault Nat := do
  let poses := f.target_path_.poses
  if poses.length = 0 then .error .outOfRange
  else do
    let pos_look_ahead ← forwardScan norm poses f.look_ahead_
      (poses.length - 1 - _pos_on_path) _pos_on_path 0 none
    assigned pos_look_ahead

/-- `Follower::changeLookAhead`. -/
def changeLookAhead (f : Follower) (_pos_on_path : Nat) : Except Fault ℚ := do
  let t ← rd f.generated_times_ _pos_on_path
  pure (f.max_vel_ * t)

/-- The two normalisations of `Follower::calculateVelocity`:
`(target_p - _current_point) / distance` and then `unit_vec / unit_vec.norm()`, for the
two points as `Vector3f`. A coordinate that is an infinity, a distance that is zero and a
unit vector whose norm is zero each make the result a NaN. -/
def unitVector (norm : Vec3 → ℚ) (target_p _current_point : Option Vec3) :
    Except Fault Vec3 :=
  match target_p, _current_point with
  | some target_p, some _current_point =>
    let distance := norm (target_p.sub _current_point)
    if distance = 0 then .error .nonFinite
    else
      let unit_vec := (target_p.sub _current_point).divScalar distance
      if norm unit_vec = 0 then .error .nonFinite
      else .ok (unit_vec.divScalar (norm unit_vec))
  | _, _ => .error .nonFinite

/-- `Follower::calculateVelocity`. The argument `_current_point` is the position of the
vehicle in `double` coordinates; the conversion to `Vector3f`, which `getVelocity` does
before the call, is applied here, where the coordinates are used. -/
def calculateVelocity (norm : Vec3 → ℚ) (f : Follower) (_current_point : Vec3)
    (_pos_look_ahead _pos_on_path : Nat) : Except Fault Twist := do
  let target_p ← rdAt f.target_path_.poses _pos_look_ahead
  if f.follower_mode_ = 0 then do
    let unit_vec ← unitVector norm (Vector3f target_p.position) (Vector3f _current_point)
    pure { frame_id := f.target_path_.frame_id,
           linear := ⟨unit_vec.x * f.cruising_speed_, unit_vec.y * f.cruising_speed_,
                      unit_vec.z * f.cruising_speed_⟩ }
  else if f.follower_mode_ = 1 then do
    let unit_vec ← unitVector norm (Vector3f target_p.position) (Vector3f _current_point)
    let t ← rd f.generated_times_ _pos_on_path
    pure { frame_id := f.target_path_.frame_id,
           linear := ⟨unit_vec.x * f.max_vel_ * t, unit_vec.y * f.max_vel_ * t,
                      unit_vec.z * f.max_vel_ * t⟩ }
  else pure { frame_id := f.target_path_.frame_id, linear := ⟨0, 0, 0⟩ }

/-- The faults of `Follower::prepareDebug`; the debug points it stores are not part of
the model. -/
def prepareDebug (norm : Vec3 → ℚ) (f : Follower) (_search_range : ℚ)
    (_normal_pos_on_path _pos_look_ahead _prev_normal : Nat) : Except Fault Unit := do
  let _ ← rdAt f.target_path_.poses _normal_pos_on_path
  let _ ← rdAt f.target_path_.poses _pos_look_ahead
  let start_search_pos_on_path ← calculateDistanceOnPath norm f _prev_normal (-_search_range)
  let end_search_pos_on_path ← calculateDistanceOnPath norm f _prev_normal _search_range
  let _ ← rdAt f.target_path_.poses start_search_pos_on_path
  let _ ← rdAt f.target_path_.poses end_search_pos_on_path
  pure ()

/-- `Follower::getVelocity`: the follower after the tick and the command returned. In
path mode `calculateVelocity` is called without its last argument, which that mode does
not read. -/
def getVelocity (norm : Vec3 → ℚ) (f : Follower) : Except Fault (Follower × Twist) :=
  if f.target_path_.poses.length > 1 then do
    let current_point := f.ual_pose_.position
    let target_path0 ← rdAt f.target_path_.poses 0
    let f := if norm (current_point.sub target_path0.position) < 1 then
      { f with flag_run_ := true } else f
    if f.flag_run_ then
      if f.follower_mode_ = 1 then do
        let search_range_vel := f.look_ahead_ * 1.5
        let normal_vel_on_path ← calculatePosOnPath norm f current_point search_range_vel
          f.prev_normal_vel_on_path_ f.target_path_
        let f := { f with prev_normal_vel_on_path_ := normal_vel_on_path }
        let look_ahead ← changeLookAhead f normal_vel_on_path
        let f := { f with look_ahead_ := look_ahead }
        let pos_look_ahead ← calculatePosLookAhead norm f normal_vel_on_path
        let out ← calculateVelocity norm f current_point pos_look_ahead normal_vel_on_path
        let f := { f with out_velocity_ := out }
        if f.debug_ then do
          prepareDebug norm f search_range_vel normal_vel_on_path pos_look_ahead
            f.prev_normal_vel_on_path_
          pure (f, f.out_velocity_)
        else pure (f, f.out_velocity_)
      else do
        let search_range_normal_pos := f.look_ahead_ * 1.5
        let normal_pos_on_path ← calculatePosOnPath norm f current_point
          search_range_normal_pos f.prev_normal_pos_on_path_ f.target_path_
        let f := { f with prev_normal_pos_on_path_ := normal_pos_on_path }
        let pos_look_ahead ← calculatePosLookAhead norm f normal_pos_on_path
        let out ← calculateVelocity norm f current_point pos_look_ahead 0
        let f := { f with out_velocity_ := out }
        if f.debug_ then do
          prepareDebug norm f search_range_normal_pos normal_pos_on_path pos_look_ahead
            f.prev_normal_pos_on_path_
          pure (f, f.out_velocity_)
        else pure (f, f.out_velocity_)
    else pure (f, f.out_velocity_)
  else pure (f, f.out_velocity_)

/-- `Follower::updatePose` (and `Follower::ualPoseCallback`). -/
def updatePose (f : Follower) (_ual_pose : Pose) : Follower :=
  { f with ual_pose_ := _ual_pose }

/-- The arrays `mpc_xy_vel_max_`, `mpc_z_vel_max_up_` and `mpc_z_vel_max_dn_` that
`follower.h`, which is not among the sources, declares: the first entry of each is the
lower and the second the upper limit of a velocity. -/
structure VelocityRanges where
  mpc_xy_vel_max_ : ℚ × ℚ
  mpc_z_vel_max_up_ : ℚ × ℚ
  mpc_z_vel_max_dn_ : ℚ × ℚ

/-- The two `if` statements with which `Follower::capMaxVelocities` caps one velocity. -/
def capVelocity (range : ℚ × ℚ) (v : ℚ) : ℚ :=
  let v := if v < range.1 then range.1 else v
  if v > range.2 then range.2 else v

/-- `Follower::capMaxVelocities`. -/
def capMaxVelocities (ranges : VelocityRanges) (f : Follower) : Follower :=
  let vxy := capVelocity ranges.mpc_xy_vel_max_ f.vxy_
  let vz_up := capVelocity ranges.mpc_z_vel_max_up_ f.vz_up_
  let vz_dn := capVelocity ranges.mpc_z_vel_max_dn_ f.vz_dn_
  { f with vxy_ := vxy, vz_up_ := vz_up, vz_dn_ := vz_dn,
           smallest_max_velocity_ := min vxy (min vz_up vz_dn) }

/-! ## Closed forms used in the statements -/

/-- The start of the segment whose slope `linealInterp1` uses for a query `xn` whose
nearest index on the axis `0, ..., m - 1` is `idx`. -/
def segStart (m idx : Nat) (xn : ℚ) : Nat :=
  if (idx : ℚ) > xn then (if idx > 0 then idx - 1 else idx)
  else (if idx < m - 1 then idx else idx - 1)

/-- The value `linealInterp1` computes on the axis `0, ..., size - 1` for a query `xn`
whose nearest index is `idx`: the line through `(idx, y[idx])` with the slope of the
segment that starts at `segStart`. -/
def lineValue (ys : List ℚ) (idx : Nat) (xn : ℚ) : ℚ :=
  xn * (ys.getD (segStart ys.length idx xn + 1) 0 - ys.getD (segStart ys.length idx xn) 0)
    + (ys.getD idx 0
        - (idx : ℚ) * (ys.getD (segStart ys.length idx xn + 1) 0
                        - ys.getD (segStart ys.length idx xn) 0))

/-- The value `interpWaypointList` gives to the position `xn` of the index domain. -/
def resampled (ys : List ℚ) (xn : ℚ) : ℚ :=
  lineValue ys (nearestNeighbourIndex (indexAxis ys.length) xn) xn

/-- The positions of the index domain that `interpWaypointList` queries on a list of
`size` values. -/
def queryAxis (size : Nat) (_amount_of_points : ℤ) : List ℚ :=
  0 :: stepAxis ((((size - 1 : ℕ) : ℚ) - 0) / (_amount_of_points : ℚ))
    (_amount_of_points - 1).toNat 0

/-- The poses `constructPath` builds from three coordinate lists. -/
def posesOf (xs ys zs : List ℚ) : List Pose :=
  List.zipWith (fun x (yz : ℚ × ℚ) => (⟨⟨x, yz.1, yz.2⟩, ⟨0, 0, 0, 1⟩⟩ : Pose)) xs
    (List.zip ys zs)

/-- The densified poses of `createPathInterp1` for three coordinate lists of one length. -/
def interp1Poses (lx ly lz : List ℚ) (a : ℤ) : List Pose :=
  (queryAxis lx.length a).map
    (fun t => (⟨⟨resampled lx t, resampled ly t, resampled lz t⟩, ⟨0, 0, 0, 1⟩⟩ : Pose))

/-- The sample count that `generatePath` requests in its linear mode. -/
def linearCount (norm : Vec3 → ℚ) (_init_path : Path) : ℤ :=
  truncToInt
    ((accumDistance norm 0 (_init_path.poses.map (fun p => p.position)) : ℚ) / 0.02)

/-- The `int` distance that the spline modes of `generatePath` accumulate: over the
waypoints and the copy of the last waypoint that `generatePath` appends to them. -/
def paddedDistance (norm : Vec3 → ℚ) (_init_path : Path) : ℤ :=
  accumDistance norm 0
    (_init_path.poses.map (fun p => p.position)
      ++ (_init_path.poses.getLast?.map (fun p => p.position)).toList)

/-- The factor `interp1_list_x.size() - 1` of `createPathCubicSpline` in the mode `m` of
`generatePath`: the number of joints of that mode less one. -/
def jointIntervals (_init_path : Path) (m : ℤ) : ℤ :=
  (if m = 1 then 2 * (_init_path.poses.length : ℤ) else _init_path.poses.length) - 1

/-- The sample vectors of the spline modes `1` and `2` of `generatePath` can be built: the
`int` distance is not negative and the sample count `(size - 1) * total_distance` is an
`int`. The other modes build no such vector, and nothing is required of them. -/
def SplineFits (norm : Vec3 → ℚ) (_init_path : Path) (m : ℤ) : Prop :=
  (m = 1 ∨ m = 2) →
    0 ≤ paddedDistance norm _init_path ∧
      jointIntervals _init_path m * paddedDistance norm _init_path ≤ INT_MAX

instance decidableSplineFits (norm : Vec3 → ℚ) (_init_path : Path) (m : ℤ) :
    Decidable (SplineFits norm _init_path m) := by
  unfold SplineFits
  exact inferInstance

/-- The poses of the linear mode of `generatePath` before the orientations are set. -/
def linearPoses (norm : Vec3 → ℚ) (_init_path : Path) (last : Pose) : List Pose :=
  interp1Poses (_init_path.poses.map (fun p => p.position.x) ++ [last.position.x])
    (_init_path.poses.map (fun p => p.position.y) ++ [last.position.y])
    (_init_path.poses.map (fun p => p.position.z) ++ [last.position.z])
    (linearCount norm _init_path)

/-- The derivatives that the iteration of `createTrajectory` with `num_joints` joints
samples: its vector `vec_check_vel`. -/
def trialDerivatives (ecl : EclSpline) (_list_x _list_y _list_z : List ℚ)
    (total_distance num_joints : ℤ) : Except Fault (List ℚ) := do
  let interp1_list_x ← interpWaypointList _list_x num_joints
  let interp1_list_y ← interpWaypointList _list_y num_joints
  let interp1_list_z ← interpWaypointList _list_z num_joints
  let t_set := indexAxis interp1_list_x.length
  pure (checkVel (ecl.derivative t_set interp1_list_x)
    (ecl.derivative t_set (interp1_list_y.take interp1_list_x.length))
    (ecl.derivative t_set (interp1_list_z.take interp1_list_x.length))
    total_distance (truncToInt (((interp1_list_x.length : ℚ) - 1) * total_distance)))

/-- The vector `(target_p - _current_point) / distance` of `calculateVelocity`, for the
`Vector3f` images `target_p` and `_current_point` of the target and of the vehicle
position. -/
def scaledDifference (norm : Vec3 → ℚ) (target_p _current_point : Vec3) : Vec3 :=
  (target_p.sub _current_point).divScalar (norm (target_p.sub _current_point))

/-- The unit vector of `calculateVelocity`: the scaled difference divided by its norm. -/
def pursuitDirection (norm : Vec3 → ℚ) (target_p _current_point : Vec3) : Vec3 :=
  (scaledDifference norm target_p _current_point).divScalar
    (norm (scaledDifference norm target_p _current_point))

/-- The command of `calculateVelocity` in path mode for the `Vector3f` images `target_p`
and `_current_point` of the target and of the vehicle position: the unit vector times the
cruising speed. -/
def pursuitCommand (norm : Vec3 → ℚ) (f : Follower) (target_p _current_point : Vec3) :
    Twist :=
  { frame_id := f.target_path_.frame_id,
    linear :=
      ⟨(pursuitDirection norm target_p _current_point).x * f.cruising_speed_,
        (pursuitDirection norm target_p _current_point).y * f.cruising_speed_,
        (pursuitDirection norm target_p _current_point).z * f.cruising_speed_⟩ }

/-- The command of `calculateVelocity` in trajectory mode for the `Vector3f` images
`target_p` and `_current_point` of the target and of the vehicle position and the fraction
`t` stored at the anchor: the unit vector times `max_vel_` times the fraction. -/
def trajectoryCommand (norm : Vec3 → ℚ) (f : Follower) (target_p _current_point : Vec3)
    (t : ℚ) : Twist :=
  { frame_id := f.target_path_.frame_id,
    linear :=
      ⟨(pursuitDirection norm target_p _current_point).x * f.max_vel_ * t,
        (pursuitDirection norm target_p _current_point).y * f.max_vel_ * t,
        (pursuitDirection norm target_p _current_point).z * f.max_vel_ * t⟩ }

/-- The cruising speed that `preparePath` stores for the input `c` under the limit `s`. -/
def storedCruisingSpeed (s c : ℚ) : ℚ :=
  if c ≤ 0 then 0.1 else if c > s then s else c

/-- A call of the tick cycle: a pose update or a tick. -/
inductive Call where
  | updatePose (pose : Pose)
  | getVelocity

/-- The follower after a sequence of calls of the tick cycle, none of which ends in a
fault. -/
def runCalls (norm : Vec3 → ℚ) : List Call → Follower → Except Fault Follower
  | [], f => .ok f
  | .updatePose pose :: rest, f => runCalls norm rest (updatePose f pose)
  | .getVelocity :: rest, f => do
    let r ← getVelocity norm f
    runCalls norm rest r.1

/-- The look-ahead index that a tracking tick resolves: the anchor is searched from the
stored anchor of the mode, in trajectory mode the look-ahead distance is recomputed at
the anchor, and the path is walked forward from the anchor. -/
def lookAheadOfTick (norm : Vec3 → ℚ) (f : Follower) : Except Fault Nat :=
  if f.follower_mode_ = 1 then do
    let anchor ← calculatePosOnPath norm f f.ual_pose_.position (f.look_ahead_ * 1.5)
      f.prev_normal_vel_on_path_ f.target_path_
    let look_ahead ← changeLookAhead f anchor
    calculatePosLookAhead norm { f with look_ahead_ := look_ahead } anchor
  else do
    let anchor ← calculatePosOnPath norm f f.ual_pose_.position (f.look_ahead_ * 1.5)
      f.prev_normal_pos_on_path_ f.target_path_
    calculatePosLookAhead norm f anchor

/-- The pose read where an index is outside the path in the closed forms below. -/
def Pose.origin : Pose := ⟨⟨0, 0, 0⟩, ⟨0, 0, 0, 1⟩⟩

/-- The length of the segment from path point `k` to path point `k + 1`. -/
def segmentLength (norm : Vec3 → ℚ) (poses : List Pose) (k : Nat) : ℚ :=
  norm ((poses.getD (k + 1) Pose.origin).position.sub (poses.getD k Pose.origin).position)

/-- The path distance from point `i` to point `j`: the sum of the lengths of the segments
between them. -/
def pathDistance (norm : Vec3 → ℚ) (poses : List Pose) (i j : Nat) : ℚ :=
  Finset.sum (Finset.Ico i j) (fun k => segmentLength norm poses k)

/-- The distance from the point `c` to path point `i`. -/
def pointDistance (norm : Vec3 → ℚ) (poses : List Pose) (c : Vec3) (i : Nat) : ℚ :=
  norm ((poses.getD i Pose.origin).position.sub c)

/-- The value at `q` of the line through the points `k` and `k + 1` of `(xs, ys)`: the
piecewise-linear interpolant of `(xs, ys)` at a `q` between `xs[k]` and `xs[k + 1]`. -/
def segmentValue (xs ys : List ℚ) (k : Nat) (q : ℚ) : ℚ :=
  ys.getD k 0
    + (q - xs.getD k 0) * (ys.getD (k + 1) 0 - ys.getD k 0) / (xs.getD (k + 1) 0 - xs.getD k 0)

/-- The entries of a list are strictly increasing. -/
def StrictlyIncreasing (xs : List ℚ) : Prop := xs.Pairwise (fun a b => a < b)

instance decidableStrictlyIncreasing (xs : List ℚ) : Decidable (StrictlyIncreasing xs) :=
  inferInstanceAs (Decidable (xs.Pairwise (fun a b => a < b)))

/-- The piecewise-linear interpolant of a list over its index domain at the position `p`:
the line through the entries at `⌊p⌋` and `⌊p⌋ + 1`. -/
def indexInterpolant (ys : List ℚ) (p : ℚ) : ℚ :=
  ys.getD ⌊p⌋₊ 0 + (p - (⌊p⌋₊ : ℚ)) * (ys.getD (⌊p⌋₊ + 1) 0 - ys.getD ⌊p⌋₊ 0)

/-- The anchor index of the active mode: `prev_normal_vel_on_path_` in trajectory mode
and `prev_normal_pos_on_path_` otherwise. -/
def Follower.anchor (f : Follower) : Nat :=
  if f.follower_mode_ = 1 then f.prev_normal_vel_on_path_ else f.prev_normal_pos_on_path_

/-- The anchors stored by consecutive ticks, each after the update to the next pose of
the list. -/
def tickAnchors (norm : Vec3 → ℚ) : List Pose → Follower → Except Fault (List Nat)
  | [], _ => .ok []
  | pose :: rest, f => do
    let r ← getVelocity norm (updatePose f pose)
    let anchors ← tickAnchors norm rest r.1
    pure (r.1.anchor :: anchors)

/-- The series of a generator whose vector was empty, for `S` samples and the fractions
`_times`: blocks of `S / (T + 1)` copies of each fraction, then copies of the last
fraction up to `S` elements. -/
def timeSeries (_times : List ℚ) (S : Nat) : List ℚ :=
  timeBlocks _times (S / (_times.length + 1))
    ++ List.replicate (S - _times.length * (S / (_times.length + 1)))
        (_times.getLast?.getD 0)

/-! ## Inputs on which the model is evaluated -/

/-- The index of the piece of the polygon through `x` that holds the parameter `t`. -/
def chordIndex (x : List ℚ) (t : ℚ) : Nat := min ⌊t⌋.toNat (x.length - 2)

/-- A stand-in for the spline library where the model is run on an input: the polygon
through the joints and the slope of its pieces. -/
def chordSpline : EclSpline where
  Natural := fun _ x t =>
    x.getD (chordIndex x t) 0
      + (t - (chordIndex x t : ℚ)) * (x.getD (chordIndex x t + 1) 0 - x.getD (chordIndex x t) 0)
  derivative := fun _ x t => x.getD (chordIndex x t + 1) 0 - x.getD (chordIndex x t) 0

/-- A waypoint at `(x, y, z)` with the identity orientation. -/
def waypoint (x y z : ℚ) : Pose := ⟨⟨x, y, z⟩, ⟨0, 0, 0, 1⟩⟩

/-- A generator with nothing stored and the limits `2`, `3` and `1`. -/
def sampleGenerator : Generator :=
  { mode_ := .mode_interp1_, interp1_final_size_ := 0, size_vec_percentage_ := 0,
    smallest_max_vel_ := 0, max_velocity_ := 0, out_path_ := Path.empty,
    generated_path_vel_percentage_ := Path.empty, generated_times_ := [],
    vxy := 2, vz_up := 3, vz_dn := 1, debug_ := false }

/-- The positions of the path a call of the generator returns, when it returns. -/
def samplePositions (r : Except Fault (Generator × Path)) : Option (List Vec3) :=
  match r with
  | .ok (_, p) => some (p.poses.map (fun q => q.position))
  | .error _ => none

/-- The scenario path from `(0, 0, 0)` to `(10, 0, 0)`. -/
def scenarioPath : Path := ⟨"map", [waypoint 0 0 0, waypoint 10 0 0]⟩

/-- The positions of the samples of the scenario path in linear mode: `x` advances by
`1 / 25` up to sample `250` and stays at `10` from there on. -/
def scenarioSamples : List Vec3 :=
  (List.range 500).map (fun (k : ℕ) => (⟨min ((k : ℚ) / 25) 10, 0, 0⟩ : Vec3))

/-- No parameter service: every call fails and the stored limits are used. -/
def noService : String → Option ℚ := fun _ => none

/-- The generator on which the fit of the two waypoints `(0, 0, 0)` and `(2, 0, 0)` with
one time interval is run. -/
def fitGenerator : Generator := { sampleGenerator with size_vec_percentage_ := 1 }

/-- The result of that fit, when it is accepted. -/
def fitResult : Generator × Path :=
  match createTrajectory euclid chordSpline noService 5 fitGenerator [0, 2, 2] [0, 0, 0]
      [0, 0, 0] 3 [1] with
  | .ok r => r
  | .error _ => (fitGenerator, Path.empty)

/-- A generator that holds a path generated earlier, in the frame `odom`. -/
def storedGenerator : Generator :=
  { sampleGenerator with out_path_ := ⟨"odom", [waypoint 1 1 1, waypoint 2 1 1]⟩ }

/-- A follower in path mode that holds no path, with the limits `2`, `3`, `1`. -/
def sampleFollower : Follower :=
  { follower_mode_ := 0, target_path_ := Path.empty, target_vel_path_ := Path.empty,
    generated_times_ := [], max_vel_ := 0, cruising_speed_ := 1, look_ahead_ := 5 / 2,
    prev_normal_pos_on_path_ := 0, prev_normal_vel_on_path_ := 0, flag_run_ := false,
    out_velocity_ := ⟨"", ⟨0, 0, 0⟩⟩, ual_pose_ := waypoint 0 0 0,
    vxy_ := 2, vz_up_ := 3, vz_dn_ := 1, smallest_max_velocity_ := 1, debug_ := false }

/-- Two waypoints `2` apart. -/
def shortPath : Path := ⟨"map", [waypoint 0 0 0, waypoint 2 0 0]⟩

/-- The number of samples of the path a preparation call stores, when it returns. -/
def storedCount (r : Follower × Except Fault Path) : Option Nat :=
  match r.2 with
  | .ok _ => some r.1.target_path_.poses.length
  | .error _ => none

/-- A follower in path mode that tracks five waypoints one unit apart on the `x` axis,
with the vehicle at the first waypoint. -/
def trackingFollower : Follower :=
  { follower_mode_ := 0,
    target_path_ := ⟨"map", [waypoint 0 0 0, waypoint 1 0 0, waypoint 2 0 0, waypoint 3 0 0,
      waypoint 4 0 0]⟩,
    target_vel_path_ := Path.empty,
    generated_times_ := [], max_vel_ := 0, cruising_speed_ := 1, look_ahead_ := 5 / 2,
    prev_normal_pos_on_path_ := 0, prev_normal_vel_on_path_ := 0, flag_run_ := false,
    out_velocity_ := ⟨"", ⟨0, 0, 0⟩⟩, ual_pose_ := waypoint 0 0 0,
    vxy_ := 2, vz_up_ := 3, vz_dn_ := 1, smallest_max_velocity_ := 1, debug_ := false }

/-- Velocity ranges with the horizontal lower limit at `0`, the range that PX4 documents
for `MPC_XY_VEL_MAX`. -/
def wideRanges : VelocityRanges := ⟨(0, 20), (1 / 2, 8), (1 / 2, 4)⟩

/-- Velocity ranges whose lower limits are all `1/2`. -/
def tightRanges : VelocityRanges := ⟨(1 / 2, 20), (1 / 2, 8), (1 / 2, 4)⟩

/-- A follower whose horizontal limit is `1/20`. -/
def slowFollower : Follower := { sampleFollower with vxy_ := 1 / 20 }

/-- A follower that has started and whose anchor is at index `3`. -/
def runningFollower : Follower :=
  { trackingFollower with flag_run_ := true, prev_normal_pos_on_path_ := 3,
                          prev_normal_vel_on_path_ := 3 }

/-- A follower that has not started, with the vehicle `5` away from the first waypoint. -/
def farFollower : Follower := { trackingFollower with ual_pose_ := waypoint 3 4 0 }

/-- The result of the tick of the tracking follower, when it returns. -/
def tickResult : Follower × Twist :=
  match getVelocity euclid trackingFollower with
  | .ok r => r
  | .error _ => (trackingFollower, trackingFollower.out_velocity_)

/-- The follower after the first tick of the tracking follower, a pose update and a
second tick. -/
def afterCalls : Follower :=
  match runCalls euclid [Call.updatePose (waypoint (1 / 2) 0 0), Call.getVelocity]
      tickResult.1 with
  | .ok f => f
  | .error _ => trackingFollower

/-- A follower in path mode at the first of five waypoints one unit apart, whose
look-ahead `3/2` resolves the look-ahead index `0`, the waypoint the vehicle is at. -/
def coincidingFollower : Follower := { trackingFollower with look_ahead_ := 3 / 2 }

/-- The same follower in trajectory mode, with the maximal velocity `3/2` and the
fraction `1` at every sample. -/
def coincidingTrajectoryFollower : Follower :=
  { trackingFollower with
    follower_mode_ := 1, look_ahead_ := 3 / 2, max_vel_ := 3 / 2,
    generated_times_ := [1, 1, 1, 1, 1] }

/-- A generator whose downward limit is `-1`, so that the smallest limit is negative,
prepared for one time interval. -/
def negativeGenerator : Generator :=
  { sampleGenerator with vz_dn := -1, size_vec_percentage_ := 1 }

/-- A follower on a path that runs out along the `x` axis and comes back next to its
start, with look-ahead `1`. -/
def loopFollower : Follower :=
  { trackingFollower with
    target_path_ := ⟨"map", [waypoint 0 0 0, waypoint 10 0 0, waypoint 20 0 0,
      waypoint 1 0 0]⟩,
    look_ahead_ := 1 }

/-- A follower on five waypoints one unit apart, with look-ahead `1`. -/
def nearFollower : Follower := { trackingFollower with look_ahead_ := 1 }

/-- A follower on five waypoints one unit apart, with look-ahead `10`. -/
def farSightedFollower : Follower := { trackingFollower with look_ahead_ := 10 }

/-- A stand-in for the spline library that reports the number of joints it is given: the
function fitted through `n` joints is constantly `n`. -/
def jointProbe : EclSpline where
  Natural := fun _ x _ => (x.length : ℚ)
  derivative := fun _ _ _ => 0

/-- The `x` coordinates of the path a call of the generator returns, when it returns. -/
def sampleXs (r : Except Fault (Generator × Path)) : Option (List ℚ) :=
  match r with
  | .ok (_, p) => some (p.poses.map (fun q => q.position.x))
  | .error _ => none

/-- A path of eight waypoints one unit apart on the `x` axis. -/
def unitPath : Path :=
  ⟨"map", [waypoint 0 0 0, waypoint 1 0 0, waypoint 2 0 0, waypoint 3 0 0, waypoint 4 0 0,
    waypoint 5 0 0, waypoint 6 0 0, waypoint 7 0 0]⟩

/-- A follower in path mode that has started, on eight waypoints one unit apart, with the
look-ahead `12/5`, the anchor at index `0` and the vehicle at `x = 5/2`. -/
def chaseFollower : Follower :=
  { trackingFollower with
    target_path_ := unitPath, look_ahead_ := 12 / 5, flag_run_ := true,
    ual_pose_ := waypoint (5 / 2) 0 0 }

/-- The result of a tick, or the follower as it is with its stored command when the tick
ends in a fault. -/
def tickOf (f : Follower) : Follower × Twist :=
  match getVelocity euclid f with
  | .ok r => r
  | .error _ => (f, f.out_velocity_)

/-- A follower in path mode that has started, on eight waypoints one unit apart, with the
look-ahead `3` and the stored anchor `6`. -/
def staleFollower : Follower :=
  { trackingFollower with
    target_path_ := unitPath, look_ahead_ := 3, flag_run_ := true,
    prev_normal_pos_on_path_ := 6 }

/-- A follower in trajectory mode that has started, on eight waypoints one unit apart,
with both anchors at `0`, the look-ahead `3`, the maximal velocity `1` and the fraction
`3` at the first and `6/5` at every other sample. -/
def shrinkingFollower : Follower :=
  { trackingFollower with
    follower_mode_ := 1, target_path_ := unitPath, look_ahead_ := 3, flag_run_ := true,
    max_vel_ := 1, generated_times_ := [3, 6 / 5, 6 / 5, 6 / 5, 6 / 5, 6 / 5, 6 / 5, 6 / 5] }

/-- Three waypoints one unit apart on the `x` axis. -/
def linePath : Path := ⟨"map", [waypoint 0 0 0, waypoint 1 0 0, waypoint 2 0 0]⟩

/-- A freshly constructed generator with the limits `2`, `3` and `1`. -/
def freshGenerator : Generator := Generator.construct sampleGenerator 2 3 1 false

/-- The result of `generateTrajectory` on a fresh generator for the three waypoints and
the fractions `1` and `1/2`, when it returns. -/
def lineTrajectory : Generator × Path :=
  match generateTrajectory euclid chordSpline noService 5 freshGenerator linePath
      [1, 1 / 2] with
  | .ok r => r
  | .error _ => (freshGenerator, Path.empty)

/-- The follower after `prepareTrajectory` with the two waypoints `2` apart and the
times `0` and `1`. -/
def preparedFollower : Follower :=
  (prepareTrajectory euclid chordSpline noService 5 sampleGenerator sampleFollower shortPath
    [0, 1]).1

/-- The follower after `prepareTrajectory` with the two waypoints `2` apart and the times
`0` and `8/3`, with the vehicle moved to `x = -1/2`. -/
def slowTrajectoryFollower : Follower :=
  updatePose (prepareTrajectory euclid chordSpline noService 5 sampleGenerator sampleFollower
    shortPath [0, 8 / 3]).1 (waypoint (-1 / 2) 0 0)

/-- Two waypoints at the same point. -/
def doubledPath : Path := ⟨"map", [waypoint 0 0 0, waypoint 0 0 0]⟩

/-- A tick at `x = 5/2`, the move of the vehicle to the last of the eight waypoints, and
five ticks there. -/
def chaseCalls : List Call :=
  [Call.getVelocity, Call.updatePose (waypoint 7 0 0), Call.getVelocity, Call.getVelocity,
    Call.getVelocity, Call.getVelocity, Call.getVelocity]

/-- The follower after these calls, when they return. -/
def chasedFollower : Follower :=
  match runCalls euclid chaseCalls chaseFollower with
  | .ok f => f
  | .error _ => chaseFollower

/-- A follower in path mode that has started, on three waypoints one unit apart, with the
anchor at index `0`, the vehicle at the first waypoint and the look-ahead `4/5`. -/
def sparseFollower : Follower :=
  { trackingFollower with target_path_ := linePath, look_ahead_ := 4 / 5, flag_run_ := true }

/-- A follower in path mode that tracks five waypoints one unit apart on the `x` axis,
with the vehicle `1/2` beside the first waypoint: the look-ahead waypoint `(1, 0, 0)` is
at a distance from the vehicle that is no rational number. -/
def besideFollower : Follower := { trackingFollower with ual_pose_ := waypoint 0 (1 / 2) 0 }

/-- A follower in path mode on three waypoints one unit apart from `(1, 0, 0)` on, with
the look-ahead `3/2`, which resolves the look-ahead index `0`, and the vehicle
`1/1000000000` beyond the first waypoint: the two points differ and have the same
coordinates in single precision. -/
def closeFollower : Follower :=
  { trackingFollower with
    target_path_ := ⟨"map", [waypoint 1 0 0, waypoint 2 0 0, waypoint 3 0 0]⟩,
    look_ahead_ := 3 / 2, ual_pose_ := waypoint (1 + 1 / 1000000000) 0 0 }

/-- The follower after `prepareTrajectory` with the two waypoints `2` apart and the times
`0` and `8/3`, with the vehicle moved to `(1/4, 1/2, 0)`: the look-ahead waypoint
`(0, 0, 0)` is at a distance from the vehicle that is no rational number. -/
def besideTrajectoryFollower : Follower :=
  updatePose (prepareTrajectory euclid chordSpline noService 5 sampleGenerator sampleFollower
    shortPath [0, 8 / 3]).1 (waypoint (1 / 4) (1 / 2) 0)

/-- The same follower in trajectory mode, with the maximal velocity `3/2` and the fraction
`1` at every sample. -/
def closeTrajectoryFollower : Follower :=
  { closeFollower with follower_mode_ := 1, max_vel_ := 3 / 2, generated_times_ := [1, 1, 1] }

/-- A follower in path mode at the first of five waypoints one unit apart, with the
anchor at index `0` and the negative look-ahead `-3`. -/
def backwardFollower : Follower := { trackingFollower with look_ahead_ := -3 }

/-! ## Lemmas -/

@[simp] theorem bind_ok_eq {α β : Type} (a : α) (k : α → Except Fault β) :
    (Except.ok a >>= k) = k a := rfl

@[simp] theorem bind_error_eq {α β : Type} (e : Fault) (k : α → Except Fault β) :
    ((Except.error e : Except Fault α) >>= k) = Except.error e := rfl

@[simp] theorem pure_eq_ok {α : Type} (a : α) : (pure a : Except Fault α) = Except.ok a := rfl

theorem rd_eq_ok {α : Type} (v : List α) (i : Nat) (h : i < v.length) :
    rd v i = .ok (v.get ⟨i, h⟩) := by
  simp [rd, List.getElem?_eq_getElem h]

theorem rdAt_eq_ok {α : Type} (v : List α) (i : Nat) (h : i < v.length) :
    rdAt v i = .ok (v.get ⟨i, h⟩) := by
  simp [rdAt, List.getElem?_eq_getElem h]

@[simp] theorem indexAxis_length (m : Nat) : (indexAxis m).length = m := by
  simp [indexAxis]

theorem indexAxis_getElem? (m i : Nat) (h : i < m) : (indexAxis m)[i]? = some (i : ℚ) := by
  simp [indexAxis, List.getElem?_range h]

theorem nearestScan_bound (v : ℚ) :
    ∀ (xs : List ℚ) (i : Nat) (dist : Option ℚ) (idx : Nat),
      nearestScan v xs i dist idx = idx ∨
        (i ≤ nearestScan v xs i dist idx ∧ nearestScan v xs i dist idx < i + xs.length) := by
  intro xs
  induction xs with
  | nil => intro i dist idx; left; rfl
  | cons xi rest ih =>
    intro i dist idx
    simp only [nearestScan]
    split
    · rcases ih (i + 1) (some |v - xi|) i with h | ⟨h1, h2⟩
      · right; rw [h]; simp
      · right; constructor
        · omega
        · simp only [List.length_cons]; omega
    · rcases ih (i + 1) dist idx with h | ⟨h1, h2⟩
      · left; exact h
      · right; constructor
        · omega
        · simp only [List.length_cons]; omega

theorem nearestNeighbourIndex_lt (xs : List ℚ) (v : ℚ) (h : xs ≠ []) :
    nearestNeighbourIndex xs v < xs.length := by
  unfold nearestNeighbourIndex
  cases xs with
  | nil => exact absurd rfl h
  | cons xi rest =>
    simp only [nearestScan, leDist, if_true, Nat.zero_add]
    rcases nearestScan_bound v rest 1 (some |v - xi|) 0 with h | ⟨_, h2⟩
    · rw [h]; simp
    · simp only [List.length_cons]; omega

theorem leDist_trans {a b : ℚ} {d : Option ℚ} (hab : a ≤ b) (h : leDist b d = true) :
    leDist a d = true := by
  cases d with
  | none => rfl
  | some d =>
    simp only [leDist, decide_eq_true_eq] at h ⊢
    exact le_trans hab h

theorem leDist_false_lt {a b : ℚ} {d : Option ℚ} (ha : leDist a d = true)
    (hb : leDist b d = false) : a < b := by
  cases d with
  | none => simp [leDist] at hb
  | some d =>
    simp only [leDist, decide_eq_true_eq, decide_eq_false_iff_not, not_le] at ha hb
    exact lt_of_le_of_lt ha hb

/-- The scan of `nearestNeighbourIndex` either keeps the incoming index, when no element
passes the comparison, or ends on the position of an element that passes it and is at
the least distance from the value. -/
theorem nearestScan_min (v : ℚ) :
    ∀ (xs : List ℚ) (i : Nat) (dist : Option ℚ) (idx : Nat),
      (nearestScan v xs i dist idx = idx ∧ ∀ x ∈ xs, leDist |v - x| dist = false) ∨
      (i ≤ nearestScan v xs i dist idx ∧
        ∃ m, xs[nearestScan v xs i dist idx - i]? = some m ∧ leDist |v - m| dist = true ∧
          ∀ x ∈ xs, |v - m| ≤ |v - x|) := by
  intro xs
  induction xs with
  | nil => intro i dist idx; left; exact ⟨rfl, by simp⟩
  | cons xi rest ih =>
    intro i dist idx
    simp only [nearestScan]
    by_cases hle : leDist |v - xi| dist = true
    · rw [if_pos hle]
      right
      rcases ih (i + 1) (some |v - xi|) i with ⟨h1, h2⟩ | ⟨h1, m, hm, hd, hmin⟩
      · refine ⟨by rw [h1], xi, by rw [h1]; simp, hle, ?_⟩
        intro x hx
        rcases List.mem_cons.mp hx with rfl | hx
        · exact le_refl _
        · have := h2 x hx
          simp only [leDist, decide_eq_false_iff_not, not_le] at this
          exact le_of_lt this
      · have hd' : |v - m| ≤ |v - xi| := by
          simpa only [leDist, decide_eq_true_eq] using hd
        refine ⟨by omega, m, ?_, leDist_trans hd' hle, ?_⟩
        · have : nearestScan v rest (i + 1) (some |v - xi|) i - i
              = (nearestScan v rest (i + 1) (some |v - xi|) i - (i + 1)) + 1 := by omega
          rw [this, List.getElem?_cons_succ]; exact hm
        · intro x hx
          rcases List.mem_cons.mp hx with rfl | hx
          · exact hd'
          · exact hmin x hx
    · have hle' : leDist |v - xi| dist = false := by simpa using hle
      rw [if_neg hle]
      rcases ih (i + 1) dist idx with ⟨h1, h2⟩ | ⟨h1, m, hm, hd, hmin⟩
      · left
        refine ⟨h1, ?_⟩
        intro x hx
        rcases List.mem_cons.mp hx with rfl | hx
        · exact hle'
        · exact h2 x hx
      · right
        refine ⟨by omega, m, ?_, hd, ?_⟩
        · have : nearestScan v rest (i + 1) dist idx - i
              = (nearestScan v rest (i + 1) dist idx - (i + 1)) + 1 := by omega
          rw [this, List.getElem?_cons_succ]; exact hm
        · intro x hx
          rcases List.mem_cons.mp hx with rfl | hx
          · exact le_of_lt (leDist_false_lt hd hle')
          · exact hmin x hx

/-- The element at the index returned by `nearestNeighbourIndex` is at the least distance
from the value. -/
theorem nearestNeighbourIndex_min (xs : List ℚ) (v : ℚ) (h : xs ≠ []) :
    ∃ m, xs[nearestNeighbourIndex xs v]? = some m ∧ ∀ x ∈ xs, |v - m| ≤ |v - x| := by
  unfold nearestNeighbourIndex
  rcases nearestScan_min v xs 0 none 0 with ⟨_, h2⟩ | ⟨_, m, hm, _, hmin⟩
  · cases xs with
    | nil => exact absurd rfl h
    | cons xi rest =>
      have := h2 xi (List.mem_cons_self _ _)
      simp [leDist] at this
  · exact ⟨m, by simpa using hm, hmin⟩

theorem rd_getD (v : List ℚ) (i : Nat) (h : i < v.length) : rd v i = .ok (v.getD i 0) := by
  simp [rd, List.getElem?_eq_getElem h, List.getD_eq_getElem?_getD]

theorem rd_indexAxis (m i : Nat) (h : i < m) : rd (indexAxis m) i = .ok (i : ℚ) := by
  simp [rd, indexAxis_getElem? m i h]

theorem diffAt_indexAxis (m lo : Nat) (h : lo + 1 < m) :
    diffAt (indexAxis m) (lo + 1) lo = .ok 1 := by
  simp [diffAt, rd_indexAxis m (lo + 1) h, rd_indexAxis m lo (by omega)]

theorem diffAt_getD (v : List ℚ) (lo : Nat) (h : lo + 1 < v.length) :
    diffAt v (lo + 1) lo = .ok (v.getD (lo + 1) 0 - v.getD lo 0) := by
  simp [diffAt, rd_getD v (lo + 1) h, rd_getD v lo (by omega)]

theorem segStart_lt (m idx : Nat) (xn : ℚ) (hm : 2 ≤ m) (hidx : idx < m) :
    segStart m idx xn + 1 < m := by
  unfold segStart
  split_ifs <;> omega

theorem indexAxis_ne_nil (m : Nat) (hm : 2 ≤ m) : indexAxis m ≠ [] := by
  intro h
  have := congrArg List.length h
  rw [indexAxis_length, List.length_nil] at this
  omega

theorem diffPrev_indexAxis (m idx : Nat) (h0 : 0 < idx) (h : idx < m) :
    diffPrev (indexAxis m) idx = .ok 1 := by
  obtain ⟨j, rfl⟩ : ∃ j, idx = j + 1 := ⟨idx - 1, by omega⟩
  simp [diffPrev, diffAt_indexAxis m j h]

theorem diffPrev_getD (v : List ℚ) (idx : Nat) (h0 : 0 < idx) (h : idx < v.length) :
    diffPrev v idx = .ok (v.getD (idx - 1 + 1) 0 - v.getD (idx - 1) 0) := by
  obtain ⟨j, rfl⟩ : ∃ j, idx = j + 1 := ⟨idx - 1, by omega⟩
  simp [diffPrev, diffAt_getD v j h]

/-- On the axis `0, ..., size - 1` every query of `linealInterp1` succeeds. -/
theorem interpPoint_indexAxis (ys : List ℚ) (xn : ℚ) (hm : 2 ≤ ys.length) :
    interpPoint (indexAxis ys.length) ys xn =
      .ok (lineValue ys (nearestNeighbourIndex (indexAxis ys.length) xn) xn) := by
  have hidx : nearestNeighbourIndex (indexAxis ys.length) xn < ys.length := by
    simpa using nearestNeighbourIndex_lt (indexAxis ys.length) xn
      (indexAxis_ne_nil _ hm)
  unfold interpPoint lineValue segStart
  simp only [indexAxis_length]
  generalize nearestNeighbourIndex (indexAxis ys.length) xn = idx at hidx ⊢
  rw [rd_indexAxis _ _ hidx, rd_getD _ _ hidx]
  simp only [bind_ok_eq]
  by_cases h1 : (idx : ℚ) > xn
  · by_cases h2 : idx > 0
    · simp only [if_pos h1, if_pos h2, diffPrev_indexAxis _ idx h2 hidx,
        diffPrev_getD ys idx h2 hidx, bind_ok_eq]
      simp
    · have h3 : idx + 1 < ys.length := by omega
      simp only [if_pos h1, if_neg h2, diffAt_indexAxis _ idx h3, diffAt_getD ys idx h3,
        bind_ok_eq]
      simp
  · by_cases h2 : idx < ys.length - 1
    · have h3 : idx + 1 < ys.length := by omega
      simp only [if_neg h1, if_pos h2, diffAt_indexAxis _ idx h3, diffAt_getD ys idx h3,
        bind_ok_eq]
      simp
    · have h3 : 0 < idx := by omega
      simp only [if_neg h1, if_neg h2, diffPrev_indexAxis _ idx h3 hidx,
        diffPrev_getD ys idx h3 hidx, bind_ok_eq]
      simp

theorem linealInterp1_indexAxis (ys : List ℚ) (hm : 2 ≤ ys.length) (q : List ℚ) :
    linealInterp1 (indexAxis ys.length) ys q = .ok (q.map (resampled ys)) := by
  induction q with
  | nil => rfl
  | cons xn rest ih =>
    simp only [linealInterp1, interpPoint_indexAxis ys xn hm, ih, bind_ok_eq, pure_eq_ok,
      List.map_cons, resampled]

theorem stepAxis_length (portion : ℚ) : ∀ (k : Nat) (p : ℚ), (stepAxis portion k p).length = k := by
  intro k
  induction k with
  | zero => intro p; rfl
  | succ k ih => intro p; simp [stepAxis, ih]

theorem indexAxis_succ (m : Nat) : indexAxis (m + 1) = indexAxis m ++ [(m : ℚ)] := by
  simp [indexAxis, List.range_succ]

theorem indexAxis_getLast? (m : Nat) : (indexAxis (m + 1)).getLast? = some (m : ℚ) := by
  rw [indexAxis_succ]; simp

theorem indexAxis_head? (m : Nat) : (indexAxis (m + 1)).head? = some 0 := by
  simp [indexAxis, List.range_succ_eq_map]

theorem queryAxis_length (size : Nat) (a : ℤ) :
    (queryAxis size a).length = (a - 1).toNat + 1 := by
  simp [queryAxis, stepAxis_length]

/-- A list of at least two values is resampled without fault. -/
theorem interpWaypointList_eq (ys : List ℚ) (a : ℤ) (hm : 2 ≤ ys.length) :
    interpWaypointList ys a = .ok ((queryAxis ys.length a).map (resampled ys)) := by
  obtain ⟨k, hk⟩ : ∃ k, ys.length = k + 1 := ⟨ys.length - 1, by omega⟩
  unfold interpWaypointList
  simp only []
  have h1 : (indexAxis ys.length).getLast? = some (k : ℚ) := by rw [hk]; exact indexAxis_getLast? k
  have h2 : (indexAxis ys.length).head? = some 0 := by rw [hk]; exact indexAxis_head? k
  rw [h1, h2]
  simp only []
  rw [linealInterp1_indexAxis ys hm]
  simp [queryAxis, hk]

theorem interpWaypointList_length (ys : List ℚ) (a : ℤ) (hm : 2 ≤ ys.length) :
    ∃ r, interpWaypointList ys a = .ok r ∧ r.length = (a - 1).toNat + 1 :=
  ⟨_, interpWaypointList_eq ys a hm, by simp [queryAxis_length]⟩

theorem foldl_invariant {σ β : Type} (P : σ → Prop) (f : σ → β → σ)
    (hf : ∀ s b, P s → P (f s b)) : ∀ (l : List β) (s : σ), P s → P (l.foldl f s) := by
  intro l
  induction l with
  | nil => intro s hs; exact hs
  | cons b l ih => intro s hs; exact ih (f s b) (hf s b hs)

theorem map_modify_of_fixed {α β : Type} (g : α → β) (f : α → α) (h : ∀ p, g (f p) = g p)
    (n : Nat) (l : List α) : (List.modify f n l).map g = l.map g := by
  apply List.ext_getElem?
  intro m
  rw [List.getElem?_map, List.getElem?_map, List.getElem?_modify]
  cases l[m]? with
  | none => rfl
  | some a =>
    simp only [Option.map_eq_map, Option.map_some']
    split
    · rw [h]
    · rfl

/-- The orientation loops of `generatePath` leave every position as it is. -/
theorem setOrientations_positions (list_orient : List Orientation) (n : Nat)
    (poses : List Pose) :
    (setOrientations list_orient n poses).map (fun p => p.position)
      = poses.map (fun p => p.position) := by
  unfold setOrientations
  apply foldl_invariant
    (fun (st : Nat × List Pose) => st.2.map (fun p => p.position)
      = poses.map (fun p => p.position))
  · intro s i hs
    apply foldl_invariant
      (fun (st : Nat × List Pose) => st.2.map (fun p => p.position)
        = poses.map (fun p => p.position))
    · intro s' _ hs'
      show (List.modify _ s'.1 s'.2).map (fun p => p.position) = _
      refine Eq.trans (map_modify_of_fixed (fun (p : Pose) => p.position) _ ?_ _ _) hs'
      intro p
      rfl
    · exact hs
  · rfl

theorem setOrientations_length (list_orient : List Orientation) (n : Nat)
    (poses : List Pose) : (setOrientations list_orient n poses).length = poses.length := by
  have := congrArg List.length (setOrientations_positions list_orient n poses)
  simpa using this

theorem constructPath_eq (xs ys zs : List ℚ) (hy : xs.length ≤ ys.length)
    (hz : xs.length ≤ zs.length) : constructPath xs ys zs = .ok ⟨"", posesOf xs ys zs⟩ := by
  simp [constructPath, posesOf, hy, hz]

theorem posesOf_map {α : Type} (q : List α) (f g h : α → ℚ) :
    posesOf (q.map f) (q.map g) (q.map h)
      = q.map (fun t => (⟨⟨f t, g t, h t⟩, ⟨0, 0, 0, 1⟩⟩ : Pose)) := by
  induction q with
  | nil => rfl
  | cons t q ih =>
    simp only [posesOf, List.map_cons, List.zip_cons_cons, List.zipWith_cons_cons] at ih ⊢
    rw [ih]

theorem interp1Poses_length (lx ly lz : List ℚ) (a : ℤ) :
    (interp1Poses lx ly lz a).length = (a - 1).toNat + 1 := by
  simp [interp1Poses, queryAxis_length]

/-- The linear densification of three coordinate lists of one length, at least 2, ends
without fault. -/
theorem createPathInterp1_eq (lx ly lz : List ℚ) (a : ℤ) (hm : 2 ≤ lx.length)
    (hy : ly.length = lx.length) (hz : lz.length = lx.length) :
    createPathInterp1 lx ly lz lx.length a = .ok ⟨"", interp1Poses lx ly lz a⟩ := by
  unfold createPathInterp1
  have h1 : ((lx.length : ℤ) > 1) := by omega
  rw [if_pos h1, interpWaypointList_eq lx a hm, interpWaypointList_eq ly a (by omega),
    interpWaypointList_eq lz a (by omega)]
  simp only [bind_ok_eq, hy, hz]
  rw [constructPath_eq _ _ _ (by simp) (by simp), posesOf_map]
  rfl

/-- The conversion of an integer is the integer when it is an `int`, and `INT_MIN`
otherwise. -/
theorem truncToInt_intCast_eq (d : ℤ) :
    truncToInt (d : ℚ) = if INT_MIN ≤ d ∧ d ≤ INT_MAX then d else INT_MIN := by
  unfold truncToInt
  split <;> simp

theorem truncToInt_intCast (d : ℤ) (hlo : INT_MIN ≤ d) (hhi : d ≤ INT_MAX) :
    truncToInt (d : ℚ) = d := by
  rw [truncToInt_intCast_eq, if_pos ⟨hlo, hhi⟩]

/-- Every converted value is an `int`. -/
theorem truncToInt_range (q : ℚ) : INT_MIN ≤ truncToInt q ∧ truncToInt q ≤ INT_MAX := by
  unfold truncToInt
  generalize (if 0 ≤ q then ⌊q⌋ else ⌈q⌉) = t
  simp only []
  by_cases h : INT_MIN ≤ t ∧ t ≤ INT_MAX
  · rw [if_pos h]; exact h
  · rw [if_neg h]; constructor <;> decide

/-- Dividing an `int` by `0.02` and converting back gives fifty times the `int` when that
is an `int`, and `INT_MIN` otherwise. -/
theorem truncToInt_div (d : ℤ) :
    truncToInt ((d : ℚ) / 0.02)
      = if INT_MIN ≤ 50 * d ∧ 50 * d ≤ INT_MAX then 50 * d else INT_MIN := by
  have h : (d : ℚ) / 0.02 = ((50 * d : ℤ) : ℚ) := by push_cast; norm_num; ring
  rw [h, truncToInt_intCast_eq]

/-- The `int` accumulator of the distance loops stays an `int`. -/
theorem accumDistance_range (norm : Vec3 → ℚ) :
    ∀ (pts : List Vec3) (t : ℤ), INT_MIN ≤ t ∧ t ≤ INT_MAX →
      INT_MIN ≤ accumDistance norm t pts ∧ accumDistance norm t pts ≤ INT_MAX
  | [], t, h => by simpa [accumDistance] using h
  | [_], t, h => by simpa [accumDistance] using h
  | p1 :: p2 :: rest, t, _ => by
    simp only [accumDistance]
    exact accumDistance_range norm (p2 :: rest) _ (truncToInt_range _)

theorem points_map (poses : List Pose) :
    points (poses.map (fun p => p.position.x)) (poses.map (fun p => p.position.y))
      (poses.map (fun p => p.position.z)) = poses.map (fun p => p.position) := by
  induction poses with
  | nil => rfl
  | cons p poses ih =>
    simp only [points, List.map_cons, List.zip_cons_cons, List.zipWith_cons_cons] at ih ⊢
    rw [ih]

/-- The points that the distance loop of `generatePath` reads from the padded lists are
the positions of the input waypoints. -/
theorem points_padded_take (poses : List Pose) (last : Pose) :
    (points (poses.map (fun p => p.position.x) ++ [last.position.x])
      (poses.map (fun p => p.position.y) ++ [last.position.y])
      (poses.map (fun p => p.position.z) ++ [last.position.z])).take poses.length
      = poses.map (fun p => p.position) := by
  have h : points (poses.map (fun p => p.position.x) ++ [last.position.x])
      (poses.map (fun p => p.position.y) ++ [last.position.y])
      (poses.map (fun p => p.position.z) ++ [last.position.z])
      = poses.map (fun p => p.position) ++ [last.position] := by
    rw [← points_map]
    unfold points
    rw [List.zip_append (by simp), List.zipWith_append _ _ _ _ _ (by simp)]
    rfl
  rw [h, List.take_left' (by simp)]

/-- In its linear mode `generatePath` ends without fault on every non-empty waypoint
list. -/
theorem generatePath_linear_eq (norm : Vec3 → ℚ) (ecl : EclSpline) (g : Generator)
    (_init_path : Path) (last : Pose) (hlast : _init_path.poses.getLast? = some last) :
    generatePath norm ecl g _init_path 0 =
      .ok (returnOutPath
        { g with
          mode_ := .mode_interp1_, interp1_final_size_ := linearCount norm _init_path,
          out_path_ :=
            ⟨"", setOrientations
              (_init_path.poses.map (fun p => p.orientation) ++ [last.orientation])
              _init_path.poses.length (linearPoses norm _init_path last)⟩ }
        _init_path) := by
  have hne : 1 ≤ _init_path.poses.length := by
    cases h : _init_path.poses with
    | nil => rw [h] at hlast; simp at hlast
    | cons a l => simp
  unfold generatePath
  rw [hlast]
  simp only [if_true, points_padded_take, pathManagement]
  have hlen : (_init_path.poses.map (fun p => p.position.x) ++ [last.position.x]).length
      = _init_path.poses.length + 1 := by simp
  rw [createPathInterp1_eq _ _ _ _ (by rw [hlen]; omega) (by simp) (by simp)]
  rfl

theorem posesOf_length (xs ys zs : List ℚ) (hy : ys.length = xs.length)
    (hz : zs.length = xs.length) : (posesOf xs ys zs).length = xs.length := by
  simp [posesOf, hy, hz]

theorem sampleSpline_length (f : ℚ → ℚ) (sp_pts : ℚ) (amount : ℤ) :
    (sampleSpline f sp_pts amount).length = amount.toNat := by
  simp [sampleSpline]

/-- The statement `std::vector<double> v(n)` followed by the rest of a body: the rest is
reached when `n` is not negative. -/
theorem vectorOfSize_bind {α : Type} (n : ℤ) (k : Except Fault α) :
    (vectorOfSize n >>= fun _ => k) = if n < 0 then .error .lengthError else k := by
  unfold vectorOfSize
  split <;> rfl

/-- With at least one joint requested, `createPathCubicSpline` ends without fault on three
coordinate lists of one length, at least 2, whose `int` distance is not negative and whose
sample count is an `int`, and returns as many samples as the joint intervals times the
`int` distance. -/
theorem createPathCubicSpline_length (norm : Vec3 → ℚ) (ecl : EclSpline) (g : Generator)
    (lx ly lz : List ℚ) (hm : 2 ≤ lx.length) (hy : ly.length = lx.length)
    (hz : lz.length = lx.length) (hj : 1 ≤ jointCount g.mode_ lx.length)
    (hD : 0 ≤ accumDistance norm 0 ((points lx ly lz).take lx.length))
    (hfit : (jointCount g.mode_ lx.length - 1)
      * accumDistance norm 0 ((points lx ly lz).take lx.length) ≤ INT_MAX) :
    ∃ p, createPathCubicSpline norm ecl g lx ly lz lx.length = .ok p ∧
      p.poses.length
        = ((jointCount g.mode_ lx.length - 1)
            * accumDistance norm 0 ((points lx ly lz).take lx.length)).toNat := by
  unfold createPathCubicSpline
  have h1 : ((lx.length : ℤ) > 1) := by omega
  rw [if_pos h1]
  simp only [Int.toNat_ofNat]
  generalize jointCount g.mode_ lx.length = nj at hj hfit
  generalize accumDistance norm 0 ((points lx ly lz).take lx.length) = D at hD hfit
  rw [interpWaypointList_eq lx nj hm, interpWaypointList_eq ly nj (by omega),
    interpWaypointList_eq lz nj (by omega)]
  simp only [bind_ok_eq, List.length_map, queryAxis_length, hy, hz, lt_irrefl, or_self,
    if_false]
  have hcast : (((nj - 1).toNat + 1 : ℕ) : ℚ) - 1 = ((nj - 1 : ℤ) : ℚ) := by
    have : ((nj - 1).toNat : ℤ) = nj - 1 := Int.toNat_of_nonneg (by omega)
    push_cast
    have h2 : (((nj - 1).toNat : ℤ) : ℚ) = ((nj - 1 : ℤ) : ℚ) := by rw [this]
    push_cast at h2
    rw [h2]; ring
  have hnn : 0 ≤ (nj - 1) * D := mul_nonneg (by omega) hD
  rw [hcast, ← Int.cast_mul,
    truncToInt_intCast _ (le_trans (by decide : INT_MIN ≤ 0) hnn) hfit]
  have hv : vectorOfSize ((nj - 1) * D) = .ok () := by
    unfold vectorOfSize
    rw [if_neg (not_lt.mpr hnn)]
  simp only [hv, bind_ok_eq]
  rw [constructPath_eq _ _ _ (by simp [sampleSpline_length]) (by simp [sampleSpline_length])]
  refine ⟨_, rfl, ?_⟩
  rw [posesOf_length _ _ _ (by simp [sampleSpline_length]) (by simp [sampleSpline_length]),
    sampleSpline_length]

/-- With at least one joint requested, `createPathCubicSpline` throws on three coordinate
lists of one length, at least 2, whose `int` distance is negative or whose sample count is
no `int`: the vectors of the samples are constructed with a negative size. -/
theorem createPathCubicSpline_throws (norm : Vec3 → ℚ) (ecl : EclSpline) (g : Generator)
    (lx ly lz : List ℚ) (hm : 2 ≤ lx.length) (hy : ly.length = lx.length)
    (hz : lz.length = lx.length) (hj : 2 ≤ jointCount g.mode_ lx.length)
    (hbad : accumDistance norm 0 ((points lx ly lz).take lx.length) < 0
      ∨ INT_MAX < (jointCount g.mode_ lx.length - 1)
          * accumDistance norm 0 ((points lx ly lz).take lx.length)) :
    createPathCubicSpline norm ecl g lx ly lz lx.length = .error .lengthError := by
  unfold createPathCubicSpline
  have h1 : ((lx.length : ℤ) > 1) := by omega
  rw [if_pos h1]
  simp only [Int.toNat_ofNat]
  generalize jointCount g.mode_ lx.length = nj at hj hbad
  generalize accumDistance norm 0 ((points lx ly lz).take lx.length) = D at hbad
  rw [interpWaypointList_eq lx nj hm, interpWaypointList_eq ly nj (by omega),
    interpWaypointList_eq lz nj (by omega)]
  simp only [bind_ok_eq, List.length_map, queryAxis_length, hy, hz, lt_irrefl, or_self,
    if_false]
  have hcast : (((nj - 1).toNat + 1 : ℕ) : ℚ) - 1 = ((nj - 1 : ℤ) : ℚ) := by
    have : ((nj - 1).toNat : ℤ) = nj - 1 := Int.toNat_of_nonneg (by omega)
    push_cast
    have h2 : (((nj - 1).toNat : ℤ) : ℚ) = ((nj - 1 : ℤ) : ℚ) := by rw [this]
    push_cast at h2
    rw [h2]; ring
  have hneg : truncToInt (((nj - 1) * D : ℤ) : ℚ) < 0 := by
    rw [truncToInt_intCast_eq]
    split
    · rename_i hr
      rcases hbad with hb | hb
      · exact mul_neg_of_pos_of_neg (by omega) hb
      · exact absurd hr.2 (not_le.mpr hb)
    · decide
  rw [hcast, ← Int.cast_mul]
  have hv : vectorOfSize (truncToInt (((nj - 1) * D : ℤ) : ℚ)) = .error .lengthError := by
    unfold vectorOfSize
    rw [if_pos hneg]
  simp only [hv]
  rfl

theorem mem_indexAxis (m i : Nat) (h : i < m) : (i : ℚ) ∈ indexAxis m :=
  List.getElem?_mem (indexAxis_getElem? m i h)

/-- The index nearest to a query on the axis `0, ..., m - 1` is at the least distance
from the query among the indices of the axis. -/
theorem nearest_indexAxis (m : Nat) (xn : ℚ) (hm : 2 ≤ m) :
    nearestNeighbourIndex (indexAxis m) xn < m ∧
      ∀ i, i < m → |xn - (nearestNeighbourIndex (indexAxis m) xn : ℚ)| ≤ |xn - (i : ℚ)| := by
  have hlt : nearestNeighbourIndex (indexAxis m) xn < m := by
    simpa using nearestNeighbourIndex_lt (indexAxis m) xn (indexAxis_ne_nil m hm)
  refine ⟨hlt, ?_⟩
  obtain ⟨v, hv, hmin⟩ := nearestNeighbourIndex_min (indexAxis m) xn (indexAxis_ne_nil m hm)
  rw [indexAxis_getElem? m _ hlt] at hv
  cases hv
  intro i hi
  exact hmin _ (mem_indexAxis m i hi)

/-- The position `0` of the index domain is resampled to the first value of the list. -/
theorem resampled_zero (ys : List ℚ) (hm : 2 ≤ ys.length) : resampled ys 0 = ys.getD 0 0 := by
  obtain ⟨_, hmin⟩ := nearest_indexAxis ys.length 0 hm
  have h0 := hmin 0 (by omega)
  have hidx : nearestNeighbourIndex (indexAxis ys.length) 0 = 0 := by
    have : |(0 : ℚ) - (nearestNeighbourIndex (indexAxis ys.length) 0 : ℚ)| ≤ 0 := by
      simpa using h0
    have h1 : (nearestNeighbourIndex (indexAxis ys.length) 0 : ℚ) = 0 := by
      have := abs_nonpos_iff.mp this
      linarith
    exact_mod_cast h1
  unfold resampled lineValue
  rw [hidx]
  simp

/-- A position of the index domain in the last interval is resampled to the common
value of the last two entries of the list. -/
theorem resampled_tail (ys : List ℚ) (k : Nat) (c xn : ℚ) (hlen : ys.length = k + 2)
    (h1 : ys.getD k 0 = c) (h2 : ys.getD (k + 1) 0 = c) (hlo : (k : ℚ) ≤ xn)
    (hhi : xn < (k : ℚ) + 1) : resampled ys xn = c := by
  obtain ⟨hlt, hmin⟩ := nearest_indexAxis ys.length xn (by omega)
  have hk := hmin k (by omega)
  unfold resampled lineValue segStart
  generalize nearestNeighbourIndex (indexAxis ys.length) xn = idx at hlt hk ⊢
  have hk' : |xn - (idx : ℚ)| < 1 := by
    refine lt_of_le_of_lt hk ?_
    rw [abs_of_nonneg (by linarith)]
    linarith
  have hge : k ≤ idx := by
    have : (k : ℚ) - 1 < (idx : ℚ) := by
      have := (abs_sub_lt_iff.mp hk').1
      linarith
    have : ((k : ℤ) : ℚ) - 1 < ((idx : ℤ) : ℚ) := by push_cast; exact this
    have : (k : ℤ) - 1 < (idx : ℤ) := by exact_mod_cast this
    omega
  have hcase : idx = k ∨ idx = k + 1 := by omega
  rcases hcase with rfl | rfl
  · have hn : ¬ ((idx : ℚ) > xn) := not_lt.mpr hlo
    have hi : idx < ys.length - 1 := by omega
    simp only [if_neg hn, if_pos hi, h1, h2]
    ring
  · have hp : (((k + 1 : ℕ) : ℚ) > xn) := by push_cast; exact hhi
    have hi : k + 1 > 0 := by omega
    simp only [if_pos hp, if_pos hi, Nat.add_sub_cancel, h1, h2]
    ring

theorem stepAxis_getLast (portion : ℚ) :
    ∀ (k : Nat) (p : ℚ), (p :: stepAxis portion k p).getLast? = some (p + (k : ℚ) * portion) := by
  intro k
  induction k with
  | zero => intro p; simp [stepAxis]
  | succ k ih =>
    intro p
    rw [stepAxis, List.getLast?_cons_cons, ih]
    congr 1
    push_cast
    ring

theorem queryAxis_head (size : Nat) (a : ℤ) : (queryAxis size a).head? = some 0 := rfl

theorem queryAxis_getLast (size : Nat) (a : ℤ) :
    (queryAxis size a).getLast?
      = some (((a - 1).toNat : ℚ) * (((size - 1 : ℕ) : ℚ) / (a : ℚ))) := by
  unfold queryAxis
  rw [stepAxis_getLast]
  simp

theorem sqrtIter_eq (n : Nat) :
    ∀ (fuel guess : Nat), guess ≤ fuel → sqrtIter n fuel guess = Nat.sqrt.iter n guess := by
  intro fuel
  induction fuel with
  | zero =>
    intro guess h
    have h0 : guess = 0 := by omega
    subst h0
    rw [sqrtIter, Nat.sqrt.iter]
    simp
  | succ fuel ih =>
    intro guess h
    rw [sqrtIter, Nat.sqrt.iter]
    by_cases hlt : (guess + n / guess) / 2 < guess
    · rw [if_pos hlt, dif_pos hlt]
      exact ih _ (by omega)
    · rw [if_neg hlt, dif_neg hlt]

/-- The integer square root of the model is `Nat.sqrt`. -/
theorem isqrt_eq (n : Nat) : isqrt n = Nat.sqrt n := by
  unfold isqrt Nat.sqrt
  split
  · rfl
  · exact sqrtIter_eq n n (n / 2) (Nat.div_le_self n 2)

theorem euclid_nonneg (v : Vec3) : 0 ≤ euclid v := by
  unfold euclid qsqrt
  exact div_nonneg (Nat.cast_nonneg _) (Nat.cast_nonneg _)

theorem points_padded (poses : List Pose) (last : Pose) :
    points (poses.map (fun p => p.position.x) ++ [last.position.x])
      (poses.map (fun p => p.position.y) ++ [last.position.y])
      (poses.map (fun p => p.position.z) ++ [last.position.z])
      = poses.map (fun p => p.position) ++ [last.position] := by
  rw [← points_map]
  unfold points
  rw [List.zip_append (by simp), List.zipWith_append _ _ _ _ _ (by simp)]
  rfl

theorem paddedDistance_eq (norm : Vec3 → ℚ) (_init_path : Path) (last : Pose)
    (hlast : _init_path.poses.getLast? = some last) :
    paddedDistance norm _init_path
      = accumDistance norm 0
          (_init_path.poses.map (fun p => p.position) ++ [last.position]) := by
  unfold paddedDistance
  rw [hlast]
  rfl

theorem points_padded_all (poses : List Pose) (last : Pose) :
    (points (poses.map (fun p => p.position.x) ++ [last.position.x])
      (poses.map (fun p => p.position.y) ++ [last.position.y])
      (poses.map (fun p => p.position.z) ++ [last.position.z])).take
        (poses.map (fun p => p.position.x) ++ [last.position.x]).length
      = poses.map (fun p => p.position) ++ [last.position] := by
  rw [points_padded]
  have h : (poses.map (fun p => p.position.x) ++ [last.position.x]).length
      = (poses.map (fun p => p.position) ++ [last.position]).length := by simp
  rw [h, List.take_length]

/-- In the two spline modes `generatePath` ends without fault on at least two waypoints
whose sample vectors can be built, and returns as many samples as the joint intervals
times the `int` distance of the padded list. -/
theorem generatePath_spline_length (norm : Vec3 → ℚ) (ecl : EclSpline) (g : Generator)
    (_init_path : Path) (last : Pose) (h2 : 2 ≤ _init_path.poses.length)
    (hlast : _init_path.poses.getLast? = some last) (m : ℤ) (hm : m = 1 ∨ m = 2)
    (hfit : SplineFits norm _init_path m) :
    ∃ r, generatePath norm ecl g _init_path m = .ok r ∧
      r.2.poses.length
        = (((if m = 1 then 2 * (_init_path.poses.length : ℤ) else _init_path.poses.length) - 1)
            * accumDistance norm 0
                (_init_path.poses.map (fun p => p.position) ++ [last.position])).toNat := by
  have hlen : (_init_path.poses.map (fun p => p.position.x) ++ [last.position.x]).length
      = _init_path.poses.length + 1 := by simp
  obtain ⟨hD, hF⟩ := hfit hm
  rw [paddedDistance_eq norm _init_path last hlast] at hD hF
  unfold jointIntervals at hF
  have hpts := points_padded_all _init_path.poses last
  rcases hm with rfl | rfl
  · unfold generatePath
    rw [hlast]
    simp only [if_neg (by decide : ¬ ((1 : ℤ) = 0)), if_true, pathManagement]
    obtain ⟨p, hp, hpl⟩ := createPathCubicSpline_length norm ecl
      { g with mode_ := .mode_cubic_spline_loyal_ }
      (_init_path.poses.map (fun p => p.position.x) ++ [last.position.x])
      (_init_path.poses.map (fun p => p.position.y) ++ [last.position.y])
      (_init_path.poses.map (fun p => p.position.z) ++ [last.position.z])
      (by rw [hlen]; omega) (by simp) (by simp)
      (by simp only [jointCount, hlen]; push_cast; omega)
      (by rw [hpts]; exact hD)
      (by
        rw [hpts]
        simp only [jointCount, hlen]
        simp only [if_true] at hF
        push_cast
        have e : ((_init_path.poses.length : ℤ) + 1 - 1) * 2 - 1
            = 2 * (_init_path.poses.length : ℤ) - 1 := by ring
        rw [e]
        exact hF)
    rw [hp]
    refine ⟨_, rfl, ?_⟩
    show p.poses.length = _
    rw [hpl, hpts]
    simp only [jointCount, hlen]
    congr 2
    push_cast
    ring
  · unfold generatePath
    rw [hlast]
    simp only [if_neg (by decide : ¬ ((2 : ℤ) = 0)), if_neg (by decide : ¬ ((2 : ℤ) = 1)),
      if_true, pathManagement]
    obtain ⟨p, hp, hpl⟩ := createPathCubicSpline_length norm ecl
      { g with mode_ := .mode_cubic_spline_ }
      (_init_path.poses.map (fun p => p.position.x) ++ [last.position.x])
      (_init_path.poses.map (fun p => p.position.y) ++ [last.position.y])
      (_init_path.poses.map (fun p => p.position.z) ++ [last.position.z])
      (by rw [hlen]; omega) (by simp) (by simp)
      (by simp only [jointCount, hlen]; push_cast; omega)
      (by rw [hpts]; exact hD)
      (by
        rw [hpts]
        simp only [jointCount, hlen]
        simp only [if_neg (by decide : ¬ ((2 : ℤ) = 1))] at hF
        push_cast
        have e : ((_init_path.poses.length : ℤ) + 1 - 1) - 1
            = (_init_path.poses.length : ℤ) - 1 := by ring
        rw [e]
        exact hF)
    rw [hp]
    refine ⟨_, rfl, ?_⟩
    show p.poses.length = _
    rw [hpl, hpts]
    simp only [jointCount, hlen]
    congr 2
    push_cast
    simp

/-- In the two spline modes `generatePath` throws on at least two waypoints whose sample
vectors cannot be built: the `int` distance is negative or the sample count is no
`int`. -/
theorem generatePath_spline_throws (norm : Vec3 → ℚ) (ecl : EclSpline) (g : Generator)
    (_init_path : Path) (last : Pose) (h2 : 2 ≤ _init_path.poses.length)
    (hlast : _init_path.poses.getLast? = some last) (m : ℤ) (hm : m = 1 ∨ m = 2)
    (hfit : ¬ SplineFits norm _init_path m) :
    generatePath norm ecl g _init_path m = .error .lengthError := by
  have hlen : (_init_path.poses.map (fun p => p.position.x) ++ [last.position.x]).length
      = _init_path.poses.length + 1 := by simp
  have hbad : accumDistance norm 0
        (_init_path.poses.map (fun p => p.position) ++ [last.position]) < 0
      ∨ INT_MAX < ((if m = 1 then 2 * (_init_path.poses.length : ℤ)
            else _init_path.poses.length) - 1)
          * accumDistance norm 0
              (_init_path.poses.map (fun p => p.position) ++ [last.position]) := by
    by_contra hc
    simp only [not_or, not_lt] at hc
    apply hfit
    intro _
    rw [paddedDistance_eq norm _init_path last hlast]
    exact ⟨hc.1, hc.2⟩
  have hpts := points_padded_all _init_path.poses last
  rcases hm with rfl | rfl
  · unfold generatePath
    rw [hlast]
    simp only [if_neg (by decide : ¬ ((1 : ℤ) = 0)), if_true, pathManagement]
    rw [createPathCubicSpline_throws norm ecl
      { g with mode_ := .mode_cubic_spline_loyal_ }
      (_init_path.poses.map (fun p => p.position.x) ++ [last.position.x])
      (_init_path.poses.map (fun p => p.position.y) ++ [last.position.y])
      (_init_path.poses.map (fun p => p.position.z) ++ [last.position.z])
      (by rw [hlen]; omega) (by simp) (by simp)
      (by simp only [jointCount, hlen]; push_cast; omega)
      (by
        rw [hpts]
        simp only [jointCount, hlen]
        simp only [if_true] at hbad
        push_cast
        have e : ((_init_path.poses.length : ℤ) + 1 - 1) * 2 - 1
            = 2 * (_init_path.poses.length : ℤ) - 1 := by ring
        rw [e]
        exact hbad)]
    rfl
  · unfold generatePath
    rw [hlast]
    simp only [if_neg (by decide : ¬ ((2 : ℤ) = 0)), if_neg (by decide : ¬ ((2 : ℤ) = 1)),
      if_true, pathManagement]
    rw [createPathCubicSpline_throws norm ecl
      { g with mode_ := .mode_cubic_spline_ }
      (_init_path.poses.map (fun p => p.position.x) ++ [last.position.x])
      (_init_path.poses.map (fun p => p.position.y) ++ [last.position.y])
      (_init_path.poses.map (fun p => p.position.z) ++ [last.position.z])
      (by rw [hlen]; omega) (by simp) (by simp)
      (by simp only [jointCount, hlen]; push_cast; omega)
      (by
        rw [hpts]
        simp only [jointCount, hlen]
        simp only [if_neg (by decide : ¬ ((2 : ℤ) = 1))] at hbad
        push_cast
        have e : ((_init_path.poses.length : ℤ) + 1 - 1) - 1
            = (_init_path.poses.length : ℤ) - 1 := by ring
        rw [e]
        exact hbad)]
    rfl

theorem foldl_max_ge (l : List ℚ) : ∀ a : ℚ, a ≤ l.foldl max a ∧ ∀ d ∈ l, d ≤ l.foldl max a := by
  induction l with
  | nil => intro a; exact ⟨le_refl _, by simp⟩
  | cons b l ih =>
    intro a
    obtain ⟨h1, h2⟩ := ih (max a b)
    refine ⟨le_trans (le_max_left a b) h1, ?_⟩
    intro d hd
    rcases List.mem_cons.mp hd with rfl | hd
    · exact le_trans (le_max_right a d) h1
    · exact h2 d hd

theorem foldl_min_le (l : List ℚ) : ∀ a : ℚ, l.foldl min a ≤ a ∧ ∀ d ∈ l, l.foldl min a ≤ d := by
  induction l with
  | nil => intro a; exact ⟨le_refl _, by simp⟩
  | cons b l ih =>
    intro a
    obtain ⟨h1, h2⟩ := ih (min a b)
    refine ⟨le_trans h1 (min_le_left a b), ?_⟩
    intro d hd
    rcases List.mem_cons.mp hd with rfl | hd
    · exact le_trans h1 (min_le_right a d)
    · exact h2 d hd

theorem maxElement_ge (l : List ℚ) (M : ℚ) (h : maxElement l = some M) : ∀ d ∈ l, d ≤ M := by
  cases l with
  | nil => simp [maxElement] at h
  | cons a l =>
    simp only [maxElement, Option.some.injEq] at h
    subst h
    intro d hd
    rcases List.mem_cons.mp hd with rfl | hd
    · exact (foldl_max_ge l d).1
    · exact (foldl_max_ge l a).2 d hd

theorem minElement_le (l : List ℚ) (m : ℚ) (h : minElement l = some m) : ∀ d ∈ l, m ≤ d := by
  cases l with
  | nil => simp [minElement] at h
  | cons a l =>
    simp only [minElement, Option.some.injEq] at h
    subst h
    intro d hd
    rcases List.mem_cons.mp hd with rfl | hd
    · exact (foldl_min_le l d).1
    · exact (foldl_min_le l a).2 d hd

theorem checkVel_length (dx dy dz : ℚ → ℚ) (sp_pts : ℚ) (amount : ℤ) :
    (checkVel dx dy dz sp_pts amount).length = 3 * amount.toNat := by
  have : ∀ l : List ℕ, (l.flatMap (fun (i : ℕ) =>
      [dx ((i : ℚ) / sp_pts), dy ((i : ℚ) / sp_pts), dz ((i : ℚ) / sp_pts)])).length
        = 3 * l.length := by
    intro l
    induction l with
    | nil => rfl
    | cons i l ih => rw [List.flatMap_cons, List.length_append, ih]; simp; ring
  unfold checkVel
  rw [this, List.length_range]

/-- An accepted fit: the loop of `createTrajectory` returns a path only from an iteration
whose sampled derivatives all lie within the limit and whose sample count is a multiple
of `size_vec_percentage_`. -/
theorem fitSpline_accepted (ecl : EclSpline) (g : Generator) (lx ly lz : List ℚ) (D : ℤ) :
    ∀ (fuel : Nat) (nj : ℤ) (path : Path),
      fitSpline ecl g lx ly lz D fuel nj = .ok path →
      ∃ k ds, nj ≤ k ∧ trialDerivatives ecl lx ly lz D k = .ok ds ∧
        ds.length = 3 * path.poses.length ∧
        (∀ d ∈ ds, |d| ≤ g.smallest_max_vel_) ∧
        g.size_vec_percentage_ ≠ 0 ∧
        (path.poses.length : ℤ) % g.size_vec_percentage_ = 0 := by
  intro fuel
  induction fuel with
  | zero => intro nj path h; simp [fitSpline] at h
  | succ fuel ih =>
    intro nj path h
    rw [fitSpline] at h
    cases hX : interpWaypointList lx nj with
    | error e => rw [hX] at h; simp at h
    | ok X =>
      cases hY : interpWaypointList ly nj with
      | error e => rw [hX, hY] at h; simp at h
      | ok Y =>
        cases hZ : interpWaypointList lz nj with
        | error e => rw [hX, hY, hZ] at h; simp at h
        | ok Z =>
          rw [hX, hY, hZ] at h
          simp only [bind_ok_eq] at h
          split at h
          · simp at h
          · rw [vectorOfSize_bind] at h
            have hnn : ¬ truncToInt (((X.length : ℚ) - 1) * (D : ℚ)) < 0 := by
              intro hc
              rw [if_pos hc] at h
              simp at h
            rw [if_neg hnn] at h
            split at h
            · rename_i M m hM hm
              split at h
              · simp at h
              · rename_i hsz
                split at h
                · have hne : ¬ nj = INT_MAX := by
                    intro hc
                    rw [if_pos hc] at h
                    simp at h
                  rw [if_neg hne] at h
                  obtain ⟨k, ds, hk, rest⟩ := ih (nj + 1) path h
                  exact ⟨k, ds, by omega, rest⟩
                · rename_i hacc
                  simp only [not_or, not_lt, ne_eq, not_not] at hacc
                  obtain ⟨hmax, hmin, hrem⟩ := hacc
                  rw [constructPath_eq _ _ _ (by simp [sampleSpline_length])
                    (by simp [sampleSpline_length])] at h
                  simp only [Except.ok.injEq] at h
                  subst h
                  refine ⟨nj, checkVel (ecl.derivative (indexAxis X.length) X)
                    (ecl.derivative (indexAxis X.length) (List.take X.length Y))
                    (ecl.derivative (indexAxis X.length) (List.take X.length Z)) (D : ℚ)
                    (truncToInt (((X.length : ℚ) - 1) * (D : ℚ))), le_refl _, ?_, ?_, ?_,
                    hsz, ?_⟩
                  · simp only [trialDerivatives, hX, hY, hZ, bind_ok_eq, pure_eq_ok]
                  · rw [checkVel_length, posesOf_length _ _ _ (by simp [sampleSpline_length])
                      (by simp [sampleSpline_length]), sampleSpline_length]
                  · intro d hd
                    have h1 := maxElement_ge _ M hM d hd
                    have h2 := minElement_le _ m hm d hd
                    have h3 := (abs_le.mp hmin).1
                    exact abs_le.mpr ⟨by linarith, by linarith⟩
                  · rw [posesOf_length _ _ _ (by simp [sampleSpline_length])
                      (by simp [sampleSpline_length])]
                    exact hrem
            · simp at h

theorem padded_getD_last (f : Pose → ℚ) (poses : List Pose) (last : Pose)
    (hlast : poses.getLast? = some last) :
    (poses.map f ++ [f last]).getD (poses.length - 1) 0 = f last ∧
      (poses.map f ++ [f last]).getD poses.length 0 = f last := by
  have hne : 1 ≤ poses.length := by
    cases poses with
    | nil => simp at hlast
    | cons a l => simp
  constructor
  · rw [List.getD_append _ _ _ _ (by simp; omega), List.getD_eq_getElem?_getD,
      List.getElem?_map, ← List.getLast?_eq_getElem?, hlast]
    rfl
  · rw [List.getD_append_right _ _ _ _ (by simp)]
    simp

theorem padded_getD_first (f : Pose → ℚ) (first : Pose) (rest : List Pose) (last : Pose) :
    ((first :: rest).map f ++ [f last]).getD 0 0 = f first := by
  simp

/-- The result of the linear mode of `generatePath`: its positions are those of the
densified poses, it carries the frame id of the input and it is the path stored. -/
theorem generatePath_linear_result (norm : Vec3 → ℚ) (ecl : EclSpline) (g : Generator)
    (_init_path : Path) (last : Pose) (hlast : _init_path.poses.getLast? = some last) :
    ∃ r, generatePath norm ecl g _init_path 0 = .ok r ∧
      r.2.poses.map (fun p => p.position)
        = (linearPoses norm _init_path last).map (fun p => p.position) ∧
      r.2.frame_id = _init_path.frame_id ∧ r.1.out_path_ = r.2 :=
  ⟨_, generatePath_linear_eq norm ecl g _init_path last hlast,
    setOrientations_positions _ _ _, rfl, rfl⟩

theorem linearPoses_positions (norm : Vec3 → ℚ) (_init_path : Path) (last : Pose) :
    (linearPoses norm _init_path last).map (fun p => p.position)
      = (queryAxis (_init_path.poses.length + 1) (linearCount norm _init_path)).map
          (fun t => (⟨resampled
              (_init_path.poses.map (fun p => p.position.x) ++ [last.position.x]) t,
            resampled (_init_path.poses.map (fun p => p.position.y) ++ [last.position.y]) t,
            resampled (_init_path.poses.map (fun p => p.position.z) ++ [last.position.z]) t⟩
            : Vec3)) := by
  simp [linearPoses, interp1Poses, List.map_map, Function.comp_def]

theorem linearPoses_length (norm : Vec3 → ℚ) (_init_path : Path) (last : Pose) :
    (linearPoses norm _init_path last).length = (linearCount norm _init_path - 1).toNat + 1 := by
  simp [linearPoses, interp1Poses_length]

/-- The last position that `interpWaypointList` queries lies in the last interval of the
index domain when at least as many points are requested as the domain has intervals. -/
theorem queryAxis_last_bounds (k : Nat) (a : ℤ) (ha : (k : ℤ) + 1 ≤ a) :
    (k : ℚ) ≤ ((a - 1).toNat : ℚ) * (((k + 2 - 1 : ℕ) : ℚ) / (a : ℚ)) ∧
      ((a - 1).toNat : ℚ) * (((k + 2 - 1 : ℕ) : ℚ) / (a : ℚ)) < (k : ℚ) + 1 := by
  have hpos : (0 : ℚ) < (a : ℚ) := by
    have : (0 : ℤ) < a := by omega
    exact_mod_cast this
  have hcast : ((a - 1).toNat : ℚ) = (a : ℚ) - 1 := by
    have h : ((a - 1).toNat : ℤ) = a - 1 := Int.toNat_of_nonneg (by omega)
    have h' : (((a - 1).toNat : ℤ) : ℚ) = ((a - 1 : ℤ) : ℚ) := by rw [h]
    push_cast at h'
    exact h'
  have hk : ((k + 2 - 1 : ℕ) : ℚ) = (k : ℚ) + 1 := by
    have : k + 2 - 1 = k + 1 := by omega
    rw [this]; push_cast; ring
  have hka : (k : ℚ) + 1 ≤ (a : ℚ) := by exact_mod_cast ha
  have hk0 : (0 : ℚ) ≤ (k : ℚ) := Nat.cast_nonneg k
  rw [hcast, hk]
  have e : ((a : ℚ) - 1) * (((k : ℚ) + 1) / (a : ℚ)) = (k : ℚ) + 1 - ((k : ℚ) + 1) / (a : ℚ) := by
    field_simp
    ring
  rw [e]
  have h1 : ((k : ℚ) + 1) / (a : ℚ) ≤ 1 := (div_le_one hpos).mpr hka
  have h2 : 0 < ((k : ℚ) + 1) / (a : ℚ) := div_pos (by linarith) hpos
  constructor <;> linarith

/-- A schedule whose length does not fit leaves `generateTrajectory` with its tail only:
the frame id of the stored path is set and the stored path is returned. -/
theorem generateTrajectory_reject (norm : Vec3 → ℚ) (ecl : EclSpline)
    (srv : String → Option ℚ) (fuel : Nat) (g : Generator) (_init_path : Path)
    (_times : List ℚ) (hne : _init_path.poses ≠ [])
    (hmis : _init_path.poses.length - 1 ≠ _times.length) :
    generateTrajectory norm ecl srv fuel g _init_path _times
      = .ok (returnOutPath g _init_path) := by
  unfold generateTrajectory
  cases h : _init_path.poses.getLast? with
  | none => rw [List.getLast?_eq_none_iff] at h; exact absurd h hne
  | some last => simp only [if_neg hmis, pure_eq_ok]

/-- With fewer times than the loop reads, `timesToMaxVelPercentage` throws. -/
theorem timesLoop_short (norm : Vec3 → ℚ) (f : Follower) (poses : List Pose)
    (_times : List ℚ) :
    ∀ (k i : Nat), i + (k + 1) < poses.length → _times.length ≤ i + (k + 1) →
      timesLoop norm f poses _times (k + 1) i = .error .outOfRange := by
  intro k
  induction k with
  | zero =>
    intro i hp ht
    rw [timesLoop, rdAt_eq_ok poses i (by omega), rdAt_eq_ok poses (i + 1) (by omega)]
    simp only [bind_ok_eq]
    have : _times[i + 1]? = none := List.getElem?_eq_none (by omega)
    simp [rdAt, this]
  | succ k ih =>
    intro i hp ht
    rw [timesLoop, rdAt_eq_ok poses i (by omega), rdAt_eq_ok poses (i + 1) (by omega)]
    simp only [bind_ok_eq]
    by_cases h1 : i + 1 < _times.length
    · rw [rdAt_eq_ok _times (i + 1) h1, rdAt_eq_ok _times i (by omega)]
      simp only [bind_ok_eq]
      have hrest := ih (i + 1) (by omega) (by omega)
      rw [hrest]
      split <;> rfl
    · have : _times[i + 1]? = none := List.getElem?_eq_none (by omega)
      simp [rdAt, this]

/-- With a time for every waypoint the loop of `timesToMaxVelPercentage` does not throw:
it returns one value per iteration, unless a value is a NaN. -/
theorem timesLoop_long (norm : Vec3 → ℚ) (f : Follower) (poses : List Pose)
    (_times : List ℚ) :
    ∀ (k i : Nat), i + k < poses.length → i + k < _times.length →
      timesLoop norm f poses _times k i = .error .nonFinite ∨
        ∃ l, timesLoop norm f poses _times k i = .ok l ∧ l.length = k := by
  intro k
  induction k with
  | zero => intro i _ _; right; exact ⟨[], rfl, rfl⟩
  | succ k ih =>
    intro i hp ht
    rw [timesLoop, rdAt_eq_ok poses i (by omega), rdAt_eq_ok poses (i + 1) (by omega),
      rdAt_eq_ok _times (i + 1) (by omega), rdAt_eq_ok _times i (by omega)]
    simp only [bind_ok_eq]
    have hrest := ih (i + 1) (by omega) (by omega)
    have hmv : ∀ a b c e, maxVelPercentage a b c = .error e → e = .nonFinite := by
      intro a b c e h
      unfold maxVelPercentage at h
      split at h
      · split at h
        · cases h; rfl
        · cases h
      · cases h
    split
    · rename_i pct hpct
      rcases hrest with h | ⟨l, hl, hlen⟩
      · left; rw [h]; rfl
      · right; rw [hl]; exact ⟨_, rfl, by simp [hlen]⟩
    · rename_i e he
      have := hmv _ _ _ _ he
      subst this
      left
      rcases hrest with h | ⟨l, hl, _⟩
      · rw [h]
      · rw [hl]

theorem timesToMaxVelPercentage_short (norm : Vec3 → ℚ) (f : Follower) (_init_path : Path)
    (_times : List ℚ) (h2 : 2 ≤ _init_path.poses.length)
    (hshort : _times.length < _init_path.poses.length) :
    timesToMaxVelPercentage norm f _init_path _times = .error .outOfRange := by
  unfold timesToMaxVelPercentage
  rw [if_neg (by omega)]
  obtain ⟨k, hk⟩ : ∃ k, _init_path.poses.length - 1 = k + 1 :=
    ⟨_init_path.poses.length - 2, by omega⟩
  rw [hk]
  exact timesLoop_short norm f _ _ k 0 (by omega) (by omega)

theorem timesToMaxVelPercentage_long (norm : Vec3 → ℚ) (f : Follower) (_init_path : Path)
    (_times : List ℚ) (h2 : 2 ≤ _init_path.poses.length)
    (hlong : _init_path.poses.length ≤ _times.length) :
    timesToMaxVelPercentage norm f _init_path _times = .error .nonFinite ∨
      ∃ l, timesToMaxVelPercentage norm f _init_path _times = .ok l ∧
        l.length = _init_path.poses.length - 1 := by
  unfold timesToMaxVelPercentage
  rw [if_neg (by omega)]
  exact timesLoop_long norm f _ _ _ 0 (by omega) (by omega)

/-- A preparation call that ends in a fault leaves the follower in trajectory mode and
otherwise as it was. -/
theorem prepareTrajectory_throw (norm : Vec3 → ℚ) (ecl : EclSpline)
    (srv : String → Option ℚ) (fuel : Nat) (init : Generator) (f : Follower)
    (_init_path : Path) (_times : List ℚ) (e : Fault)
    (h : timesToMaxVelPercentage norm { f with follower_mode_ := 1 } _init_path _times
      = .error e) :
    prepareTrajectory norm ecl srv fuel init f _init_path _times
      = ({ f with follower_mode_ := 1 }, .error e) := by
  unfold prepareTrajectory
  simp only [h]

theorem calculateDistanceOnPath_congr (norm : Vec3 → ℚ) (f f' : Follower)
    (h : f'.target_path_ = f.target_path_) (p : Nat) (m : ℚ) :
    calculateDistanceOnPath norm f' p m = calculateDistanceOnPath norm f p m := by
  unfold calculateDistanceOnPath
  rw [h]

theorem calculatePosOnPath_congr (norm : Vec3 → ℚ) (f f' : Follower)
    (h : f'.target_path_ = f.target_path_) (c : Vec3) (r : ℚ) (p : Nat) (path : Path) :
    calculatePosOnPath norm f' c r p path = calculatePosOnPath norm f c r p path := by
  unfold calculatePosOnPath
  rw [calculateDistanceOnPath_congr norm f f' h, calculateDistanceOnPath_congr norm f f' h]

theorem calculatePosLookAhead_congr (norm : Vec3 → ℚ) (f f' : Follower)
    (h : f'.target_path_ = f.target_path_) (hl : f'.look_ahead_ = f.look_ahead_) (p : Nat) :
    calculatePosLookAhead norm f' p = calculatePosLookAhead norm f p := by
  unfold calculatePosLookAhead
  rw [h, hl]

theorem calculateVelocity_congr (norm : Vec3 → ℚ) (f f' : Follower)
    (h : f'.target_path_ = f.target_path_) (hm : f'.follower_mode_ = f.follower_mode_)
    (hc : f'.cruising_speed_ = f.cruising_speed_) (hv : f'.max_vel_ = f.max_vel_)
    (hg : f'.generated_times_ = f.generated_times_) (c : Vec3) (la p : Nat) :
    calculateVelocity norm f' c la p = calculateVelocity norm f c la p := by
  unfold calculateVelocity
  rw [h, hm, hc, hv, hg]

theorem prepareDebug_congr (norm : Vec3 → ℚ) (f f' : Follower)
    (h : f'.target_path_ = f.target_path_) (r : ℚ) (a b c : Nat) :
    prepareDebug norm f' r a b c = prepareDebug norm f r a b c := by
  unfold prepareDebug
  rw [h, calculateDistanceOnPath_congr norm f f' h, calculateDistanceOnPath_congr norm f f' h]

/-- The tick of a follower that is not in trajectory mode, on a path of at least two
points and with the latch set by the end of its test: the anchor, the look-ahead index
and the command are resolved in turn and stored. -/
theorem getVelocity_tracking (norm : Vec3 → ℚ) (f : Follower)
    (hsize : 2 ≤ f.target_path_.poses.length) (hmode : f.follower_mode_ ≠ 1)
    (htrack : f.flag_run_ = true ∨
      ∃ p0, f.target_path_.poses[0]? = some p0 ∧
        norm (f.ual_pose_.position.sub p0.position) < 1) :
    getVelocity norm f = (do
      let anchor ← calculatePosOnPath norm f f.ual_pose_.position (f.look_ahead_ * 1.5)
        f.prev_normal_pos_on_path_ f.target_path_
      let la ← calculatePosLookAhead norm f anchor
      let out ← calculateVelocity norm f f.ual_pose_.position la 0
      let f' := { f with flag_run_ := true, prev_normal_pos_on_path_ := anchor,
                         out_velocity_ := out }
      if f.debug_ then do
        prepareDebug norm f (f.look_ahead_ * 1.5) anchor la anchor
        pure (f', out)
      else pure (f', out)) := by
  unfold getVelocity
  rw [if_pos (by omega), rdAt_eq_ok _ 0 (by omega)]
  simp only [bind_ok_eq]
  have hflag : (if norm (f.ual_pose_.position.sub
      (f.target_path_.poses.get ⟨0, by omega⟩).position) < 1
      then { f with flag_run_ := true } else f) = { f with flag_run_ := true } := by
    split
    · rfl
    · rename_i hn
      rcases htrack with h | ⟨p0, hp0, hlt⟩
      · cases f; simp_all
      · exfalso
        apply hn
        have : f.target_path_.poses[0]? = some (f.target_path_.poses.get ⟨0, by omega⟩) := by
          simp [List.getElem?_eq_getElem]
        rw [this] at hp0
        cases hp0
        exact hlt
  rw [hflag]
  have h1 : ∀ c r p path, calculatePosOnPath norm { f with flag_run_ := true } c r p path
      = calculatePosOnPath norm f c r p path :=
    fun c r p path => calculatePosOnPath_congr norm f _ rfl c r p path
  have h2 : ∀ a p, calculatePosLookAhead norm
      { f with flag_run_ := true, prev_normal_pos_on_path_ := a } p
      = calculatePosLookAhead norm f p :=
    fun a p => calculatePosLookAhead_congr norm f _ rfl rfl p
  have h3 : ∀ a c la p, calculateVelocity norm
      { f with flag_run_ := true, prev_normal_pos_on_path_ := a } c la p
      = calculateVelocity norm f c la p :=
    fun a c la p => calculateVelocity_congr norm f _ rfl rfl rfl rfl rfl c la p
  have h4 : ∀ a o r x y z, prepareDebug norm
      { f with flag_run_ := true, prev_normal_pos_on_path_ := a, out_velocity_ := o } r x y z
      = prepareDebug norm f r x y z :=
    fun a o r x y z => prepareDebug_congr norm f _ rfl r x y z
  simp only [if_true, if_neg hmode, h1, h2, h3, h4]

theorem sq_pos_of_ne (t c : Vec3) (hne : t ≠ c) : 0 < (t.sub c).sq := by
  have h0 : 0 ≤ (t.sub c).sq := by
    unfold Vec3.sq
    nlinarith [mul_self_nonneg (t.sub c).x, mul_self_nonneg (t.sub c).y,
      mul_self_nonneg (t.sub c).z]
  rcases lt_or_eq_of_le h0 with h | h
  · exact h
  · exfalso
    apply hne
    have hx : (t.sub c).x = 0 := by
      unfold Vec3.sq at h
      nlinarith [mul_self_nonneg (t.sub c).x, mul_self_nonneg (t.sub c).y,
        mul_self_nonneg (t.sub c).z]
    have hy : (t.sub c).y = 0 := by
      unfold Vec3.sq at h
      nlinarith [mul_self_nonneg (t.sub c).x, mul_self_nonneg (t.sub c).y,
        mul_self_nonneg (t.sub c).z]
    have hz : (t.sub c).z = 0 := by
      unfold Vec3.sq at h
      nlinarith [mul_self_nonneg (t.sub c).x, mul_self_nonneg (t.sub c).y,
        mul_self_nonneg (t.sub c).z]
    simp only [Vec3.sub] at hx hy hz
    cases t; cases c
    simp only [Vec3.mk.injEq]
    exact ⟨by linarith, by linarith, by linarith⟩

/-- Where neither normalisation of `calculateVelocity` divides by zero, the unit vector is
the difference of the two `Vector3f` divided by its norm and then by the norm of the
result. -/
theorem unitVector_ok (norm : Vec3 → ℚ) (t c : Vec3) (hd : norm (t.sub c) ≠ 0)
    (hu : norm (scaledDifference norm t c) ≠ 0) :
    unitVector norm (some t) (some c) = .ok (pursuitDirection norm t c) := by
  unfold scaledDifference at hu
  unfold unitVector pursuitDirection scaledDifference
  simp only [if_neg hd, if_neg hu]

/-- The unit vector is the difference of the two points times the inverse of the product
of the two norms. -/
theorem pursuitDirection_eq (norm : Vec3 → ℚ) (t c : Vec3) :
    pursuitDirection norm t c
      = ⟨(t.x - c.x) / (norm (t.sub c) * norm (scaledDifference norm t c)),
          (t.y - c.y) / (norm (t.sub c) * norm (scaledDifference norm t c)),
          (t.z - c.z) / (norm (t.sub c) * norm (scaledDifference norm t c))⟩ := by
  unfold pursuitDirection
  generalize norm (scaledDifference norm t c) = n
  unfold scaledDifference
  simp only [Vec3.divScalar, Vec3.sub, div_div]

/-- The squared length of the unit vector, times the square of the norm computed for the
scaled difference, is the squared length of the scaled difference. -/
theorem pursuitDirection_sq (norm : Vec3 → ℚ) (t c : Vec3)
    (hu : norm (scaledDifference norm t c) ≠ 0) :
    (pursuitDirection norm t c).sq
        * (norm (scaledDifference norm t c) * norm (scaledDifference norm t c))
      = (scaledDifference norm t c).sq := by
  unfold pursuitDirection
  generalize norm (scaledDifference norm t c) = n at hu
  generalize scaledDifference norm t c = u
  simp only [Vec3.sq, Vec3.divScalar]
  field_simp

/-- The squared length of a vector scaled by `s`. -/
theorem scaled_sq (v : Vec3) (s : ℚ) :
    (⟨v.x * s, v.y * s, v.z * s⟩ : Vec3).sq = s * s * v.sq := by
  simp only [Vec3.sq]
  ring

/-- The squared length `C` of a command of speed `s` along the unit vector, for the squared
length `U` of the scaled difference and the square `N` of its computed norm: where the
computed norm is within the relative error `e` of the length, so is the length of the
command of the speed. -/
theorem command_sq_bounds (C N U S e : ℚ) (hN : 0 < N) (hC : 0 ≤ C) (h : C * N = S * U)
    (hlo : (1 - e) * (1 - e) * U ≤ N) (hhi : N ≤ (1 + e) * (1 + e) * U) :
    C * ((1 - e) * (1 - e)) ≤ S ∧ S ≤ C * ((1 + e) * (1 + e)) := by
  have hU : 0 < U := by
    by_contra hc
    have hU0 : U ≤ 0 := not_lt.mp hc
    have : (1 + e) * (1 + e) * U ≤ 0 :=
      mul_nonpos_of_nonneg_of_nonpos (mul_self_nonneg _) hU0
    linarith
  constructor
  · have h1 : C * ((1 - e) * (1 - e)) * U ≤ S * U := by
      have := mul_le_mul_of_nonneg_left hlo hC
      nlinarith
    exact le_of_mul_le_mul_right h1 hU
  · have h1 : S * U ≤ C * ((1 + e) * (1 + e)) * U := by
      have := mul_le_mul_of_nonneg_left hhi hC
      nlinarith
    exact le_of_mul_le_mul_right h1 hU

theorem Vec3.sq_nonneg (v : Vec3) : 0 ≤ v.sq := by
  unfold Vec3.sq
  nlinarith [mul_self_nonneg v.x, mul_self_nonneg v.y, mul_self_nonneg v.z]

/-- On at least two waypoints `generatePath` ends without fault in every mode, the sample
vectors of the spline modes being built. -/
theorem generatePath_ok (norm : Vec3 → ℚ) (ecl : EclSpline) (g : Generator)
    (_init_path : Path) (h2 : 2 ≤ _init_path.poses.length) (m : ℤ)
    (hfit : SplineFits norm _init_path m) :
    ∃ r, generatePath norm ecl g _init_path m = .ok r := by
  obtain ⟨last, hlast⟩ : ∃ last, _init_path.poses.getLast? = some last := by
    cases h : _init_path.poses.getLast? with
    | none => rw [List.getLast?_eq_none_iff] at h; rw [h] at h2; simp at h2
    | some a => exact ⟨a, rfl⟩
  by_cases h0 : m = 0
  · subst h0
    exact ⟨_, generatePath_linear_eq norm ecl g _init_path last hlast⟩
  · by_cases h12 : m = 1 ∨ m = 2
    · obtain ⟨r, hr, _⟩ :=
        generatePath_spline_length norm ecl g _init_path last h2 hlast m h12 hfit
      exact ⟨r, hr⟩
    · simp only [not_or] at h12
      unfold generatePath
      rw [hlast]
      simp only [if_neg h0, if_neg h12.1, if_neg h12.2]
      exact ⟨_, rfl⟩

/-- The follower that `preparePath` leaves when the generator returns. -/
theorem preparePath_ok (norm : Vec3 → ℚ) (ecl : EclSpline) (init : Generator) (f : Follower)
    (_init_path : Path) (m : ℤ) (la c : ℚ) (h2 : 2 ≤ _init_path.poses.length)
    (hfit : SplineFits norm _init_path m) :
    ∃ p, preparePath norm ecl init f _init_path m la c
      = ({ f with follower_mode_ := 0, look_ahead_ := la,
                  cruising_speed_ := storedCruisingSpeed f.smallest_max_velocity_ c,
                  target_path_ := p }, .ok p) := by
  obtain ⟨r, hr⟩ := generatePath_ok norm ecl
    (Generator.construct init f.vxy_ f.vz_up_ f.vz_dn_ f.debug_) _init_path h2 m hfit
  refine ⟨r.1.out_path_, ?_⟩
  unfold preparePath
  simp only [hr, storedCruisingSpeed]
  by_cases hc : c ≤ 0
  · by_cases hs : c > f.smallest_max_velocity_
    · simp [hc, hs]
    · simp [hc, hs]
  · by_cases hs : c > f.smallest_max_velocity_
    · simp [hc, hs]
    · simp [hc, hs]

theorem capVelocity_ge (range : ℚ × ℚ) (v : ℚ) (h : range.1 ≤ range.2) :
    range.1 ≤ capVelocity range v := by
  unfold capVelocity
  simp only []
  split_ifs <;> linarith

/-- A tick on a path of fewer than 2 points, or of a follower that has not started and is
at distance at least `1` from the first path point, returns the stored command and leaves
the follower unchanged. -/
theorem getVelocity_idle (norm : Vec3 → ℚ) (f : Follower)
    (h : f.target_path_.poses.length < 2 ∨
      (f.flag_run_ = false ∧
        ∀ p0, f.target_path_.poses[0]? = some p0 →
          1 ≤ norm (f.ual_pose_.position.sub p0.position))) :
    getVelocity norm f = .ok (f, f.out_velocity_) := by
  unfold getVelocity
  by_cases hlen : f.target_path_.poses.length > 1
  · rcases h with h | ⟨hflag, hfar⟩
    · omega
    · rw [if_pos hlen, rdAt_eq_ok _ 0 (by omega)]
      simp only [bind_ok_eq]
      have hp := hfar (f.target_path_.poses.get ⟨0, by omega⟩)
        (by simp [List.getElem?_eq_getElem])
      rw [if_neg (not_lt.mpr hp)]
      simp [hflag]
  · rw [if_neg hlen]
    rfl

theorem changeLookAhead_congr (f f' : Follower) (hv : f'.max_vel_ = f.max_vel_)
    (hg : f'.generated_times_ = f.generated_times_) (p : Nat) :
    changeLookAhead f' p = changeLookAhead f p := by
  unfold changeLookAhead
  rw [hv, hg]

/-- The tick of a follower in trajectory mode, on a path of at least two points and with
the latch set by the end of its test: the anchor, the look-ahead distance, the look-ahead
index and the command are resolved in turn and stored. -/
theorem getVelocity_tracking_trajectory (norm : Vec3 → ℚ) (f : Follower)
    (hsize : 2 ≤ f.target_path_.poses.length) (hmode : f.follower_mode_ = 1)
    (htrack : f.flag_run_ = true ∨
      ∃ p0, f.target_path_.poses[0]? = some p0 ∧
        norm (f.ual_pose_.position.sub p0.position) < 1) :
    getVelocity norm f = (do
      let anchor ← calculatePosOnPath norm f f.ual_pose_.position (f.look_ahead_ * 1.5)
        f.prev_normal_vel_on_path_ f.target_path_
      let look_ahead ← changeLookAhead f anchor
      let la ← calculatePosLookAhead norm { f with look_ahead_ := look_ahead } anchor
      let out ← calculateVelocity norm f f.ual_pose_.position la anchor
      let f' := { f with flag_run_ := true, prev_normal_vel_on_path_ := anchor,
                         look_ahead_ := look_ahead, out_velocity_ := out }
      if f.debug_ then do
        prepareDebug norm f (f.look_ahead_ * 1.5) anchor la anchor
        pure (f', out)
      else pure (f', out)) := by
  unfold getVelocity
  rw [if_pos (by omega), rdAt_eq_ok _ 0 (by omega)]
  simp only [bind_ok_eq]
  have hflag : (if norm (f.ual_pose_.position.sub
      (f.target_path_.poses.get ⟨0, by omega⟩).position) < 1
      then { f with flag_run_ := true } else f) = { f with flag_run_ := true } := by
    split
    · rfl
    · rename_i hn
      rcases htrack with h | ⟨p0, hp0, hlt⟩
      · cases f; simp_all
      · exfalso
        apply hn
        have : f.target_path_.poses[0]? = some (f.target_path_.poses.get ⟨0, by omega⟩) := by
          simp [List.getElem?_eq_getElem]
        rw [this] at hp0
        cases hp0
        exact hlt
  rw [hflag]
  have h1 : ∀ c r p path, calculatePosOnPath norm { f with flag_run_ := true } c r p path
      = calculatePosOnPath norm f c r p path :=
    fun c r p path => calculatePosOnPath_congr norm f _ rfl c r p path
  have h5 : ∀ a p, changeLookAhead
      { f with flag_run_ := true, prev_normal_vel_on_path_ := a } p = changeLookAhead f p :=
    fun a p => changeLookAhead_congr f _ rfl rfl p
  have h2 : ∀ a l p, calculatePosLookAhead norm
      { f with flag_run_ := true, prev_normal_vel_on_path_ := a, look_ahead_ := l } p
      = calculatePosLookAhead norm { f with look_ahead_ := l } p :=
    fun a l p => calculatePosLookAhead_congr norm _ _ rfl rfl p
  have h3 : ∀ a l c la p, calculateVelocity norm
      { f with flag_run_ := true, prev_normal_vel_on_path_ := a, look_ahead_ := l } c la p
      = calculateVelocity norm f c la p :=
    fun a l c la p => calculateVelocity_congr norm f _ rfl rfl rfl rfl rfl c la p
  have h4 : ∀ a l o r x y z, prepareDebug norm
      { f with flag_run_ := true, prev_normal_vel_on_path_ := a, look_ahead_ := l,
               out_velocity_ := o } r x y z
      = prepareDebug norm f r x y z :=
    fun a l o r x y z => prepareDebug_congr norm f _ rfl r x y z
  simp only [if_true, if_pos hmode, h1, h2, h3, h4, h5]

/-- A tick that returns on a path of at least two points leaves the latch set exactly
when it was set before or the vehicle is less than `1` away from the first path point. -/
theorem getVelocity_flag (norm : Vec3 → ℚ) (f f' : Follower) (v : Twist)
    (hsize : 2 ≤ f.target_path_.poses.length) (h : getVelocity norm f = .ok (f', v)) :
    f'.flag_run_ = true ↔
      (f.flag_run_ = true ∨
        ∃ p0, f.target_path_.poses[0]? = some p0 ∧
          norm (f.ual_pose_.position.sub p0.position) < 1) := by
  by_cases htrack : f.flag_run_ = true ∨
      ∃ p0, f.target_path_.poses[0]? = some p0 ∧
        norm (f.ual_pose_.position.sub p0.position) < 1
  · refine ⟨fun _ => htrack, fun _ => ?_⟩
    by_cases hmode : f.follower_mode_ = 1
    · rw [getVelocity_tracking_trajectory norm f hsize hmode htrack] at h
      cases h1 : calculatePosOnPath norm f f.ual_pose_.position (f.look_ahead_ * 1.5)
          f.prev_normal_vel_on_path_ f.target_path_ with
      | error e => rw [h1] at h; simp at h
      | ok anchor =>
        rw [h1] at h
        simp only [bind_ok_eq] at h
        cases h2 : changeLookAhead f anchor with
        | error e => rw [h2] at h; simp at h
        | ok l =>
          rw [h2] at h
          simp only [bind_ok_eq] at h
          cases h3 : calculatePosLookAhead norm { f with look_ahead_ := l } anchor with
          | error e => rw [h3] at h; simp at h
          | ok la =>
            rw [h3] at h
            simp only [bind_ok_eq] at h
            cases h4 : calculateVelocity norm f f.ual_pose_.position la anchor with
            | error e => rw [h4] at h; simp at h
            | ok out =>
              rw [h4] at h
              simp only [bind_ok_eq] at h
              split at h
              · cases h5 : prepareDebug norm f (f.look_ahead_ * 1.5) anchor la anchor with
                | error e => rw [h5] at h; simp at h
                | ok u =>
                  rw [h5] at h
                  simp only [bind_ok_eq, pure_eq_ok, Except.ok.injEq, Prod.mk.injEq] at h
                  rw [← h.1]
              · simp only [pure_eq_ok, Except.ok.injEq, Prod.mk.injEq] at h
                rw [← h.1]
    · rw [getVelocity_tracking norm f hsize hmode htrack] at h
      cases h1 : calculatePosOnPath norm f f.ual_pose_.position (f.look_ahead_ * 1.5)
          f.prev_normal_pos_on_path_ f.target_path_ with
      | error e => rw [h1] at h; simp at h
      | ok anchor =>
        rw [h1] at h
        simp only [bind_ok_eq] at h
        cases h3 : calculatePosLookAhead norm f anchor with
        | error e => rw [h3] at h; simp at h
        | ok la =>
          rw [h3] at h
          simp only [bind_ok_eq] at h
          cases h4 : calculateVelocity norm f f.ual_pose_.position la 0 with
          | error e => rw [h4] at h; simp at h
          | ok out =>
            rw [h4] at h
            simp only [bind_ok_eq] at h
            split at h
            · cases h5 : prepareDebug norm f (f.look_ahead_ * 1.5) anchor la anchor with
              | error e => rw [h5] at h; simp at h
              | ok u =>
                rw [h5] at h
                simp only [bind_ok_eq, pure_eq_ok, Except.ok.injEq, Prod.mk.injEq] at h
                rw [← h.1]
            · simp only [pure_eq_ok, Except.ok.injEq, Prod.mk.injEq] at h
              rw [← h.1]
  · refine ⟨fun hf => ?_, fun ht => absurd ht htrack⟩
    exfalso
    simp only [not_or, not_exists, not_and, not_lt] at htrack
    have hno := getVelocity_idle norm f (Or.inr ⟨by simpa using htrack.1, htrack.2⟩)
    rw [hno] at h
    simp only [Except.ok.injEq, Prod.mk.injEq] at h
    rw [← h.1] at hf
    exact htrack.1 hf

theorem getVelocity_flag_keep (norm : Vec3 → ℚ) (f f' : Follower) (v : Twist)
    (hf : f.flag_run_ = true) (h : getVelocity norm f = .ok (f', v)) :
    f'.flag_run_ = true := by
  by_cases hsize : 2 ≤ f.target_path_.poses.length
  · exact (getVelocity_flag norm f f' v hsize h).mpr (Or.inl hf)
  · rw [getVelocity_idle norm f (Or.inl (by omega))] at h
    simp only [Except.ok.injEq, Prod.mk.injEq] at h
    rw [← h.1]
    exact hf

theorem runCalls_flag_keep (norm : Vec3 → ℚ) :
    ∀ (calls : List Call) (f f' : Follower), f.flag_run_ = true →
      runCalls norm calls f = .ok f' → f'.flag_run_ = true := by
  intro calls
  induction calls with
  | nil =>
    intro f f' hf h
    simp only [runCalls, Except.ok.injEq] at h
    rw [← h]; exact hf
  | cons c rest ih =>
    intro f f' hf h
    cases c with
    | updatePose pose =>
      simp only [runCalls] at h
      exact ih (updatePose f pose) f' hf h
    | getVelocity =>
      simp only [runCalls] at h
      cases hr : getVelocity norm f with
      | error e => rw [hr] at h; simp at h
      | ok r =>
        rw [hr] at h
        simp only [bind_ok_eq] at h
        exact ih r.1 f' (getVelocity_flag_keep norm f r.1 r.2 hf hr) h

theorem sub_self_zero (c : Vec3) : c.sub c = ⟨0, 0, 0⟩ := by
  simp [Vec3.sub]

/-- With the target and the current point at the same `Vector3f` `calculateVelocity`
divides by the zero distance in both modes, and a coordinate that is an infinity makes the
command a NaN as well. -/
theorem calculateVelocity_same_image (norm : Vec3 → ℚ) (f : Follower) (c : Vec3)
    (la p : Nat) (target : Pose) (hzero : norm ⟨0, 0, 0⟩ = 0)
    (hmode : f.follower_mode_ = 0 ∨ f.follower_mode_ = 1)
    (htarget : f.target_path_.poses[la]? = some target)
    (heq : Vector3f target.position = Vector3f c) :
    calculateVelocity norm f c la p = .error .nonFinite := by
  have hu : unitVector norm (Vector3f target.position) (Vector3f c) = .error .nonFinite := by
    rw [heq]
    cases Vector3f c with
    | none => rfl
    | some v =>
      unfold unitVector
      simp only [sub_self_zero, hzero, if_true]
  unfold calculateVelocity
  simp only [rdAt, htarget, bind_ok_eq, hu]
  rcases hmode with h | h
  · rw [if_pos h]; rfl
  · rw [if_neg (by rw [h]; decide), if_pos h]; rfl

/-- With the target at the current point `calculateVelocity` divides by the zero
distance in both modes. -/
theorem calculateVelocity_zero_distance (norm : Vec3 → ℚ) (f : Follower) (c : Vec3)
    (la p : Nat) (target : Pose) (hzero : norm ⟨0, 0, 0⟩ = 0)
    (hmode : f.follower_mode_ = 0 ∨ f.follower_mode_ = 1)
    (htarget : f.target_path_.poses[la]? = some target) (heq : target.position = c) :
    calculateVelocity norm f c la p = .error .nonFinite :=
  calculateVelocity_same_image norm f c la p target hzero hmode htarget (by rw [heq])

theorem maxElement_isSome (l : List ℚ) (h : 0 < l.length) : ∃ M, maxElement l = some M := by
  cases l with
  | nil => simp at h
  | cons a l => exact ⟨_, rfl⟩

theorem minElement_isSome (l : List ℚ) (h : 0 < l.length) : ∃ m, minElement l = some m := by
  cases l with
  | nil => simp at h
  | cons a l => exact ⟨_, rfl⟩

/-- Under a negative limit no iteration of the loop of `createTrajectory` accepts its
fit: on no amount of fuel does the loop return a path. -/
theorem fitSpline_no_path (ecl : EclSpline) (g : Generator) (lx ly lz : List ℚ) (D : ℤ)
    (hm : 2 ≤ lx.length) (hy : ly.length = lx.length) (hz : lz.length = lx.length)
    (hs : g.smallest_max_vel_ < 0) :
    ∀ (fuel : Nat) (nj : ℤ) (path : Path), 2 ≤ nj →
      fitSpline ecl g lx ly lz D fuel nj ≠ .ok path := by
  intro fuel
  induction fuel with
  | zero => intro nj path _ h; simp [fitSpline] at h
  | succ fuel ih =>
    intro nj path hnj h
    rw [fitSpline, interpWaypointList_eq lx nj hm, interpWaypointList_eq ly nj (by omega),
      interpWaypointList_eq lz nj (by omega)] at h
    simp only [bind_ok_eq, List.length_map, queryAxis_length, hy, hz, lt_irrefl, or_self,
      if_false] at h
    rw [vectorOfSize_bind] at h
    split at h
    · simp at h
    · split at h
      · rename_i M m hM hm'
        split at h
        · simp at h
        · rw [if_pos (Or.inr (Or.inl (lt_of_lt_of_le hs (abs_nonneg m))))] at h
          split at h
          · simp at h
          · exact ih (nj + 1) path (by omega) h
      · simp at h

/-- Under a negative limit the loop of `createTrajectory`, while its counter is an `int`,
is still running when the fuel ends as long as the sample counts of its iterations are
`int`s, and it throws at the first iteration whose sample count is no `int`. -/
theorem fitSpline_never (ecl : EclSpline) (g : Generator) (lx ly lz : List ℚ) (D : ℤ)
    (hm : 2 ≤ lx.length) (hy : ly.length = lx.length) (hz : lz.length = lx.length)
    (hD : 1 ≤ D) (hs : g.smallest_max_vel_ < 0) (hsz : g.size_vec_percentage_ ≠ 0) :
    ∀ (fuel : Nat) (nj : ℤ), 2 ≤ nj → nj + (fuel : ℤ) ≤ INT_MAX →
      fitSpline ecl g lx ly lz D fuel nj
        = .error (if fuel = 0 ∨ (nj + (fuel : ℤ) - 2) * D ≤ INT_MAX then .outOfFuel
            else .lengthError) := by
  intro fuel
  induction fuel with
  | zero => intro nj _ _; rfl
  | succ fuel ih =>
    intro nj hnj hcnt
    rw [fitSpline, interpWaypointList_eq lx nj hm, interpWaypointList_eq ly nj (by omega),
      interpWaypointList_eq lz nj (by omega)]
    simp only [bind_ok_eq, List.length_map, queryAxis_length, hy, hz, lt_irrefl, or_self,
      if_false]
    have hcast : (((nj - 1).toNat + 1 : ℕ) : ℚ) - 1 = ((nj - 1 : ℤ) : ℚ) := by
      have : ((nj - 1).toNat : ℤ) = nj - 1 := Int.toNat_of_nonneg (by omega)
      have h2 : (((nj - 1).toNat : ℤ) : ℚ) = ((nj - 1 : ℤ) : ℚ) := by rw [this]
      push_cast at h2 ⊢
      rw [h2]; ring
    rw [hcast, ← Int.cast_mul]
    have hamount : 1 ≤ (nj - 1) * D := by nlinarith
    have hnext : ¬ nj = INT_MAX := by
      push_cast at hcnt
      omega
    by_cases hr : (nj - 1) * D ≤ INT_MAX
    · rw [truncToInt_intCast _ (le_trans (by decide : INT_MIN ≤ 1) hamount) hr,
        vectorOfSize_bind, if_neg (by omega)]
      have hiff : (fuel = 0 ∨ (nj + 1 + (fuel : ℤ) - 2) * D ≤ INT_MAX)
          ↔ (fuel + 1 = 0 ∨ (nj + ((fuel + 1 : ℕ) : ℤ) - 2) * D ≤ INT_MAX) := by
        have e : nj + ((fuel + 1 : ℕ) : ℤ) - 2 = nj + 1 + (fuel : ℤ) - 2 := by
          push_cast; ring
        rw [e]
        constructor
        · rintro (h0 | h)
          · right
            subst h0
            have e0 : nj + 1 + ((0 : ℕ) : ℤ) - 2 = nj - 1 := by push_cast; ring
            rw [e0]
            exact hr
          · exact Or.inr h
        · rintro (h0 | h)
          · omega
          · exact Or.inr h
      split
      · rename_i M m hM hm'
        rw [if_neg hsz]
        have hrej : M > g.smallest_max_vel_ ∨ |m| > g.smallest_max_vel_ ∨
            ((sampleSpline (ecl.Natural (indexAxis ((nj - 1).toNat + 1))
                (List.map (resampled lx) (queryAxis lx.length nj))) (D : ℚ)
                ((nj - 1) * D)).length : ℤ) % g.size_vec_percentage_ ≠ 0 :=
          Or.inr (Or.inl (lt_of_lt_of_le hs (abs_nonneg m)))
        rw [if_pos hrej, if_neg hnext,
          ih (nj + 1) (by omega) (by push_cast at hcnt; omega)]
        congr 1
        exact if_congr hiff rfl rfl
      · rename_i hnone
        exfalso
        obtain ⟨M, hM⟩ := maxElement_isSome
          (checkVel (ecl.derivative (indexAxis ((nj - 1).toNat + 1))
              (List.map (resampled lx) (queryAxis lx.length nj)))
            (ecl.derivative (indexAxis ((nj - 1).toNat + 1))
              (List.take ((nj - 1).toNat + 1)
                (List.map (resampled ly) (queryAxis lx.length nj))))
            (ecl.derivative (indexAxis ((nj - 1).toNat + 1))
              (List.take ((nj - 1).toNat + 1)
                (List.map (resampled lz) (queryAxis lx.length nj))))
            (D : ℚ) ((nj - 1) * D))
          (by rw [checkVel_length]; omega)
        obtain ⟨m, hm'⟩ := minElement_isSome
          (checkVel (ecl.derivative (indexAxis ((nj - 1).toNat + 1))
              (List.map (resampled lx) (queryAxis lx.length nj)))
            (ecl.derivative (indexAxis ((nj - 1).toNat + 1))
              (List.take ((nj - 1).toNat + 1)
                (List.map (resampled ly) (queryAxis lx.length nj))))
            (ecl.derivative (indexAxis ((nj - 1).toNat + 1))
              (List.take ((nj - 1).toNat + 1)
                (List.map (resampled lz) (queryAxis lx.length nj))))
            (D : ℚ) ((nj - 1) * D))
          (by rw [checkVel_length]; omega)
        exact hnone M m hM hm'
    · rw [truncToInt_intCast_eq, if_neg (fun h => hr h.2), vectorOfSize_bind,
        if_pos (by decide : INT_MIN < 0)]
      congr 1
      rw [if_neg]
      rintro (h0 | h)
      · omega
      · apply hr
        refine le_trans ?_ h
        apply mul_le_mul_of_nonneg_right _ (by omega)
        push_cast
        omega

/-- Under a negative smallest limit `createTrajectory` returns no path on any amount of
fuel. -/
theorem createTrajectory_no_path (norm : Vec3 → ℚ) (ecl : EclSpline)
    (srv : String → Option ℚ) (g : Generator) (lx ly lz : List ℚ) (_times : List ℚ)
    (hm : 2 ≤ lx.length) (hy : ly.length = lx.length) (hz : lz.length = lx.length)
    (hs : (checkSmallestMaxVel srv g).2 < 0) (fuel : Nat) (r : Generator × Path) :
    createTrajectory norm ecl srv fuel g lx ly lz lx.length _times ≠ .ok r := by
  unfold createTrajectory
  have h1 : ((lx.length : ℤ) > 1) := by omega
  rw [if_pos h1]
  simp only [Int.toNat_ofNat]
  intro h
  cases hf : fitSpline ecl
      { (checkSmallestMaxVel srv g).1 with
        smallest_max_vel_ := (checkSmallestMaxVel srv g).2 }
      lx ly lz (accumDistance norm 0 ((points lx ly lz).take lx.length)) fuel
      (lx.length : ℤ) with
  | error e => rw [hf] at h; simp at h
  | ok path =>
    exact fitSpline_no_path ecl
      { (checkSmallestMaxVel srv g).1 with
        smallest_max_vel_ := (checkSmallestMaxVel srv g).2 }
      lx ly lz (accumDistance norm 0 ((points lx ly lz).take lx.length)) hm hy hz hs fuel
      (lx.length : ℤ) path (by omega) hf

/-- Under a negative smallest limit `createTrajectory`, while the counter of its loop is an
`int`, is still running when the fuel ends as long as the sample counts are `int`s, and
has thrown otherwise. -/
theorem createTrajectory_never (norm : Vec3 → ℚ) (ecl : EclSpline)
    (srv : String → Option ℚ) (g : Generator) (lx ly lz : List ℚ) (_times : List ℚ)
    (hm : 2 ≤ lx.length) (hy : ly.length = lx.length) (hz : lz.length = lx.length)
    (hD : 1 ≤ accumDistance norm 0 ((points lx ly lz).take lx.length))
    (hs : (checkSmallestMaxVel srv g).2 < 0) (hsz : g.size_vec_percentage_ ≠ 0)
    (fuel : Nat) (hcnt : (lx.length : ℤ) + (fuel : ℤ) ≤ INT_MAX) :
    createTrajectory norm ecl srv fuel g lx ly lz lx.length _times
      = .error (if fuel = 0 ∨ ((lx.length : ℤ) + (fuel : ℤ) - 2)
            * accumDistance norm 0 ((points lx ly lz).take lx.length) ≤ INT_MAX
          then .outOfFuel else .lengthError) := by
  unfold createTrajectory
  have h1 : ((lx.length : ℤ) > 1) := by omega
  rw [if_pos h1]
  simp only [Int.toNat_ofNat]
  have h := fitSpline_never ecl
    { (checkSmallestMaxVel srv g).1 with smallest_max_vel_ := (checkSmallestMaxVel srv g).2 }
    lx ly lz (accumDistance norm 0 ((points lx ly lz).take lx.length)) hm hy hz hD hs hsz
    fuel (lx.length : ℤ) (by omega) hcnt
  rw [h]
  rfl

/-- Under a negative smallest limit `generateTrajectory`, while the counter of the loop is
an `int`, is still running when the fuel ends as long as the sample counts are `int`s, and
has thrown otherwise, for a schedule of the fitting length. -/
theorem generateTrajectory_never (norm : Vec3 → ℚ) (ecl : EclSpline)
    (srv : String → Option ℚ) (g : Generator) (_init_path : Path) (_times : List ℚ)
    (last : Pose) (hlast : _init_path.poses.getLast? = some last)
    (hfit : _init_path.poses.length - 1 = _times.length) (ht : _times ≠ [])
    (hD : 1 ≤ accumDistance norm 0
      (_init_path.poses.map (fun p => p.position) ++ [last.position]))
    (hs : min (updateParam srv g.vxy "MPC_XY_VEL_MAX")
      (min (updateParam srv g.vz_up "MPC_Z_VEL_MAX_UP")
        (updateParam srv g.vz_dn "MPC_Z_VEL_MAX_DN")) < 0)
    (fuel : Nat) (hcnt : (_init_path.poses.length : ℤ) + 1 + (fuel : ℤ) ≤ INT_MAX) :
    generateTrajectory norm ecl srv fuel g _init_path _times
      = .error (if fuel = 0 ∨ ((_init_path.poses.length : ℤ) + 1 + (fuel : ℤ) - 2)
            * accumDistance norm 0
                (_init_path.poses.map (fun p => p.position) ++ [last.position]) ≤ INT_MAX
          then .outOfFuel else .lengthError) := by
  have hn : 2 ≤ _init_path.poses.length := by
    cases _times with
    | nil => exact absurd rfl ht
    | cons t ts => simp at hfit; omega
  have hlen : (_init_path.poses.map (fun p => p.position.x) ++ [last.position.x]).length
      = _init_path.poses.length + 1 := by simp
  have hpts := points_padded_all _init_path.poses last
  unfold generateTrajectory
  rw [hlast]
  simp only [if_pos hfit]
  have h := createTrajectory_never norm ecl srv
    { g with mode_ := .mode_trajectory_, size_vec_percentage_ := _times.length }
    (_init_path.poses.map (fun p => p.position.x) ++ [last.position.x])
    (_init_path.poses.map (fun p => p.position.y) ++ [last.position.y])
    (_init_path.poses.map (fun p => p.position.z) ++ [last.position.z]) _times
    (by rw [hlen]; omega) (by simp) (by simp)
    (by rw [hpts]; exact hD)
    hs
    (by
      show (_times.length : ℤ) ≠ 0
      cases _times with
      | nil => exact absurd rfl ht
      | cons t ts => simp; omega) fuel
    (by rw [hlen]; push_cast; exact hcnt)
  rw [hpts] at h
  rw [h]
  simp only [hlen, Nat.cast_add, Nat.cast_one]
  rfl

theorem rdAt_ok_iff {α : Type} (v : List α) (i : Nat) (a : α) :
    rdAt v i = .ok a ↔ v[i]? = some a := by
  unfold rdAt
  cases v[i]? with
  | none => simp
  | some b => simp

theorem rdAt_getD (poses : List Pose) (i : Nat) (p : Pose) (h : rdAt poses i = .ok p) :
    i < poses.length ∧ poses.getD i Pose.origin = p := by
  rw [rdAt_ok_iff] at h
  have hi : i < poses.length := by
    by_contra hc
    rw [List.getElem?_eq_none (by omega)] at h
    cases h
  exact ⟨hi, by rw [List.getD_eq_getElem?_getD, h]; rfl⟩

theorem pathDistance_self (norm : Vec3 → ℚ) (poses : List Pose) (i : Nat) :
    pathDistance norm poses i i = 0 := by
  simp [pathDistance]

theorem pathDistance_succ_bot (norm : Vec3 → ℚ) (poses : List Pose) (i j : Nat)
    (h : i < j) :
    pathDistance norm poses i j
      = segmentLength norm poses i + pathDistance norm poses (i + 1) j := by
  unfold pathDistance
  rw [Finset.sum_eq_sum_Ico_succ_bot h]

theorem pathDistance_succ_top (norm : Vec3 → ℚ) (poses : List Pose) (i j : Nat)
    (h : i ≤ j) :
    pathDistance norm poses i (j + 1)
      = pathDistance norm poses i j + segmentLength norm poses j := by
  unfold pathDistance
  rw [Finset.sum_Ico_succ_top h]

theorem pathDistance_mono (norm : Vec3 → ℚ) (hn : ∀ v, 0 ≤ norm v) (poses : List Pose)
    (i i' j j' : Nat) (hi : i ≤ i') (hj : j' ≤ j) :
    pathDistance norm poses i' j' ≤ pathDistance norm poses i j := by
  unfold pathDistance
  apply Finset.sum_le_sum_of_subset_of_nonneg
  · intro k hk
    simp only [Finset.mem_Ico] at hk ⊢
    omega
  · intro k _ _
    exact hn _

/-- The forward scan either returns the index it was given or an index `r` from the start
of the scan on such that the distance accumulated up to point `r + 1` is below the
limit. -/
theorem forwardScan_spec (norm : Vec3 → ℚ) (poses : List Pose) (limit : ℚ) :
    ∀ (k i : Nat) (temp : ℚ) (pos : Option Nat) (r : Nat),
      forwardScan norm poses limit k i temp pos = .ok (some r) →
      pos = some r ∨
        (i ≤ r ∧ r < i + k ∧ temp + pathDistance norm poses i (r + 1) < limit) := by
  intro k
  induction k with
  | zero =>
    intro i temp pos r h
    simp only [forwardScan, Except.ok.injEq] at h
    exact Or.inl h
  | succ k ih =>
    intro i temp pos r h
    rw [forwardScan] at h
    cases h1 : rdAt poses i with
    | error e => rw [h1] at h; simp at h
    | ok p1 =>
      cases h2 : rdAt poses (i + 1) with
      | error e => rw [h1, h2] at h; simp at h
      | ok p2 =>
        rw [h1, h2] at h
        simp only [bind_ok_eq] at h
        have hseg : norm (p2.position.sub p1.position) = segmentLength norm poses i := by
          unfold segmentLength
          rw [(rdAt_getD poses i p1 h1).2, (rdAt_getD poses (i + 1) p2 h2).2]
        rw [hseg] at h
        split at h
        · rename_i hlt
          rcases ih (i + 1) _ (some i) r h with hp | ⟨h3, h4, h5⟩
          · right
            have hr : i = r := Option.some.inj hp
            subst hr
            refine ⟨le_refl _, by omega, ?_⟩
            rw [pathDistance_succ_top _ _ _ _ (le_refl _), pathDistance_self]
            linarith
          · right
            refine ⟨by omega, by omega, ?_⟩
            rw [pathDistance_succ_bot _ _ _ _ (by omega)]
            linarith
        · simp only [Except.ok.injEq] at h
          exact Or.inl h

/-- The backward scan either returns the index it was given or an index `r` between `1`
and the start of the scan such that the distance accumulated down to point `r - 1` is
below the limit. -/
theorem backwardScan_spec (norm : Vec3 → ℚ) (poses : List Pose) (limit : ℚ) :
    ∀ (i : Nat) (temp : ℚ) (pos r : Nat),
      backwardScan norm poses limit i temp pos = .ok r →
      r = pos ∨ (1 ≤ r ∧ r ≤ i ∧ temp + pathDistance norm poses (r - 1) i < limit) := by
  intro i
  induction i with
  | zero =>
    intro temp pos r h
    simp only [backwardScan, Except.ok.injEq] at h
    exact Or.inl h.symm
  | succ i ih =>
    intro temp pos r h
    rw [backwardScan] at h
    cases h1 : rdAt poses (i + 1) with
    | error e => rw [h1] at h; simp at h
    | ok p1 =>
      cases h2 : rdAt poses i with
      | error e => rw [h1, h2] at h; simp at h
      | ok p0 =>
        rw [h1, h2] at h
        simp only [bind_ok_eq] at h
        have hseg : norm (p1.position.sub p0.position) = segmentLength norm poses i := by
          unfold segmentLength
          rw [(rdAt_getD poses i p0 h2).2, (rdAt_getD poses (i + 1) p1 h1).2]
        rw [hseg] at h
        split at h
        · rename_i hlt
          rcases ih _ (i + 1) r h with hp | ⟨h3, h4, h5⟩
          · right
            subst hp
            refine ⟨by omega, le_refl _, ?_⟩
            simp only [Nat.add_sub_cancel]
            rw [pathDistance_succ_top _ _ _ _ (le_refl _), pathDistance_self]
            linarith
          · right
            refine ⟨h3, by omega, ?_⟩
            rw [pathDistance_succ_top _ _ _ _ (by omega)]
            linarith
        · simp only [Except.ok.injEq] at h
          exact Or.inl h.symm

/-- The forward bound of the search window: the last path index, or an index from the
anchor on, before the last, up to whose successor the path distance from the anchor is
below the range. -/
theorem calculateDistanceOnPath_forward (norm : Vec3 → ℚ) (f : Follower) (a e : Nat)
    (m : ℚ) (hm : m > 0) (h : calculateDistanceOnPath norm f a m = .ok e) :
    a < f.target_path_.poses.length ∧
      (e = f.target_path_.poses.length - 1 ∨
        (a ≤ e ∧ e < f.target_path_.poses.length - 1 ∧
          pathDistance norm f.target_path_.poses a (e + 1) < m)) := by
  unfold calculateDistanceOnPath at h
  simp only [] at h
  cases h1 : rdAt f.target_path_.poses a with
  | error x => rw [h1] at h; simp at h
  | ok p_prev =>
    have ha := (rdAt_getD _ _ _ h1).1
    refine ⟨ha, ?_⟩
    cases h2 : rd f.target_path_.poses 0 with
    | error x => rw [h1, h2] at h; simp at h
    | ok p_front =>
      cases h3 : rd f.target_path_.poses (f.target_path_.poses.length - 1) with
      | error x => rw [h1, h2, h3] at h; simp at h
      | ok p_back =>
        rw [h1, h2, h3] at h
        simp only [bind_ok_eq, if_pos hm] at h
        split at h
        · cases h4 : forwardScan norm f.target_path_.poses m
              (f.target_path_.poses.length - 1 - a) a 0 none with
          | error x => rw [h4] at h; simp at h
          | ok pos =>
            rw [h4] at h
            simp only [bind_ok_eq] at h
            cases pos with
            | none => simp [assigned] at h
            | some r =>
              simp only [assigned, Except.ok.injEq] at h
              subst h
              rcases forwardScan_spec norm _ m _ a 0 none r h4 with hp | ⟨h5, h6, h7⟩
              · cases hp
              · right
                refine ⟨h5, by omega, ?_⟩
                linarith
        · simp only [pure_eq_ok, Except.ok.injEq] at h
          exact Or.inl h.symm

/-- The backward bound of the search window: index `0`, or an index between `1` and the
anchor down to whose predecessor the path distance from the anchor is below half the
range. -/
theorem calculateDistanceOnPath_backward (norm : Vec3 → ℚ) (f : Follower) (a s : Nat)
    (m : ℚ) (hm : ¬ m > 0) (h : calculateDistanceOnPath norm f a m = .ok s) :
    a < f.target_path_.poses.length ∧
      (s = 0 ∨
        (1 ≤ s ∧ s ≤ a ∧ pathDistance norm f.target_path_.poses (s - 1) a < |m / 2|)) := by
  unfold calculateDistanceOnPath at h
  simp only [] at h
  cases h1 : rdAt f.target_path_.poses a with
  | error x => rw [h1] at h; simp at h
  | ok p_prev =>
    have ha := (rdAt_getD _ _ _ h1).1
    refine ⟨ha, ?_⟩
    cases h2 : rd f.target_path_.poses 0 with
    | error x => rw [h1, h2] at h; simp at h
    | ok p_front =>
      cases h3 : rd f.target_path_.poses (f.target_path_.poses.length - 1) with
      | error x => rw [h1, h2, h3] at h; simp at h
      | ok p_back =>
        rw [h1, h2, h3] at h
        simp only [bind_ok_eq, if_neg hm] at h
        split at h
        · rcases backwardScan_spec norm _ _ a 0 0 s h with hp | ⟨h5, h6, h7⟩
          · exact Or.inl hp
          · right
            refine ⟨h5, h6, ?_⟩
            linarith
        · simp only [pure_eq_ok, Except.ok.injEq] at h
          exact Or.inl h.symm

theorem rd_ok_getD (poses : List Pose) (i : Nat) (p : Pose) (h : rd poses i = .ok p) :
    poses.getD i Pose.origin = p := by
  unfold rd at h
  cases hi : poses[i]? with
  | none => rw [hi] at h; simp at h
  | some b =>
    rw [hi] at h
    simp only [Except.ok.injEq] at h
    rw [List.getD_eq_getElem?_getD, hi, ← h]
    rfl

/-- When the range is not below the straight-line distance from the anchor to the last
path point, the forward bound of the search window is the last path index. -/
theorem calculateDistanceOnPath_forward_far (norm : Vec3 → ℚ) (f : Follower) (a e : Nat)
    (m : ℚ) (hm : m > 0)
    (hfar : ¬ m < norm ((f.target_path_.poses.getD a Pose.origin).position.sub
      (f.target_path_.poses.getD (f.target_path_.poses.length - 1) Pose.origin).position))
    (h : calculateDistanceOnPath norm f a m = .ok e) :
    e = f.target_path_.poses.length - 1 := by
  unfold calculateDistanceOnPath at h
  simp only [] at h
  cases h1 : rdAt f.target_path_.poses a with
  | error x => rw [h1] at h; simp at h
  | ok p_prev =>
    cases h2 : rd f.target_path_.poses 0 with
    | error x => rw [h1, h2] at h; simp at h
    | ok p_front =>
      cases h3 : rd f.target_path_.poses (f.target_path_.poses.length - 1) with
      | error x => rw [h1, h2, h3] at h; simp at h
      | ok p_back =>
        rw [h1, h2, h3] at h
        rw [(rdAt_getD _ _ _ h1).2, rd_ok_getD _ _ _ h3] at hfar
        simp only [bind_ok_eq, if_pos hm, if_neg hfar, pure_eq_ok, Except.ok.injEq] at h
        exact h.symm

/-- When the first backward segment is not shorter than half the range, the backward
bound of the search window is index `0`. -/
theorem calculateDistanceOnPath_backward_far (norm : Vec3 → ℚ) (f : Follower) (a s : Nat)
    (m : ℚ) (hm : ¬ m > 0) (ha : 1 ≤ a)
    (hfar : ¬ segmentLength norm f.target_path_.poses (a - 1) < |m / 2|)
    (h : calculateDistanceOnPath norm f a m = .ok s) : s = 0 := by
  obtain ⟨j, rfl⟩ : ∃ j, a = j + 1 := ⟨a - 1, by omega⟩
  simp only [Nat.add_sub_cancel] at hfar
  unfold calculateDistanceOnPath at h
  simp only [] at h
  cases h1 : rdAt f.target_path_.poses (j + 1) with
  | error x => rw [h1] at h; simp at h
  | ok p_prev =>
    cases h2 : rd f.target_path_.poses 0 with
    | error x => rw [h1, h2] at h; simp at h
    | ok p_front =>
      cases h3 : rd f.target_path_.poses (f.target_path_.poses.length - 1) with
      | error x => rw [h1, h2, h3] at h; simp at h
      | ok p_back =>
        rw [h1, h2, h3] at h
        simp only [bind_ok_eq, if_neg hm] at h
        split at h
        · rw [backwardScan, h1] at h
          cases h4 : rdAt f.target_path_.poses j with
          | error x => rw [h4] at h; simp at h
          | ok p0 =>
            rw [h4] at h
            simp only [bind_ok_eq, zero_add] at h
            have hseg : norm (p_prev.position.sub p0.position)
                = segmentLength norm f.target_path_.poses j := by
              unfold segmentLength
              rw [(rdAt_getD _ _ _ h4).2, (rdAt_getD _ _ _ h1).2]
            rw [hseg, if_neg hfar] at h
            simp only [Except.ok.injEq] at h
            exact h.symm
        · simp only [pure_eq_ok, Except.ok.injEq] at h
          exact h.symm

theorem calculateDistanceOnPath_lt (norm : Vec3 → ℚ) (f : Follower) (a e : Nat) (m : ℚ)
    (h : calculateDistanceOnPath norm f a m = .ok e) : e < f.target_path_.poses.length := by
  by_cases hm : m > 0
  · obtain ⟨ha, h1 | ⟨_, h2, _⟩⟩ := calculateDistanceOnPath_forward norm f a e m hm h <;> omega
  · obtain ⟨ha, h1 | ⟨_, h2, _⟩⟩ := calculateDistanceOnPath_backward norm f a e m hm h <;> omega

theorem windowDistances_eq (norm : Vec3 → ℚ) (poses : List Pose) (c : Vec3) :
    ∀ (k i : Nat), i + k ≤ poses.length →
      windowDistances norm poses c k i
        = .ok ((List.range k).map (fun j => pointDistance norm poses c (i + j))) := by
  intro k
  induction k with
  | zero => intro i _; rfl
  | succ k ih =>
    intro i hik
    rw [windowDistances, rdAt_eq_ok poses i (by omega), ih (i + 1) (by omega)]
    simp only [bind_ok_eq, pure_eq_ok, List.range_succ_eq_map, List.map_cons, List.map_map]
    congr 2
    · unfold pointDistance
      rw [List.getD_eq_getElem?_getD, List.getElem?_eq_getElem (by omega)]
      rfl
    · apply List.map_congr_left
      intro j _
      simp only [Function.comp]
      congr 1
      omega

/-- The scan of `std::min_element` ends on the first position of the smallest element. -/
theorem minScan_spec (L : List ℚ) :
    ∀ (l : List ℚ) (i : Nat) (best : ℚ) (idx : Nat),
      L.drop i = l → idx < i → L[idx]? = some best →
      (∀ j v, j < i → L[j]? = some v → best ≤ v) →
      (∀ j v, j < idx → L[j]? = some v → best < v) →
      ∃ m, L[minScan l i best idx]? = some m ∧
        (∀ (j : Nat) (v : ℚ), L[j]? = some v → m ≤ v) ∧
        (∀ j v, j < minScan l i best idx → L[j]? = some v → m < v) := by
  intro l
  induction l with
  | nil =>
    intro i best idx hdrop hidx hbest hle hlt
    refine ⟨best, hbest, ?_, hlt⟩
    intro j v hj
    have hlen : L.length ≤ i := by
      by_contra hc
      have : (L.drop i).length = L.length - i := List.length_drop i L
      rw [hdrop] at this
      simp at this
      omega
    have hjl : j < L.length := by
      by_contra hc
      rw [List.getElem?_eq_none (by omega)] at hj
      cases hj
    exact hle j v (by omega) hj
  | cons d rest ih =>
    intro i best idx hdrop hidx hbest hle hlt
    have hi : L[i]? = some d := by
      have := congrArg (fun t => t[0]?) hdrop
      simpa [List.getElem?_drop] using this
    have hdrop' : L.drop (i + 1) = rest := by
      have := congrArg List.tail hdrop
      simpa [List.tail_drop] using this
    rw [minScan]
    split
    · rename_i hd
      apply ih (i + 1) d i hdrop' (by omega) hi
      · intro j v hj hv
        rcases Nat.lt_succ_iff_lt_or_eq.mp hj with h | h
        · exact le_trans (le_of_lt hd) (hle j v h hv)
        · subst h
          rw [hi] at hv
          cases hv
          exact le_refl _
      · intro j v hj hv
        exact lt_of_lt_of_le hd (hle j v hj hv)
    · rename_i hd
      apply ih (i + 1) best idx hdrop' (by omega) hbest
      · intro j v hj hv
        rcases Nat.lt_succ_iff_lt_or_eq.mp hj with h | h
        · exact hle j v h hv
        · subst h
          rw [hi] at hv
          cases hv
          exact not_lt.mp hd
      · exact hlt

theorem minScan_lt (l : List ℚ) :
    ∀ (i : Nat) (best : ℚ) (idx : Nat), idx < i → minScan l i best idx < i + l.length := by
  induction l with
  | nil => intro i best idx h; simp [minScan]; exact h
  | cons d rest ih =>
    intro i best idx h
    rw [minScan]
    split
    · have := ih (i + 1) d i (by omega)
      simp only [List.length_cons]; omega
    · have := ih (i + 1) best idx (by omega)
      simp only [List.length_cons]; omega

/-- The offset of `std::min_element` in a non-empty vector is the first position of the
smallest element. -/
theorem minElementIndex_spec (l : List ℚ) (hl : l ≠ []) :
    minElementIndex l < l.length ∧
    ∃ m, l[minElementIndex l]? = some m ∧
      (∀ (j : Nat) (v : ℚ), l[j]? = some v → m ≤ v) ∧
      (∀ j v, j < minElementIndex l → l[j]? = some v → m < v) := by
  cases l with
  | nil => exact absurd rfl hl
  | cons d rest =>
    constructor
    · have := minScan_lt rest 1 d 0 (by omega)
      simp only [minElementIndex, List.length_cons]; omega
    · apply minScan_spec (d :: rest) rest 1 d 0 rfl (by omega) (by simp)
      · intro j v hj hv
        have : j = 0 := by omega
        subst this
        simp at hv
        rw [hv]
      · intro j v hj _
        omega

/-- On a non-empty window `calculatePosOnPath` returns the first index of the window whose
path point is nearest to the current point. -/
theorem calculatePosOnPath_spec (norm : Vec3 → ℚ) (f : Follower) (c : Vec3) (R : ℚ)
    (a s e : Nat) (hs : calculateDistanceOnPath norm f a (-R) = .ok s)
    (he : calculateDistanceOnPath norm f a R = .ok e) (hlt : s < e) :
    ∃ anchor, calculatePosOnPath norm f c R a f.target_path_ = .ok anchor ∧
      s ≤ anchor ∧ anchor < e ∧
      (∀ i, s ≤ i → i < e →
        pointDistance norm f.target_path_.poses c anchor
          ≤ pointDistance norm f.target_path_.poses c i) ∧
      (∀ i, s ≤ i → i < anchor →
        pointDistance norm f.target_path_.poses c anchor
          < pointDistance norm f.target_path_.poses c i) := by
  have hel := calculateDistanceOnPath_lt norm f a e R he
  have hw := windowDistances_eq norm f.target_path_.poses c (e - s) s (by omega)
  have hne : (List.range (e - s)).map
      (fun j => pointDistance norm f.target_path_.poses c (s + j)) ≠ [] := by
    intro h
    have := congrArg List.length h
    simp at this
    omega
  obtain ⟨hidx, m, hm, hmin, hfirst⟩ := minElementIndex_spec _ hne
  simp only [List.length_map, List.length_range] at hidx
  have hget : ∀ j, j < e - s →
      ((List.range (e - s)).map
        (fun j => pointDistance norm f.target_path_.poses c (s + j)))[j]?
        = some (pointDistance norm f.target_path_.poses c (s + j)) := by
    intro j hj
    simp [List.getElem?_range hj]
  rw [hget _ hidx] at hm
  have hm' := Option.some.inj hm
  refine ⟨minElementIndex ((List.range (e - s)).map
      (fun j => pointDistance norm f.target_path_.poses c (s + j))) + s, ?_, by omega,
    by omega, ?_, ?_⟩
  · unfold calculatePosOnPath
    rw [hs, he]
    simp only [bind_ok_eq, hw, pure_eq_ok]
  · intro i hsi hie
    have := hmin (i - s) _ (hget (i - s) (by omega))
    rw [Nat.add_comm _ s, hm']
    have e2 : s + (i - s) = i := by omega
    rw [e2] at this
    exact this
  · intro i hsi hia
    have := hfirst (i - s) _ (by omega) (hget (i - s) (by omega))
    rw [Nat.add_comm _ s, hm']
    have e2 : s + (i - s) = i := by omega
    rw [e2] at this
    exact this

/-- A tracking tick outside trajectory mode that returns has stored the anchor it
resolved. -/
theorem getVelocity_stores_anchor (norm : Vec3 → ℚ) (f f' : Follower) (v : Twist)
    (anchor : Nat) (hsize : 2 ≤ f.target_path_.poses.length) (hmode : f.follower_mode_ ≠ 1)
    (htrack : f.flag_run_ = true ∨
      ∃ p0, f.target_path_.poses[0]? = some p0 ∧
        norm (f.ual_pose_.position.sub p0.position) < 1)
    (ha : calculatePosOnPath norm f f.ual_pose_.position (f.look_ahead_ * 1.5)
      f.prev_normal_pos_on_path_ f.target_path_ = .ok anchor)
    (h : getVelocity norm f = .ok (f', v)) :
    f'.prev_normal_pos_on_path_ = anchor := by
  rw [getVelocity_tracking norm f hsize hmode htrack, ha] at h
  simp only [bind_ok_eq] at h
  cases h3 : calculatePosLookAhead norm f anchor with
  | error e => rw [h3] at h; simp at h
  | ok la =>
    rw [h3] at h
    simp only [bind_ok_eq] at h
    cases h4 : calculateVelocity norm f f.ual_pose_.position la 0 with
    | error e => rw [h4] at h; simp at h
    | ok out =>
      rw [h4] at h
      simp only [bind_ok_eq] at h
      split at h
      · cases h5 : prepareDebug norm f (f.look_ahead_ * 1.5) anchor la anchor with
        | error e => rw [h5] at h; simp at h
        | ok u =>
          rw [h5] at h
          simp only [bind_ok_eq, pure_eq_ok, Except.ok.injEq, Prod.mk.injEq] at h
          rw [← h.1]
      · simp only [pure_eq_ok, Except.ok.injEq, Prod.mk.injEq] at h
        rw [← h.1]

/-- A tracking tick in trajectory mode that returns has stored the anchor it resolved. -/
theorem getVelocity_stores_anchor_trajectory (norm : Vec3 → ℚ) (f f' : Follower)
    (v : Twist) (anchor : Nat) (hsize : 2 ≤ f.target_path_.poses.length)
    (hmode : f.follower_mode_ = 1)
    (htrack : f.flag_run_ = true ∨
      ∃ p0, f.target_path_.poses[0]? = some p0 ∧
        norm (f.ual_pose_.position.sub p0.position) < 1)
    (ha : calculatePosOnPath norm f f.ual_pose_.position (f.look_ahead_ * 1.5)
      f.prev_normal_vel_on_path_ f.target_path_ = .ok anchor)
    (h : getVelocity norm f = .ok (f', v)) :
    f'.prev_normal_vel_on_path_ = anchor := by
  rw [getVelocity_tracking_trajectory norm f hsize hmode htrack, ha] at h
  simp only [bind_ok_eq] at h
  cases h2 : changeLookAhead f anchor with
  | error e => rw [h2] at h; simp at h
  | ok l =>
    rw [h2] at h
    simp only [bind_ok_eq] at h
    cases h3 : calculatePosLookAhead norm { f with look_ahead_ := l } anchor with
    | error e => rw [h3] at h; simp at h
    | ok la =>
      rw [h3] at h
      simp only [bind_ok_eq] at h
      cases h4 : calculateVelocity norm f f.ual_pose_.position la anchor with
      | error e => rw [h4] at h; simp at h
      | ok out =>
        rw [h4] at h
        simp only [bind_ok_eq] at h
        split at h
        · cases h5 : prepareDebug norm f (f.look_ahead_ * 1.5) anchor la anchor with
          | error e => rw [h5] at h; simp at h
          | ok u =>
            rw [h5] at h
            simp only [bind_ok_eq, pure_eq_ok, Except.ok.injEq, Prod.mk.injEq] at h
            rw [← h.1]
        · simp only [pure_eq_ok, Except.ok.injEq, Prod.mk.injEq] at h
          rw [← h.1]

/-- The forward scan over indices inside the path returns: either the index it was given,
when the first sum is not below the limit or no iteration is left, or the last index `r`
of the scan up to whose successor the accumulated distance is below the limit. -/
theorem forwardScan_full (norm : Vec3 → ℚ) (poses : List Pose) (limit : ℚ) :
    ∀ (k i : Nat) (temp : ℚ) (pos : Option Nat), i + k < poses.length →
      ∃ res, forwardScan norm poses limit k i temp pos = .ok res ∧
        ((res = pos ∧ (k = 0 ∨ ¬ temp + segmentLength norm poses i < limit)) ∨
          ∃ r, res = some r ∧ i ≤ r ∧ r < i + k ∧
            temp + pathDistance norm poses i (r + 1) < limit ∧
            (r + 1 = i + k ∨ ¬ temp + pathDistance norm poses i (r + 2) < limit)) := by
  intro k
  induction k with
  | zero =>
    intro i temp pos _
    exact ⟨pos, rfl, Or.inl ⟨rfl, Or.inl rfl⟩⟩
  | succ k ih =>
    intro i temp pos hik
    rw [forwardScan, rdAt_eq_ok poses i (by omega), rdAt_eq_ok poses (i + 1) (by omega)]
    simp only [bind_ok_eq]
    have hseg : norm (((poses.get ⟨i + 1, by omega⟩).position).sub
        (poses.get ⟨i, by omega⟩).position) = segmentLength norm poses i := by
      unfold segmentLength
      rw [List.getD_eq_getElem?_getD, List.getD_eq_getElem?_getD,
        List.getElem?_eq_getElem (by omega), List.getElem?_eq_getElem (by omega)]
      rfl
    rw [hseg]
    split
    · rename_i hlt
      obtain ⟨res, hres, hcase⟩ := ih (i + 1) (temp + segmentLength norm poses i) (some i)
        (by omega)
      refine ⟨res, hres, Or.inr ?_⟩
      rcases hcase with ⟨hr, hk⟩ | ⟨r, hr, h1, h2, h3, h4⟩
      · refine ⟨i, hr, le_refl _, by omega, ?_, ?_⟩
        · rw [pathDistance_succ_top _ _ _ _ (le_refl _), pathDistance_self]
          linarith
        · rcases hk with hk | hk
          · left; omega
          · right
            rw [pathDistance_succ_top _ _ _ _ (by omega),
              pathDistance_succ_top _ _ _ _ (le_refl _), pathDistance_self]
            intro hc
            apply hk
            linarith
      · refine ⟨r, hr, by omega, by omega, ?_, ?_⟩
        · rw [pathDistance_succ_bot _ _ _ _ (by omega)]
          linarith
        · rcases h4 with h4 | h4
          · left; omega
          · right
            rw [pathDistance_succ_bot _ _ _ _ (by omega)]
            intro hc
            apply h4
            linarith
    · rename_i hge
      exact ⟨pos, rfl, Or.inl ⟨rfl, Or.inr hge⟩⟩

/-- Every element that the scan of `nearestNeighbourIndex` visits after the position it
ends on is at a strictly greater distance from the value than the element at that
position. -/
theorem nearestScan_last (v : ℚ) :
    ∀ (xs : List ℚ) (i : Nat) (dist : Option ℚ) (idx : Nat),
      (nearestScan v xs i dist idx = idx ∧ ∀ x ∈ xs, leDist |v - x| dist = false) ∨
      (i ≤ nearestScan v xs i dist idx ∧
        ∃ m, xs[nearestScan v xs i dist idx - i]? = some m ∧ leDist |v - m| dist = true ∧
          ∀ (j : Nat) (x : ℚ), nearestScan v xs i dist idx - i < j → xs[j]? = some x →
            |v - m| < |v - x|) := by
  intro xs
  induction xs with
  | nil => intro i dist idx; left; exact ⟨rfl, by simp⟩
  | cons xi rest ih =>
    intro i dist idx
    simp only [nearestScan]
    by_cases hle : leDist |v - xi| dist = true
    · rw [if_pos hle]
      right
      rcases ih (i + 1) (some |v - xi|) i with ⟨h1, h2⟩ | ⟨h1, m, hm, hd, hlast⟩
      · refine ⟨by rw [h1], xi, by rw [h1]; simp, hle, ?_⟩
        intro j x hj hx
        rw [h1] at hj
        obtain ⟨j', rfl⟩ : ∃ j', j = j' + 1 := ⟨j - 1, by omega⟩
        rw [List.getElem?_cons_succ] at hx
        have := h2 x (List.getElem?_mem hx)
        simpa only [leDist, decide_eq_false_iff_not, not_le] using this
      · have hd' : |v - m| ≤ |v - xi| := by
          simpa only [leDist, decide_eq_true_eq] using hd
        refine ⟨by omega, m, ?_, leDist_trans hd' hle, ?_⟩
        · have : nearestScan v rest (i + 1) (some |v - xi|) i - i
              = (nearestScan v rest (i + 1) (some |v - xi|) i - (i + 1)) + 1 := by omega
          rw [this, List.getElem?_cons_succ]; exact hm
        · intro j x hj hx
          obtain ⟨j', rfl⟩ : ∃ j', j = j' + 1 := ⟨j - 1, by omega⟩
          rw [List.getElem?_cons_succ] at hx
          exact hlast j' x (by omega) hx
    · have hle' : leDist |v - xi| dist = false := by simpa using hle
      rw [if_neg hle]
      rcases ih (i + 1) dist idx with ⟨h1, h2⟩ | ⟨h1, m, hm, hd, hlast⟩
      · left
        refine ⟨h1, ?_⟩
        intro x hx
        rcases List.mem_cons.mp hx with rfl | hx
        · exact hle'
        · exact h2 x hx
      · right
        refine ⟨by omega, m, ?_, hd, ?_⟩
        · have : nearestScan v rest (i + 1) dist idx - i
              = (nearestScan v rest (i + 1) dist idx - (i + 1)) + 1 := by omega
          rw [this, List.getElem?_cons_succ]; exact hm
        · intro j x hj hx
          obtain ⟨j', rfl⟩ : ∃ j', j = j' + 1 := ⟨j - 1, by omega⟩
          rw [List.getElem?_cons_succ] at hx
          exact hlast j' x (by omega) hx

/-- The index returned by `nearestNeighbourIndex` on a non-empty list is inside the list,
its element is at the least distance from the value, and every later element is at a
strictly greater distance. -/
theorem nearestNeighbourIndex_spec (xs : List ℚ) (v : ℚ) (h : xs ≠ []) :
    nearestNeighbourIndex xs v < xs.length ∧
    (∀ j, j < xs.length →
      |v - xs.getD (nearestNeighbourIndex xs v) 0| ≤ |v - xs.getD j 0|) ∧
    (∀ j, j < xs.length → nearestNeighbourIndex xs v < j →
      |v - xs.getD (nearestNeighbourIndex xs v) 0| < |v - xs.getD j 0|) := by
  have hlt := nearestNeighbourIndex_lt xs v h
  obtain ⟨m, hm, hmin⟩ := nearestNeighbourIndex_min xs v h
  have hget : xs.getD (nearestNeighbourIndex xs v) 0 = m := by
    rw [List.getD_eq_getElem?_getD, hm]; rfl
  refine ⟨hlt, ?_, ?_⟩
  · intro j hj
    rw [hget]
    apply hmin
    rw [List.getD_eq_getElem?_getD, List.getElem?_eq_getElem hj]
    exact List.getElem_mem _
  · intro j hj hgt
    rcases nearestScan_last v xs 0 none 0 with ⟨_, h2⟩ | ⟨_, m', hm', _, hlast⟩
    · obtain ⟨x, rest, rfl⟩ := List.exists_cons_of_ne_nil h
      have := h2 x (List.mem_cons_self _ _)
      simp [leDist] at this
    · have hm'' : xs[nearestNeighbourIndex xs v]? = some m' := by
        simpa [nearestNeighbourIndex] using hm'
      rw [hm] at hm''
      have hmm : m = m' := Option.some.inj hm''
      rw [hget, hmm]
      apply hlast j (xs.getD j 0)
      · simpa [nearestNeighbourIndex] using hgt
      · rw [List.getD_eq_getElem?_getD, List.getElem?_eq_getElem hj]; rfl

/-- In a strictly increasing list an entry is below every later entry. -/
theorem strictlyIncreasing_getD_lt {xs : List ℚ} (h : StrictlyIncreasing xs) (i j : Nat)
    (hij : i < j) (hj : j < xs.length) : xs.getD i 0 < xs.getD j 0 := by
  rw [List.getD_eq_getElem?_getD, List.getD_eq_getElem?_getD,
    List.getElem?_eq_getElem hj, List.getElem?_eq_getElem (by omega)]
  exact (List.pairwise_iff_getElem.mp h) i j (by omega) hj hij

/-- The line through `(x1, y1)` with the slope of the segment from `(x0, y0)` to
`(x1, y1)`, in the form `linealInterp1` computes it and in two-point form. -/
theorem line_through_right (y1 y0 x1 x0 q : ℚ) (hd : x1 - x0 ≠ 0) :
    q * ((y1 - y0) / (x1 - x0)) + (y1 - x1 * ((y1 - y0) / (x1 - x0)))
      = y0 + (q - x0) * (y1 - y0) / (x1 - x0) := by
  field_simp
  ring

/-- The line through `(x0, y0)` with the slope of the segment from `(x0, y0)` to
`(x1, y1)`, in the form `linealInterp1` computes it and in two-point form. -/
theorem line_through_left (y1 y0 x1 x0 q : ℚ) :
    q * ((y1 - y0) / (x1 - x0)) + (y0 - x0 * ((y1 - y0) / (x1 - x0)))
      = y0 + (q - x0) * (y1 - y0) / (x1 - x0) := by
  ring

/-- On strictly increasing `xs` of at least 2 points, a query inside `[xs[0], xs[last]]`
is interpolated on a segment of `xs` that contains it. -/
theorem interpPoint_segment (xs ys : List ℚ) (q : ℚ) (hn : 2 ≤ xs.length)
    (hy : ys.length = xs.length) (hx : ∀ i j, i < j → j < xs.length → xs.getD i 0 < xs.getD j 0)
    (hlo : xs.getD 0 0 ≤ q) (hhi : q ≤ xs.getD (xs.length - 1) 0) :
    ∃ k, k + 1 < xs.length ∧ xs.getD k 0 ≤ q ∧ q ≤ xs.getD (k + 1) 0 ∧
      interpPoint xs ys q = .ok (segmentValue xs ys k q) := by
  have hne : xs ≠ [] := by
    intro h; rw [h] at hn; simp at hn
  obtain ⟨hidx, hmin, _⟩ := nearestNeighbourIndex_spec xs q hne
  unfold interpPoint
  simp only []
  generalize nearestNeighbourIndex xs q = idx at hidx hmin ⊢
  rw [rd_getD _ _ hidx, rd_getD ys idx (by omega)]
  simp only [bind_ok_eq]
  by_cases h1 : xs.getD idx 0 > q
  · have h2 : idx > 0 := by
      by_contra hc
      have : idx = 0 := by omega
      rw [this] at h1
      linarith
    have hlt := hx (idx - 1) idx (by omega) hidx
    have hb : xs.getD (idx - 1) 0 ≤ q := by
      by_contra hc
      have hc' := not_le.mp hc
      have := hmin (idx - 1) (by omega)
      rw [abs_of_neg (by linarith), abs_of_neg (by linarith)] at this
      linarith
    refine ⟨idx - 1, by omega, hb, ?_, ?_⟩
    · have : idx - 1 + 1 = idx := by omega
      rw [this]; exact le_of_lt h1
    · simp only [if_pos h1, if_pos h2, diffPrev_getD xs idx h2 hidx,
        diffPrev_getD ys idx h2 (by omega), bind_ok_eq]
      have e : idx - 1 + 1 = idx := by omega
      rw [e]
      have hd : xs.getD idx 0 - xs.getD (idx - 1) 0 ≠ 0 := by
        intro h0; linarith
      rw [if_neg hd]
      show Except.ok _ = Except.ok _
      congr 1
      unfold segmentValue
      rw [e]
      exact line_through_right _ _ _ _ q hd
  · have h1' : xs.getD idx 0 ≤ q := not_lt.mp h1
    by_cases h2 : idx < xs.length - 1
    · have h3 : idx + 1 < xs.length := by omega
      have hlt := hx idx (idx + 1) (by omega) h3
      have hb : q ≤ xs.getD (idx + 1) 0 := by
        by_contra hc
        have hc' := not_le.mp hc
        have := hmin (idx + 1) h3
        rw [abs_of_nonneg (by linarith), abs_of_nonneg (by linarith)] at this
        linarith
      refine ⟨idx, h3, h1', hb, ?_⟩
      simp only [if_neg h1, if_pos h2, diffAt_getD xs idx h3,
        diffAt_getD ys idx (by omega), bind_ok_eq]
      have hd : xs.getD (idx + 1) 0 - xs.getD idx 0 ≠ 0 := by
        intro h0; linarith
      rw [if_neg hd]
      show Except.ok _ = Except.ok _
      congr 1
      unfold segmentValue
      exact line_through_left _ _ _ _ q
    · have h3 : 0 < idx := by omega
      have hlast : idx = xs.length - 1 := by omega
      have hq : q = xs.getD idx 0 := by
        rw [← hlast] at hhi
        linarith
      have hlt := hx (idx - 1) idx (by omega) hidx
      have e : idx - 1 + 1 = idx := by omega
      refine ⟨idx - 1, by omega, by linarith, by rw [e]; linarith, ?_⟩
      simp only [if_neg h1, if_neg h2, diffPrev_getD xs idx h3 hidx,
        diffPrev_getD ys idx h3 (by omega), bind_ok_eq]
      rw [e]
      have hd : xs.getD idx 0 - xs.getD (idx - 1) 0 ≠ 0 := by
        intro h0; linarith
      rw [if_neg hd]
      show Except.ok _ = Except.ok _
      congr 1
      unfold segmentValue
      rw [e]
      exact line_through_right _ _ _ _ q hd

/-- At a point of `xs` the segment that starts there gives the value of `ys` there. -/
theorem segmentValue_left (xs ys : List ℚ) (k : Nat) :
    segmentValue xs ys k (xs.getD k 0) = ys.getD k 0 := by
  unfold segmentValue
  rw [sub_self, zero_mul, zero_div, add_zero]

/-- At a point of strictly increasing `xs` the segment that ends there gives the value of
`ys` there. -/
theorem segmentValue_right (xs ys : List ℚ) (k : Nat) (hx : ∀ i j, i < j → j < xs.length → xs.getD i 0 < xs.getD j 0)
    (hk : k + 1 < xs.length) :
    segmentValue xs ys k (xs.getD (k + 1) 0) = ys.getD (k + 1) 0 := by
  have hlt := hx k (k + 1) (by omega) hk
  have hd : xs.getD (k + 1) 0 - xs.getD k 0 ≠ 0 := by
    intro h0; linarith
  unfold segmentValue
  rw [mul_div_assoc, mul_div_cancel₀ _ hd]
  ring

/-- Two segments of strictly increasing `xs` that both contain `q` give `q` the same
value. -/
theorem segmentValue_unique (xs ys : List ℚ) (q : ℚ) (hx : ∀ i j, i < j → j < xs.length → xs.getD i 0 < xs.getD j 0)
    (j k : Nat) (hj : j + 1 < xs.length) (hk : k + 1 < xs.length)
    (hj1 : xs.getD j 0 ≤ q) (hj2 : q ≤ xs.getD (j + 1) 0)
    (hk1 : xs.getD k 0 ≤ q) (hk2 : q ≤ xs.getD (k + 1) 0) :
    segmentValue xs ys j q = segmentValue xs ys k q := by
  have key : ∀ a b, a < b → b + 1 < xs.length → xs.getD a 0 ≤ q → q ≤ xs.getD (a + 1) 0 →
      xs.getD b 0 ≤ q → segmentValue xs ys a q = segmentValue xs ys b q := by
    intro a b hab hb ha1 ha2 hb1
    have hb' : b = a + 1 := by
      by_contra hc
      have := hx (a + 1) b (by omega) (by omega)
      linarith
    subst hb'
    have hq : q = xs.getD (a + 1) 0 := le_antisymm ha2 hb1
    rw [hq, segmentValue_right xs ys a hx (by omega), segmentValue_left]
  rcases Nat.lt_trichotomy j k with h | h | h
  · exact key j k h hk hj1 hj2 hk1
  · rw [h]
  · exact (key k j h hj hk1 hk2 hj1).symm

theorem interpPoint_short (xs ys : List ℚ) (q : ℚ) (h : xs.length < 2) :
    interpPoint xs ys q = .error .undefinedBehaviour := by
  match xs, h with
  | [], _ => rfl
  | [a], _ =>
    unfold interpPoint
    have hidx : nearestNeighbourIndex [a] q = 0 := by
      simp [nearestNeighbourIndex, nearestScan, leDist]
    simp only [hidx]
    by_cases h1 : a > q
    · simp [rd, diffAt, h1]
    · simp [rd, diffPrev, h1]

theorem indexAxis_getD (m i : Nat) (h : i < m) : (indexAxis m).getD i 0 = (i : ℚ) := by
  rw [List.getD_eq_getElem?_getD, indexAxis_getElem? m i h]; rfl

theorem stepAxis_getD (portion : ℚ) :
    ∀ (k i : Nat) (p : ℚ), i < k →
      (stepAxis portion k p).getD i 0 = p + ((i : ℚ) + 1) * portion := by
  intro k
  induction k with
  | zero => intro i p hi; omega
  | succ k ih =>
    intro i p hi
    cases i with
    | zero => simp [stepAxis]
    | succ i =>
      rw [stepAxis, List.getD_cons_succ, ih i _ (by omega)]
      push_cast
      ring

/-- The positions that `interpWaypointList` queries are evenly spaced over the index
domain. -/
theorem queryAxis_getD (size : Nat) (a : ℤ) (k : Nat) (hs : 1 ≤ size)
    (hk : (k : ℤ) < a) :
    (queryAxis size a).getD k 0 = (k : ℚ) * (((size : ℚ) - 1) / (a : ℚ)) := by
  unfold queryAxis
  cases k with
  | zero => simp
  | succ k =>
    rw [List.getD_cons_succ, stepAxis_getD _ _ _ _ (by omega)]
    rw [Nat.cast_sub hs]
    push_cast
    ring

/-- An index position inside the index domain is resampled to the value of the
piecewise-linear interpolant of the list there. -/
theorem resampled_eq_indexInterpolant (ys : List ℚ) (p : ℚ) (hn : 2 ≤ ys.length)
    (h0 : 0 ≤ p) (h1 : p < (ys.length : ℚ) - 1) :
    resampled ys p = indexInterpolant ys p := by
  have hx : ∀ i j, i < j → j < (indexAxis ys.length).length →
      (indexAxis ys.length).getD i 0 < (indexAxis ys.length).getD j 0 := by
    intro i j hij hj
    rw [indexAxis_length] at hj
    rw [indexAxis_getD _ _ hj, indexAxis_getD _ _ (by omega)]
    exact_mod_cast hij
  have hfl : ⌊p⌋₊ + 1 < ys.length := by
    have : ⌊p⌋₊ < ys.length - 1 := by
      rw [Nat.floor_lt h0]
      rw [Nat.cast_sub (by omega)]
      exact_mod_cast h1
    omega
  obtain ⟨k, hk, hk1, hk2, hv⟩ := interpPoint_segment (indexAxis ys.length) ys p
    (by simpa using hn) (by simp) hx
    (by rw [indexAxis_getD _ _ (by omega)]; exact_mod_cast h0)
    (by
      rw [indexAxis_length, indexAxis_getD _ _ (by omega), Nat.cast_sub (by omega)]
      exact_mod_cast le_of_lt h1)
  rw [indexAxis_length] at hk
  have hu := segmentValue_unique (indexAxis ys.length) ys p hx k ⌊p⌋₊
    (by simpa using hk) (by simpa using hfl) hk1 hk2
    (by rw [indexAxis_getD _ _ (by omega)]; exact Nat.floor_le h0)
    (by
      rw [indexAxis_getD _ _ hfl]
      exact_mod_cast le_of_lt (Nat.lt_floor_add_one p))
  rw [interpPoint_indexAxis ys p hn] at hv
  have hv' := Except.ok.inj hv
  unfold resampled
  rw [hv', hu]
  unfold segmentValue indexInterpolant
  rw [indexAxis_getD _ _ hfl, indexAxis_getD _ _ (by omega)]
  push_cast
  ring

/-- One velocity of `capMaxVelocities` is clamped into its range. -/
theorem capVelocity_spec (range : ℚ × ℚ) (v : ℚ) (h : range.1 ≤ range.2) :
    range.1 ≤ capVelocity range v ∧ capVelocity range v ≤ range.2 ∧
    (range.1 ≤ v → v ≤ range.2 → capVelocity range v = v) ∧
    (v < range.1 → capVelocity range v = range.1) ∧
    (range.2 < v → capVelocity range v = range.2) := by
  unfold capVelocity
  simp only []
  refine ⟨?_, ?_, ?_, ?_, ?_⟩
  · split_ifs <;> linarith
  · split_ifs <;> linarith
  · intro h1 h2
    rw [if_neg (not_lt.mpr h1), if_neg (not_lt.mpr h2)]
  · intro h1
    rw [if_pos h1, if_neg (not_lt.mpr h)]
  · intro h1
    rw [if_neg (not_lt.mpr (le_trans h (le_of_lt h1))), if_pos h1]

/-- The sample count that the linear mode requests: fifty times the `int` distance when
that is an `int`, and `INT_MIN` otherwise. -/
theorem linearCount_eq (norm : Vec3 → ℚ) (_init_path : Path) :
    linearCount norm _init_path
      = if INT_MIN ≤ 50 * accumDistance norm 0 (_init_path.poses.map (fun p => p.position))
          ∧ 50 * accumDistance norm 0 (_init_path.poses.map (fun p => p.position)) ≤ INT_MAX
        then 50 * accumDistance norm 0 (_init_path.poses.map (fun p => p.position))
        else INT_MIN := by
  rw [linearCount, truncToInt_div]

/-- In the spline modes `createPathCubicSpline` fits the splines through the resampled
coordinate lists, which have as many entries as joints are requested. -/
theorem createPathCubicSpline_eq (norm : Vec3 → ℚ) (ecl : EclSpline) (g : Generator)
    (lx ly lz : List ℚ) (hm : 2 ≤ lx.length) (hy : ly.length = lx.length)
    (hz : lz.length = lx.length) (hj : 1 ≤ jointCount g.mode_ lx.length)
    (hD : 0 ≤ accumDistance norm 0 ((points lx ly lz).take lx.length))
    (hfit : (jointCount g.mode_ lx.length - 1)
      * accumDistance norm 0 ((points lx ly lz).take lx.length) ≤ INT_MAX) :
    ∃ jx jy jz : List ℚ, ∃ (sp_pts : ℚ) (amount : ℤ),
      interpWaypointList lx (jointCount g.mode_ lx.length) = .ok jx ∧
      interpWaypointList ly (jointCount g.mode_ lx.length) = .ok jy ∧
      interpWaypointList lz (jointCount g.mode_ lx.length) = .ok jz ∧
      (jx.length : ℤ) = jointCount g.mode_ lx.length ∧
      (jy.length : ℤ) = jointCount g.mode_ lx.length ∧
      (jz.length : ℤ) = jointCount g.mode_ lx.length ∧
      createPathCubicSpline norm ecl g lx ly lz lx.length
        = .ok ⟨"", posesOf (sampleSpline (ecl.Natural (indexAxis jx.length) jx) sp_pts amount)
            (sampleSpline (ecl.Natural (indexAxis jx.length) jy) sp_pts amount)
            (sampleSpline (ecl.Natural (indexAxis jx.length) jz) sp_pts amount)⟩ := by
  have hlen : ∀ l : List ℚ,
      ((((queryAxis l.length (jointCount g.mode_ lx.length)).map (resampled l)).length : ℕ) : ℤ)
        = jointCount g.mode_ lx.length := by
    intro l
    rw [List.length_map, queryAxis_length]
    push_cast
    rw [Int.toNat_of_nonneg (by omega)]
    ring
  have hlenN : ∀ l l' : List ℚ,
      ((queryAxis l.length (jointCount g.mode_ lx.length)).map (resampled l)).length
        = ((queryAxis l'.length (jointCount g.mode_ lx.length)).map (resampled l')).length := by
    intro l l'
    rw [List.length_map, List.length_map, queryAxis_length, queryAxis_length]
  refine ⟨_, _, _,
    ((accumDistance norm 0 ((points lx ly lz).take lx.length) : ℤ) : ℚ),
    truncToInt
      (((((queryAxis lx.length (jointCount g.mode_ lx.length)).map (resampled lx)).length : ℚ)
          - 1)
        * ((accumDistance norm 0 ((points lx ly lz).take lx.length) : ℤ) : ℚ)),
    interpWaypointList_eq lx _ hm, interpWaypointList_eq ly _ (by omega),
    interpWaypointList_eq lz _ (by omega), hlen lx, hlen ly, hlen lz, ?_⟩
  unfold createPathCubicSpline
  have h1 : ((lx.length : ℤ) > 1) := by omega
  rw [if_pos h1]
  simp only [Int.toNat_ofNat]
  rw [interpWaypointList_eq lx _ hm, interpWaypointList_eq ly _ (by omega),
    interpWaypointList_eq lz _ (by omega)]
  simp only [bind_ok_eq]
  rw [if_neg (by rw [hlenN ly lx, hlenN lz lx]; simp)]
  rw [List.take_of_length_le (le_of_eq (hlenN ly lx)),
    List.take_of_length_le (le_of_eq (hlenN lz lx))]
  have hnn : ¬ truncToInt
      (((((queryAxis lx.length (jointCount g.mode_ lx.length)).map (resampled lx)).length : ℚ)
          - 1)
        * ((accumDistance norm 0 ((points lx ly lz).take lx.length) : ℤ) : ℚ)) < 0 := by
    have hq : ((((queryAxis lx.length (jointCount g.mode_ lx.length)).map
          (resampled lx)).length : ℚ) - 1)
        * ((accumDistance norm 0 ((points lx ly lz).take lx.length) : ℤ) : ℚ)
        = (((jointCount g.mode_ lx.length - 1)
            * accumDistance norm 0 ((points lx ly lz).take lx.length) : ℤ) : ℚ) := by
      have hq1 : ((((queryAxis lx.length (jointCount g.mode_ lx.length)).map
          (resampled lx)).length : ℕ) : ℚ) = ((jointCount g.mode_ lx.length : ℤ) : ℚ) := by
        exact_mod_cast hlen lx
      rw [hq1]
      push_cast
      ring
    have hnn : 0 ≤ (jointCount g.mode_ lx.length - 1)
        * accumDistance norm 0 ((points lx ly lz).take lx.length) :=
      mul_nonneg (by omega) hD
    rw [hq, truncToInt_intCast _ (le_trans (by decide : INT_MIN ≤ 0) hnn) hfit]
    exact not_lt.mpr hnn
  rw [vectorOfSize_bind, if_neg hnn]
  rw [constructPath_eq _ _ _ (by simp [sampleSpline_length]) (by simp [sampleSpline_length])]

/-- A tracking tick outside trajectory mode that returns has resolved an anchor, a
look-ahead index and a command, and stored the anchor and the command. -/
theorem getVelocity_tracking_inv (norm : Vec3 → ℚ) (f f' : Follower) (v : Twist)
    (hsize : 2 ≤ f.target_path_.poses.length) (hmode : f.follower_mode_ ≠ 1)
    (htrack : f.flag_run_ = true ∨
      ∃ p0, f.target_path_.poses[0]? = some p0 ∧
        norm (f.ual_pose_.position.sub p0.position) < 1)
    (h : getVelocity norm f = .ok (f', v)) :
    ∃ anchor la,
      calculatePosOnPath norm f f.ual_pose_.position (f.look_ahead_ * 1.5)
        f.prev_normal_pos_on_path_ f.target_path_ = .ok anchor ∧
      calculatePosLookAhead norm f anchor = .ok la ∧
      calculateVelocity norm f f.ual_pose_.position la 0 = .ok v ∧
      f' = { f with flag_run_ := true, prev_normal_pos_on_path_ := anchor,
                    out_velocity_ := v } := by
  rw [getVelocity_tracking norm f hsize hmode htrack] at h
  cases h2 : calculatePosOnPath norm f f.ual_pose_.position (f.look_ahead_ * 1.5)
      f.prev_normal_pos_on_path_ f.target_path_ with
  | error e => rw [h2] at h; simp at h
  | ok anchor =>
    rw [h2] at h
    simp only [bind_ok_eq] at h
    cases h3 : calculatePosLookAhead norm f anchor with
    | error e => rw [h3] at h; simp at h
    | ok la =>
      rw [h3] at h
      simp only [bind_ok_eq] at h
      cases h4 : calculateVelocity norm f f.ual_pose_.position la 0 with
      | error e => rw [h4] at h; simp at h
      | ok out =>
        rw [h4] at h
        simp only [bind_ok_eq] at h
        refine ⟨anchor, la, rfl, h3, ?_⟩
        split at h
        · cases h5 : prepareDebug norm f (f.look_ahead_ * 1.5) anchor la anchor with
          | error e => rw [h5] at h; simp at h
          | ok u =>
            rw [h5] at h
            simp only [bind_ok_eq, pure_eq_ok, Except.ok.injEq, Prod.mk.injEq] at h
            rw [h4, ← h.1, ← h.2]
            exact ⟨rfl, rfl⟩
        · simp only [pure_eq_ok, Except.ok.injEq, Prod.mk.injEq] at h
          rw [h4, ← h.1, ← h.2]
          exact ⟨rfl, rfl⟩

/-- A tracking tick in trajectory mode that returns has resolved an anchor, a look-ahead
distance, a look-ahead index and a command, and stored the anchor, the distance and the
command. -/
theorem getVelocity_tracking_trajectory_inv (norm : Vec3 → ℚ) (f f' : Follower) (v : Twist)
    (hsize : 2 ≤ f.target_path_.poses.length) (hmode : f.follower_mode_ = 1)
    (htrack : f.flag_run_ = true ∨
      ∃ p0, f.target_path_.poses[0]? = some p0 ∧
        norm (f.ual_pose_.position.sub p0.position) < 1)
    (h : getVelocity norm f = .ok (f', v)) :
    ∃ anchor look_ahead la,
      calculatePosOnPath norm f f.ual_pose_.position (f.look_ahead_ * 1.5)
        f.prev_normal_vel_on_path_ f.target_path_ = .ok anchor ∧
      changeLookAhead f anchor = .ok look_ahead ∧
      calculatePosLookAhead norm { f with look_ahead_ := look_ahead } anchor = .ok la ∧
      calculateVelocity norm f f.ual_pose_.position la anchor = .ok v ∧
      f' = { f with flag_run_ := true, prev_normal_vel_on_path_ := anchor,
                    look_ahead_ := look_ahead, out_velocity_ := v } := by
  rw [getVelocity_tracking_trajectory norm f hsize hmode htrack] at h
  cases h1 : calculatePosOnPath norm f f.ual_pose_.position (f.look_ahead_ * 1.5)
      f.prev_normal_vel_on_path_ f.target_path_ with
  | error e => rw [h1] at h; simp at h
  | ok anchor =>
    rw [h1] at h
    simp only [bind_ok_eq] at h
    cases h2 : changeLookAhead f anchor with
    | error e => rw [h2] at h; simp at h
    | ok l =>
      rw [h2] at h
      simp only [bind_ok_eq] at h
      cases h3 : calculatePosLookAhead norm { f with look_ahead_ := l } anchor with
      | error e => rw [h3] at h; simp at h
      | ok la =>
        rw [h3] at h
        simp only [bind_ok_eq] at h
        cases h4 : calculateVelocity norm f f.ual_pose_.position la anchor with
        | error e => rw [h4] at h; simp at h
        | ok out =>
          rw [h4] at h
          simp only [bind_ok_eq] at h
          refine ⟨anchor, l, la, rfl, h2, h3, ?_⟩
          split at h
          · cases h5 : prepareDebug norm f (f.look_ahead_ * 1.5) anchor la anchor with
            | error e => rw [h5] at h; simp at h
            | ok u =>
              rw [h5] at h
              simp only [bind_ok_eq, pure_eq_ok, Except.ok.injEq, Prod.mk.injEq] at h
              rw [h4, ← h.1, ← h.2]
              exact ⟨rfl, rfl⟩
          · simp only [pure_eq_ok, Except.ok.injEq, Prod.mk.injEq] at h
            rw [h4, ← h.1, ← h.2]
            exact ⟨rfl, rfl⟩

theorem abs_lt_abs_left {lo hi s : ℚ} (h : lo ≤ hi) (hd : |hi - s| < |lo - s|) :
    lo < hi ∧ (lo + hi) / 2 < s := by
  rcases lt_abs.mp hd with h1 | h1
  · have := le_abs_self (hi - s)
    exfalso; linarith
  · have h2 := abs_lt.mp h1
    constructor <;> linarith [h2.1, h2.2]

theorem abs_lt_abs_right {lo hi s : ℚ} (h : lo < hi) (hs : (lo + hi) / 2 < s) :
    |hi - s| < |lo - s| := by
  have h1 : |lo - s| = s - lo := by
    rw [abs_of_neg (by linarith)]; ring
  rw [h1, abs_lt]
  constructor <;> linarith

/-- On a line the length of a segment is the difference of the coordinates of its ends. -/
theorem segmentLength_line (norm : Vec3 → ℚ) (poses : List Pose) (t : Nat → ℚ)
    (hline : ∀ i j, i < poses.length → j < poses.length →
      norm ((poses.getD i Pose.origin).position.sub (poses.getD j Pose.origin).position)
        = |t i - t j|)
    (hmono : ∀ i j, i ≤ j → j < poses.length → t i ≤ t j) (i : Nat)
    (hi : i + 1 < poses.length) : segmentLength norm poses i = t (i + 1) - t i := by
  unfold segmentLength
  rw [hline (i + 1) i hi (by omega), abs_of_nonneg]
  linarith [hmono i (i + 1) (by omega) hi]

/-- On a line the path distance between two points is the difference of their
coordinates. -/
theorem pathDistance_line (norm : Vec3 → ℚ) (poses : List Pose) (t : Nat → ℚ)
    (hline : ∀ i j, i < poses.length → j < poses.length →
      norm ((poses.getD i Pose.origin).position.sub (poses.getD j Pose.origin).position)
        = |t i - t j|)
    (hmono : ∀ i j, i ≤ j → j < poses.length → t i ≤ t j) (i : Nat) :
    ∀ j, i ≤ j → j < poses.length → pathDistance norm poses i j = t j - t i := by
  intro j
  induction j with
  | zero =>
    intro hij _
    have : i = 0 := by omega
    subst this
    rw [pathDistance_self]; ring
  | succ j ih =>
    intro hij hj
    by_cases h : i = j + 1
    · subst h
      rw [pathDistance_self]; ring
    · rw [pathDistance_succ_top _ _ _ _ (by omega), ih (by omega) (by omega),
        segmentLength_line norm poses t hline hmono j hj]
      ring

/-- The forward bound of the search window in full: the last path index when the range is
not below the straight-line distance from the anchor to the last point, and otherwise the
last index from the anchor on up to whose successor the path distance from the anchor is
below the range. -/
theorem calculateDistanceOnPath_forward_full (norm : Vec3 → ℚ) (f : Follower) (a e : Nat)
    (m : ℚ) (hm : m > 0) (h : calculateDistanceOnPath norm f a m = .ok e) :
    a < f.target_path_.poses.length ∧
      ((¬ m < norm ((f.target_path_.poses.getD a Pose.origin).position.sub
            (f.target_path_.poses.getD (f.target_path_.poses.length - 1) Pose.origin).position) ∧
          e = f.target_path_.poses.length - 1) ∨
        (m < norm ((f.target_path_.poses.getD a Pose.origin).position.sub
            (f.target_path_.poses.getD (f.target_path_.poses.length - 1) Pose.origin).position) ∧
          a ≤ e ∧ e + 1 < f.target_path_.poses.length ∧
          pathDistance norm f.target_path_.poses a (e + 1) < m ∧
          (e + 1 = f.target_path_.poses.length - 1 ∨
            ¬ pathDistance norm f.target_path_.poses a (e + 2) < m))) := by
  unfold calculateDistanceOnPath at h
  simp only [] at h
  cases h1 : rdAt f.target_path_.poses a with
  | error x => rw [h1] at h; simp at h
  | ok p_prev =>
    obtain ⟨ha, hp⟩ := rdAt_getD _ _ _ h1
    refine ⟨ha, ?_⟩
    cases h2 : rd f.target_path_.poses 0 with
    | error x => rw [h1, h2] at h; simp at h
    | ok p_front =>
      cases h3 : rd f.target_path_.poses (f.target_path_.poses.length - 1) with
      | error x => rw [h1, h2, h3] at h; simp at h
      | ok p_back =>
        have hb := rd_ok_getD _ _ _ h3
        rw [h1, h2, h3] at h
        simp only [bind_ok_eq, if_pos hm] at h
        rw [hp, hb]
        split at h
        · rename_i hlt
          right
          obtain ⟨res, hres, hcase⟩ := forwardScan_full norm f.target_path_.poses m
            (f.target_path_.poses.length - 1 - a) a 0 none (by omega)
          rw [hres] at h
          simp only [bind_ok_eq] at h
          rcases hcase with ⟨hr, _⟩ | ⟨r, hr, h5, h6, h7, h8⟩
          · subst hr
            simp [assigned] at h
          · subst hr
            simp only [assigned, Except.ok.injEq] at h
            subst h
            refine ⟨hlt, h5, by omega, by linarith, ?_⟩
            rcases h8 with h8 | h8
            · left; omega
            · right
              intro hc
              apply h8
              linarith
        · rename_i hge
          simp only [pure_eq_ok, Except.ok.injEq] at h
          exact Or.inl ⟨hge, h.symm⟩

/-- A search that returns has computed its window: on a non-empty window the index
returned is the first index of the window whose point is nearest to the current point, on
an empty window it is the start of the window. -/
theorem calculatePosOnPath_inv (norm : Vec3 → ℚ) (f : Follower) (c : Vec3) (R : ℚ)
    (a a' : Nat) (h : calculatePosOnPath norm f c R a f.target_path_ = .ok a') :
    ∃ s e, calculateDistanceOnPath norm f a (-R) = .ok s ∧
      calculateDistanceOnPath norm f a R = .ok e ∧
      (s < e → s ≤ a' ∧ a' < e ∧
        (∀ i, s ≤ i → i < e →
          pointDistance norm f.target_path_.poses c a'
            ≤ pointDistance norm f.target_path_.poses c i) ∧
        (∀ i, s ≤ i → i < a' →
          pointDistance norm f.target_path_.poses c a'
            < pointDistance norm f.target_path_.poses c i)) ∧
      (e ≤ s → a' = s) := by
  cases hs : calculateDistanceOnPath norm f a (-R) with
  | error x =>
    unfold calculatePosOnPath at h
    rw [hs] at h; simp at h
  | ok s =>
    cases he : calculateDistanceOnPath norm f a R with
    | error x =>
      unfold calculatePosOnPath at h
      rw [hs, he] at h; simp at h
    | ok e =>
      refine ⟨s, e, rfl, rfl, ?_, ?_⟩
      · intro hlt
        obtain ⟨anchor, hanchor, h1, h2, h3, h4⟩ :=
          calculatePosOnPath_spec norm f c R a s e hs he hlt
        rw [hanchor] at h
        have := Except.ok.inj h
        subst this
        exact ⟨h1, h2, h3, h4⟩
      · intro hle
        unfold calculatePosOnPath at h
        rw [hs, he] at h
        have h0 : e - s = 0 := by omega
        simp only [bind_ok_eq, h0, windowDistances, minElementIndex, pure_eq_ok,
          Except.ok.injEq] at h
        omega

/-- On a straight-line path, when the search from the anchor `a0` at a position with
coordinate `s1` resolves an anchor `a1 >= a0`, the search from `a1` with the same range
at a position with coordinate `s2 >= s1` resolves an anchor `a2 >= a1`. -/
theorem calculatePosOnPath_step (norm : Vec3 → ℚ) (f : Follower) (R : ℚ) (t : Nat → ℚ)
    (c1 c2 : Vec3) (s1 s2 : ℚ) (a0 a1 a2 : Nat) (hR : 0 < R)
    (hline : ∀ i j, i < f.target_path_.poses.length → j < f.target_path_.poses.length →
      norm ((f.target_path_.poses.getD i Pose.origin).position.sub
        (f.target_path_.poses.getD j Pose.origin).position) = |t i - t j|)
    (hmono : ∀ i j, i ≤ j → j < f.target_path_.poses.length → t i ≤ t j)
    (hc1 : ∀ i, i < f.target_path_.poses.length →
      pointDistance norm f.target_path_.poses c1 i = |t i - s1|)
    (hc2 : ∀ i, i < f.target_path_.poses.length →
      pointDistance norm f.target_path_.poses c2 i = |t i - s2|)
    (hadv : s1 ≤ s2)
    (h1 : calculatePosOnPath norm f c1 R a0 f.target_path_ = .ok a1)
    (h2 : calculatePosOnPath norm f c2 R a1 f.target_path_ = .ok a2)
    (h0 : a0 ≤ a1) : a1 ≤ a2 := by
  obtain ⟨st0, e0, hs0, he0, hne0, hem0⟩ := calculatePosOnPath_inv norm f c1 R a0 a1 h1
  obtain ⟨st1, e1, hs1, he1, hne1, hem1⟩ := calculatePosOnPath_inv norm f c2 R a1 a2 h2
  have hst0 : st0 ≤ a0 := by
    rcases (calculateDistanceOnPath_backward norm f a0 st0 (-R) (by linarith) hs0).2
      with h | ⟨_, h, _⟩ <;> omega
  have hst1 : st1 ≤ a1 := by
    rcases (calculateDistanceOnPath_backward norm f a1 st1 (-R) (by linarith) hs1).2
      with h | ⟨_, h, _⟩ <;> omega
  have he0n := calculateDistanceOnPath_lt norm f a0 e0 R he0
  by_cases hw0 : st0 < e0
  · obtain ⟨h11, h12, h13, h14⟩ := hne0 hw0
    have hF0 := calculateDistanceOnPath_forward_full norm f a0 e0 R hR he0
    have hF1 := calculateDistanceOnPath_forward_full norm f a1 e1 R hR he1
    have ha0n : a0 < f.target_path_.poses.length := hF0.1
    have ha1n : a1 < f.target_path_.poses.length := hF1.1
    have hlast : f.target_path_.poses.length - 1 < f.target_path_.poses.length := by omega
    have hae1 : a1 < e1 := by
      rcases hF1.2 with ⟨_, he⟩ | ⟨hlt1, hae, hen, hpd, hmax⟩
      · omega
      · rcases hF0.2 with ⟨hge0, _⟩ | ⟨hlt0, hae0, hen0, hpd0, _⟩
        · exfalso
          rw [hline a1 _ ha1n hlast] at hlt1
          rw [hline a0 _ ha0n hlast] at hge0
          have m1 := hmono a1 (f.target_path_.poses.length - 1) (by omega) hlast
          have m0 := hmono a0 a1 h0 ha1n
          rw [abs_of_nonpos (by linarith)] at hlt1
          rw [abs_of_nonpos (by linarith)] at hge0
          linarith
        · by_contra hc
          have hea : e1 = a1 := by omega
          rw [hea] at hmax
          rcases hmax with h | h
          · omega
          · apply h
            rw [pathDistance_line norm _ t hline hmono a1 (a1 + 2) (by omega) (by omega)]
            rw [pathDistance_line norm _ t hline hmono a0 (e0 + 1) (by omega) hen0] at hpd0
            have m0 := hmono a0 a1 h0 ha1n
            have m1 := hmono (a1 + 2) (e0 + 1) (by omega) hen0
            linarith
    have hw1 : st1 < e1 := by omega
    obtain ⟨h21, h22, h23, h24⟩ := hne1 hw1
    by_contra hlt
    have hlt' : a2 < a1 := by omega
    have hd2 := h23 a1 hst1 hae1
    have hj : ∃ j, a2 ≤ j ∧ j < a1 ∧
        pointDistance norm f.target_path_.poses c1 a1
          < pointDistance norm f.target_path_.poses c1 j := by
      by_cases heq : a1 = a0
      · rw [heq] at hs1
        rw [hs0] at hs1
        have hst : st0 = st1 := Except.ok.inj hs1
        exact ⟨a2, le_refl _, hlt', h14 a2 (by omega) hlt'⟩
      · exact ⟨a1 - 1, by omega, by omega, h14 (a1 - 1) (by omega) (by omega)⟩
    obtain ⟨j, hj1, hj2, hj3⟩ := hj
    rw [hc1 a1 ha1n, hc1 j (by omega)] at hj3
    rw [hc2 a2 (by omega), hc2 a1 ha1n] at hd2
    obtain ⟨hlo, hmid⟩ := abs_lt_abs_left (hmono j a1 (by omega) ha1n) hj3
    have m2 := hmono a2 j hj1 (by omega)
    have := @abs_lt_abs_right (t a2) (t a1) s2 (by linarith) (by linarith)
    linarith
  · have ha1 : a1 = st0 := hem0 (by omega)
    have heq : a1 = a0 := by omega
    rw [heq] at hs1 he1
    rw [hs0] at hs1
    rw [he0] at he1
    have hst : st0 = st1 := Except.ok.inj hs1
    have hee : e0 = e1 := Except.ok.inj he1
    have := hem1 (by omega)
    omega

theorem tickAnchors_length (norm : Vec3 → ℚ) :
    ∀ (cs : List Pose) (f : Follower) (anchors : List Nat),
      tickAnchors norm cs f = .ok anchors → anchors.length = cs.length := by
  intro cs
  induction cs with
  | nil =>
    intro f anchors h
    simp only [tickAnchors, Except.ok.injEq] at h
    rw [← h]
    rfl
  | cons c rest ih =>
    intro f anchors h
    simp only [tickAnchors] at h
    cases hr : getVelocity norm (updatePose f c) with
    | error e => rw [hr] at h; simp at h
    | ok r =>
      rw [hr] at h
      simp only [bind_ok_eq] at h
      cases hrest : tickAnchors norm rest r.1 with
      | error e => rw [hrest] at h; simp at h
      | ok anchors' =>
        rw [hrest] at h
        simp only [bind_ok_eq, pure_eq_ok, Except.ok.injEq] at h
        rw [← h, List.length_cons, List.length_cons, ih r.1 anchors' hrest]

/-- On a straight-line path, in path mode, after a tick that did not move the anchor
backward, no later tick at a position further along the line does. -/
theorem tickAnchors_chain (norm : Vec3 → ℚ) (P : Path) (L : ℚ) (t : Nat → ℚ) (s : Pose → ℚ)
    (hL : 0 < L) (hsize : 2 ≤ P.poses.length)
    (hline : ∀ i j, i < P.poses.length → j < P.poses.length →
      norm ((P.poses.getD i Pose.origin).position.sub (P.poses.getD j Pose.origin).position)
        = |t i - t j|)
    (hmono : ∀ i j, i ≤ j → j < P.poses.length → t i ≤ t j) :
    ∀ (cs : List Pose) (f : Follower) (a_pp : Nat) (c_p : Pose) (anchors : List Nat),
      f.target_path_ = P → f.look_ahead_ = L → f.follower_mode_ ≠ 1 → f.flag_run_ = true →
      calculatePosOnPath norm f c_p.position (L * 1.5) a_pp P
        = .ok f.prev_normal_pos_on_path_ →
      a_pp ≤ f.prev_normal_pos_on_path_ →
      (∀ i, i < P.poses.length → pointDistance norm P.poses c_p.position i = |t i - s c_p|) →
      (∀ c ∈ cs, s c_p ≤ s c) →
      (∀ c ∈ cs, ∀ i, i < P.poses.length →
        pointDistance norm P.poses c.position i = |t i - s c|) →
      cs.Pairwise (fun c c' => s c ≤ s c') →
      tickAnchors norm cs f = .ok anchors →
      (∀ a ∈ anchors, f.prev_normal_pos_on_path_ ≤ a) ∧
        anchors.Pairwise (fun a b => a ≤ b) := by
  intro cs
  induction cs with
  | nil =>
    intro f a_pp c_p anchors _ _ _ _ _ _ _ _ _ _ h
    simp only [tickAnchors, Except.ok.injEq] at h
    rw [← h]
    exact ⟨by simp, List.Pairwise.nil⟩
  | cons c rest ih =>
    intro f a_pp c_p anchors hP hLA hmode hrun hprev hle hcp hsp hcs hadv h
    simp only [tickAnchors] at h
    cases hr : getVelocity norm (updatePose f c) with
    | error e => rw [hr] at h; simp at h
    | ok r =>
      rw [hr] at h
      simp only [bind_ok_eq] at h
      cases hrest : tickAnchors norm rest r.1 with
      | error e => rw [hrest] at h; simp at h
      | ok anchors' =>
        rw [hrest] at h
        simp only [bind_ok_eq, pure_eq_ok, Except.ok.injEq] at h
        obtain ⟨a, la, ha, _, _, hf1⟩ := getVelocity_tracking_inv norm (updatePose f c) r.1 r.2
          (by show 2 ≤ f.target_path_.poses.length; rw [hP]; exact hsize) hmode
          (Or.inl hrun) hr
        have ha' : calculatePosOnPath norm f c.position (L * 1.5)
            f.prev_normal_pos_on_path_ P = .ok a := by
          rw [← calculatePosOnPath_congr norm f (updatePose f c) rfl, ← hLA, ← hP]
          exact ha
        have e1 : r.1.target_path_ = P := by rw [hf1]; exact hP
        have e2 : r.1.look_ahead_ = L := by rw [hf1]; exact hLA
        have e3 : r.1.follower_mode_ ≠ 1 := by rw [hf1]; exact hmode
        have e4 : r.1.flag_run_ = true := by rw [hf1]
        have e5 : r.1.prev_normal_pos_on_path_ = a := by rw [hf1]
        have e6 : r.1.anchor = a := by
          unfold Follower.anchor
          rw [if_neg e3, e5]
        have hstep : f.prev_normal_pos_on_path_ ≤ a := by
          have hprev' := hprev
          have ha'' := ha'
          rw [← hP] at hprev' ha'' hline hmono hcp
          exact calculatePosOnPath_step norm f (L * 1.5) t c_p.position c.position (s c_p)
            (s c) a_pp f.prev_normal_pos_on_path_ a (by linarith) hline hmono hcp
            (by
              have := hcs c (List.mem_cons_self _ _)
              rw [← hP] at this
              exact this)
            (hsp c (List.mem_cons_self _ _)) hprev' ha'' hle
        obtain ⟨hall, hpw⟩ := ih r.1 f.prev_normal_pos_on_path_ c anchors' e1 e2 e3 e4
          (by
            rw [e5, calculatePosOnPath_congr norm f r.1 (by rw [e1, hP])]
            exact ha')
          (by rw [e5]; exact hstep)
          (hcs c (List.mem_cons_self _ _))
          (fun c' hc' => (List.pairwise_cons.mp hadv).1 c' hc')
          (fun c' hc' => hcs c' (List.mem_cons_of_mem _ hc'))
          (List.pairwise_cons.mp hadv).2 hrest
        rw [e5] at hall
        rw [← h, e6]
        refine ⟨?_, List.pairwise_cons.mpr ⟨hall, hpw⟩⟩
        intro x hx
        rcases List.mem_cons.mp hx with rfl | hx
        · exact hstep
        · exact le_trans hstep (hall x hx)

theorem maxElement_some_length (l : List ℚ) (M : ℚ) (h : maxElement l = some M) :
    0 < l.length := by
  cases l with
  | nil => simp [maxElement] at h
  | cons a l => simp

/-- An accepted fit has at least one sample. -/
theorem fitSpline_nonempty (ecl : EclSpline) (g : Generator) (lx ly lz : List ℚ) (D : ℤ) :
    ∀ (fuel : Nat) (nj : ℤ) (path : Path),
      fitSpline ecl g lx ly lz D fuel nj = .ok path → 1 ≤ path.poses.length := by
  intro fuel
  induction fuel with
  | zero => intro nj path h; simp [fitSpline] at h
  | succ fuel ih =>
    intro nj path h
    rw [fitSpline] at h
    cases hX : interpWaypointList lx nj with
    | error e => rw [hX] at h; simp at h
    | ok X =>
      cases hY : interpWaypointList ly nj with
      | error e => rw [hX, hY] at h; simp at h
      | ok Y =>
        cases hZ : interpWaypointList lz nj with
        | error e => rw [hX, hY, hZ] at h; simp at h
        | ok Z =>
          rw [hX, hY, hZ] at h
          simp only [bind_ok_eq] at h
          split at h
          · simp at h
          · rw [vectorOfSize_bind] at h
            have hnn : ¬ truncToInt (((X.length : ℚ) - 1) * (D : ℚ)) < 0 := by
              intro hc
              rw [if_pos hc] at h
              simp at h
            rw [if_neg hnn] at h
            split at h
            · rename_i M m hM hm
              split at h
              · simp at h
              · rename_i hsz
                split at h
                · have hne : ¬ nj = INT_MAX := by
                    intro hc
                    rw [if_pos hc] at h
                    simp at h
                  rw [if_neg hne] at h
                  exact ih (nj + 1) path h
                · rw [constructPath_eq _ _ _ (by simp [sampleSpline_length])
                    (by simp [sampleSpline_length])] at h
                  simp only [Except.ok.injEq] at h
                  subst h
                  have hpos := maxElement_some_length _ M hM
                  rw [checkVel_length] at hpos
                  rw [posesOf_length _ _ _ (by simp [sampleSpline_length])
                    (by simp [sampleSpline_length]), sampleSpline_length]
                  omega
            · simp at h

theorem timeBlocks_length (_times : List ℚ) (block : Nat) :
    (timeBlocks _times block).length = _times.length * block := by
  unfold timeBlocks
  induction _times with
  | nil => simp
  | cons t rest ih =>
    rw [List.flatMap_cons, List.length_append, ih, List.length_replicate, List.length_cons]
    ring

theorem mem_timeBlocks (_times : List ℚ) (block : Nat) (p : ℚ)
    (h : p ∈ timeBlocks _times block) : p ∈ _times := by
  unfold timeBlocks at h
  rw [List.mem_flatMap] at h
  obtain ⟨t, ht, hp⟩ := h
  rw [List.mem_replicate] at hp
  rw [hp.2]
  exact ht

theorem timeSeries_length (_times : List ℚ) (S : Nat) : (timeSeries _times S).length = S := by
  unfold timeSeries
  rw [List.length_append, timeBlocks_length, List.length_replicate]
  have h1 : (_times.length + 1) * (S / (_times.length + 1)) ≤ S := Nat.mul_div_le S _
  have h2 : _times.length * (S / (_times.length + 1))
      ≤ (_times.length + 1) * (S / (_times.length + 1)) :=
    Nat.mul_le_mul_right _ (by omega)
  omega

/-- A call of `generateTrajectory` that passes the length check and returns, on a generator
whose vector of times is empty: the fit has at least one sample, a multiple of the number
of fractions; the velocity-percentage path has as many samples as the path; the series is
made of blocks of `S / (T + 1)` copies of each fraction and padded with the last one. -/
theorem generateTrajectory_accepted (norm : Vec3 → ℚ) (ecl : EclSpline)
    (srv : String → Option ℚ) (fuel : Nat) (g g' : Generator) (_init_path out : Path)
    (_times : List ℚ) (hfresh : g.generated_times_ = [])
    (hlen : _init_path.poses.length - 1 = _times.length)
    (h : generateTrajectory norm ecl srv fuel g _init_path _times = .ok (g', out)) :
    g'.out_path_ = out ∧ 1 ≤ out.poses.length ∧ 1 ≤ _times.length ∧
    out.poses.length % _times.length = 0 ∧
    g'.generated_path_vel_percentage_.poses.length = out.poses.length ∧
    g'.generated_times_ = timeSeries _times out.poses.length ∧
    0 ≤ g'.max_velocity_ := by
  unfold generateTrajectory at h
  cases hlast : _init_path.poses.getLast? with
  | none => rw [hlast] at h; simp at h
  | some last =>
    rw [hlast] at h
    simp only [if_pos hlen] at h
    have hN : 1 ≤ _init_path.poses.length := by
      cases hp : _init_path.poses with
      | nil => rw [hp] at hlast; simp at hlast
      | cons a l => simp
    cases hct : createTrajectory norm ecl srv fuel
        { g with mode_ := .mode_trajectory_, size_vec_percentage_ := _times.length }
        (_init_path.poses.map (fun p => p.position.x) ++ [last.position.x])
        (_init_path.poses.map (fun p => p.position.y) ++ [last.position.y])
        (_init_path.poses.map (fun p => p.position.z) ++ [last.position.z])
        ((_init_path.poses.map (fun p => p.position.x) ++ [last.position.x]).length : ℤ)
        _times with
    | error e => rw [hct] at h; simp at h
    | ok r =>
      rw [hct] at h
      obtain ⟨g1, path⟩ := r
      simp only [bind_ok_eq] at h
      -- the fit
      have hps : (((_init_path.poses.map (fun p => p.position.x)
          ++ [last.position.x]).length : ℕ) : ℤ) > 1 := by
        simp only [List.length_append, List.length_map, List.length_singleton]
        omega
      unfold createTrajectory at hct
      rw [if_pos hps] at hct
      simp only [] at hct
      cases hfit : fitSpline ecl
          { (checkSmallestMaxVel srv
              { g with mode_ := .mode_trajectory_, size_vec_percentage_ := _times.length }).1
            with smallest_max_vel_ := (checkSmallestMaxVel srv
              { g with mode_ := .mode_trajectory_,
                       size_vec_percentage_ := _times.length }).2 }
          (_init_path.poses.map (fun p => p.position.x) ++ [last.position.x])
          (_init_path.poses.map (fun p => p.position.y) ++ [last.position.y])
          (_init_path.poses.map (fun p => p.position.z) ++ [last.position.z])
          (accumDistance norm 0
            ((points (_init_path.poses.map (fun p => p.position.x) ++ [last.position.x])
              (_init_path.poses.map (fun p => p.position.y) ++ [last.position.y])
              (_init_path.poses.map (fun p => p.position.z) ++ [last.position.z])).take
              (((_init_path.poses.map (fun p => p.position.x)
                ++ [last.position.x]).length : ℤ)).toNat)) fuel
          ((_init_path.poses.map (fun p => p.position.x) ++ [last.position.x]).length : ℤ) with
      | error e => rw [hfit] at hct; simp at hct
      | ok path' =>
        rw [hfit] at hct
        simp only [bind_ok_eq, pure_eq_ok, Except.ok.injEq, Prod.mk.injEq] at hct
        obtain ⟨hg1, hpath⟩ := hct
        subst hpath
        have hS := fitSpline_nonempty _ _ _ _ _ _ _ _ _ hfit
        obtain ⟨_, _, _, _, _, _, hsz, hrem⟩ := fitSpline_accepted _ _ _ _ _ _ _ _ _ hfit
        have hsz' : (_times.length : ℤ) ≠ 0 := hsz
        have hrem' : (path'.poses.length : ℤ) % (_times.length : ℤ) = 0 := hrem
        have hgt : g1.generated_times_ = [] := by rw [← hg1]; exact hfresh
        -- the velocity-percentage path
        have hvel : pathManagement norm ecl
            { g1 with out_path_ := path', mode_ := .mode_interp1_,
                      interp1_final_size_ := path'.poses.length }
            (_init_path.poses.map (fun p => p.position.x) ++ [last.position.x])
            (_init_path.poses.map (fun p => p.position.y) ++ [last.position.y])
            (_init_path.poses.map (fun p => p.position.z) ++ [last.position.z])
            = .ok ⟨"", interp1Poses
                (_init_path.poses.map (fun p => p.position.x) ++ [last.position.x])
                (_init_path.poses.map (fun p => p.position.y) ++ [last.position.y])
                (_init_path.poses.map (fun p => p.position.z) ++ [last.position.z])
                path'.poses.length⟩ := by
          simp only [pathManagement]
          exact createPathInterp1_eq _ _ _ _ (by simp; omega) (by simp) (by simp)
        rw [hvel] at h
        simp only [bind_ok_eq, hgt, List.nil_append] at h
        have hvl : (interp1Poses
            (_init_path.poses.map (fun p => p.position.x) ++ [last.position.x])
            (_init_path.poses.map (fun p => p.position.y) ++ [last.position.y])
            (_init_path.poses.map (fun p => p.position.z) ++ [last.position.z])
            (path'.poses.length : ℤ)).length = path'.poses.length := by
          rw [interp1Poses_length]
          omega
        rw [hvl, timeBlocks_length] at h
        have hT : 1 ≤ _times.length := by
          rcases Nat.eq_zero_or_pos _times.length with h0 | h0
          · exfalso; apply hsz'; rw [h0]; rfl
          · exact h0
        have hb1 : (_times.length + 1) * (path'.poses.length / (_times.length + 1))
            ≤ path'.poses.length := Nat.mul_div_le _ _
        have hb2 : _times.length * (path'.poses.length / (_times.length + 1))
            ≤ (_times.length + 1) * (path'.poses.length / (_times.length + 1)) :=
          Nat.mul_le_mul_right _ (by omega)
        have hbase : g'.out_path_ = out ∧ out.poses.length = path'.poses.length ∧
            g'.generated_path_vel_percentage_.poses.length = path'.poses.length ∧
            g'.generated_times_ = timeSeries _times path'.poses.length ∧
            0 ≤ g'.max_velocity_ := by
          split at h
          · rename_i hpad
            simp only [pure_eq_ok, Except.ok.injEq, Prod.mk.injEq, returnOutPath] at h
            obtain ⟨hg', hout⟩ := h
            rw [← hg', ← hout]
            refine ⟨rfl, rfl, hvl, ?_, abs_nonneg _⟩
            show timeBlocks _times _ = timeSeries _times _
            unfold timeSeries
            have : path'.poses.length
                - _times.length * (path'.poses.length / (_times.length + 1)) = 0 := hpad
            rw [this]
            simp
          · rename_i hpad
            cases hback : _times.getLast? with
            | none => rw [hback] at h; simp at h
            | some back =>
              rw [hback] at h
              simp only [pure_eq_ok, Except.ok.injEq, Prod.mk.injEq, returnOutPath] at h
              obtain ⟨hg', hout⟩ := h
              rw [← hg', ← hout]
              refine ⟨rfl, rfl, hvl, ?_, abs_nonneg _⟩
              show timeBlocks _times _ ++ List.replicate _ back = timeSeries _times _
              unfold timeSeries
              rw [hback]
              rfl
        obtain ⟨e1, e2, e3, e4, e5⟩ := hbase
        refine ⟨e1, by omega, hT, ?_, by rw [e3, e2], by rw [e2]; exact e4, e5⟩
        rw [e2]
        exact_mod_cast hrem'

theorem timeBlocks_getElem (b : Nat) :
    ∀ (_times : List ℚ) (k : Nat), k < _times.length * b →
      (timeBlocks _times b)[k]? = _times[k / b]? := by
  intro _times
  induction _times with
  | nil => intro k hk; simp at hk
  | cons t rest ih =>
    intro k hk
    have hb : 0 < b := by
      rcases Nat.eq_zero_or_pos b with h0 | h0
      · rw [h0] at hk; simp at hk
      · exact h0
    have hcons : timeBlocks (t :: rest) b = List.replicate b t ++ timeBlocks rest b := by
      unfold timeBlocks
      rw [List.flatMap_cons]
    rw [hcons]
    by_cases hkb : k < b
    · rw [List.getElem?_append_left (by rw [List.length_replicate]; exact hkb),
        Nat.div_eq_of_lt hkb]
      simp [List.getElem?_replicate, hkb]
    · have hge : b ≤ k := Nat.le_of_not_lt hkb
      rw [List.getElem?_append_right (by rw [List.length_replicate]; exact hge),
        List.length_replicate]
      have hk2 : k - b < rest.length * b := by
        rw [List.length_cons, Nat.add_mul, Nat.one_mul] at hk
        omega
      rw [ih (k - b) hk2]
      have hdiv : k / b = (k - b) / b + 1 := by
        have hkk : k = (k - b) + b := by omega
        conv_lhs => rw [hkk]
        exact Nat.add_div_right _ hb
      rw [hdiv, List.getElem?_cons_succ]

theorem timeSeries_block (_times : List ℚ) (S k : Nat)
    (hk : k < _times.length * (S / (_times.length + 1))) :
    (timeSeries _times S)[k]? = _times[k / (S / (_times.length + 1))]? := by
  unfold timeSeries
  rw [List.getElem?_append_left (by rw [timeBlocks_length]; exact hk)]
  exact timeBlocks_getElem _ _ k hk

theorem timeSeries_pad (_times : List ℚ) (S k : Nat) (hT : 1 ≤ _times.length)
    (hk : _times.length * (S / (_times.length + 1)) ≤ k) (hkS : k < S) :
    (timeSeries _times S)[k]? = _times[_times.length - 1]? := by
  unfold timeSeries
  rw [List.getElem?_append_right (by rw [timeBlocks_length]; exact hk), timeBlocks_length,
    List.getElem?_replicate, if_pos (by omega), List.getLast?_eq_getElem?]
  have hlt : _times.length - 1 < _times.length := by omega
  rw [List.getElem?_eq_getElem hlt]
  rfl

theorem mem_timeSeries (_times : List ℚ) (S : Nat) (p : ℚ) (hT : 1 ≤ _times.length)
    (h : p ∈ timeSeries _times S) : p ∈ _times := by
  unfold timeSeries at h
  rw [List.mem_append] at h
  rcases h with h | h
  · exact mem_timeBlocks _ _ _ h
  · rw [List.mem_replicate] at h
    rw [h.2, List.getLast?_eq_getElem?]
    have hlt : _times.length - 1 < _times.length := by omega
    rw [List.getElem?_eq_getElem hlt]
    exact List.getElem_mem _

/-- The block of `S / (T + 1)` samples is smaller than `S / T`, and `T` such blocks do not
fill `S` samples, when `S >= 1` is a multiple of `T >= 1`. -/
theorem block_short (S T : Nat) (hS : 1 ≤ S) (hrem : S % T = 0) :
    S / (T + 1) < S / T ∧ T * (S / (T + 1)) < S := by
  have h1 : (T + 1) * (S / (T + 1)) ≤ S := Nat.mul_div_le S _
  have h2 : T * (S / T) = S := Nat.mul_div_cancel_left' (Nat.dvd_of_mod_eq_zero hrem)
  have hq : 1 ≤ S / T := by
    rcases Nat.eq_zero_or_pos (S / T) with h0 | h0
    · rw [h0] at h2; omega
    · exact h0
  constructor
  · by_contra hcon
    have hle : S / T ≤ S / (T + 1) := Nat.le_of_not_lt hcon
    have h3 : (T + 1) * (S / T) ≤ (T + 1) * (S / (T + 1)) := Nat.mul_le_mul_left _ hle
    have h4 : (T + 1) * (S / T) = T * (S / T) + S / T := by ring
    omega
  · rcases Nat.eq_zero_or_pos (S / (T + 1)) with h0 | h0
    · rw [h0]; omega
    · have h4 : (T + 1) * (S / (T + 1)) = T * (S / (T + 1)) + S / (T + 1) := by ring
      omega

theorem timesLoop_length (norm : Vec3 → ℚ) (f : Follower) (poses : List Pose)
    (_times : List ℚ) :
    ∀ (k i : Nat) (l : List ℚ), timesLoop norm f poses _times k i = .ok l → l.length = k := by
  intro k
  induction k with
  | zero => intro i l h; simp [timesLoop] at h; rw [h]; rfl
  | succ k ih =>
    intro i l h
    rw [timesLoop] at h
    cases h1 : rdAt poses i with
    | error e => rw [h1] at h; simp at h
    | ok p1 =>
      cases h2 : rdAt poses (i + 1) with
      | error e => rw [h1, h2] at h; simp at h
      | ok p2 =>
        cases h3 : rdAt _times (i + 1) with
        | error e => rw [h1, h2, h3] at h; simp at h
        | ok t1 =>
          cases h4 : rdAt _times i with
          | error e => rw [h1, h2, h3, h4] at h; simp at h
          | ok t0 =>
            rw [h1, h2, h3, h4] at h
            simp only [bind_ok_eq] at h
            cases h5 : maxVelPercentage f.smallest_max_velocity_
                (norm (p2.position.sub p1.position)) (t1 - t0) with
            | error e =>
              rw [h5] at h
              simp only [] at h
              split at h <;> simp at h
            | ok p =>
              rw [h5] at h
              simp only [] at h
              cases h6 : timesLoop norm f poses _times k (i + 1) with
              | error e => rw [h6] at h; simp at h
              | ok rest =>
                rw [h6] at h
                simp only [bind_ok_eq, pure_eq_ok, Except.ok.injEq] at h
                rw [← h, List.length_cons, ih (i + 1) rest h6]

theorem timesToMaxVelPercentage_length (norm : Vec3 → ℚ) (f : Follower) (_init_path : Path)
    (_times l : List ℚ) (h : timesToMaxVelPercentage norm f _init_path _times = .ok l) :
    l.length = _init_path.poses.length - 1 := by
  unfold timesToMaxVelPercentage at h
  split at h
  · simp at h
  · exact timesLoop_length norm f _ _ _ _ l h

/-- A call of `Follower::prepareTrajectory` that returns: the fractions, the generator
after `generateTrajectory` and the follower after the call. -/
theorem prepareTrajectory_inv (norm : Vec3 → ℚ) (ecl : EclSpline)
    (srv : String → Option ℚ) (fuel : Nat) (init : Generator) (f : Follower)
    (_init_path out : Path) (_times : List ℚ)
    (h : (prepareTrajectory norm ecl srv fuel init f _init_path _times).2 = .ok out) :
    ∃ percentages g' r,
      timesToMaxVelPercentage norm { f with follower_mode_ := 1 } _init_path _times
        = .ok percentages ∧
      generateTrajectory norm ecl srv fuel
        (Generator.construct init f.vxy_ f.vz_up_ f.vz_dn_ f.debug_) _init_path percentages
        = .ok (g', r) ∧
      g'.out_path_ = out ∧
      (prepareTrajectory norm ecl srv fuel init f _init_path _times).1
        = { f with
            follower_mode_ := 1,
            target_vel_path_ :=
              { g'.generated_path_vel_percentage_ with frame_id := g'.out_path_.frame_id },
            generated_times_ := f.generated_times_ ++ g'.generated_times_,
            max_vel_ := g'.max_velocity_,
            target_path_ := g'.out_path_ } := by
  unfold prepareTrajectory at h ⊢
  cases hp : timesToMaxVelPercentage norm { f with follower_mode_ := 1 } _init_path
      _times with
  | error e => simp only [hp] at h; simp at h
  | ok percentages =>
    simp only [hp] at h ⊢
    cases hg : generateTrajectory norm ecl srv fuel
        (Generator.construct init f.vxy_ f.vz_up_ f.vz_dn_ f.debug_) _init_path
        percentages with
    | error e => simp only [hg] at h; simp at h
    | ok r =>
      obtain ⟨g', r2⟩ := r
      simp only [hg] at h ⊢
      simp only [Except.ok.injEq] at h
      exact ⟨percentages, g', r2, rfl, hg, h, rfl⟩

/-- A call of `Follower::prepareTrajectory` that returns stores a path of `S >= 1` samples
and appends a series of `S` elements, each one of the fractions, to the stored vector. -/
theorem prepareTrajectory_stored (norm : Vec3 → ℚ) (ecl : EclSpline)
    (srv : String → Option ℚ) (fuel : Nat) (init : Generator) (f : Follower)
    (_init_path out : Path) (_times : List ℚ)
    (h : (prepareTrajectory norm ecl srv fuel init f _init_path _times).2 = .ok out) :
    ∃ percentages,
      timesToMaxVelPercentage norm { f with follower_mode_ := 1 } _init_path _times
        = .ok percentages ∧
      1 ≤ percentages.length ∧ 1 ≤ out.poses.length ∧
      (prepareTrajectory norm ecl srv fuel init f _init_path _times).1.target_path_ = out ∧
      (prepareTrajectory norm ecl srv fuel init f _init_path _times).1.generated_times_
        = f.generated_times_ ++ timeSeries percentages out.poses.length ∧
      0 ≤ (prepareTrajectory norm ecl srv fuel init f _init_path _times).1.max_vel_ := by
  obtain ⟨percentages, g', r, hp, hg, hout, hf'⟩ :=
    prepareTrajectory_inv norm ecl srv fuel init f _init_path out _times h
  have hlen := timesToMaxVelPercentage_length norm _ _ _ _ hp
  obtain ⟨e1, e2, e3, _, _, e6, e7⟩ := generateTrajectory_accepted norm ecl srv fuel _ g'
    _init_path r percentages rfl hlen.symm hg
  have hr : r = out := by rw [← e1]; exact hout
  rw [hr] at e2 e6
  refine ⟨percentages, hp, e3, e2, ?_, ?_, ?_⟩
  · rw [hf']; exact hout
  · rw [hf']
    show f.generated_times_ ++ g'.generated_times_ = _
    rw [e6]
  · rw [hf']; exact e7

theorem maxVelPercentage_bounds (s d t p : ℚ) (h : maxVelPercentage s d t = .ok p) :
    0 ≤ p ∧ p ≤ 1 := by
  unfold maxVelPercentage at h
  split at h
  · split at h
    · simp at h
    · simp only [Except.ok.injEq] at h
      rw [← h]
      exact ⟨zero_le_one, le_refl _⟩
  · simp only [Except.ok.injEq] at h
    rw [← h]
    by_cases h1 : d / t / s > 1
    · rw [if_pos h1, if_neg (by norm_num)]
      exact ⟨zero_le_one, le_refl _⟩
    · rw [if_neg h1]
      by_cases h2 : d / t / s < 0
      · rw [if_pos h2]
        exact ⟨zero_le_one, le_refl _⟩
      · rw [if_neg h2]
        exact ⟨le_of_not_lt h2, le_of_not_lt h1⟩

/-- A time difference that is not positive gives the fraction `1` when the segment has a
positive length and the limit is positive. -/
theorem maxVelPercentage_nonpositive_time (s d t : ℚ) (hs : 0 < s) (hd : 0 < d)
    (ht : t ≤ 0) : maxVelPercentage s d t = .ok 1 := by
  unfold maxVelPercentage
  by_cases h0 : t = 0
  · rw [if_pos (Or.inl h0), if_neg (ne_of_gt hd)]
  · rw [if_neg (by
      intro hc
      rcases hc with hc | hc
      · exact h0 hc
      · exact (ne_of_gt hs) hc)]
    have htneg : t < 0 := lt_of_le_of_ne ht h0
    have hneg : d / t / s < 0 := div_neg_of_neg_of_pos (div_neg_of_pos_of_neg hd htneg) hs
    have h1 : ¬ d / t / s > 1 := by linarith
    simp only [if_neg h1, if_pos hneg]

theorem timesLoop_bounds (norm : Vec3 → ℚ) (f : Follower) (poses : List Pose)
    (_times : List ℚ) :
    ∀ (k i : Nat) (l : List ℚ), timesLoop norm f poses _times k i = .ok l →
      ∀ p ∈ l, 0 ≤ p ∧ p ≤ 1 := by
  intro k
  induction k with
  | zero => intro i l h; simp [timesLoop] at h; rw [h]; intro p hp; simp at hp
  | succ k ih =>
    intro i l h
    rw [timesLoop] at h
    cases h1 : rdAt poses i with
    | error e => rw [h1] at h; simp at h
    | ok p1 =>
      cases h2 : rdAt poses (i + 1) with
      | error e => rw [h1, h2] at h; simp at h
      | ok p2 =>
        cases h3 : rdAt _times (i + 1) with
        | error e => rw [h1, h2, h3] at h; simp at h
        | ok t1 =>
          cases h4 : rdAt _times i with
          | error e => rw [h1, h2, h3, h4] at h; simp at h
          | ok t0 =>
            rw [h1, h2, h3, h4] at h
            simp only [bind_ok_eq] at h
            cases h5 : maxVelPercentage f.smallest_max_velocity_
                (norm (p2.position.sub p1.position)) (t1 - t0) with
            | error e =>
              rw [h5] at h
              simp only [] at h
              split at h <;> simp at h
            | ok p =>
              rw [h5] at h
              simp only [] at h
              cases h6 : timesLoop norm f poses _times k (i + 1) with
              | error e => rw [h6] at h; simp at h
              | ok rest =>
                rw [h6] at h
                simp only [bind_ok_eq, pure_eq_ok, Except.ok.injEq] at h
                rw [← h]
                intro q hq
                rw [List.mem_cons] at hq
                rcases hq with hq | hq
                · rw [hq]; exact maxVelPercentage_bounds _ _ _ _ h5
                · exact ih (i + 1) rest h6 q hq

theorem timesToMaxVelPercentage_bounds (norm : Vec3 → ℚ) (f : Follower) (_init_path : Path)
    (_times l : List ℚ) (h : timesToMaxVelPercentage norm f _init_path _times = .ok l) :
    ∀ p ∈ l, 0 ≤ p ∧ p ≤ 1 := by
  unfold timesToMaxVelPercentage at h
  split at h
  · simp at h
  · exact timesLoop_bounds norm f _ _ _ _ l h

/-- The command of a tracking tick in trajectory mode: the unit vector towards the
look-ahead waypoint times `max_vel_` times the fraction stored at the anchor. -/
theorem getVelocity_trajectory_command (norm : Vec3 → ℚ) (f : Follower) (anchor la : Nat)
    (t : ℚ) (target : Pose) (tp cp : Vec3) (hmode : f.follower_mode_ = 1)
    (hsize : 2 ≤ f.target_path_.poses.length)
    (htrack : f.flag_run_ = true ∨
      ∃ p0, f.target_path_.poses[0]? = some p0 ∧
        norm (f.ual_pose_.position.sub p0.position) < 1)
    (hanchor : calculatePosOnPath norm f f.ual_pose_.position (f.look_ahead_ * 1.5)
      f.prev_normal_vel_on_path_ f.target_path_ = .ok anchor)
    (ht : f.generated_times_[anchor]? = some t)
    (hla : calculatePosLookAhead norm { f with look_ahead_ := f.max_vel_ * t } anchor
      = .ok la)
    (htarget : f.target_path_.poses[la]? = some target)
    (htp : Vector3f target.position = some tp)
    (hcp : Vector3f f.ual_pose_.position = some cp)
    (hd : norm (tp.sub cp) ≠ 0)
    (hu : norm (scaledDifference norm tp cp) ≠ 0) :
    (f.debug_ = false → ∃ f', getVelocity norm f = .ok (f', trajectoryCommand norm f tp cp t)) ∧
    (∀ f' v, getVelocity norm f = .ok (f', v) →
      f'.prev_normal_vel_on_path_ = anchor ∧ v = trajectoryCommand norm f tp cp t) := by
  have hunit := unitVector_ok norm tp cp hd hu
  have hchange : changeLookAhead f anchor = .ok (f.max_vel_ * t) := by
    unfold changeLookAhead
    simp only [rd, ht, bind_ok_eq, pure_eq_ok]
  have hout : calculateVelocity norm f f.ual_pose_.position la anchor
      = .ok (trajectoryCommand norm f tp cp t) := by
    unfold calculateVelocity
    simp only [rdAt, rd, htarget, ht, bind_ok_eq, hmode, htp, hcp, hunit, pure_eq_ok]
    rfl
  have htick := getVelocity_tracking_trajectory norm f hsize hmode htrack
  rw [hanchor] at htick
  simp only [bind_ok_eq] at htick
  rw [hchange] at htick
  simp only [bind_ok_eq] at htick
  rw [hla] at htick
  simp only [bind_ok_eq] at htick
  rw [hout] at htick
  simp only [bind_ok_eq] at htick
  refine ⟨?_, ?_⟩
  · intro hdbg
    rw [htick, hdbg]
    exact ⟨_, rfl⟩
  · intro f' v hv
    rw [htick] at hv
    split at hv
    · cases hp : prepareDebug norm f (f.look_ahead_ * 1.5) anchor la anchor with
      | error e => rw [hp] at hv; simp at hv
      | ok u =>
        rw [hp] at hv
        simp only [bind_ok_eq, pure_eq_ok, Except.ok.injEq, Prod.mk.injEq] at hv
        rw [← hv.1, ← hv.2]
        exact ⟨rfl, rfl⟩
    · simp only [pure_eq_ok, Except.ok.injEq, Prod.mk.injEq] at hv
      rw [← hv.1, ← hv.2]
      exact ⟨rfl, rfl⟩

theorem calculatePosLookAhead_bounds (norm : Vec3 → ℚ) (f : Follower) (a la : Nat)
    (h : calculatePosLookAhead norm f a = .ok la) :
    a ≤ la ∧ la + 2 ≤ f.target_path_.poses.length := by
  unfold calculatePosLookAhead at h
  simp only [] at h
  split at h
  · simp at h
  · cases hs : forwardScan norm f.target_path_.poses f.look_ahead_
        (f.target_path_.poses.length - 1 - a) a 0 none with
    | error e => rw [hs] at h; simp at h
    | ok res =>
      rw [hs] at h
      simp only [bind_ok_eq] at h
      cases res with
      | none => simp [assigned] at h
      | some r =>
        simp only [assigned, Except.ok.injEq] at h
        subst h
        rcases forwardScan_spec norm _ _ _ _ _ _ _ hs with hc | ⟨h1, h2, _⟩
        · simp at hc
        · exact ⟨h1, by omega⟩

theorem calculatePosOnPath_lt (norm : Vec3 → ℚ) (f : Follower) (c : Vec3) (R : ℚ)
    (a a' : Nat) (h : calculatePosOnPath norm f c R a f.target_path_ = .ok a') :
    a' < f.target_path_.poses.length := by
  obtain ⟨s, e, hs, he, h1, h2⟩ := calculatePosOnPath_inv norm f c R a a' h
  have hsl := calculateDistanceOnPath_lt norm f a s _ hs
  have hel := calculateDistanceOnPath_lt norm f a e _ he
  by_cases hse : s < e
  · have := (h1 hse).2.1
    omega
  · rw [h2 (by omega)]
    exact hsl

/-- With a positive search range and an anchor before the last index, the anchor search
returns an index before the last index. -/
theorem calculatePosOnPath_below_last (norm : Vec3 → ℚ) (f : Follower) (c : Vec3) (R : ℚ)
    (a a' : Nat) (hR : 0 < R) (ha : a + 2 ≤ f.target_path_.poses.length)
    (h : calculatePosOnPath norm f c R a f.target_path_ = .ok a') :
    a' + 2 ≤ f.target_path_.poses.length := by
  obtain ⟨s, e, hs, he, h1, h2⟩ := calculatePosOnPath_inv norm f c R a a' h
  have hel := calculateDistanceOnPath_lt norm f a e _ he
  have hsa : s ≤ a := by
    rcases (calculateDistanceOnPath_backward norm f a s (-R) (by linarith) hs).2
      with h0 | ⟨_, h0, _⟩
    · omega
    · exact h0
  by_cases hse : s < e
  · have := (h1 hse).2.1
    omega
  · rw [h2 (by omega)]
    omega

/-- A tick that returns keeps the path, and keeps both stored anchors before the last
index. -/
theorem getVelocity_anchor_bound (norm : Vec3 → ℚ) (f f' : Follower) (v : Twist)
    (hp : f.prev_normal_pos_on_path_ + 2 ≤ f.target_path_.poses.length)
    (hv : f.prev_normal_vel_on_path_ + 2 ≤ f.target_path_.poses.length)
    (h : getVelocity norm f = .ok (f', v)) :
    f'.target_path_ = f.target_path_ ∧
    f'.prev_normal_pos_on_path_ + 2 ≤ f.target_path_.poses.length ∧
    f'.prev_normal_vel_on_path_ + 2 ≤ f.target_path_.poses.length := by
  have hidle : getVelocity norm f = .ok (f, f.out_velocity_) →
      f'.target_path_ = f.target_path_ ∧
      f'.prev_normal_pos_on_path_ + 2 ≤ f.target_path_.poses.length ∧
      f'.prev_normal_vel_on_path_ + 2 ≤ f.target_path_.poses.length := by
    intro hi
    rw [hi] at h
    simp only [Except.ok.injEq, Prod.mk.injEq] at h
    rw [← h.1]
    exact ⟨rfl, hp, hv⟩
  by_cases hsize : 2 ≤ f.target_path_.poses.length
  · by_cases htrack : f.flag_run_ = true ∨
        ∃ p0, f.target_path_.poses[0]? = some p0 ∧
          norm (f.ual_pose_.position.sub p0.position) < 1
    · by_cases hmode : f.follower_mode_ = 1
      · obtain ⟨anchor, look_ahead, la, _, _, hl, _, hf'⟩ :=
          getVelocity_tracking_trajectory_inv norm f f' v hsize hmode htrack h
        have hb := calculatePosLookAhead_bounds norm _ anchor la hl
        have hb2 : anchor + 2 ≤ f.target_path_.poses.length := by
          have := hb.2
          have h1 := hb.1
          exact le_trans (by omega) this
        rw [hf']
        exact ⟨rfl, hp, hb2⟩
      · obtain ⟨anchor, la, _, hl, _, hf'⟩ :=
          getVelocity_tracking_inv norm f f' v hsize hmode htrack h
        have hb := calculatePosLookAhead_bounds norm _ anchor la hl
        have hb2 : anchor + 2 ≤ f.target_path_.poses.length := by
          have := hb.2
          have h1 := hb.1
          omega
        rw [hf']
        exact ⟨rfl, hb2, hv⟩
    · apply hidle
      apply getVelocity_idle
      right
      constructor
      · cases hfl : f.flag_run_ with
        | false => rfl
        | true => exact absurd (Or.inl hfl) htrack
      · intro p0 hp0
        by_contra hc
        exact htrack (Or.inr ⟨p0, hp0, lt_of_not_le hc⟩)
  · apply hidle
    apply getVelocity_idle
    left
    omega

theorem runCalls_anchor_bound (norm : Vec3 → ℚ) :
    ∀ (calls : List Call) (f f' : Follower),
      f.prev_normal_pos_on_path_ + 2 ≤ f.target_path_.poses.length →
      f.prev_normal_vel_on_path_ + 2 ≤ f.target_path_.poses.length →
      runCalls norm calls f = .ok f' →
      f'.target_path_ = f.target_path_ ∧
      f'.prev_normal_pos_on_path_ + 2 ≤ f.target_path_.poses.length ∧
      f'.prev_normal_vel_on_path_ + 2 ≤ f.target_path_.poses.length := by
  intro calls
  induction calls with
  | nil =>
    intro f f' hp hv h
    simp only [runCalls, Except.ok.injEq] at h
    rw [← h]
    exact ⟨rfl, hp, hv⟩
  | cons c rest ih =>
    intro f f' hp hv h
    cases c with
    | updatePose pose =>
      rw [runCalls] at h
      exact ih (updatePose f pose) f' hp hv h
    | getVelocity =>
      rw [runCalls] at h
      cases hg : getVelocity norm f with
      | error e => rw [hg] at h; simp at h
      | ok r =>
        rw [hg] at h
        simp only [bind_ok_eq] at h
        obtain ⟨f1, v⟩ := r
        obtain ⟨e1, e2, e3⟩ := getVelocity_anchor_bound norm f f1 v hp hv hg
        have := ih f1 f' (by rw [e1]; exact e2) (by rw [e1]; exact e3) h
        rw [e1] at this
        exact this

theorem lookAheadOfTick_bounds (norm : Vec3 → ℚ) (f : Follower) (la : Nat)
    (h : lookAheadOfTick norm f = .ok la) : la + 2 ≤ f.target_path_.poses.length := by
  unfold lookAheadOfTick at h
  split at h
  · cases ha : calculatePosOnPath norm f f.ual_pose_.position (f.look_ahead_ * 1.5)
        f.prev_normal_vel_on_path_ f.target_path_ with
    | error e => rw [ha] at h; simp at h
    | ok anchor =>
      rw [ha] at h
      simp only [bind_ok_eq] at h
      cases hc : changeLookAhead f anchor with
      | error e => rw [hc] at h; simp at h
      | ok look_ahead =>
        rw [hc] at h
        simp only [bind_ok_eq] at h
        exact (calculatePosLookAhead_bounds norm _ anchor la h).2
  · cases ha : calculatePosOnPath norm f f.ual_pose_.position (f.look_ahead_ * 1.5)
        f.prev_normal_pos_on_path_ f.target_path_ with
    | error e => rw [ha] at h; simp at h
    | ok anchor =>
      rw [ha] at h
      simp only [bind_ok_eq] at h
      exact (calculatePosLookAhead_bounds norm _ anchor la h).2

/-- The forward loop records no index when it starts at the last index or when the first
segment is not shorter than the limit. -/
theorem forwardScan_unassigned (norm : Vec3 → ℚ) (poses : List Pose) (limit : ℚ) (a : Nat)
    (ha : a < poses.length)
    (hseg : a + 1 = poses.length ∨ ¬ segmentLength norm poses a < limit) :
    forwardScan norm poses limit (poses.length - 1 - a) a 0 none = .ok none := by
  cases hk : poses.length - 1 - a with
  | zero => rfl
  | succ k =>
    rw [forwardScan, rdAt_eq_ok poses a (by omega), rdAt_eq_ok poses (a + 1) (by omega)]
    simp only [bind_ok_eq]
    have hs : norm (((poses.get ⟨a + 1, by omega⟩).position).sub
        (poses.get ⟨a, by omega⟩).position) = segmentLength norm poses a := by
      unfold segmentLength
      rw [List.getD_eq_getElem?_getD, List.getD_eq_getElem?_getD,
        List.getElem?_eq_getElem (by omega), List.getElem?_eq_getElem (by omega)]
      rfl
    rw [hs, zero_add]
    rcases hseg with hseg | hseg
    · omega
    · rw [if_neg hseg]

/-- `calculatePosLookAhead` returns its local index unassigned when the anchor is the last
index or the first segment from the anchor is not shorter than the look-ahead. -/
theorem calculatePosLookAhead_unassigned (norm : Vec3 → ℚ) (f : Follower) (a : Nat)
    (ha : a < f.target_path_.poses.length)
    (hseg : a + 1 = f.target_path_.poses.length ∨
      ¬ segmentLength norm f.target_path_.poses a < f.look_ahead_) :
    calculatePosLookAhead norm f a = .error .undefinedBehaviour := by
  unfold calculatePosLookAhead
  simp only []
  rw [if_neg (by omega), forwardScan_unassigned norm _ _ a ha hseg]
  rfl

/-- The forward branch of `calculateDistanceOnPath` returns its local index unassigned when
the range is below the distance to the last point and the anchor is the last index or the
first segment from the anchor is not shorter than the range. -/
theorem calculateDistanceOnPath_unassigned (norm : Vec3 → ℚ) (f : Follower) (a : Nat)
    (m : ℚ) (ha : a < f.target_path_.poses.length) (hm : 0 < m)
    (hback : m < norm ((f.target_path_.poses.getD a Pose.origin).position.sub
      (f.target_path_.poses.getD (f.target_path_.poses.length - 1) Pose.origin).position))
    (hseg : a + 1 = f.target_path_.poses.length ∨
      ¬ segmentLength norm f.target_path_.poses a < m) :
    calculateDistanceOnPath norm f a m = .error .undefinedBehaviour := by
  unfold calculateDistanceOnPath
  simp only []
  rw [rdAt_eq_ok _ a ha, rd_eq_ok _ 0 (by omega), rd_eq_ok _ _ (by omega)]
  simp only [bind_ok_eq]
  have hb : norm (((f.target_path_.poses.get ⟨a, ha⟩).position).sub
      (f.target_path_.poses.get ⟨f.target_path_.poses.length - 1, by omega⟩).position)
      = norm ((f.target_path_.poses.getD a Pose.origin).position.sub
        (f.target_path_.poses.getD (f.target_path_.poses.length - 1) Pose.origin).position) := by
    rw [List.getD_eq_getElem?_getD, List.getD_eq_getElem?_getD,
      List.getElem?_eq_getElem ha, List.getElem?_eq_getElem (by omega)]
    rfl
  rw [hb, if_pos hm, if_pos hback, forwardScan_unassigned norm _ _ a ha hseg]
  rfl

/-- The densified positions of the scenario path. -/
theorem scenario_linearPoses :
    (linearPoses euclid scenarioPath (waypoint 10 0 0)).map (fun p => p.position)
      = scenarioSamples := by
  rw [linearPoses_positions]
  have hc : linearCount euclid scenarioPath = 500 := by decide!
  rw [hc]
  have hx : scenarioPath.poses.map (fun p => p.position.x) ++ [(waypoint 10 0 0).position.x]
      = [0, 10, 10] := rfl
  have hy : scenarioPath.poses.map (fun p => p.position.y) ++ [(waypoint 10 0 0).position.y]
      = [0, 0, 0] := rfl
  have hz : scenarioPath.poses.map (fun p => p.position.z) ++ [(waypoint 10 0 0).position.z]
      = [0, 0, 0] := rfl
  have hsize : scenarioPath.poses.length + 1 = 3 := rfl
  rw [hx, hy, hz, hsize]
  have hlen : (queryAxis 3 500).length = 500 := by rw [queryAxis_length]; rfl
  have hA : queryAxis 3 500 = (List.range 500).map (fun (k : ℕ) => (k : ℚ) / 250) := by
    apply List.ext_getElem
    · rw [hlen, List.length_map]
      exact (List.length_range 500).symm
    · intro k h1 h2
      have hk : k < 500 := by rw [hlen] at h1; exact h1
      have := queryAxis_getD 3 500 k (by omega) (by exact_mod_cast hk)
      rw [List.getD_eq_getElem _ _ h1] at this
      rw [this, List.getElem_map, List.getElem_range]
      norm_num
      ring
  rw [hA, List.map_map]
  unfold scenarioSamples
  apply List.map_congr_left
  · intro k hk'
    have hk : k < 500 := List.mem_range.mp hk'
    have hkq : (k : ℚ) < 500 := by exact_mod_cast hk
    show (⟨resampled [0, 10, 10] ((k : ℚ) / 250), resampled [0, 0, 0] ((k : ℚ) / 250),
      resampled [0, 0, 0] ((k : ℚ) / 250)⟩ : Vec3) = ⟨min ((k : ℚ) / 25) 10, 0, 0⟩
    have h0 : (0 : ℚ) ≤ (k : ℚ) / 250 := by positivity
    have hb1 : (k : ℚ) / 250 < (([0, 10, 10] : List ℚ).length : ℚ) - 1 := by
      simp only [List.length_cons, List.length_nil]
      norm_num
      linarith
    have hb2 : (k : ℚ) / 250 < (([0, 0, 0] : List ℚ).length : ℚ) - 1 := by
      simp only [List.length_cons, List.length_nil]
      norm_num
      linarith
    rw [resampled_eq_indexInterpolant [0, 10, 10] _ (by decide) h0 hb1,
      resampled_eq_indexInterpolant [0, 0, 0] _ (by decide) h0 hb2]
    by_cases hlow : k < 250
    · have hlq : (k : ℚ) < 250 := by exact_mod_cast hlow
      have hfl : ⌊(k : ℚ) / 250⌋₊ = 0 := by
        rw [Nat.floor_eq_zero]
        rw [div_lt_one (by norm_num)]
        exact hlq
      unfold indexInterpolant
      rw [hfl]
      simp only [List.getD_cons_zero, List.getD_cons_succ, Nat.cast_zero, sub_zero, zero_add,
        mul_zero, add_zero]
      congr 1
      rw [min_eq_left (by linarith)]
      ring
    · have hhq : (250 : ℚ) ≤ (k : ℚ) := by exact_mod_cast (Nat.le_of_not_lt hlow)
      have hfl : ⌊(k : ℚ) / 250⌋₊ = 1 := by
        rw [Nat.floor_eq_iff h0]
        constructor
        · rw [Nat.cast_one, le_div_iff₀ (by norm_num)]
          linarith
        · rw [Nat.cast_one, div_lt_iff₀ (by norm_num)]
          linarith
      unfold indexInterpolant
      rw [hfl]
      simp only [List.getD_cons_zero, List.getD_cons_succ, sub_self, mul_zero, add_zero]
      rw [min_eq_right (by linarith)]

/-- A preparation call leaves the started flag and the two anchor indices as they were. -/
theorem prepare_keeps_state (norm : Vec3 → ℚ) (ecl : EclSpline)
    (srv : String → Option ℚ) (fuel : Nat) (init : Generator) (f : Follower)
    (_init_path : Path) (m : ℤ) (la c : ℚ) (_times : List ℚ) :
    ((preparePath norm ecl init f _init_path m la c).1.flag_run_ = f.flag_run_ ∧
      (preparePath norm ecl init f _init_path m la c).1.prev_normal_pos_on_path_
        = f.prev_normal_pos_on_path_ ∧
      (preparePath norm ecl init f _init_path m la c).1.prev_normal_vel_on_path_
        = f.prev_normal_vel_on_path_) ∧
    ((prepareTrajectory norm ecl srv fuel init f _init_path _times).1.flag_run_ = f.flag_run_ ∧
      (prepareTrajectory norm ecl srv fuel init f _init_path _times).1.prev_normal_pos_on_path_
        = f.prev_normal_pos_on_path_ ∧
      (prepareTrajectory norm ecl srv fuel init f _init_path _times).1.prev_normal_vel_on_path_
        = f.prev_normal_vel_on_path_) := by
  constructor
  · unfold preparePath
    simp only []
    split
    · exact ⟨rfl, rfl, rfl⟩
    · split_ifs <;> exact ⟨rfl, rfl, rfl⟩
  · unfold prepareTrajectory
    simp only []
    split
    · exact ⟨rfl, rfl, rfl⟩
    · split
      · exact ⟨rfl, rfl, rfl⟩
      · split <;> exact ⟨rfl, rfl, rfl⟩

/-- The number of samples that `preparePath` stores in the linear mode. -/
theorem preparePath_linear_count (norm : Vec3 → ℚ) (ecl : EclSpline) (init : Generator)
    (f : Follower) (_init_path : Path) (last : Pose) (la c : ℚ)
    (hlast : _init_path.poses.getLast? = some last) :
    storedCount (preparePath norm ecl init f _init_path 0 la c)
      = some ((linearCount norm _init_path - 1).toNat + 1) := by
  unfold preparePath
  simp only [generatePath_linear_eq norm ecl _ _init_path last hlast]
  unfold storedCount
  split_ifs <;>
    simp [returnOutPath, setOrientations_length, linearPoses_length]

/-- C1 (amended). In path mode, on a tracking tick over a path of at least 2 points whose
look-ahead waypoint is resolved, where the look-ahead waypoint and the current position
have the finite `Vector3f` images `tp` and `cp` and neither the norm `d` computed for
`tp - cp` nor the norm `n` computed for `(tp - cp) / d` is zero, `getVelocity` returns the
command `((tp - cp) / d) / n * cruising_speed_`: the tick returns it when the debug points
are off, and every tick that returns returns it. The command is `tp - cp` times
`cruising_speed_ / (d * n)`; its length `m` satisfies `m * n = |cruising_speed_| * u` for
the length `u` of `(tp - cp) / d`, so that `m` is `|cruising_speed_|` where `n` is the
Euclidean length, and within the relative error `e` of `|cruising_speed_|` where `n` is
within the relative error `e` of the Euclidean length; the command is
`(tp - cp) / d * cruising_speed_` where `n` is `1`. -/
theorem getVelocity_path_command (norm : Vec3 → ℚ) (f : Follower) (anchor la : Nat)
    (target : Pose) (tp cp : Vec3) (hmode : f.follower_mode_ = 0)
    (hsize : 2 ≤ f.target_path_.poses.length)
    (htrack : f.flag_run_ = true ∨
      ∃ p0, f.target_path_.poses[0]? = some p0 ∧
        norm (f.ual_pose_.position.sub p0.position) < 1)
    (hanchor : calculatePosOnPath norm f f.ual_pose_.position (f.look_ahead_ * 1.5)
      f.prev_normal_pos_on_path_ f.target_path_ = .ok anchor)
    (hla : calculatePosLookAhead norm f anchor = .ok la)
    (htarget : f.target_path_.poses[la]? = some target)
    (htp : Vector3f target.position = some tp)
    (hcp : Vector3f f.ual_pose_.position = some cp)
    (hd : norm (tp.sub cp) ≠ 0)
    (hu : norm (scaledDifference norm tp cp) ≠ 0) :
    (f.debug_ = false →
      ∃ f', getVelocity norm f = .ok (f', pursuitCommand norm f tp cp)) ∧
    (∀ f' v, getVelocity norm f = .ok (f', v) → v = pursuitCommand norm f tp cp) ∧
    (pursuitCommand norm f tp cp).linear
      = ⟨(tp.x - cp.x)
            * (f.cruising_speed_ / (norm (tp.sub cp) * norm (scaledDifference norm tp cp))),
          (tp.y - cp.y)
            * (f.cruising_speed_ / (norm (tp.sub cp) * norm (scaledDifference norm tp cp))),
          (tp.z - cp.z)
            * (f.cruising_speed_
                / (norm (tp.sub cp) * norm (scaledDifference norm tp cp)))⟩ ∧
    (pursuitCommand norm f tp cp).linear.sq
        * (norm (scaledDifference norm tp cp) * norm (scaledDifference norm tp cp))
      = f.cruising_speed_ * f.cruising_speed_ * (scaledDifference norm tp cp).sq ∧
    (IsLength (scaledDifference norm tp cp) (norm (scaledDifference norm tp cp)) →
      IsLength (pursuitCommand norm f tp cp).linear |f.cruising_speed_|) ∧
    (∀ e : ℚ,
      (1 - e) * (1 - e) * (scaledDifference norm tp cp).sq
        ≤ norm (scaledDifference norm tp cp) * norm (scaledDifference norm tp cp) →
      norm (scaledDifference norm tp cp) * norm (scaledDifference norm tp cp)
        ≤ (1 + e) * (1 + e) * (scaledDifference norm tp cp).sq →
      (pursuitCommand norm f tp cp).linear.sq * ((1 - e) * (1 - e))
          ≤ f.cruising_speed_ * f.cruising_speed_ ∧
        f.cruising_speed_ * f.cruising_speed_
          ≤ (pursuitCommand norm f tp cp).linear.sq * ((1 + e) * (1 + e))) ∧
    (norm (scaledDifference norm tp cp) = 1 →
      (pursuitCommand norm f tp cp).linear
        = ⟨(tp.x - cp.x) / norm (tp.sub cp) * f.cruising_speed_,
            (tp.y - cp.y) / norm (tp.sub cp) * f.cruising_speed_,
            (tp.z - cp.z) / norm (tp.sub cp) * f.cruising_speed_⟩) := by
  have hunit := unitVector_ok norm tp cp hd hu
  have hvel : calculateVelocity norm f f.ual_pose_.position la 0
      = .ok (pursuitCommand norm f tp cp) := by
    unfold calculateVelocity
    simp only [rdAt, htarget, bind_ok_eq, if_pos hmode, htp, hcp, hunit, pure_eq_ok]
    rfl
  have htick := getVelocity_tracking norm f hsize (by rw [hmode]; decide) htrack
  rw [hanchor] at htick
  simp only [bind_ok_eq] at htick
  rw [hla] at htick
  simp only [bind_ok_eq] at htick
  rw [hvel] at htick
  simp only [bind_ok_eq] at htick
  have hsq : (pursuitCommand norm f tp cp).linear.sq
        * (norm (scaledDifference norm tp cp) * norm (scaledDifference norm tp cp))
      = f.cruising_speed_ * f.cruising_speed_ * (scaledDifference norm tp cp).sq := by
    show (⟨(pursuitDirection norm tp cp).x * f.cruising_speed_,
        (pursuitDirection norm tp cp).y * f.cruising_speed_,
        (pursuitDirection norm tp cp).z * f.cruising_speed_⟩ : Vec3).sq * _ = _
    rw [scaled_sq, mul_assoc, pursuitDirection_sq norm tp cp hu]
  have hN : 0 < norm (scaledDifference norm tp cp) * norm (scaledDifference norm tp cp) :=
    mul_self_pos.mpr hu
  refine ⟨?_, ?_, ?_, hsq, ?_, ?_, ?_⟩
  · intro hdbg
    rw [htick, hdbg]
    exact ⟨_, rfl⟩
  · intro f' v hv
    rw [htick] at hv
    split at hv
    · cases hp : prepareDebug norm f (f.look_ahead_ * 1.5) anchor la anchor with
      | error e => rw [hp] at hv; simp at hv
      | ok u =>
        rw [hp] at hv
        simp only [bind_ok_eq, pure_eq_ok, Except.ok.injEq, Prod.mk.injEq] at hv
        exact hv.2.symm
    · simp only [pure_eq_ok, Except.ok.injEq, Prod.mk.injEq] at hv
      exact hv.2.symm
  · simp only [pursuitCommand, pursuitDirection_eq norm tp cp, Vec3.mk.injEq]
    refine ⟨?_, ?_, ?_⟩ <;> ring
  · intro hlen
    refine ⟨abs_nonneg _, ?_⟩
    rw [abs_mul_abs_self]
    rw [← hlen.2] at hsq
    have := mul_right_cancel₀ (ne_of_gt hN) hsq
    exact this.symm
  · intro e hlo hhi
    exact command_sq_bounds _ _ _ _ e hN (Vec3.sq_nonneg _) hsq hlo hhi
  · intro h1
    simp only [pursuitCommand, pursuitDirection_eq norm tp cp, h1, mul_one]

/-- Witness of C1 (amended): the vehicle is `1/2` beside the first of five waypoints one
unit apart, with look-ahead `5/2` and cruising speed `1`; the anchor is `0`, the
look-ahead index `1`, and the difference `(1, -1/2, 0)` to the look-ahead waypoint has a
length that is no rational number. -/
theorem getVelocity_path_command_witness :
    (besideFollower.debug_ = false →
      ∃ f', getVelocity euclid besideFollower
        = .ok (f', pursuitCommand euclid besideFollower ⟨1, 0, 0⟩ ⟨0, 1 / 2, 0⟩)) ∧
    (∀ f' v, getVelocity euclid besideFollower = .ok (f', v) →
      v = pursuitCommand euclid besideFollower ⟨1, 0, 0⟩ ⟨0, 1 / 2, 0⟩) ∧
    (pursuitCommand euclid besideFollower ⟨1, 0, 0⟩ ⟨0, 1 / 2, 0⟩).linear
      = ⟨((1 : ℚ) - 0)
            * (besideFollower.cruising_speed_
                / (euclid ((⟨1, 0, 0⟩ : Vec3).sub ⟨0, 1 / 2, 0⟩)
                    * euclid (scaledDifference euclid ⟨1, 0, 0⟩ ⟨0, 1 / 2, 0⟩))),
          ((0 : ℚ) - 1 / 2)
            * (besideFollower.cruising_speed_
                / (euclid ((⟨1, 0, 0⟩ : Vec3).sub ⟨0, 1 / 2, 0⟩)
                    * euclid (scaledDifference euclid ⟨1, 0, 0⟩ ⟨0, 1 / 2, 0⟩))),
          ((0 : ℚ) - 0)
            * (besideFollower.cruising_speed_
                / (euclid ((⟨1, 0, 0⟩ : Vec3).sub ⟨0, 1 / 2, 0⟩)
                    * euclid (scaledDifference euclid ⟨1, 0, 0⟩ ⟨0, 1 / 2, 0⟩)))⟩ ∧
    (pursuitCommand euclid besideFollower ⟨1, 0, 0⟩ ⟨0, 1 / 2, 0⟩).linear.sq
        * (euclid (scaledDifference euclid ⟨1, 0, 0⟩ ⟨0, 1 / 2, 0⟩)
            * euclid (scaledDifference euclid ⟨1, 0, 0⟩ ⟨0, 1 / 2, 0⟩))
      = besideFollower.cruising_speed_ * besideFollower.cruising_speed_
          * (scaledDifference euclid ⟨1, 0, 0⟩ ⟨0, 1 / 2, 0⟩).sq ∧
    (IsLength (scaledDifference euclid ⟨1, 0, 0⟩ ⟨0, 1 / 2, 0⟩)
        (euclid (scaledDifference euclid ⟨1, 0, 0⟩ ⟨0, 1 / 2, 0⟩)) →
      IsLength (pursuitCommand euclid besideFollower ⟨1, 0, 0⟩ ⟨0, 1 / 2, 0⟩).linear
        |besideFollower.cruising_speed_|) ∧
    (∀ e : ℚ,
      (1 - e) * (1 - e) * (scaledDifference euclid ⟨1, 0, 0⟩ ⟨0, 1 / 2, 0⟩).sq
        ≤ euclid (scaledDifference euclid ⟨1, 0, 0⟩ ⟨0, 1 / 2, 0⟩)
            * euclid (scaledDifference euclid ⟨1, 0, 0⟩ ⟨0, 1 / 2, 0⟩) →
      euclid (scaledDifference euclid ⟨1, 0, 0⟩ ⟨0, 1 / 2, 0⟩)
          * euclid (scaledDifference euclid ⟨1, 0, 0⟩ ⟨0, 1 / 2, 0⟩)
        ≤ (1 + e) * (1 + e) * (scaledDifference euclid ⟨1, 0, 0⟩ ⟨0, 1 / 2, 0⟩).sq →
      (pursuitCommand euclid besideFollower ⟨1, 0, 0⟩ ⟨0, 1 / 2, 0⟩).linear.sq
            * ((1 - e) * (1 - e))
          ≤ besideFollower.cruising_speed_ * besideFollower.cruising_speed_ ∧
        besideFollower.cruising_speed_ * besideFollower.cruising_speed_
          ≤ (pursuitCommand euclid besideFollower ⟨1, 0, 0⟩ ⟨0, 1 / 2, 0⟩).linear.sq
              * ((1 + e) * (1 + e))) ∧
    (euclid (scaledDifference euclid ⟨1, 0, 0⟩ ⟨0, 1 / 2, 0⟩) = 1 →
      (pursuitCommand euclid besideFollower ⟨1, 0, 0⟩ ⟨0, 1 / 2, 0⟩).linear
        = ⟨((1 : ℚ) - 0) / euclid ((⟨1, 0, 0⟩ : Vec3).sub ⟨0, 1 / 2, 0⟩)
              * besideFollower.cruising_speed_,
            ((0 : ℚ) - 1 / 2) / euclid ((⟨1, 0, 0⟩ : Vec3).sub ⟨0, 1 / 2, 0⟩)
              * besideFollower.cruising_speed_,
            ((0 : ℚ) - 0) / euclid ((⟨1, 0, 0⟩ : Vec3).sub ⟨0, 1 / 2, 0⟩)
              * besideFollower.cruising_speed_⟩) := by
  have h : 2 ≤ besideFollower.target_path_.poses.length ∧
      euclid (besideFollower.ual_pose_.position.sub (waypoint 0 0 0).position) < 1 ∧
      calculatePosOnPath euclid besideFollower besideFollower.ual_pose_.position
        (besideFollower.look_ahead_ * 1.5) besideFollower.prev_normal_pos_on_path_
        besideFollower.target_path_ = .ok 0 ∧
      calculatePosLookAhead euclid besideFollower 0 = .ok 1 ∧
      Vector3f (waypoint 1 0 0).position = some ⟨1, 0, 0⟩ ∧
      Vector3f besideFollower.ual_pose_.position = some ⟨0, 1 / 2, 0⟩ ∧
      euclid ((⟨1, 0, 0⟩ : Vec3).sub ⟨0, 1 / 2, 0⟩) ≠ 0 ∧
      euclid (scaledDifference euclid ⟨1, 0, 0⟩ ⟨0, 1 / 2, 0⟩) ≠ 0 := by
    decide!
  exact getVelocity_path_command euclid besideFollower 0 1 (waypoint 1 0 0) ⟨1, 0, 0⟩
    ⟨0, 1 / 2, 0⟩ rfl h.1 (Or.inr ⟨waypoint 0 0 0, rfl, h.2.1⟩) h.2.2.1 h.2.2.2.1 rfl
    h.2.2.2.2.1 h.2.2.2.2.2.1 h.2.2.2.2.2.2.1 h.2.2.2.2.2.2.2

/-- Counterexample to C1: the vehicle is `1/1000000000` beyond the first waypoint, which
is the look-ahead waypoint that the tick resolves; the two points differ, their distance
is not zero, and they have the same coordinates in single precision, so that the
difference of the two `Vector3f` is zero and the command of the tick is not finite. -/
theorem getVelocity_path_command_counterexample :
    closeFollower.follower_mode_ = 0 ∧
    2 ≤ closeFollower.target_path_.poses.length ∧
    euclid (closeFollower.ual_pose_.position.sub (waypoint 1 0 0).position) < 1 ∧
    lookAheadOfTick euclid closeFollower = .ok 0 ∧
    closeFollower.target_path_.poses[0]? = some (waypoint 1 0 0) ∧
    (waypoint 1 0 0).position ≠ closeFollower.ual_pose_.position ∧
    euclid ((waypoint 1 0 0).position.sub closeFollower.ual_pose_.position)
      = 1 / 1000000000 ∧
    Vector3f (waypoint 1 0 0).position = some ⟨1, 0, 0⟩ ∧
    Vector3f closeFollower.ual_pose_.position = some ⟨1, 0, 0⟩ ∧
    getVelocity euclid closeFollower = .error .nonFinite := by
  decide!

/-! ### C2 -/

/-- C2. Whenever the adaptive loop of `createTrajectory` accepts a fit, every derivative
sampled by the accepted iteration, three per sample, is at most `smallest_max_vel_` in
absolute value, and the number of samples of the accepted spline is a multiple of the
number of time intervals. -/
theorem createTrajectory_accepted_fit (norm : Vec3 → ℚ) (ecl : EclSpline)
    (srv : String → Option ℚ) (fuel : Nat) (g : Generator) (lx ly lz : List ℚ) (ps : ℤ)
    (_times : List ℚ) (r : Generator × Path) (hps : ps > 1)
    (hsize : g.size_vec_percentage_ = _times.length)
    (h : createTrajectory norm ecl srv fuel g lx ly lz ps _times = .ok r) :
    ∃ k ds,
      trialDerivatives ecl lx ly lz
        (accumDistance norm 0 ((points lx ly lz).take ps.toNat)) k = .ok ds ∧
      ds.length = 3 * r.2.poses.length ∧
      (∀ d ∈ ds, |d| ≤ r.1.smallest_max_vel_) ∧
      r.1.smallest_max_vel_ = (checkSmallestMaxVel srv g).2 ∧
      r.2.poses.length % _times.length = 0 := by
  unfold createTrajectory at h
  rw [if_pos hps] at h
  simp only [] at h
  cases hfit : fitSpline ecl
      { (checkSmallestMaxVel srv g).1 with smallest_max_vel_ := (checkSmallestMaxVel srv g).2 }
      lx ly lz (accumDistance norm 0 ((points lx ly lz).take ps.toNat)) fuel ps with
  | error e => rw [hfit] at h; simp at h
  | ok path =>
    rw [hfit] at h
    simp only [bind_ok_eq, pure_eq_ok, Except.ok.injEq] at h
    subst h
    obtain ⟨k, ds, _, hds, hlen, hbound, hsz, hrem⟩ := fitSpline_accepted _ _ _ _ _ _ _ _ _ hfit
    refine ⟨k, ds, hds, hlen, hbound, rfl, ?_⟩
    have hs : ({ (checkSmallestMaxVel srv g).1 with
        smallest_max_vel_ := (checkSmallestMaxVel srv g).2 } : Generator).size_vec_percentage_
          = (_times.length : ℤ) := hsize
    rw [hs] at hrem
    exact_mod_cast hrem

/-- Witness of C2: the fit of the waypoints `(0, 0, 0)` and `(2, 0, 0)` with one time
interval and the limit `1` is accepted, at the second iteration. -/
theorem createTrajectory_accepted_fit_witness :
    ∃ k ds,
      trialDerivatives chordSpline [0, 2, 2] [0, 0, 0] [0, 0, 0]
        (accumDistance euclid 0 ((points [0, 2, 2] [0, 0, 0] [0, 0, 0]).take (3 : ℤ).toNat)) k
          = .ok ds ∧
      ds.length = 3 * fitResult.2.poses.length ∧
      (∀ d ∈ ds, |d| ≤ fitResult.1.smallest_max_vel_) ∧
      fitResult.1.smallest_max_vel_ = (checkSmallestMaxVel noService fitGenerator).2 ∧
      fitResult.2.poses.length % [(1 : ℚ)].length = 0 :=
  createTrajectory_accepted_fit euclid chordSpline noService 5 fitGenerator [0, 2, 2]
    [0, 0, 0] [0, 0, 0] 3 [1] fitResult (by decide) (by decide) (by decide!)

/-! ### C3 -/

/-- C3 (amended). For every non-empty waypoint list and every times list with
`len(times) != len(waypoints) - 1`, `generateTrajectory` generates no trajectory and
leaves the stored poses, the velocity-percentage path, `generated_times_`,
`max_velocity_` and the mode as they were; the frame id of the stored output path is
overwritten with the frame id of the input. -/
theorem generateTrajectory_mismatch (norm : Vec3 → ℚ) (ecl : EclSpline)
    (srv : String → Option ℚ) (fuel : Nat) (g : Generator) (_init_path : Path)
    (_times : List ℚ) (hne : _init_path.poses ≠ [])
    (hmis : _times.length ≠ _init_path.poses.length - 1) :
    generateTrajectory norm ecl srv fuel g _init_path _times
      = .ok ({ g with out_path_ := { g.out_path_ with frame_id := _init_path.frame_id } },
             { g.out_path_ with frame_id := _init_path.frame_id }) :=
  generateTrajectory_reject norm ecl srv fuel g _init_path _times hne (Ne.symm hmis)

/-- Witness of C3 (amended): the scenario path with an empty schedule. -/
theorem generateTrajectory_mismatch_witness :
    generateTrajectory euclid chordSpline noService 5 storedGenerator scenarioPath []
      = .ok ({ storedGenerator with
                out_path_ := { storedGenerator.out_path_ with
                  frame_id := scenarioPath.frame_id } },
             { storedGenerator.out_path_ with frame_id := scenarioPath.frame_id }) :=
  generateTrajectory_mismatch euclid chordSpline noService 5 storedGenerator scenarioPath []
    (by decide) (by decide)

/-- Counterexample to C3: a generator that stores a path in the frame `odom` is called
with the scenario path, whose frame is `map`, and an empty schedule; the call is rejected
and the stored path carries the frame `map` afterwards. -/
theorem generateTrajectory_mismatch_counterexample :
    ([] : List ℚ).length ≠ scenarioPath.poses.length - 1 ∧
    ∃ r, generateTrajectory euclid chordSpline noService 5 storedGenerator scenarioPath []
        = .ok r ∧
      r.1.out_path_ ≠ storedGenerator.out_path_ := by
  refine ⟨by decide, _, generateTrajectory_reject euclid chordSpline noService 5
    storedGenerator scenarioPath [] (by decide) (by decide), ?_⟩
  decide

/-! ### C4 -/

/-- C4 (amended). `Follower::prepareTrajectory` reads `times` as one instant per waypoint.
For at least 2 waypoints, every times list shorter than the waypoint list, the lists with
`len(times) == len(waypoints) - 1` among them, makes the call end in an out-of-range
exception before the generator is used; every times list with
`len(times) >= len(waypoints)` yields, unless a fraction is a NaN, `len(waypoints) - 1`
fractions, which is the length that the check of `generateTrajectory` accepts. -/
theorem prepareTrajectory_schedule (norm : Vec3 → ℚ) (ecl : EclSpline)
    (srv : String → Option ℚ) (fuel : Nat) (init : Generator) (f : Follower)
    (_init_path : Path) (_times : List ℚ) (h2 : 2 ≤ _init_path.poses.length) :
    (_times.length < _init_path.poses.length →
      (prepareTrajectory norm ecl srv fuel init f _init_path _times).2
        = .error .outOfRange) ∧
    (_init_path.poses.length ≤ _times.length →
      timesToMaxVelPercentage norm { f with follower_mode_ := 1 } _init_path _times
          = .error .nonFinite ∨
        ∃ l, timesToMaxVelPercentage norm { f with follower_mode_ := 1 } _init_path _times
            = .ok l ∧
          _init_path.poses.length - 1 = l.length ∧
          (prepareTrajectory norm ecl srv fuel init f _init_path _times).2
            = (generateTrajectory norm ecl srv fuel
                (Generator.construct init f.vxy_ f.vz_up_ f.vz_dn_ f.debug_) _init_path l).map
                (fun r => r.1.out_path_)) := by
  constructor
  · intro hshort
    rw [prepareTrajectory_throw norm ecl srv fuel init f _init_path _times _
      (timesToMaxVelPercentage_short norm _ _init_path _times h2 hshort)]
  · intro hlong
    rcases timesToMaxVelPercentage_long norm { f with follower_mode_ := 1 } _init_path
      _times h2 hlong with h | ⟨l, hl, hlen⟩
    · left; exact h
    · right
      refine ⟨l, hl, hlen.symm, ?_⟩
      unfold prepareTrajectory
      simp only [hl]
      cases generateTrajectory norm ecl srv fuel
        (Generator.construct init f.vxy_ f.vz_up_ f.vz_dn_ f.debug_) _init_path l with
      | error e => rfl
      | ok r => rfl

/-- Witness of C4 (amended): the theorem at two waypoints and one time. -/
theorem prepareTrajectory_schedule_witness :
    ([(1 : ℚ)].length < shortPath.poses.length →
      (prepareTrajectory euclid chordSpline noService 5 sampleGenerator sampleFollower
        shortPath [1]).2 = .error .outOfRange) ∧
    (shortPath.poses.length ≤ [(1 : ℚ)].length →
      timesToMaxVelPercentage euclid { sampleFollower with follower_mode_ := 1 } shortPath [1]
          = .error .nonFinite ∨
        ∃ l, timesToMaxVelPercentage euclid { sampleFollower with follower_mode_ := 1 }
            shortPath [1] = .ok l ∧
          shortPath.poses.length - 1 = l.length ∧
          (prepareTrajectory euclid chordSpline noService 5 sampleGenerator sampleFollower
            shortPath [1]).2
            = (generateTrajectory euclid chordSpline noService 5
                (Generator.construct sampleGenerator sampleFollower.vxy_ sampleFollower.vz_up_
                  sampleFollower.vz_dn_ sampleFollower.debug_) shortPath l).map
                (fun r => r.1.out_path_)) :=
  prepareTrajectory_schedule euclid chordSpline noService 5 sampleGenerator sampleFollower
    shortPath [1] (by decide)

/-- Counterexample to C4: with two waypoints, the times list `[1]` of length
`len(waypoints) - 1` ends the call in an out-of-range exception, and the times list
`[0, 1]` of length `len(waypoints)` makes it generate and store a trajectory of 6
samples. -/
theorem prepareTrajectory_schedule_counterexample :
    [(1 : ℚ)].length = shortPath.poses.length - 1 ∧
    (prepareTrajectory euclid chordSpline noService 5 sampleGenerator sampleFollower
      shortPath [1]).2 = .error .outOfRange ∧
    [(0 : ℚ), 1].length ≠ shortPath.poses.length - 1 ∧
    storedCount (prepareTrajectory euclid chordSpline noService 5 sampleGenerator
      sampleFollower shortPath [0, 1]) = some 6 := by
  decide!

/-! ### C5 -/

/-- C5 (amended). Whenever `Follower::prepareTrajectory` fails because the time schedule
is shorter than the waypoint list, the active target path, `generated_times_`, `max_vel_`,
the anchor indices and the started flag keep their values from before the call, and
`follower_mode_` is `1` (trajectory) whatever it was before. -/
theorem prepareTrajectory_failure_state (norm : Vec3 → ℚ) (ecl : EclSpline)
    (srv : String → Option ℚ) (fuel : Nat) (init : Generator) (f : Follower)
    (_init_path : Path) (_times : List ℚ) (h2 : 2 ≤ _init_path.poses.length)
    (hshort : _times.length < _init_path.poses.length) :
    let f' := (prepareTrajectory norm ecl srv fuel init f _init_path _times).1
    f'.target_path_ = f.target_path_ ∧ f'.generated_times_ = f.generated_times_ ∧
      f'.max_vel_ = f.max_vel_ ∧
      f'.prev_normal_pos_on_path_ = f.prev_normal_pos_on_path_ ∧
      f'.prev_normal_vel_on_path_ = f.prev_normal_vel_on_path_ ∧
      f'.flag_run_ = f.flag_run_ ∧ f'.follower_mode_ = 1 := by
  intro f'
  have h : f' = { f with follower_mode_ := 1 } := by
    show (prepareTrajectory norm ecl srv fuel init f _init_path _times).1 = _
    rw [prepareTrajectory_throw norm ecl srv fuel init f _init_path _times _
      (timesToMaxVelPercentage_short norm _ _init_path _times h2 hshort)]
  rw [h]
  exact ⟨rfl, rfl, rfl, rfl, rfl, rfl, rfl⟩

/-- Witness of C5 (amended): the theorem at two waypoints and one time. -/
theorem prepareTrajectory_failure_state_witness :
    let f' := (prepareTrajectory euclid chordSpline noService 5 sampleGenerator
      sampleFollower shortPath [1]).1
    f'.target_path_ = sampleFollower.target_path_ ∧
      f'.generated_times_ = sampleFollower.generated_times_ ∧
      f'.max_vel_ = sampleFollower.max_vel_ ∧
      f'.prev_normal_pos_on_path_ = sampleFollower.prev_normal_pos_on_path_ ∧
      f'.prev_normal_vel_on_path_ = sampleFollower.prev_normal_vel_on_path_ ∧
      f'.flag_run_ = sampleFollower.flag_run_ ∧ f'.follower_mode_ = 1 :=
  prepareTrajectory_failure_state euclid chordSpline noService 5 sampleGenerator
    sampleFollower shortPath [1] (by decide) (by decide)

/-- Counterexample to C5: a follower in path mode is given two waypoints and one time; the
call fails with an out-of-range exception and the follower is in trajectory mode
afterwards. -/
theorem prepareTrajectory_failure_state_counterexample :
    sampleFollower.follower_mode_ = 0 ∧
    (prepareTrajectory euclid chordSpline noService 5 sampleGenerator sampleFollower
      shortPath [1]).2 = .error .outOfRange ∧
    (prepareTrajectory euclid chordSpline noService 5 sampleGenerator sampleFollower
      shortPath [1]).1.follower_mode_ = 1 := by
  decide!

/-! ### C6 -/

/-- C7 (amended). In linear mode, for every waypoint list of length at least 2, the first
sample of `generatePath` is at the first waypoint, and the last sample is at the last
waypoint whenever the path has at least as many samples as the input has waypoints. -/
theorem generatePath_linear_endpoints (norm : Vec3 → ℚ) (ecl : EclSpline) (g : Generator)
    (_init_path : Path) (first last : Pose) (h2 : 2 ≤ _init_path.poses.length)
    (hfirst : _init_path.poses.head? = some first)
    (hlast : _init_path.poses.getLast? = some last) :
    ∃ r, generatePath norm ecl g _init_path 0 = .ok r ∧
      r.2.poses.head?.map (fun p => p.position) = some first.position ∧
      (_init_path.poses.length ≤ r.2.poses.length →
        r.2.poses.getLast?.map (fun p => p.position) = some last.position) := by
  obtain ⟨r, hr, hpos, _, _⟩ := generatePath_linear_result norm ecl g _init_path last hlast
  refine ⟨r, hr, ?_, ?_⟩
  · rw [← List.head?_map, hpos, linearPoses_positions, List.head?_map, queryAxis_head]
    obtain ⟨rest, hposes⟩ : ∃ rest, _init_path.poses = first :: rest := by
      cases h : _init_path.poses with
      | nil => rw [h] at hfirst; simp at hfirst
      | cons a l => rw [h] at hfirst; simp at hfirst; exact ⟨l, by rw [hfirst]⟩
    simp only [Option.map_some']
    rw [resampled_zero _ (by simp; omega), resampled_zero _ (by simp; omega),
      resampled_zero _ (by simp; omega), hposes]
    simp
  · intro hlen
    have hlen' : _init_path.poses.length ≤ (linearCount norm _init_path - 1).toNat + 1 := by
      have := congrArg List.length hpos
      rw [List.length_map, List.length_map, linearPoses_length] at this
      omega
    obtain ⟨k, hk⟩ : ∃ k, _init_path.poses.length = k + 1 :=
      ⟨_init_path.poses.length - 1, by omega⟩
    have ha : (k : ℤ) + 1 ≤ linearCount norm _init_path := by omega
    obtain ⟨hlo, hhi⟩ := queryAxis_last_bounds k (linearCount norm _init_path) ha
    rw [← List.getLast?_map, hpos, linearPoses_positions, List.getLast?_map,
      queryAxis_getLast, hk]
    simp only [Option.map_some']
    have hx := padded_getD_last (fun p => p.position.x) _ _ hlast
    have hy := padded_getD_last (fun p => p.position.y) _ _ hlast
    have hz := padded_getD_last (fun p => p.position.z) _ _ hlast
    rw [hk] at hx hy hz
    simp only [Nat.add_sub_cancel] at hx hy hz
    rw [resampled_tail _ k last.position.x _ (by simp; omega) hx.1 hx.2 hlo hhi,
      resampled_tail _ k last.position.y _ (by simp; omega) hy.1 hy.2 hlo hhi,
      resampled_tail _ k last.position.z _ (by simp; omega) hz.1 hz.2 hlo hhi]

/-- Witness of C7 (amended): the theorem at the scenario path. -/
theorem generatePath_linear_endpoints_witness :
    ∃ r, generatePath euclid chordSpline sampleGenerator scenarioPath 0 = .ok r ∧
      r.2.poses.head?.map (fun p => p.position) = some (waypoint 0 0 0).position ∧
      (scenarioPath.poses.length ≤ r.2.poses.length →
        r.2.poses.getLast?.map (fun p => p.position) = some (waypoint 10 0 0).position) :=
  generatePath_linear_endpoints euclid chordSpline sampleGenerator scenarioPath
    (waypoint 0 0 0) (waypoint 10 0 0) (by decide) rfl rfl

/-- Counterexample to C7: for the waypoints `(0, 0, 0)` and `(1/2, 0, 0)` the linear mode
returns the single sample `(0, 0, 0)`, so the last sample is not at the last waypoint. -/
theorem generatePath_linear_last_counterexample :
    2 ≤ [waypoint 0 0 0, waypoint (1 / 2) 0 0].length ∧
    ∃ l, samplePositions (generatePath euclid chordSpline sampleGenerator
          ⟨"map", [waypoint 0 0 0, waypoint (1 / 2) 0 0]⟩ 0) = some l ∧
      l.getLast? ≠ some (waypoint (1 / 2) 0 0).position :=
  ⟨by decide, [⟨0, 0, 0⟩], by decide!, by decide!⟩

/-! ### C8 -/

/-- C9 (amended). For the waypoints `(0, 0, 0)` and `(10, 0, 0)` the linear mode of
`generatePath` returns exactly 500 samples with `y = 0` and `z = 0`; sample `k` has
`x = k / 25` for `k ≤ 250` and `x = 10` from there on, so that `x` never decreases, starts
at `0` and ends at `10`, consecutive samples being `0.04` apart in the first half and
equal in the second. -/
theorem generatePath_scenario (ecl : EclSpline) (g : Generator) :
    ∃ r, generatePath euclid ecl g scenarioPath 0 = .ok r ∧
      r.2.poses.map (fun p => p.position) = scenarioSamples := by
  obtain ⟨r, hr, hpos, _, _⟩ :=
    generatePath_linear_result euclid ecl g scenarioPath (waypoint 10 0 0) rfl
  exact ⟨r, hr, hpos.trans scenario_linearPoses⟩

/-- Counterexample to C9: the first two samples of the scenario are `0.04` apart in `x`,
not `0.02`, and samples `250` and `251` coincide. -/
theorem generatePath_scenario_spacing_counterexample :
    ∃ l, samplePositions (generatePath euclid chordSpline sampleGenerator scenarioPath 0)
        = some l ∧
      (l.getD 1 ⟨0, 0, 0⟩).x - (l.getD 0 ⟨0, 0, 0⟩).x = 0.04 ∧
      (l.getD 251 ⟨0, 0, 0⟩).x - (l.getD 250 ⟨0, 0, 0⟩).x = 0 := by
  obtain ⟨r, hr, hpos, _, _⟩ := generatePath_linear_result euclid chordSpline
    sampleGenerator scenarioPath (waypoint 10 0 0) rfl
  refine ⟨scenarioSamples, ?_, by decide!, by decide!⟩
  rw [hr]
  exact congrArg some (hpos.trans scenario_linearPoses)

/-! ### C10 -/

/-- C10 (the code at the failing input). For a single waypoint the linear mode of
`generatePath` does not return an empty path: it returns one sample, at the waypoint. -/
theorem generatePath_single_waypoint (norm : Vec3 → ℚ) (ecl : EclSpline) (g : Generator)
    (frame : String) (p : Pose) :
    ∃ r, generatePath norm ecl g ⟨frame, [p]⟩ 0 = .ok r ∧
      r.2.poses.map (fun q => q.position) = [p.position] := by
  obtain ⟨r, hr, hpos, _, _⟩ := generatePath_linear_result norm ecl g ⟨frame, [p]⟩ p rfl
  refine ⟨r, hr, ?_⟩
  rw [hpos, linearPoses_positions]
  have hc : linearCount norm ⟨frame, [p]⟩ = 0 := by
    rw [linearCount_eq]
    simp only [List.map_cons, List.map_nil, accumDistance, mul_zero]
    rw [if_pos (by decide)]
  rw [hc]
  have hq : queryAxis ((⟨frame, [p]⟩ : Path).poses.length + 1) 0 = [0] := by
    simp [queryAxis, stepAxis]
  rw [hq]
  simp only [List.map_cons, List.map_nil, List.nil_append]
  rw [resampled_zero _ (by simp), resampled_zero _ (by simp), resampled_zero _ (by simp)]
  simp

/-! ### C11 -/

/-- C11 (amended). The adaptive joint-count loop of `generateTrajectory` has no iteration
cap and no convergence error: it ends only when a fit is accepted or an exception is
thrown. For at least 2 waypoints with an `int` distance of at least 1, a non-empty
schedule and a negative smallest limit, no fit is accepted: on no bound on its iterations
does the call return a path; while the `int` joint counter has not passed `INT_MAX`, the
loop is still running when the bound is reached as long as the sample counts of its
iterations, the number of joint intervals times the `int` distance, are `int`s, and the
constructor of the sample vectors throws in the first iteration whose sample count is no
`int`. -/
theorem createTrajectory_no_cap (norm : Vec3 → ℚ) (ecl : EclSpline)
    (srv : String → Option ℚ) (g : Generator) (lx ly lz : List ℚ) (_times : List ℚ)
    (hm : 2 ≤ lx.length) (hy : ly.length = lx.length) (hz : lz.length = lx.length)
    (hD : 1 ≤ accumDistance norm 0 ((points lx ly lz).take lx.length))
    (hs : (checkSmallestMaxVel srv g).2 < 0) (hsz : g.size_vec_percentage_ ≠ 0) :
    ∀ fuel : Nat,
      (∀ r, createTrajectory norm ecl srv fuel g lx ly lz lx.length _times ≠ .ok r) ∧
      ((lx.length : ℤ) + (fuel : ℤ) ≤ INT_MAX →
        ((lx.length : ℤ) + (fuel : ℤ) - 2)
          * accumDistance norm 0 ((points lx ly lz).take lx.length) ≤ INT_MAX →
        createTrajectory norm ecl srv fuel g lx ly lz lx.length _times
          = .error .outOfFuel) ∧
      ((lx.length : ℤ) + (fuel : ℤ) ≤ INT_MAX → 0 < fuel →
        INT_MAX < ((lx.length : ℤ) + (fuel : ℤ) - 2)
          * accumDistance norm 0 ((points lx ly lz).take lx.length) →
        createTrajectory norm ecl srv fuel g lx ly lz lx.length _times
          = .error .lengthError) := by
  intro fuel
  have h := createTrajectory_never norm ecl srv g lx ly lz _times hm hy hz hD hs hsz fuel
  refine ⟨?_, ?_, ?_⟩
  · intro r
    exact createTrajectory_no_path norm ecl srv g lx ly lz _times hm hy hz hs fuel r
  · intro hcnt hfit
    rw [h hcnt, if_pos (Or.inr hfit)]
  · intro hcnt hfuel hover
    rw [h hcnt, if_neg]
    rintro (h0 | h1)
    · omega
    · exact absurd h1 (not_le.mpr hover)

/-- Witness of C11 (amended): the padded coordinates of two waypoints `2` apart under the
limits `2`, `3` and `-1`, with a bound of `1000` iterations. -/
theorem createTrajectory_no_cap_witness :
    (∀ r, createTrajectory euclid chordSpline noService 1000 negativeGenerator [0, 2, 2]
      [0, 0, 0] [0, 0, 0] ([0, 2, 2] : List ℚ).length [1] ≠ .ok r) ∧
    ((([0, 2, 2] : List ℚ).length : ℤ) + ((1000 : ℕ) : ℤ) ≤ INT_MAX →
      ((([0, 2, 2] : List ℚ).length : ℤ) + ((1000 : ℕ) : ℤ) - 2)
        * accumDistance euclid 0
            ((points [0, 2, 2] [0, 0, 0] [0, 0, 0]).take ([0, 2, 2] : List ℚ).length)
        ≤ INT_MAX →
      createTrajectory euclid chordSpline noService 1000 negativeGenerator [0, 2, 2]
        [0, 0, 0] [0, 0, 0] ([0, 2, 2] : List ℚ).length [1] = .error .outOfFuel) ∧
    ((([0, 2, 2] : List ℚ).length : ℤ) + ((1000 : ℕ) : ℤ) ≤ INT_MAX → 0 < 1000 →
      INT_MAX < ((([0, 2, 2] : List ℚ).length : ℤ) + ((1000 : ℕ) : ℤ) - 2)
        * accumDistance euclid 0
            ((points [0, 2, 2] [0, 0, 0] [0, 0, 0]).take ([0, 2, 2] : List ℚ).length) →
      createTrajectory euclid chordSpline noService 1000 negativeGenerator [0, 2, 2]
        [0, 0, 0] [0, 0, 0] ([0, 2, 2] : List ℚ).length [1] = .error .lengthError) :=
  createTrajectory_no_cap euclid chordSpline noService negativeGenerator [0, 2, 2] [0, 0, 0]
    [0, 0, 0] [1] (by decide) (by decide) (by decide) (by decide!) (by decide!) (by decide)
    1000

/-- Counterexample to C11: for two waypoints `2` apart, one time interval and the limits
`2`, `3` and `-1`, `generateTrajectory` is still in its loop after `1`, after `1000` and
after `1000000` iterations, and has reported no error; within `1073741824` iterations the
sample count has ceased to be an `int` and the constructor of the sample vectors has
thrown. -/
theorem generateTrajectory_no_cap_counterexample :
    generateTrajectory euclid chordSpline noService 1 negativeGenerator shortPath [1]
      = .error .outOfFuel ∧
    generateTrajectory euclid chordSpline noService 1000 negativeGenerator shortPath [1]
      = .error .outOfFuel ∧
    generateTrajectory euclid chordSpline noService 1000000 negativeGenerator shortPath [1]
      = .error .outOfFuel ∧
    generateTrajectory euclid chordSpline noService 1073741824 negativeGenerator shortPath
      [1] = .error .lengthError := by
  have h := generateTrajectory_never euclid chordSpline noService negativeGenerator
    shortPath [1] (waypoint 2 0 0) rfl (by decide) (by decide) (by decide!) (by decide!)
  have hD : accumDistance euclid 0
      (shortPath.poses.map (fun p => p.position) ++ [(waypoint 2 0 0).position]) = 2 := by
    decide!
  rw [hD] at h
  refine ⟨?_, ?_, ?_, ?_⟩
  · rw [h 1 (by decide)]; rfl
  · rw [h 1000 (by decide)]; rfl
  · rw [h 1000000 (by decide)]; rfl
  · rw [h 1073741824 (by decide)]; rfl

/-! ### C12 -/

/-- C12. For every cruising speed `c` passed to `preparePath` with at least two
waypoints, the sample vectors of the spline modes being built, the call returns and the
stored cruising speed is `0.1` when `c <= 0`, is `smallest_max_velocity_` when
`c > smallest_max_velocity_` and `c > 0`, and is `c` otherwise. -/
theorem preparePath_cruising_speed (norm : Vec3 → ℚ) (ecl : EclSpline) (init : Generator)
    (f : Follower) (_init_path : Path) (m : ℤ) (la c : ℚ)
    (h2 : 2 ≤ _init_path.poses.length) (hfit : SplineFits norm _init_path m) :
    (∃ p, (preparePath norm ecl init f _init_path m la c).2 = .ok p) ∧
    (c ≤ 0 → (preparePath norm ecl init f _init_path m la c).1.cruising_speed_ = 0.1) ∧
    (0 < c → c > f.smallest_max_velocity_ →
      (preparePath norm ecl init f _init_path m la c).1.cruising_speed_
        = f.smallest_max_velocity_) ∧
    (0 < c → c ≤ f.smallest_max_velocity_ →
      (preparePath norm ecl init f _init_path m la c).1.cruising_speed_ = c) := by
  obtain ⟨p, hp⟩ := preparePath_ok norm ecl init f _init_path m la c h2 hfit
  rw [hp]
  refine ⟨⟨p, rfl⟩, ?_, ?_, ?_⟩
  · intro hc
    simp [storedCruisingSpeed, hc]
  · intro hc hs
    simp [storedCruisingSpeed, not_le.mpr hc, hs]
  · intro hc hs
    simp [storedCruisingSpeed, not_le.mpr hc, not_lt.mpr hs]

/-- Witness of C12: the scenario path with cruising speed `1` under the limit `1`. -/
theorem preparePath_cruising_speed_witness :
    (∃ p, (preparePath euclid chordSpline sampleGenerator sampleFollower scenarioPath 0
        (2 / 5) 1).2 = .ok p) ∧
    ((1 : ℚ) ≤ 0 → (preparePath euclid chordSpline sampleGenerator sampleFollower
        scenarioPath 0 (2 / 5) 1).1.cruising_speed_ = 0.1) ∧
    (0 < (1 : ℚ) → 1 > sampleFollower.smallest_max_velocity_ →
      (preparePath euclid chordSpline sampleGenerator sampleFollower scenarioPath 0
        (2 / 5) 1).1.cruising_speed_ = sampleFollower.smallest_max_velocity_) ∧
    (0 < (1 : ℚ) → 1 ≤ sampleFollower.smallest_max_velocity_ →
      (preparePath euclid chordSpline sampleGenerator sampleFollower scenarioPath 0
        (2 / 5) 1).1.cruising_speed_ = 1) :=
  preparePath_cruising_speed euclid chordSpline sampleGenerator sampleFollower scenarioPath 0
    (2 / 5) 1 (by decide) (by decide)

/-! ### C13 -/

/-- C13 (the code at the failing input). After a `preparePath` that returns, on at least
two waypoints, the stored cruising speed lies in the half-open interval
`(0, smallest_max_velocity_]` exactly when the input is positive and the smallest limit is
positive, or the input is not positive and the smallest limit is at least `0.1`: for an
input that is not positive under a smallest limit below `0.1` the call stores `0.1`, which
is above the smallest limit. -/
theorem preparePath_cruising_interval (norm : Vec3 → ℚ) (ecl : EclSpline) (init : Generator)
    (f : Follower) (_init_path : Path) (m : ℤ) (la c : ℚ)
    (h2 : 2 ≤ _init_path.poses.length) (hfit : SplineFits norm _init_path m) :
    (∃ p, (preparePath norm ecl init f _init_path m la c).2 = .ok p) ∧
    (preparePath norm ecl init f _init_path m la c).1.smallest_max_velocity_
      = f.smallest_max_velocity_ ∧
    ((0 < (preparePath norm ecl init f _init_path m la c).1.cruising_speed_ ∧
        (preparePath norm ecl init f _init_path m la c).1.cruising_speed_
          ≤ f.smallest_max_velocity_) ↔
      ((0 < c ∧ 0 < f.smallest_max_velocity_)
        ∨ (c ≤ 0 ∧ (0.1 : ℚ) ≤ f.smallest_max_velocity_))) ∧
    (c ≤ 0 → f.smallest_max_velocity_ < 0.1 →
      (preparePath norm ecl init f _init_path m la c).1.cruising_speed_ = 0.1 ∧
      f.smallest_max_velocity_
        < (preparePath norm ecl init f _init_path m la c).1.cruising_speed_) := by
  obtain ⟨p, hp⟩ := preparePath_ok norm ecl init f _init_path m la c h2 hfit
  rw [hp]
  have h01 : (0 : ℚ) < 0.1 := by norm_num
  refine ⟨⟨p, rfl⟩, rfl, ?_, ?_⟩
  · show (0 < storedCruisingSpeed _ c ∧ storedCruisingSpeed _ c ≤ _) ↔ _
    unfold storedCruisingSpeed
    split_ifs with h1 h3
    · constructor
      · rintro ⟨_, hb⟩
        exact Or.inr ⟨h1, hb⟩
      · rintro (⟨hc, _⟩ | ⟨_, hb⟩)
        · linarith
        · exact ⟨h01, hb⟩
    · constructor
      · rintro ⟨ha, _⟩
        exact Or.inl ⟨by linarith, ha⟩
      · rintro (⟨_, hs⟩ | ⟨hc, _⟩)
        · exact ⟨hs, le_refl _⟩
        · exact absurd hc h1
    · constructor
      · rintro ⟨ha, hb⟩
        exact Or.inl ⟨ha, by linarith⟩
      · rintro (⟨hc, _⟩ | ⟨hc, _⟩)
        · exact ⟨hc, by linarith⟩
        · exact absurd hc h1
  · intro hc hs
    show storedCruisingSpeed _ c = 0.1 ∧ _ < storedCruisingSpeed _ c
    unfold storedCruisingSpeed
    rw [if_pos hc]
    exact ⟨rfl, hs⟩

/-- Witness of C13 (the code at the failing input): the limits `1/20`, `3`, `1` lie in
ranges that start at `0`, `1/2` and `1/2`, so that capping leaves them and the smallest
is `1/20`; for the cruising speed `0` the call stores `1/10`, which is above the smallest
limit. -/
theorem preparePath_cruising_interval_witness :
    ((capMaxVelocities wideRanges slowFollower).vxy_ = 1 / 20 ∧
      (capMaxVelocities wideRanges slowFollower).vz_up_ = 3 ∧
      (capMaxVelocities wideRanges slowFollower).vz_dn_ = 1 ∧
      (capMaxVelocities wideRanges slowFollower).smallest_max_velocity_ = 1 / 20) ∧
    (∃ p, (preparePath euclid chordSpline sampleGenerator
        (capMaxVelocities wideRanges slowFollower) shortPath 0 (2 / 5) 0).2 = .ok p) ∧
    (preparePath euclid chordSpline sampleGenerator
        (capMaxVelocities wideRanges slowFollower) shortPath 0 (2 / 5)
        0).1.smallest_max_velocity_
      = (capMaxVelocities wideRanges slowFollower).smallest_max_velocity_ ∧
    ((0 < (preparePath euclid chordSpline sampleGenerator
          (capMaxVelocities wideRanges slowFollower) shortPath 0 (2 / 5)
          0).1.cruising_speed_ ∧
        (preparePath euclid chordSpline sampleGenerator
          (capMaxVelocities wideRanges slowFollower) shortPath 0 (2 / 5)
          0).1.cruising_speed_
          ≤ (capMaxVelocities wideRanges slowFollower).smallest_max_velocity_) ↔
      ((0 < (0 : ℚ) ∧ 0 < (capMaxVelocities wideRanges slowFollower).smallest_max_velocity_)
        ∨ ((0 : ℚ) ≤ 0
          ∧ (0.1 : ℚ) ≤ (capMaxVelocities wideRanges slowFollower).smallest_max_velocity_))) ∧
    ((0 : ℚ) ≤ 0 → (capMaxVelocities wideRanges slowFollower).smallest_max_velocity_ < 0.1 →
      (preparePath euclid chordSpline sampleGenerator
        (capMaxVelocities wideRanges slowFollower) shortPath 0 (2 / 5)
        0).1.cruising_speed_ = 0.1 ∧
      (capMaxVelocities wideRanges slowFollower).smallest_max_velocity_
        < (preparePath euclid chordSpline sampleGenerator
          (capMaxVelocities wideRanges slowFollower) shortPath 0 (2 / 5)
          0).1.cruising_speed_) :=
  ⟨by decide!,
    preparePath_cruising_interval euclid chordSpline sampleGenerator
      (capMaxVelocities wideRanges slowFollower) shortPath 0 (2 / 5) 0 (by decide)
      (by decide)⟩

/-! ### C14 -/

/-- C14. The started latch is monotone. A `getVelocity` tick on a path of at least 2
points that returns leaves the latch set if and only if it was set before or the distance
from the current position to the first path point is below `1`; and from a follower whose
latch is set, every sequence of `getVelocity` and `updatePose` calls that returns ends
with the latch set. -/
theorem getVelocity_latch (norm : Vec3 → ℚ) (f f' : Follower) (v : Twist)
    (calls : List Call) (g g' : Follower)
    (hsize : 2 ≤ f.target_path_.poses.length) (htick : getVelocity norm f = .ok (f', v))
    (hg : g.flag_run_ = true) (hrun : runCalls norm calls g = .ok g') :
    (f'.flag_run_ = true ↔
      (f.flag_run_ = true ∨
        ∃ p0, f.target_path_.poses[0]? = some p0 ∧
          norm (f.ual_pose_.position.sub p0.position) < 1)) ∧
    g'.flag_run_ = true :=
  ⟨getVelocity_flag norm f f' v hsize htick, runCalls_flag_keep norm calls g g' hg hrun⟩

/-- Witness of C14: the first tick of the tracking follower sets the latch, and the latch
is still set after a pose update and a second tick. -/
theorem getVelocity_latch_witness :
    (tickResult.1.flag_run_ = true ↔
      (trackingFollower.flag_run_ = true ∨
        ∃ p0, trackingFollower.target_path_.poses[0]? = some p0 ∧
          euclid (trackingFollower.ual_pose_.position.sub p0.position) < 1)) ∧
    afterCalls.flag_run_ = true :=
  getVelocity_latch euclid trackingFollower tickResult.1 tickResult.2
    [Call.updatePose (waypoint (1 / 2) 0 0), Call.getVelocity] tickResult.1 afterCalls
    (by decide) (by decide!) (by decide!) (by decide!)

/-! ### C15 -/

/-- C15 (amended). A preparation call does not re-arm the follower: after `preparePath` and
after `prepareTrajectory` the started flag and the two anchor indices have the values
they had before the call. -/
theorem prepare_keeps_tracking_state (norm : Vec3 → ℚ) (ecl : EclSpline)
    (srv : String → Option ℚ) (fuel : Nat) (init : Generator) (f : Follower)
    (_init_path : Path) (m : ℤ) (la c : ℚ) (_times : List ℚ) :
    ((preparePath norm ecl init f _init_path m la c).1.flag_run_ = f.flag_run_ ∧
      (preparePath norm ecl init f _init_path m la c).1.prev_normal_pos_on_path_
        = f.prev_normal_pos_on_path_ ∧
      (preparePath norm ecl init f _init_path m la c).1.prev_normal_vel_on_path_
        = f.prev_normal_vel_on_path_) ∧
    ((prepareTrajectory norm ecl srv fuel init f _init_path _times).1.flag_run_ = f.flag_run_ ∧
      (prepareTrajectory norm ecl srv fuel init f _init_path _times).1.prev_normal_pos_on_path_
        = f.prev_normal_pos_on_path_ ∧
      (prepareTrajectory norm ecl srv fuel init f _init_path _times).1.prev_normal_vel_on_path_
        = f.prev_normal_vel_on_path_) := by
  constructor
  · unfold preparePath
    simp only []
    split
    · exact ⟨rfl, rfl, rfl⟩
    · split_ifs <;> exact ⟨rfl, rfl, rfl⟩
  · unfold prepareTrajectory
    simp only []
    split
    · exact ⟨rfl, rfl, rfl⟩
    · split
      · exact ⟨rfl, rfl, rfl⟩
      · split <;> exact ⟨rfl, rfl, rfl⟩

/-- Counterexample to C15: a follower that has started, with its anchors at index `3`, is
given a new path and then a new trajectory; both calls return, and the follower is still
started with its anchors at `3`. -/
theorem prepare_keeps_tracking_state_counterexample :
    storedCount (preparePath euclid chordSpline sampleGenerator runningFollower shortPath 0
      (2 / 5) 1) = some 100 ∧
    (preparePath euclid chordSpline sampleGenerator runningFollower shortPath 0
      (2 / 5) 1).1.flag_run_ = true ∧
    (preparePath euclid chordSpline sampleGenerator runningFollower shortPath 0
      (2 / 5) 1).1.prev_normal_pos_on_path_ = 3 ∧
    storedCount (prepareTrajectory euclid chordSpline noService 5 sampleGenerator
      runningFollower shortPath [0, 1]) = some 6 ∧
    (prepareTrajectory euclid chordSpline noService 5 sampleGenerator runningFollower
      shortPath [0, 1]).1.flag_run_ = true ∧
    (prepareTrajectory euclid chordSpline noService 5 sampleGenerator runningFollower
      shortPath [0, 1]).1.prev_normal_vel_on_path_ = 3 := by
  obtain ⟨⟨p1, p2, _⟩, ⟨t1, _, t3⟩⟩ := prepare_keeps_state euclid chordSpline noService 5
    sampleGenerator runningFollower shortPath 0 (2 / 5) 1 [0, 1]
  refine ⟨?_, by rw [p1]; rfl, by rw [p2]; rfl, by decide!, by rw [t1]; rfl, by rw [t3]; rfl⟩
  rw [preparePath_linear_count euclid chordSpline sampleGenerator runningFollower shortPath
    (waypoint 2 0 0) (2 / 5) 1 rfl]
  decide!

/-! ### C16 -/

/-- C16. `getVelocity` is a no-op whenever the active path has fewer than 2 points, or
the follower has not started and the current position is at distance at least `1` from
the first path point: it returns the stored command and the follower is unchanged. -/
theorem getVelocity_noop (norm : Vec3 → ℚ) (f : Follower)
    (h : f.target_path_.poses.length < 2 ∨
      (f.flag_run_ = false ∧
        ∀ p0, f.target_path_.poses[0]? = some p0 →
          1 ≤ norm (f.ual_pose_.position.sub p0.position))) :
    getVelocity norm f = .ok (f, f.out_velocity_) :=
  getVelocity_idle norm f h

/-- Witness of C16: a follower that has not started, `5` away from the first waypoint. -/
theorem getVelocity_noop_witness :
    getVelocity euclid farFollower = .ok (farFollower, farFollower.out_velocity_) :=
  getVelocity_noop euclid farFollower
    (Or.inr ⟨rfl, by
      intro p0 hp0
      have : p0 = waypoint 0 0 0 := by
        have h : farFollower.target_path_.poses[0]? = some (waypoint 0 0 0) := rfl
        rw [h] at hp0
        exact (Option.some.inj hp0).symm
      subst this
      decide!⟩)

/-! ### C17 -/

/-- C17 (amended). Let `R = 1.5 * look_ahead > 0` and let `[start, end)` be the window of
the nearest-point search around the anchor `a`. Every examined index from `a` on is within
path distance `R` of `a` unless the window ends at the last path index, which it does
whenever `R` is not below the straight-line distance from the anchor to the last point;
every examined index before `a` is within path distance `R / 2` of `a` unless the window
starts at index `0`, which it does whenever the first backward segment is not shorter
than `R / 2`. The norm is non-negative. -/
theorem search_window_distance (norm : Vec3 → ℚ) (hn : ∀ v, 0 ≤ norm v) (f : Follower)
    (a start_search end_search : Nat) (hR : 0 < f.look_ahead_)
    (hs : calculateDistanceOnPath norm f a (-(f.look_ahead_ * 1.5)) = .ok start_search)
    (he : calculateDistanceOnPath norm f a (f.look_ahead_ * 1.5) = .ok end_search) :
    (∀ i, start_search ≤ i → i < end_search →
      (a ≤ i → end_search ≠ f.target_path_.poses.length - 1 →
        pathDistance norm f.target_path_.poses a i < f.look_ahead_ * 1.5) ∧
      (i < a → start_search ≠ 0 →
        pathDistance norm f.target_path_.poses i a < f.look_ahead_ * 1.5 / 2)) ∧
    (¬ f.look_ahead_ * 1.5
        < norm ((f.target_path_.poses.getD a Pose.origin).position.sub
          (f.target_path_.poses.getD (f.target_path_.poses.length - 1)
            Pose.origin).position) →
      end_search = f.target_path_.poses.length - 1) ∧
    (1 ≤ a →
      ¬ segmentLength norm f.target_path_.poses (a - 1) < f.look_ahead_ * 1.5 / 2 →
      start_search = 0) := by
  have hpos : f.look_ahead_ * 1.5 > 0 := by
    have : (0 : ℚ) < 1.5 := by norm_num
    positivity
  have habs : |-(f.look_ahead_ * 1.5) / 2| = f.look_ahead_ * 1.5 / 2 := by
    rw [neg_div, abs_neg, abs_of_pos (by linarith)]
  refine ⟨?_, ?_, ?_⟩
  · intro i hsi hie
    constructor
    · intro hai hend
      rcases (calculateDistanceOnPath_forward norm f a end_search _ hpos he).2
        with h | ⟨_, _, h⟩
      · exact absurd h hend
      · exact lt_of_le_of_lt
          (pathDistance_mono norm hn _ a a (end_search + 1) i (le_refl _) (by omega)) h
    · intro hia hstart
      rcases (calculateDistanceOnPath_backward norm f a start_search _ (by linarith) hs).2
        with h | ⟨_, _, h⟩
      · exact absurd h hstart
      · rw [habs] at h
        exact lt_of_le_of_lt
          (pathDistance_mono norm hn _ (start_search - 1) i a a (by omega) (le_refl _)) h
  · intro hfar
    exact calculateDistanceOnPath_forward_far norm f a end_search _ hpos hfar he
  · intro ha hfar
    rw [← habs] at hfar
    exact calculateDistanceOnPath_backward_far norm f a start_search _ (by linarith) ha hfar hs

/-- Witness of C17 (amended): the window around the anchor `2` on five waypoints one unit
apart, with look-ahead `5/2`. -/
theorem search_window_distance_witness :
    (∀ i, 2 ≤ i → i < 4 →
      (2 ≤ i → 4 ≠ trackingFollower.target_path_.poses.length - 1 →
        pathDistance euclid trackingFollower.target_path_.poses 2 i
          < trackingFollower.look_ahead_ * 1.5) ∧
      (i < 2 → 2 ≠ 0 →
        pathDistance euclid trackingFollower.target_path_.poses i 2
          < trackingFollower.look_ahead_ * 1.5 / 2)) ∧
    (¬ trackingFollower.look_ahead_ * 1.5
        < euclid ((trackingFollower.target_path_.poses.getD 2 Pose.origin).position.sub
          (trackingFollower.target_path_.poses.getD
            (trackingFollower.target_path_.poses.length - 1) Pose.origin).position) →
      4 = trackingFollower.target_path_.poses.length - 1) ∧
    (1 ≤ 2 →
      ¬ segmentLength euclid trackingFollower.target_path_.poses (2 - 1)
        < trackingFollower.look_ahead_ * 1.5 / 2 →
      2 = 0) :=
  search_window_distance euclid euclid_nonneg trackingFollower 2 2 4 (by decide!)
    (by decide!) (by decide!)

/-- Counterexample to C17: on the path that comes back next to its start the window around
the anchor `0` with `R = 3/2` is `[0, 3)`, and the examined index `2` is at path distance
`20` from the anchor; on five waypoints one unit apart the window around the anchor `3`
with `R = 3/2` is `[0, 4)`, and the examined index `0` is at path distance `3` from the
anchor. -/
theorem search_window_distance_counterexample :
    calculateDistanceOnPath euclid loopFollower 0 (-(loopFollower.look_ahead_ * 1.5)) = .ok 0 ∧
    calculateDistanceOnPath euclid loopFollower 0 (loopFollower.look_ahead_ * 1.5) = .ok 3 ∧
    pathDistance euclid loopFollower.target_path_.poses 0 2 = 20 ∧
    ¬ ((20 : ℚ) ≤ loopFollower.look_ahead_ * 1.5) ∧
    calculateDistanceOnPath euclid nearFollower 3 (-(nearFollower.look_ahead_ * 1.5)) = .ok 0 ∧
    calculateDistanceOnPath euclid nearFollower 3 (nearFollower.look_ahead_ * 1.5) = .ok 4 ∧
    pathDistance euclid nearFollower.target_path_.poses 0 3 = 3 ∧
    ¬ ((3 : ℚ) ≤ nearFollower.look_ahead_ * 1.5) := by
  decide!

/-! ### C18 -/

/-- C18. For every current position and every non-empty index window `[start, end)`
computed by `calculatePosOnPath` around the anchor `a`, the index returned lies in the
window and its path point is at the least distance from the current position among the
indices of the window, the lowest such index on ties; a tracking tick that returns stores
this index as the anchor of its mode. -/
theorem calculatePosOnPath_nearest (norm : Vec3 → ℚ) (f : Follower)
    (a start_search end_search : Nat)
    (hs : calculateDistanceOnPath norm f a (-(f.look_ahead_ * 1.5)) = .ok start_search)
    (he : calculateDistanceOnPath norm f a (f.look_ahead_ * 1.5) = .ok end_search)
    (hlt : start_search < end_search) :
    ∃ anchor,
      calculatePosOnPath norm f f.ual_pose_.position (f.look_ahead_ * 1.5) a f.target_path_
        = .ok anchor ∧
      start_search ≤ anchor ∧ anchor < end_search ∧
      (∀ i, start_search ≤ i → i < end_search →
        pointDistance norm f.target_path_.poses f.ual_pose_.position anchor
          ≤ pointDistance norm f.target_path_.poses f.ual_pose_.position i) ∧
      (∀ i, start_search ≤ i → i < anchor →
        pointDistance norm f.target_path_.poses f.ual_pose_.position anchor
          < pointDistance norm f.target_path_.poses f.ual_pose_.position i) ∧
      (∀ f' v, 2 ≤ f.target_path_.poses.length →
        (f.flag_run_ = true ∨
          ∃ p0, f.target_path_.poses[0]? = some p0 ∧
            norm (f.ual_pose_.position.sub p0.position) < 1) →
        getVelocity norm f = .ok (f', v) →
        (f.follower_mode_ ≠ 1 → a = f.prev_normal_pos_on_path_ →
          f'.prev_normal_pos_on_path_ = anchor) ∧
        (f.follower_mode_ = 1 → a = f.prev_normal_vel_on_path_ →
          f'.prev_normal_vel_on_path_ = anchor)) := by
  obtain ⟨anchor, hanchor, h1, h2, h3, h4⟩ := calculatePosOnPath_spec norm f
    f.ual_pose_.position (f.look_ahead_ * 1.5) a start_search end_search hs he hlt
  refine ⟨anchor, hanchor, h1, h2, h3, h4, ?_⟩
  intro f' v hsize htrack htick
  constructor
  · intro hmode ha
    rw [ha] at hanchor
    exact getVelocity_stores_anchor norm f f' v anchor hsize hmode htrack hanchor htick
  · intro hmode ha
    rw [ha] at hanchor
    exact getVelocity_stores_anchor_trajectory norm f f' v anchor hsize hmode htrack hanchor
      htick

/-- Witness of C18: the window `[0, 2)` around the anchor `0` of the tracking follower. -/
theorem calculatePosOnPath_nearest_witness :
    ∃ anchor,
      calculatePosOnPath euclid trackingFollower trackingFollower.ual_pose_.position
        (trackingFollower.look_ahead_ * 1.5) 0 trackingFollower.target_path_ = .ok anchor ∧
      0 ≤ anchor ∧ anchor < 2 ∧
      (∀ i, 0 ≤ i → i < 2 →
        pointDistance euclid trackingFollower.target_path_.poses
            trackingFollower.ual_pose_.position anchor
          ≤ pointDistance euclid trackingFollower.target_path_.poses
            trackingFollower.ual_pose_.position i) ∧
      (∀ i, 0 ≤ i → i < anchor →
        pointDistance euclid trackingFollower.target_path_.poses
            trackingFollower.ual_pose_.position anchor
          < pointDistance euclid trackingFollower.target_path_.poses
            trackingFollower.ual_pose_.position i) ∧
      (∀ f' v, 2 ≤ trackingFollower.target_path_.poses.length →
        (trackingFollower.flag_run_ = true ∨
          ∃ p0, trackingFollower.target_path_.poses[0]? = some p0 ∧
            euclid (trackingFollower.ual_pose_.position.sub p0.position) < 1) →
        getVelocity euclid trackingFollower = .ok (f', v) →
        (trackingFollower.follower_mode_ ≠ 1 → 0 = trackingFollower.prev_normal_pos_on_path_ →
          f'.prev_normal_pos_on_path_ = anchor) ∧
        (trackingFollower.follower_mode_ = 1 → 0 = trackingFollower.prev_normal_vel_on_path_ →
          f'.prev_normal_vel_on_path_ = anchor)) :=
  calculatePosOnPath_nearest euclid trackingFollower 0 0 2 (by decide!) (by decide!)
    (by decide)

/-! ### C19 -/

/-- C19 (amended). For every anchor index `a` before the last path index whose first
forward segment is shorter than `look_ahead_`, `calculatePosLookAhead` returns an index
`r >= a` before the last path index such that the path distance from `a` to `r + 1` is
below `look_ahead_`, while `r + 1` is the last path index or the path distance from `a` to
`r + 2` is not below `look_ahead_`: the index returned is the one before the last index
within the look-ahead distance, and never the last path index. -/
theorem calculatePosLookAhead_index (norm : Vec3 → ℚ) (f : Follower) (a : Nat)
    (ha : a + 1 < f.target_path_.poses.length)
    (hfirst : segmentLength norm f.target_path_.poses a < f.look_ahead_) :
    ∃ r, calculatePosLookAhead norm f a = .ok r ∧ a ≤ r ∧
      r + 1 < f.target_path_.poses.length ∧
      pathDistance norm f.target_path_.poses a (r + 1) < f.look_ahead_ ∧
      (r + 1 = f.target_path_.poses.length - 1 ∨
        f.look_ahead_ ≤ pathDistance norm f.target_path_.poses a (r + 2)) := by
  obtain ⟨res, hres, hcase⟩ := forwardScan_full norm f.target_path_.poses f.look_ahead_
    (f.target_path_.poses.length - 1 - a) a 0 none (by omega)
  unfold calculatePosLookAhead
  simp only []
  rw [if_neg (by omega), hres]
  simp only [bind_ok_eq]
  rcases hcase with ⟨_, hk⟩ | ⟨r, hr, h1, h2, h3, h4⟩
  · exfalso
    rcases hk with hk | hk
    · omega
    · apply hk
      linarith
  · subst hr
    refine ⟨r, rfl, h1, by omega, by linarith, ?_⟩
    rcases h4 with h4 | h4
    · left; omega
    · right
      have := not_lt.mp h4
      linarith

/-- Witness of C19 (amended): the anchor `0` of the tracking follower. -/
theorem calculatePosLookAhead_index_witness :
    ∃ r, calculatePosLookAhead euclid trackingFollower 0 = .ok r ∧ 0 ≤ r ∧
      r + 1 < trackingFollower.target_path_.poses.length ∧
      pathDistance euclid trackingFollower.target_path_.poses 0 (r + 1)
        < trackingFollower.look_ahead_ ∧
      (r + 1 = trackingFollower.target_path_.poses.length - 1 ∨
        trackingFollower.look_ahead_
          ≤ pathDistance euclid trackingFollower.target_path_.poses 0 (r + 2)) :=
  calculatePosLookAhead_index euclid trackingFollower 0 (by decide) (by decide!)

/-- Counterexample to C19: on five waypoints one unit apart with look-ahead `5/2` the
index returned for the anchor `0` is `1`, although the path distance from `0` to `2` is
still below the look-ahead; with look-ahead `10` the path ends first and the index
returned is `3`, not the last index `4`. -/
theorem calculatePosLookAhead_index_counterexample :
    segmentLength euclid trackingFollower.target_path_.poses 0 < trackingFollower.look_ahead_ ∧
    calculatePosLookAhead euclid trackingFollower 0 = .ok 1 ∧
    pathDistance euclid trackingFollower.target_path_.poses 0 (1 + 1)
      < trackingFollower.look_ahead_ ∧
    1 ≠ trackingFollower.target_path_.poses.length - 1 ∧
    calculatePosLookAhead euclid farSightedFollower 0 = .ok 3 ∧
    pathDistance euclid farSightedFollower.target_path_.poses 0 4
      < farSightedFollower.look_ahead_ ∧
    3 ≠ farSightedFollower.target_path_.poses.length - 1 := by
  decide!

/-! ### C20 -/

/-- C20 (amended). When the look-ahead waypoint that a tracking tick resolves coincides
exactly with the current position, `getVelocity` does not return a zero-velocity command:
in path mode and in trajectory mode alike `calculateVelocity` divides by the zero
distance, and the command of the tick is not finite. The norm of the zero vector is `0`. -/
theorem getVelocity_zero_distance (norm : Vec3 → ℚ) (f : Follower) (la : Nat)
    (target : Pose) (hzero : norm ⟨0, 0, 0⟩ = 0)
    (hsize : 2 ≤ f.target_path_.poses.length)
    (htrack : f.flag_run_ = true ∨
      ∃ p0, f.target_path_.poses[0]? = some p0 ∧
        norm (f.ual_pose_.position.sub p0.position) < 1)
    (hmode : f.follower_mode_ = 0 ∨ f.follower_mode_ = 1)
    (hla : lookAheadOfTick norm f = .ok la)
    (htarget : f.target_path_.poses[la]? = some target)
    (heq : target.position = f.ual_pose_.position) :
    getVelocity norm f = .error .nonFinite := by
  have hvel : ∀ p, calculateVelocity norm f f.ual_pose_.position la p = .error .nonFinite :=
    fun p => calculateVelocity_zero_distance norm f _ la p target hzero hmode htarget heq
  unfold lookAheadOfTick at hla
  by_cases h1 : f.follower_mode_ = 1
  · rw [if_pos h1] at hla
    rw [getVelocity_tracking_trajectory norm f hsize h1 htrack]
    cases ha : calculatePosOnPath norm f f.ual_pose_.position (f.look_ahead_ * 1.5)
        f.prev_normal_vel_on_path_ f.target_path_ with
    | error e => rw [ha] at hla; simp at hla
    | ok anchor =>
      rw [ha] at hla
      simp only [bind_ok_eq] at hla ⊢
      cases hc : changeLookAhead f anchor with
      | error e => rw [hc] at hla; simp at hla
      | ok l =>
        rw [hc] at hla
        simp only [bind_ok_eq] at hla ⊢
        rw [hla]
        simp only [bind_ok_eq, hvel]
        rfl
  · rw [if_neg h1] at hla
    rw [getVelocity_tracking norm f hsize h1 htrack]
    cases ha : calculatePosOnPath norm f f.ual_pose_.position (f.look_ahead_ * 1.5)
        f.prev_normal_pos_on_path_ f.target_path_ with
    | error e => rw [ha] at hla; simp at hla
    | ok anchor =>
      rw [ha] at hla
      simp only [bind_ok_eq] at hla ⊢
      rw [hla]
      simp only [bind_ok_eq, hvel]
      rfl

/-- Witness of C20 (amended): the vehicle is at the first waypoint, which is the
look-ahead waypoint of the tick. -/
theorem getVelocity_zero_distance_witness :
    getVelocity euclid coincidingFollower = .error .nonFinite :=
  getVelocity_zero_distance euclid coincidingFollower 0 (waypoint 0 0 0) (by decide!)
    (by decide) (Or.inr ⟨waypoint 0 0 0, rfl, by decide!⟩) (Or.inl rfl) (by decide!) rfl rfl

/-- Counterexample to C20: in path mode and in trajectory mode a tick whose look-ahead
waypoint is the waypoint the vehicle is at ends in the non-finite fault, not in a
zero-velocity command. -/
theorem getVelocity_zero_distance_counterexample :
    lookAheadOfTick euclid coincidingFollower = .ok 0 ∧
    coincidingFollower.target_path_.poses[0]? = some coincidingFollower.ual_pose_ ∧
    getVelocity euclid coincidingFollower = .error .nonFinite ∧
    lookAheadOfTick euclid coincidingTrajectoryFollower = .ok 0 ∧
    coincidingTrajectoryFollower.target_path_.poses[0]?
      = some coincidingTrajectoryFollower.ual_pose_ ∧
    getVelocity euclid coincidingTrajectoryFollower = .error .nonFinite := by
  decide!

/-! ### C21 -/

/-- C21 (amended). In path mode, for every straight-line path (points with non-decreasing
coordinates along the line), every follower that has started with its stored anchor at
index `0` and a positive look-ahead, and every sequence of vehicle positions on the line
whose coordinates do not decrease, the anchors resolved by the ticks at these positions,
when all of them return, are as many as the positions and non-decreasing. -/
theorem tickAnchors_monotone (norm : Vec3 → ℚ) (f : Follower) (cs : List Pose)
    (t : Nat → ℚ) (s : Pose → ℚ) (anchors : List Nat)
    (hsize : 2 ≤ f.target_path_.poses.length) (hmode : f.follower_mode_ ≠ 1)
    (hrun : f.flag_run_ = true) (hLA : 0 < f.look_ahead_)
    (h0 : f.prev_normal_pos_on_path_ = 0)
    (hline : ∀ i j, i < f.target_path_.poses.length → j < f.target_path_.poses.length →
      norm ((f.target_path_.poses.getD i Pose.origin).position.sub
        (f.target_path_.poses.getD j Pose.origin).position) = |t i - t j|)
    (hmono : ∀ i j, i ≤ j → j < f.target_path_.poses.length → t i ≤ t j)
    (hcs : ∀ c ∈ cs, ∀ i, i < f.target_path_.poses.length →
      pointDistance norm f.target_path_.poses c.position i = |t i - s c|)
    (hadv : cs.Pairwise (fun c c' => s c ≤ s c'))
    (h : tickAnchors norm cs f = .ok anchors) :
    anchors.length = cs.length ∧ anchors.Pairwise (fun a b => a ≤ b) := by
  refine ⟨tickAnchors_length norm cs f anchors h, ?_⟩
  cases cs with
  | nil =>
    simp only [tickAnchors, Except.ok.injEq] at h
    rw [← h]
    exact List.Pairwise.nil
  | cons c rest =>
    simp only [tickAnchors] at h
    cases hr : getVelocity norm (updatePose f c) with
    | error e => rw [hr] at h; simp at h
    | ok r =>
      rw [hr] at h
      simp only [bind_ok_eq] at h
      cases hrest : tickAnchors norm rest r.1 with
      | error e => rw [hrest] at h; simp at h
      | ok anchors' =>
        rw [hrest] at h
        simp only [bind_ok_eq, pure_eq_ok, Except.ok.injEq] at h
        obtain ⟨a, la, ha, _, _, hf1⟩ := getVelocity_tracking_inv norm (updatePose f c) r.1 r.2
          hsize hmode (Or.inl hrun) hr
        have ha' : calculatePosOnPath norm f c.position (f.look_ahead_ * 1.5)
            f.prev_normal_pos_on_path_ f.target_path_ = .ok a := by
          rw [← calculatePosOnPath_congr norm f (updatePose f c) rfl]
          exact ha
        have e1 : r.1.target_path_ = f.target_path_ := by rw [hf1]; rfl
        have e2 : r.1.look_ahead_ = f.look_ahead_ := by rw [hf1]; rfl
        have e3 : r.1.follower_mode_ ≠ 1 := by rw [hf1]; exact hmode
        have e4 : r.1.flag_run_ = true := by rw [hf1]
        have e5 : r.1.prev_normal_pos_on_path_ = a := by rw [hf1]
        have e6 : r.1.anchor = a := by
          unfold Follower.anchor
          rw [if_neg e3, e5]
        obtain ⟨hall, hpw⟩ := tickAnchors_chain norm f.target_path_ f.look_ahead_ t s hLA
          hsize hline hmono rest r.1 f.prev_normal_pos_on_path_ c anchors' e1 e2 e3 e4
          (by
            rw [e5, calculatePosOnPath_congr norm f r.1 e1]
            exact ha')
          (by rw [h0]; exact Nat.zero_le _)
          (hcs c (List.mem_cons_self _ _))
          (fun c' hc' => (List.pairwise_cons.mp hadv).1 c' hc')
          (fun c' hc' => hcs c' (List.mem_cons_of_mem _ hc'))
          (List.pairwise_cons.mp hadv).2 hrest
        rw [e5] at hall
        rw [← h, e6]
        exact List.pairwise_cons.mpr ⟨hall, hpw⟩

/-- Witness of C21 (amended): on eight waypoints one unit apart the vehicle is at
`x = 5/2` and then at `x = 13/4`; the anchors are `1` and `2`. -/
theorem tickAnchors_monotone_witness :
    ([1, 2] : List Nat).length = [waypoint (5 / 2) 0 0, waypoint (13 / 4) 0 0].length ∧
    ([1, 2] : List Nat).Pairwise (fun a b => a ≤ b) :=
  tickAnchors_monotone euclid chaseFollower [waypoint (5 / 2) 0 0, waypoint (13 / 4) 0 0]
    (fun i => (i : ℚ)) (fun c => c.position.x) [1, 2] (by decide) (by decide) rfl
    (by decide!) rfl
    (by
      intro i j hi hj
      have hi8 : i < 8 := hi
      have hj8 : j < 8 := hj
      interval_cases i <;> interval_cases j <;> decide!)
    (by
      intro i j hij _
      show (i : ℚ) ≤ (j : ℚ)
      exact_mod_cast hij)
    (by
      intro c hc i hi
      have hi8 : i < 8 := hi
      simp only [List.mem_cons, List.mem_singleton, List.not_mem_nil, or_false] at hc
      rcases hc with rfl | rfl <;> interval_cases i <;> decide!)
    (by decide!) (by decide!)

/-- Counterexample to C21: on eight waypoints one unit apart, in path mode with the
look-ahead `3` and the stored anchor `6`, the vehicle advances from `x = 0` to `x = 1/2`
and the anchors resolved are `5` and then `4`; in trajectory mode from the anchor `0`,
where the look-ahead is recomputed at every tick, the vehicle advances from `x = 21/10`
to `x = 11/5` and the anchors resolved are `2` and then `1`. -/
theorem tickAnchors_monotone_counterexample :
    tickAnchors euclid [waypoint 0 0 0, waypoint (1 / 2) 0 0] staleFollower = .ok [5, 4] ∧
    tickAnchors euclid [waypoint (21 / 10) 0 0, waypoint (11 / 5) 0 0] shrinkingFollower
      = .ok [2, 1] := by
  decide!

/-! ### C22 -/

/-- C22 (amended). Two consecutive `getVelocity` calls with no `updatePose` in between
return identical velocity commands whenever the second call leaves the stored anchors as
the first call left them: the command of a tick is determined by the pose and the anchor
the tick resolves, and the second call searches a window around the anchor that the first
call stored. -/
theorem getVelocity_repeat (norm : Vec3 → ℚ) (f f1 f2 : Follower) (v1 v2 : Twist)
    (h1 : getVelocity norm f = .ok (f1, v1)) (h2 : getVelocity norm f1 = .ok (f2, v2))
    (hpos : f2.prev_normal_pos_on_path_ = f1.prev_normal_pos_on_path_)
    (hvel : f2.prev_normal_vel_on_path_ = f1.prev_normal_vel_on_path_) :
    v2 = v1 := by
  by_cases htr : 2 ≤ f.target_path_.poses.length ∧ (f.flag_run_ = true ∨
      ∃ p0, f.target_path_.poses[0]? = some p0 ∧
        norm (f.ual_pose_.position.sub p0.position) < 1)
  · obtain ⟨hsize, htrack⟩ := htr
    by_cases hmode : f.follower_mode_ = 1
    · obtain ⟨a, l, la, ha, hl, hla, hv, hf1⟩ :=
        getVelocity_tracking_trajectory_inv norm f f1 v1 hsize hmode htrack h1
      have e1 : f1.target_path_ = f.target_path_ := by rw [hf1]
      have e2 : f1.follower_mode_ = f.follower_mode_ := by rw [hf1]
      have e3 : f1.flag_run_ = true := by rw [hf1]
      have e4 : f1.prev_normal_vel_on_path_ = a := by rw [hf1]
      have e5 : f1.ual_pose_ = f.ual_pose_ := by rw [hf1]
      have e6 : f1.max_vel_ = f.max_vel_ := by rw [hf1]
      have e7 : f1.generated_times_ = f.generated_times_ := by rw [hf1]
      have e8 : f1.cruising_speed_ = f.cruising_speed_ := by rw [hf1]
      obtain ⟨a', l', la', ha', hl', hla', hv', hf2⟩ :=
        getVelocity_tracking_trajectory_inv norm f1 f2 v2 (by rw [e1]; exact hsize)
          (by rw [e2]; exact hmode) (Or.inl e3) h2
      have haa : a' = a := by
        have : f2.prev_normal_vel_on_path_ = a' := by rw [hf2]
        rw [← this, hvel, e4]
      subst haa
      rw [changeLookAhead_congr f f1 e6 e7, hl] at hl'
      have hll : l = l' := Except.ok.inj hl'
      subst hll
      rw [calculatePosLookAhead_congr norm { f with look_ahead_ := l }
        { f1 with look_ahead_ := l } e1 rfl, hla] at hla'
      have hlala : la = la' := Except.ok.inj hla'
      subst hlala
      rw [calculateVelocity_congr norm f f1 e1 e2 e8 e6 e7, e5, hv] at hv'
      exact (Except.ok.inj hv').symm
    · obtain ⟨a, la, ha, hla, hv, hf1⟩ :=
        getVelocity_tracking_inv norm f f1 v1 hsize hmode htrack h1
      have e1 : f1.target_path_ = f.target_path_ := by rw [hf1]
      have e2 : f1.follower_mode_ = f.follower_mode_ := by rw [hf1]
      have e3 : f1.flag_run_ = true := by rw [hf1]
      have e4 : f1.prev_normal_pos_on_path_ = a := by rw [hf1]
      have e5 : f1.ual_pose_ = f.ual_pose_ := by rw [hf1]
      have e6 : f1.max_vel_ = f.max_vel_ := by rw [hf1]
      have e7 : f1.generated_times_ = f.generated_times_ := by rw [hf1]
      have e8 : f1.cruising_speed_ = f.cruising_speed_ := by rw [hf1]
      have e9 : f1.look_ahead_ = f.look_ahead_ := by rw [hf1]
      obtain ⟨a', la', ha', hla', hv', hf2⟩ :=
        getVelocity_tracking_inv norm f1 f2 v2 (by rw [e1]; exact hsize)
          (by rw [e2]; exact hmode) (Or.inl e3) h2
      have haa : a' = a := by
        have : f2.prev_normal_pos_on_path_ = a' := by rw [hf2]
        rw [← this, hpos, e4]
      subst haa
      rw [calculatePosLookAhead_congr norm f f1 e1 e9, hla] at hla'
      have hlala : la = la' := Except.ok.inj hla'
      subst hlala
      rw [calculateVelocity_congr norm f f1 e1 e2 e8 e6 e7, e5, hv] at hv'
      exact (Except.ok.inj hv').symm
  · have hidle : getVelocity norm f = .ok (f, f.out_velocity_) := by
      apply getVelocity_idle
      by_cases hs : f.target_path_.poses.length < 2
      · exact Or.inl hs
      · right
        have hnt : ¬ (f.flag_run_ = true ∨
            ∃ p0, f.target_path_.poses[0]? = some p0 ∧
              norm (f.ual_pose_.position.sub p0.position) < 1) := by
          intro hc; exact htr ⟨by omega, hc⟩
        push_neg at hnt
        exact ⟨by simpa using hnt.1, fun p0 hp0 => hnt.2 p0 hp0⟩
    rw [hidle] at h1
    simp only [Except.ok.injEq, Prod.mk.injEq] at h1
    rw [← h1.1, hidle] at h2
    simp only [Except.ok.injEq, Prod.mk.injEq] at h2
    rw [← h2.2, ← h1.2]

/-- Witness of C22 (amended): the vehicle at the first of five waypoints one unit apart;
both ticks resolve the anchor `0`. -/
theorem getVelocity_repeat_witness :
    (tickOf tickResult.1).2 = tickResult.2 :=
  getVelocity_repeat euclid trackingFollower tickResult.1 (tickOf tickResult.1).1
    tickResult.2 (tickOf tickResult.1).2 (by decide!) (by decide!) (by decide!) (by decide!)

/-- Counterexample to C22: on eight waypoints one unit apart, with the vehicle at
`x = 5/2`, the look-ahead `12/5` and the stored anchor `0`, the first tick resolves the
anchor `1` and commands `(-1, 0, 0)` toward the waypoint at `x = 2`; the second tick, with
no pose update in between, resolves the anchor `2` and commands `(1, 0, 0)` toward the
waypoint at `x = 3`. -/
theorem getVelocity_repeat_counterexample :
    getVelocity euclid chaseFollower = .ok (tickOf chaseFollower) ∧
    (tickOf chaseFollower).1.ual_pose_ = chaseFollower.ual_pose_ ∧
    (tickOf chaseFollower).1.prev_normal_pos_on_path_ = 1 ∧
    (tickOf chaseFollower).2.linear = ⟨-1, 0, 0⟩ ∧
    getVelocity euclid (tickOf chaseFollower).1 = .ok (tickOf (tickOf chaseFollower).1) ∧
    (tickOf (tickOf chaseFollower).1).1.prev_normal_pos_on_path_ = 2 ∧
    (tickOf (tickOf chaseFollower).1).2.linear = ⟨1, 0, 0⟩ := by
  decide!

/-! ### C23 -/

/-- C23. For every non-empty list `xs` and every value `v`, `nearestNeighbourIndex`
returns a valid index `i` with `|v - xs[i]| <= |v - xs[j]|` for every index `j`, and among
all indices at that minimum distance it returns the last one. -/
theorem nearestNeighbourIndex_last_minimum (xs : List ℚ) (v : ℚ) (h : xs ≠ []) :
    nearestNeighbourIndex xs v < xs.length ∧
    (∀ j, j < xs.length →
      |xs.getD (nearestNeighbourIndex xs v) 0 - v| ≤ |xs.getD j 0 - v|) ∧
    (∀ j, j < xs.length →
      |xs.getD j 0 - v| = |xs.getD (nearestNeighbourIndex xs v) 0 - v| →
      j ≤ nearestNeighbourIndex xs v) := by
  obtain ⟨h1, h2, h3⟩ := nearestNeighbourIndex_spec xs v h
  refine ⟨h1, ?_, ?_⟩
  · intro j hj
    rw [abs_sub_comm _ v, abs_sub_comm _ v]
    exact h2 j hj
  · intro j hj heq
    by_contra hc
    have := h3 j hj (by omega)
    rw [abs_sub_comm (xs.getD j 0) v,
      abs_sub_comm (xs.getD (nearestNeighbourIndex xs v) 0) v] at heq
    rw [heq] at this
    exact lt_irrefl _ this

/-- Witness of C23: the values `0, 2, 4` and the value `3`, which is as far from `2` as
from `4`. -/
theorem nearestNeighbourIndex_last_minimum_witness :
    nearestNeighbourIndex [0, 2, 4] 3 < ([0, 2, 4] : List ℚ).length ∧
    (∀ j, j < ([0, 2, 4] : List ℚ).length →
      |([0, 2, 4] : List ℚ).getD (nearestNeighbourIndex [0, 2, 4] 3) 0 - 3|
        ≤ |([0, 2, 4] : List ℚ).getD j 0 - 3|) ∧
    (∀ j, j < ([0, 2, 4] : List ℚ).length →
      |([0, 2, 4] : List ℚ).getD j 0 - 3|
        = |([0, 2, 4] : List ℚ).getD (nearestNeighbourIndex [0, 2, 4] 3) 0 - 3| →
      j ≤ nearestNeighbourIndex [0, 2, 4] 3) :=
  nearestNeighbourIndex_last_minimum [0, 2, 4] 3 (by decide)

/-! ### C24 -/

/-- C24 (amended). For every non-empty list `xs` and every value `v`,
`nearestNeighbourIndex` breaks ties toward the higher index: every index whose element is
at most as far from `v` as the element at the index returned is at most the index
returned. -/
theorem nearestNeighbourIndex_tie_highest (xs : List ℚ) (v : ℚ) (j : Nat) (h : xs ≠ [])
    (hj : j < xs.length)
    (hle : |v - xs.getD j 0| ≤ |v - xs.getD (nearestNeighbourIndex xs v) 0|) :
    j ≤ nearestNeighbourIndex xs v := by
  by_contra hc
  have := (nearestNeighbourIndex_spec xs v h).2.2 j hj (by omega)
  linarith

/-- Witness of C24 (amended): the values `0, 2` and the value `1` between them, with the
index `1`. -/
theorem nearestNeighbourIndex_tie_highest_witness :
    1 ≤ nearestNeighbourIndex [0, 2] 1 :=
  nearestNeighbourIndex_tie_highest [0, 2] 1 1 (by decide) (by decide) (by decide!)

/-- Counterexample to C24: the values `0` and `2` are both at distance `1` from the value
`1`, and the index returned is `1`, not the lower index `0`. -/
theorem nearestNeighbourIndex_tie_counterexample :
    |(1 : ℚ) - 0| = 1 ∧ |(1 : ℚ) - 2| = 1 ∧ nearestNeighbourIndex [0, 2] 1 = 1 := by
  decide!

/-! ### C25 -/

/-- C25. For every strictly increasing `xs` with at least 2 points, `ys` of the same
length and queries inside `[xs[0], xs[last]]`, `linealInterp1` returns one value per query
in query order, the value of the piecewise-linear interpolant of `(xs, ys)` at the query:
`ys[k] + (q - xs[k]) * (ys[k+1] - ys[k]) / (xs[k+1] - xs[k])` for every `k` with
`xs[k] <= q <= xs[k+1]`, of which there is one; in particular it is `ys[j]` at
`q = xs[j]`. -/
theorem linealInterp1_piecewise (xs ys qs : List ℚ) (hn : 2 ≤ xs.length)
    (hy : ys.length = xs.length) (hx : StrictlyIncreasing xs)
    (hq : ∀ q ∈ qs, xs.getD 0 0 ≤ q ∧ q ≤ xs.getD (xs.length - 1) 0) :
    ∃ r, linealInterp1 xs ys qs = .ok r ∧ r.length = qs.length ∧
      ∀ i, i < qs.length →
        (∃ k, k + 1 < xs.length ∧ xs.getD k 0 ≤ qs.getD i 0 ∧
          qs.getD i 0 ≤ xs.getD (k + 1) 0) ∧
        (∀ k, k + 1 < xs.length → xs.getD k 0 ≤ qs.getD i 0 →
          qs.getD i 0 ≤ xs.getD (k + 1) 0 →
          r.getD i 0 = segmentValue xs ys k (qs.getD i 0)) ∧
        (∀ j, j < xs.length → qs.getD i 0 = xs.getD j 0 → r.getD i 0 = ys.getD j 0) := by
  have hx := strictlyIncreasing_getD_lt hx
  induction qs with
  | nil => exact ⟨[], rfl, rfl, by intro i hi; simp at hi⟩
  | cons q rest ih =>
    obtain ⟨r, hr, hlen, hall⟩ := ih (fun q' hq' => hq q' (List.mem_cons_of_mem _ hq'))
    obtain ⟨hlo, hhi⟩ := hq q (List.mem_cons_self _ _)
    obtain ⟨k0, hk0, hk1, hk2, hv⟩ := interpPoint_segment xs ys q hn hy hx hlo hhi
    refine ⟨segmentValue xs ys k0 q :: r, ?_, by simp [hlen], ?_⟩
    · simp only [linealInterp1, hv, hr, bind_ok_eq, pure_eq_ok]
    · intro i hi
      cases i with
      | zero =>
        simp only [List.getD_cons_zero]
        refine ⟨⟨k0, hk0, hk1, hk2⟩, ?_, ?_⟩
        · intro k hk hka hkb
          exact segmentValue_unique xs ys q hx k0 k hk0 hk hk1 hk2 hka hkb
        · intro j hj hqj
          by_cases hjl : j + 1 < xs.length
          · rw [segmentValue_unique xs ys q hx k0 j hk0 hjl hk1 hk2 (by rw [hqj])
              (by rw [hqj]; exact le_of_lt (hx j (j + 1) (by omega) hjl)), hqj]
            exact segmentValue_left xs ys j
          · obtain ⟨j', rfl⟩ : ∃ j', j = j' + 1 := ⟨j - 1, by omega⟩
            rw [segmentValue_unique xs ys q hx k0 j' hk0 hj hk1 hk2
              (by rw [hqj]; exact le_of_lt (hx j' (j' + 1) (by omega) hj))
              (by rw [hqj]), hqj]
            exact segmentValue_right xs ys j' hx hj
      | succ i =>
        simp only [List.getD_cons_succ]
        exact hall i (by simpa using hi)

/-- Witness of C25: the points `(0, 1), (1, 3), (3, 7)` queried at `1/2`, `1` and `3`. -/
theorem linealInterp1_piecewise_witness :
    ∃ r, linealInterp1 [0, 1, 3] [1, 3, 7] [1 / 2, 1, 3] = .ok r ∧
      r.length = ([1 / 2, 1, 3] : List ℚ).length ∧
      ∀ i, i < ([1 / 2, 1, 3] : List ℚ).length →
        (∃ k, k + 1 < ([0, 1, 3] : List ℚ).length ∧
          ([0, 1, 3] : List ℚ).getD k 0 ≤ ([1 / 2, 1, 3] : List ℚ).getD i 0 ∧
          ([1 / 2, 1, 3] : List ℚ).getD i 0 ≤ ([0, 1, 3] : List ℚ).getD (k + 1) 0) ∧
        (∀ k, k + 1 < ([0, 1, 3] : List ℚ).length →
          ([0, 1, 3] : List ℚ).getD k 0 ≤ ([1 / 2, 1, 3] : List ℚ).getD i 0 →
          ([1 / 2, 1, 3] : List ℚ).getD i 0 ≤ ([0, 1, 3] : List ℚ).getD (k + 1) 0 →
          r.getD i 0 = segmentValue [0, 1, 3] [1, 3, 7] k (([1 / 2, 1, 3] : List ℚ).getD i 0)) ∧
        (∀ j, j < ([0, 1, 3] : List ℚ).length →
          ([1 / 2, 1, 3] : List ℚ).getD i 0 = ([0, 1, 3] : List ℚ).getD j 0 →
          r.getD i 0 = ([1, 3, 7] : List ℚ).getD j 0) :=
  linealInterp1_piecewise [0, 1, 3] [1, 3, 7] [1 / 2, 1, 3] (by decide) (by decide)
    (by decide!)
    (by
      intro q hq
      simp only [List.mem_cons, List.mem_singleton, List.not_mem_nil, or_false] at hq
      rcases hq with rfl | rfl | rfl <;> constructor <;> decide!)

/-! ### C26 -/

/-- C26 (amended). `linealInterp1` has no check of the size of `xs`: for every `xs` with
fewer than 2 points it reads outside `xs` at the first query, and for no query it returns
the empty list. -/
theorem linealInterp1_short (xs ys qs : List ℚ) (q : ℚ) (h : xs.length < 2) :
    linealInterp1 xs ys (q :: qs) = .error .undefinedBehaviour ∧
    linealInterp1 xs ys [] = .ok [] := by
  constructor
  · simp only [linealInterp1, interpPoint_short xs ys q h]
    rfl
  · rfl

/-- Witness of C26 (amended): one point and one query. -/
theorem linealInterp1_short_witness :
    linealInterp1 [1] [5] (1 :: []) = .error .undefinedBehaviour ∧
    linealInterp1 [1] [5] [] = .ok [] :=
  linealInterp1_short [1] [5] [] 1 (by decide)

/-- Counterexample to C26: with one point and no query `linealInterp1` does not fail, and
with one point and the query `1` it reads `xs[-1]`; with no point it reads `xs[0]`. -/
theorem linealInterp1_short_counterexample :
    linealInterp1 [1] [5] [] = .ok [] ∧
    linealInterp1 [1] [5] [1] = .error .undefinedBehaviour ∧
    diffPrev [1] (nearestNeighbourIndex [1] 1) = .error .undefinedBehaviour ∧
    linealInterp1 [] [] [1] = .error .undefinedBehaviour ∧
    rd ([] : List ℚ) (nearestNeighbourIndex [] 1) = .error .undefinedBehaviour := by
  decide!

/-! ### C27 -/

/-- C27. For every list of `n >= 2` values and every `newCount >= 1`,
`interpWaypointList` returns exactly `newCount` values, of which the `k`-th is the
piecewise-linear interpolant of the list over the index domain `[0, n - 1]` at the
position `k * (n - 1) / newCount`; the first value is the first value of the list. -/
theorem interpWaypointList_resample (ys : List ℚ) (newCount : ℤ) (hn : 2 ≤ ys.length)
    (hc : 1 ≤ newCount) :
    ∃ r, interpWaypointList ys newCount = .ok r ∧ (r.length : ℤ) = newCount ∧
      (∀ k : Nat, (k : ℤ) < newCount →
        r.getD k 0
          = indexInterpolant ys ((k : ℚ) * ((ys.length : ℚ) - 1) / (newCount : ℚ))) ∧
      r.getD 0 0 = ys.getD 0 0 := by
  have hpos : (0 : ℚ) < (newCount : ℚ) := by exact_mod_cast (by omega : (0 : ℤ) < newCount)
  have hlen : ((queryAxis ys.length newCount).length : ℤ) = newCount := by
    rw [queryAxis_length]
    push_cast
    rw [Int.toNat_of_nonneg (by omega)]
    ring
  have hk : ∀ k : Nat, (k : ℤ) < newCount →
      ((queryAxis ys.length newCount).map (resampled ys)).getD k 0
        = indexInterpolant ys ((k : ℚ) * ((ys.length : ℚ) - 1) / (newCount : ℚ)) := by
    intro k hk
    have hkl : k < (queryAxis ys.length newCount).length := by
      have : (k : ℤ) < ((queryAxis ys.length newCount).length : ℤ) := by rw [hlen]; exact hk
      exact_mod_cast this
    have hq := queryAxis_getD ys.length newCount k (by omega) hk
    rw [List.getD_eq_getElem?_getD, List.getElem?_map, List.getElem?_eq_getElem hkl]
    rw [List.getD_eq_getElem?_getD, List.getElem?_eq_getElem hkl] at hq
    simp only [Option.map_some', Option.getD_some] at hq ⊢
    rw [hq]
    have hkq : (k : ℚ) < (newCount : ℚ) := by exact_mod_cast hk
    have hn1 : (0 : ℚ) < (ys.length : ℚ) - 1 := by
      have : (2 : ℚ) ≤ (ys.length : ℚ) := by exact_mod_cast hn
      linarith
    rw [resampled_eq_indexInterpolant ys _ hn (by positivity)
      (by
        rw [← mul_div_assoc, div_lt_iff₀ hpos]
        nlinarith [hn1, hkq])]
    rw [mul_div_assoc]
  refine ⟨_, interpWaypointList_eq ys newCount hn, by rw [List.length_map]; exact hlen, hk,
    ?_⟩
  rw [hk 0 (by omega)]
  simp [indexInterpolant]

/-- Witness of C27: the values `1, 3, 7` resampled to `4` values. -/
theorem interpWaypointList_resample_witness :
    ∃ r, interpWaypointList [1, 3, 7] 4 = .ok r ∧ (r.length : ℤ) = 4 ∧
      (∀ k : Nat, (k : ℤ) < 4 →
        r.getD k 0
          = indexInterpolant [1, 3, 7]
              ((k : ℚ) * ((([1, 3, 7] : List ℚ).length : ℚ) - 1) / ((4 : ℤ) : ℚ))) ∧
      r.getD 0 0 = ([1, 3, 7] : List ℚ).getD 0 0 :=
  interpWaypointList_resample [1, 3, 7] 4 (by decide) (by decide)

/-! ### C28 -/

/-- C29. After `capMaxVelocities` with ranges `[lo, hi]`, each of the three velocity limits
lies inside its range: it is the input when that is inside, `lo` when the input is below
and `hi` when it is above; and `smallest_max_velocity_` is the minimum of the three
clamped limits. -/
theorem capMaxVelocities_clamps (ranges : VelocityRanges) (f : Follower)
    (hxy : ranges.mpc_xy_vel_max_.1 ≤ ranges.mpc_xy_vel_max_.2)
    (hup : ranges.mpc_z_vel_max_up_.1 ≤ ranges.mpc_z_vel_max_up_.2)
    (hdn : ranges.mpc_z_vel_max_dn_.1 ≤ ranges.mpc_z_vel_max_dn_.2) :
    (ranges.mpc_xy_vel_max_.1 ≤ (capMaxVelocities ranges f).vxy_ ∧
      (capMaxVelocities ranges f).vxy_ ≤ ranges.mpc_xy_vel_max_.2 ∧
      (ranges.mpc_xy_vel_max_.1 ≤ f.vxy_ → f.vxy_ ≤ ranges.mpc_xy_vel_max_.2 →
        (capMaxVelocities ranges f).vxy_ = f.vxy_) ∧
      (f.vxy_ < ranges.mpc_xy_vel_max_.1 →
        (capMaxVelocities ranges f).vxy_ = ranges.mpc_xy_vel_max_.1) ∧
      (ranges.mpc_xy_vel_max_.2 < f.vxy_ →
        (capMaxVelocities ranges f).vxy_ = ranges.mpc_xy_vel_max_.2)) ∧
    (ranges.mpc_z_vel_max_up_.1 ≤ (capMaxVelocities ranges f).vz_up_ ∧
      (capMaxVelocities ranges f).vz_up_ ≤ ranges.mpc_z_vel_max_up_.2 ∧
      (ranges.mpc_z_vel_max_up_.1 ≤ f.vz_up_ → f.vz_up_ ≤ ranges.mpc_z_vel_max_up_.2 →
        (capMaxVelocities ranges f).vz_up_ = f.vz_up_) ∧
      (f.vz_up_ < ranges.mpc_z_vel_max_up_.1 →
        (capMaxVelocities ranges f).vz_up_ = ranges.mpc_z_vel_max_up_.1) ∧
      (ranges.mpc_z_vel_max_up_.2 < f.vz_up_ →
        (capMaxVelocities ranges f).vz_up_ = ranges.mpc_z_vel_max_up_.2)) ∧
    (ranges.mpc_z_vel_max_dn_.1 ≤ (capMaxVelocities ranges f).vz_dn_ ∧
      (capMaxVelocities ranges f).vz_dn_ ≤ ranges.mpc_z_vel_max_dn_.2 ∧
      (ranges.mpc_z_vel_max_dn_.1 ≤ f.vz_dn_ → f.vz_dn_ ≤ ranges.mpc_z_vel_max_dn_.2 →
        (capMaxVelocities ranges f).vz_dn_ = f.vz_dn_) ∧
      (f.vz_dn_ < ranges.mpc_z_vel_max_dn_.1 →
        (capMaxVelocities ranges f).vz_dn_ = ranges.mpc_z_vel_max_dn_.1) ∧
      (ranges.mpc_z_vel_max_dn_.2 < f.vz_dn_ →
        (capMaxVelocities ranges f).vz_dn_ = ranges.mpc_z_vel_max_dn_.2)) ∧
    (capMaxVelocities ranges f).smallest_max_velocity_ ≤ (capMaxVelocities ranges f).vxy_ ∧
    (capMaxVelocities ranges f).smallest_max_velocity_ ≤ (capMaxVelocities ranges f).vz_up_ ∧
    (capMaxVelocities ranges f).smallest_max_velocity_ ≤ (capMaxVelocities ranges f).vz_dn_ ∧
    ((capMaxVelocities ranges f).smallest_max_velocity_ = (capMaxVelocities ranges f).vxy_ ∨
      (capMaxVelocities ranges f).smallest_max_velocity_ = (capMaxVelocities ranges f).vz_up_ ∨
      (capMaxVelocities ranges f).smallest_max_velocity_
        = (capMaxVelocities ranges f).vz_dn_) := by
  refine ⟨capVelocity_spec _ _ hxy, capVelocity_spec _ _ hup, capVelocity_spec _ _ hdn,
    ?_, ?_, ?_, ?_⟩
  · exact min_le_left _ _
  · exact le_trans (min_le_right _ _) (min_le_left _ _)
  · exact le_trans (min_le_right _ _) (min_le_right _ _)
  · show min _ (min _ _) = _ ∨ min _ (min _ _) = _ ∨ min _ (min _ _) = _
    rcases min_choice (capVelocity ranges.mpc_xy_vel_max_ f.vxy_)
      (min (capVelocity ranges.mpc_z_vel_max_up_ f.vz_up_)
        (capVelocity ranges.mpc_z_vel_max_dn_ f.vz_dn_)) with h | h
    · left; exact h
    · rw [h]
      rcases min_choice (capVelocity ranges.mpc_z_vel_max_up_ f.vz_up_)
        (capVelocity ranges.mpc_z_vel_max_dn_ f.vz_dn_) with h' | h'
      · right; left; exact h'
      · right; right; exact h'

/-- Witness of C29: the horizontal limit `1/20` is below its range, which starts at
`1/2`, and is raised to `1/2`. -/
theorem capMaxVelocities_clamps_witness :
    (capMaxVelocities tightRanges slowFollower).vxy_ = tightRanges.mpc_xy_vel_max_.1 :=
  (capMaxVelocities_clamps tightRanges slowFollower (by decide!) (by decide!)
    (by decide!)).1.2.2.2.1 (by decide!)

/-! ### C30 -/

/-- C30 (amended). For an input of `N >= 2` waypoints, `generatePath` gives
`createPathCubicSpline` the waypoint list with a copy of its last waypoint appended, of
size `N + 1`, and the number of joints that are fitted is `2 * N` in the loyal spline mode
and `N` in the spline mode (twice the size of the list given minus one, and the size of
the list given minus one): the three coordinate lists are resampled to that many joints,
and the samples returned, when the vectors of the samples are built, are those of the
splines through these joints; when these vectors cannot be built the call throws. -/
theorem generatePath_spline_joints (norm : Vec3 → ℚ) (ecl : EclSpline) (g : Generator)
    (_init_path : Path) (last : Pose) (m : ℤ) (h2 : 2 ≤ _init_path.poses.length)
    (hlast : _init_path.poses.getLast? = some last) (hm : m = 1 ∨ m = 2) :
    ∃ jx jy jz : List ℚ,
      interpWaypointList (_init_path.poses.map (fun p => p.position.x) ++ [last.position.x])
          (if m = 1 then 2 * (_init_path.poses.length : ℤ) else _init_path.poses.length)
        = .ok jx ∧
      interpWaypointList (_init_path.poses.map (fun p => p.position.y) ++ [last.position.y])
          (if m = 1 then 2 * (_init_path.poses.length : ℤ) else _init_path.poses.length)
        = .ok jy ∧
      interpWaypointList (_init_path.poses.map (fun p => p.position.z) ++ [last.position.z])
          (if m = 1 then 2 * (_init_path.poses.length : ℤ) else _init_path.poses.length)
        = .ok jz ∧
      (jx.length : ℤ)
        = (if m = 1 then 2 * (_init_path.poses.length : ℤ) else _init_path.poses.length) ∧
      jy.length = jx.length ∧ jz.length = jx.length ∧
      (SplineFits norm _init_path m →
        ∃ (sp_pts : ℚ) (amount : ℤ) (r : Generator × Path),
          generatePath norm ecl g _init_path m = .ok r ∧
          r.2.poses
            = posesOf (sampleSpline (ecl.Natural (indexAxis jx.length) jx) sp_pts amount)
                (sampleSpline (ecl.Natural (indexAxis jx.length) jy) sp_pts amount)
                (sampleSpline (ecl.Natural (indexAxis jx.length) jz) sp_pts amount)) ∧
      (¬ SplineFits norm _init_path m →
        generatePath norm ecl g _init_path m = .error .lengthError) := by
  have hlen : (_init_path.poses.map (fun p => p.position.x) ++ [last.position.x]).length
      = _init_path.poses.length + 1 := by simp
  have hleny : (_init_path.poses.map (fun p => p.position.y) ++ [last.position.y]).length
      = _init_path.poses.length + 1 := by simp
  have hlenz : (_init_path.poses.map (fun p => p.position.z) ++ [last.position.z]).length
      = _init_path.poses.length + 1 := by simp
  have hpts := points_padded_all _init_path.poses last
  have hJ : (1 : ℤ) ≤ (if m = 1 then 2 * (_init_path.poses.length : ℤ)
      else _init_path.poses.length) := by
    split <;> omega
  have hql : ∀ l : List ℚ,
      ((((queryAxis l.length (if m = 1 then 2 * (_init_path.poses.length : ℤ)
          else _init_path.poses.length)).map (resampled l)).length : ℕ) : ℤ)
        = (if m = 1 then 2 * (_init_path.poses.length : ℤ)
            else _init_path.poses.length) := by
    intro l
    rw [List.length_map, queryAxis_length]
    push_cast
    rw [Int.toNat_of_nonneg (by omega)]
    ring
  have hx := interpWaypointList_eq
    (_init_path.poses.map (fun p => p.position.x) ++ [last.position.x])
    (if m = 1 then 2 * (_init_path.poses.length : ℤ) else _init_path.poses.length)
    (by rw [hlen]; omega)
  have hy := interpWaypointList_eq
    (_init_path.poses.map (fun p => p.position.y) ++ [last.position.y])
    (if m = 1 then 2 * (_init_path.poses.length : ℤ) else _init_path.poses.length)
    (by rw [hleny]; omega)
  have hz := interpWaypointList_eq
    (_init_path.poses.map (fun p => p.position.z) ++ [last.position.z])
    (if m = 1 then 2 * (_init_path.poses.length : ℤ) else _init_path.poses.length)
    (by rw [hlenz]; omega)
  refine ⟨_, _, _, hx, hy, hz, hql _, ?_, ?_, ?_,
    generatePath_spline_throws norm ecl g _init_path last h2 hlast m hm⟩
  · rw [List.length_map, List.length_map, queryAxis_length, queryAxis_length]
  · rw [List.length_map, List.length_map, queryAxis_length, queryAxis_length]
  · intro hfit
    obtain ⟨hD, hF⟩ := hfit hm
    rw [paddedDistance_eq norm _init_path last hlast] at hD hF
    unfold jointIntervals at hF
    rcases hm with rfl | rfl
    · have hj : jointCount Mode.mode_cubic_spline_loyal_
          ((_init_path.poses.map (fun p => p.position.x) ++ [last.position.x]).length : ℤ)
          = 2 * (_init_path.poses.length : ℤ) := by
        simp only [jointCount, hlen]; push_cast; ring
      simp only [if_true] at hF hx hy hz ⊢
      obtain ⟨jx, jy, jz, sp, am, hx', hy', hz', _, _, _, hp⟩ :=
        createPathCubicSpline_eq norm ecl { g with mode_ := .mode_cubic_spline_loyal_ }
          (_init_path.poses.map (fun p => p.position.x) ++ [last.position.x])
          (_init_path.poses.map (fun p => p.position.y) ++ [last.position.y])
          (_init_path.poses.map (fun p => p.position.z) ++ [last.position.z])
          (by rw [hlen]; omega) (by simp) (by simp)
          (by rw [hj]; omega)
          (by rw [hpts]; exact hD)
          (by rw [hpts, hj]; exact hF)
      rw [hj] at hx' hy' hz'
      rw [hx] at hx'
      rw [hy] at hy'
      rw [hz] at hz'
      simp only [Except.ok.injEq] at hx' hy' hz'
      subst hx' hy' hz'
      refine ⟨sp, am, ?_⟩
      unfold generatePath
      rw [hlast]
      simp only [if_neg (by decide : ¬ ((1 : ℤ) = 0)), if_true, pathManagement]
      rw [hp]
      exact ⟨_, rfl, rfl⟩
    · have hj : jointCount Mode.mode_cubic_spline_
          ((_init_path.poses.map (fun p => p.position.x) ++ [last.position.x]).length : ℤ)
          = (_init_path.poses.length : ℤ) := by
        simp only [jointCount, hlen]; push_cast; ring
      have hne : ¬ ((2 : ℤ) = 1) := by decide
      simp only [if_neg hne] at hF hx hy hz ⊢
      obtain ⟨jx, jy, jz, sp, am, hx', hy', hz', _, _, _, hp⟩ :=
        createPathCubicSpline_eq norm ecl { g with mode_ := .mode_cubic_spline_ }
          (_init_path.poses.map (fun p => p.position.x) ++ [last.position.x])
          (_init_path.poses.map (fun p => p.position.y) ++ [last.position.y])
          (_init_path.poses.map (fun p => p.position.z) ++ [last.position.z])
          (by rw [hlen]; omega) (by simp) (by simp)
          (by rw [hj]; omega)
          (by rw [hpts]; exact hD)
          (by rw [hpts, hj]; exact hF)
      rw [hj] at hx' hy' hz'
      rw [hx] at hx'
      rw [hy] at hy'
      rw [hz] at hz'
      simp only [Except.ok.injEq] at hx' hy' hz'
      subst hx' hy' hz'
      refine ⟨sp, am, ?_⟩
      unfold generatePath
      rw [hlast]
      simp only [if_neg (by decide : ¬ ((2 : ℤ) = 0)), if_neg hne, if_true, pathManagement]
      rw [hp]
      exact ⟨_, rfl, rfl⟩

/-- Witness of C30 (amended): two waypoints in the loyal spline mode, for which the
vectors of the samples are built. -/
theorem generatePath_spline_joints_witness :
    SplineFits euclid shortPath 1 ∧
    ∃ jx jy jz : List ℚ,
      interpWaypointList (shortPath.poses.map (fun p => p.position.x) ++ [(2 : ℚ)])
          (if (1 : ℤ) = 1 then 2 * (shortPath.poses.length : ℤ) else shortPath.poses.length)
        = .ok jx ∧
      interpWaypointList (shortPath.poses.map (fun p => p.position.y) ++ [(0 : ℚ)])
          (if (1 : ℤ) = 1 then 2 * (shortPath.poses.length : ℤ) else shortPath.poses.length)
        = .ok jy ∧
      interpWaypointList (shortPath.poses.map (fun p => p.position.z) ++ [(0 : ℚ)])
          (if (1 : ℤ) = 1 then 2 * (shortPath.poses.length : ℤ) else shortPath.poses.length)
        = .ok jz ∧
      (jx.length : ℤ)
        = (if (1 : ℤ) = 1 then 2 * (shortPath.poses.length : ℤ) else shortPath.poses.length) ∧
      jy.length = jx.length ∧ jz.length = jx.length ∧
      (SplineFits euclid shortPath 1 →
        ∃ (sp_pts : ℚ) (amount : ℤ) (r : Generator × Path),
          generatePath euclid chordSpline sampleGenerator shortPath 1 = .ok r ∧
          r.2.poses
            = posesOf
                (sampleSpline (chordSpline.Natural (indexAxis jx.length) jx) sp_pts amount)
                (sampleSpline (chordSpline.Natural (indexAxis jx.length) jy) sp_pts amount)
                (sampleSpline (chordSpline.Natural (indexAxis jx.length) jz) sp_pts
                  amount)) ∧
      (¬ SplineFits euclid shortPath 1 →
        generatePath euclid chordSpline sampleGenerator shortPath 1
          = .error .lengthError) :=
  ⟨by decide!,
    generatePath_spline_joints euclid chordSpline sampleGenerator shortPath (waypoint 2 0 0)
      1 (by decide) rfl (Or.inl rfl)⟩

/-- Counterexample to C30: for the `N = 2` waypoints `(0, 0, 0)` and `(2, 0, 0)` the list
given to `createPathCubicSpline` has `3` entries and the joint counts are `4` and `2`, not
`2 * (N - 1) = 2` and `N - 1 = 1`; with a spline library that answers the number of joints
it is given, every sample of the loyal spline mode is `4` and every sample of the spline
mode is `2`. -/
theorem generatePath_spline_joints_counterexample :
    shortPath.poses.length = 2 ∧
    jointCount .mode_cubic_spline_loyal_ ((shortPath.poses.length + 1 : ℕ) : ℤ) = 4 ∧
    jointCount .mode_cubic_spline_ ((shortPath.poses.length + 1 : ℕ) : ℤ) = 2 ∧
    sampleXs (generatePath euclid jointProbe sampleGenerator shortPath 1)
      = some [4, 4, 4, 4, 4, 4] ∧
    sampleXs (generatePath euclid jointProbe sampleGenerator shortPath 2) = some [2, 2] := by
  decide!

/-! ### C31 -/

/-- C31. On a freshly constructed generator, after a call of `generateTrajectory` with
`len(times) == len(waypoints) - 1` that returns (the fit is accepted), the position path,
the velocity-percentage path and the series `generated_times_` have the same number of
elements, which is at least 1; the position path is the path returned. -/
theorem generateTrajectory_lengths (norm : Vec3 → ℚ) (ecl : EclSpline)
    (srv : String → Option ℚ) (fuel : Nat) (init : Generator) (_vxy _vz_up _vz_dn : ℚ)
    (_debug : Bool) (_init_path out : Path) (_times : List ℚ) (g' : Generator)
    (hlen : _times.length = _init_path.poses.length - 1)
    (h : generateTrajectory norm ecl srv fuel
      (Generator.construct init _vxy _vz_up _vz_dn _debug) _init_path _times
        = .ok (g', out)) :
    g'.out_path_ = out ∧ 1 ≤ g'.out_path_.poses.length ∧
    g'.generated_path_vel_percentage_.poses.length = g'.out_path_.poses.length ∧
    g'.generated_times_.length = g'.out_path_.poses.length := by
  obtain ⟨e1, e2, _, _, e5, e6, _⟩ := generateTrajectory_accepted norm ecl srv fuel _ g'
    _init_path out _times rfl hlen.symm h
  rw [e1]
  refine ⟨rfl, e2, e5, ?_⟩
  rw [e6, timeSeries_length]

/-- Witness of C31: three waypoints one unit apart with the fractions `1` and `1/2` on a
fresh generator with the limits `2`, `3`, `1`; the three lengths are `6`. -/
theorem generateTrajectory_lengths_witness :
    (lineTrajectory.1.out_path_ = lineTrajectory.2 ∧
      1 ≤ lineTrajectory.1.out_path_.poses.length ∧
      lineTrajectory.1.generated_path_vel_percentage_.poses.length
        = lineTrajectory.1.out_path_.poses.length ∧
      lineTrajectory.1.generated_times_.length = lineTrajectory.1.out_path_.poses.length) ∧
    lineTrajectory.1.out_path_.poses.length = 6 := by
  have h : generateTrajectory euclid chordSpline noService 5
        (Generator.construct sampleGenerator 2 3 1 false) linePath [1, 1 / 2]
        = .ok (lineTrajectory.1, lineTrajectory.2) ∧
      lineTrajectory.1.out_path_.poses.length = 6 := by decide!
  exact ⟨generateTrajectory_lengths euclid chordSpline noService 5 sampleGenerator 2 3 1 false
    linePath lineTrajectory.2 [1, 1 / 2] lineTrajectory.1 (by decide) h.1, h.2⟩

/-! ### C32 -/

/-- C32 (amended). After a call of `generateTrajectory` on a fresh generator that returns,
with `T = len(times)` and `S` output samples (`S >= 1` a multiple of `T >= 1`), each time
interval owns one contiguous block of the series and the `T` blocks have the equal size
`S / (T + 1)`, the number of samples divided by the number of waypoints, which is smaller
than `S / T`: `generated_times[k] = times[k div (S / (T + 1))]` for every
`k < T * (S / (T + 1))`; the samples from `T * (S / (T + 1))` on, of which there is at
least one, are padded with the last fraction. -/
theorem generateTrajectory_block_size (norm : Vec3 → ℚ) (ecl : EclSpline)
    (srv : String → Option ℚ) (fuel : Nat) (init : Generator) (_vxy _vz_up _vz_dn : ℚ)
    (_debug : Bool) (_init_path out : Path) (_times : List ℚ) (g' : Generator)
    (hlen : _times.length = _init_path.poses.length - 1)
    (h : generateTrajectory norm ecl srv fuel
      (Generator.construct init _vxy _vz_up _vz_dn _debug) _init_path _times
        = .ok (g', out)) :
    1 ≤ _times.length ∧ 1 ≤ out.poses.length ∧ out.poses.length % _times.length = 0 ∧
    g'.generated_times_.length = out.poses.length ∧
    out.poses.length / (_times.length + 1) < out.poses.length / _times.length ∧
    _times.length * (out.poses.length / (_times.length + 1)) < out.poses.length ∧
    (∀ k, k < _times.length * (out.poses.length / (_times.length + 1)) →
      g'.generated_times_[k]? = _times[k / (out.poses.length / (_times.length + 1))]?) ∧
    (∀ k, _times.length * (out.poses.length / (_times.length + 1)) ≤ k →
      k < out.poses.length → g'.generated_times_[k]? = _times[_times.length - 1]?) := by
  obtain ⟨_, e2, e3, e4, _, e6, _⟩ := generateTrajectory_accepted norm ecl srv fuel _ g'
    _init_path out _times rfl hlen.symm h
  obtain ⟨b1, b2⟩ := block_short _ _ e2 e4
  refine ⟨e3, e2, e4, by rw [e6, timeSeries_length], b1, b2, ?_, ?_⟩
  · intro k hk
    rw [e6]
    exact timeSeries_block _ _ k hk
  · intro k hk hkS
    rw [e6]
    exact timeSeries_pad _ _ k e3 hk hkS

/-- Witness of C32 (amended): three waypoints one unit apart with the fractions `1` and
`1/2`. The fit has 6 samples and the blocks have 2 samples. -/
theorem generateTrajectory_block_size_witness :
    1 ≤ [(1 : ℚ), 1 / 2].length ∧ 1 ≤ lineTrajectory.2.poses.length ∧
    lineTrajectory.2.poses.length % [(1 : ℚ), 1 / 2].length = 0 ∧
    lineTrajectory.1.generated_times_.length = lineTrajectory.2.poses.length ∧
    lineTrajectory.2.poses.length / ([(1 : ℚ), 1 / 2].length + 1)
      < lineTrajectory.2.poses.length / [(1 : ℚ), 1 / 2].length ∧
    [(1 : ℚ), 1 / 2].length * (lineTrajectory.2.poses.length / ([(1 : ℚ), 1 / 2].length + 1))
      < lineTrajectory.2.poses.length ∧
    (∀ k, k < [(1 : ℚ), 1 / 2].length
        * (lineTrajectory.2.poses.length / ([(1 : ℚ), 1 / 2].length + 1)) →
      lineTrajectory.1.generated_times_[k]?
        = [(1 : ℚ), 1 / 2][k / (lineTrajectory.2.poses.length
            / ([(1 : ℚ), 1 / 2].length + 1))]?) ∧
    (∀ k, [(1 : ℚ), 1 / 2].length
        * (lineTrajectory.2.poses.length / ([(1 : ℚ), 1 / 2].length + 1)) ≤ k →
      k < lineTrajectory.2.poses.length →
      lineTrajectory.1.generated_times_[k]?
        = [(1 : ℚ), 1 / 2][[(1 : ℚ), 1 / 2].length - 1]?) :=
  generateTrajectory_block_size euclid chordSpline noService 5 sampleGenerator 2 3 1 false
    linePath lineTrajectory.2 [1, 1 / 2] lineTrajectory.1 (by decide) (by decide!)

/-- Counterexample to C32: for three waypoints one unit apart and the fractions `1` and
`1/2` the fit on a fresh generator has `S = 6` samples, a multiple of `T = 2`; the series
is `1, 1, 1/2, 1/2, 1/2, 1/2`, with blocks of 2 samples and 2 padded samples, and its
element `2` is `1/2` and not `times[2 div (S / T)] = times[0] = 1`. -/
theorem generateTrajectory_block_size_counterexample :
    generateTrajectory euclid chordSpline noService 5 freshGenerator linePath [1, 1 / 2]
      = .ok lineTrajectory ∧
    lineTrajectory.2.poses.length = 6 ∧
    lineTrajectory.2.poses.length % [(1 : ℚ), 1 / 2].length = 0 ∧
    lineTrajectory.1.generated_times_ = [1, 1, 1 / 2, 1 / 2, 1 / 2, 1 / 2] ∧
    lineTrajectory.1.generated_times_[2]?
      ≠ [(1 : ℚ), 1 / 2][2 / (lineTrajectory.2.poses.length / [(1 : ℚ), 1 / 2].length)]? := by
  decide!

/-! ### C33 -/

/-- C33 (the code at the failing input, and in general). A call of
`Follower::prepareTrajectory` that returns replaces the stored path by the generated path
of `S >= 1` samples and appends the `S` fractions of the generator to `generated_times_`
without clearing it: the vector has `S` elements more than before the call, its element
`k` is the element `k` from before the call for every `k` below the old length, and the
fraction of sample `k` of the new path is at index `old length + k`. -/
theorem prepareTrajectory_appends_times (norm : Vec3 → ℚ) (ecl : EclSpline)
    (srv : String → Option ℚ) (fuel : Nat) (init : Generator) (f : Follower)
    (_init_path out : Path) (_times : List ℚ)
    (h : (prepareTrajectory norm ecl srv fuel init f _init_path _times).2 = .ok out) :
    ∃ percentages,
      timesToMaxVelPercentage norm { f with follower_mode_ := 1 } _init_path _times
        = .ok percentages ∧
      1 ≤ out.poses.length ∧
      (prepareTrajectory norm ecl srv fuel init f _init_path _times).1.target_path_ = out ∧
      (prepareTrajectory norm ecl srv fuel init f _init_path _times).1.generated_times_.length
        = f.generated_times_.length + out.poses.length ∧
      (∀ k, k < f.generated_times_.length →
        (prepareTrajectory norm ecl srv fuel init f _init_path _times).1.generated_times_[k]?
          = f.generated_times_[k]?) ∧
      (∀ k,
        (prepareTrajectory norm ecl srv fuel init f _init_path _times).1.generated_times_[
            f.generated_times_.length + k]?
          = (timeSeries percentages out.poses.length)[k]?) := by
  obtain ⟨percentages, hp, _, hS, hpath, htimes, _⟩ :=
    prepareTrajectory_stored norm ecl srv fuel init f _init_path out _times h
  refine ⟨percentages, hp, hS, hpath, ?_, ?_, ?_⟩
  · rw [htimes, List.length_append, timeSeries_length]
  · intro k hk
    rw [htimes, List.getElem?_append_left hk]
  · intro k
    rw [htimes, List.getElem?_append_right (Nat.le_add_right _ _), Nat.add_sub_cancel_left]

/-- Witness of C33, at the failing input: `prepareTrajectory` with the two waypoints `2`
apart and the times `0` and `8/3` on the follower that such a call with the times `0` and
`1` returned. The stored path has 6 samples; the vector has 12 elements, the 6 fractions
`1` of the first call followed by the 6 fractions `3/4` of the second. -/
theorem prepareTrajectory_appends_times_witness :
    (∃ percentages,
      timesToMaxVelPercentage euclid { preparedFollower with follower_mode_ := 1 } shortPath
        [0, 8 / 3] = .ok percentages ∧
      1 ≤ preparedFollower.target_path_.poses.length ∧
      (prepareTrajectory euclid chordSpline noService 5 sampleGenerator preparedFollower
        shortPath [0, 8 / 3]).1.target_path_ = preparedFollower.target_path_ ∧
      (prepareTrajectory euclid chordSpline noService 5 sampleGenerator preparedFollower
        shortPath [0, 8 / 3]).1.generated_times_.length
        = preparedFollower.generated_times_.length
          + preparedFollower.target_path_.poses.length ∧
      (∀ k, k < preparedFollower.generated_times_.length →
        (prepareTrajectory euclid chordSpline noService 5 sampleGenerator preparedFollower
          shortPath [0, 8 / 3]).1.generated_times_[k]?
          = preparedFollower.generated_times_[k]?) ∧
      (∀ k,
        (prepareTrajectory euclid chordSpline noService 5 sampleGenerator preparedFollower
          shortPath [0, 8 / 3]).1.generated_times_[
            preparedFollower.generated_times_.length + k]?
          = (timeSeries percentages preparedFollower.target_path_.poses.length)[k]?)) ∧
    preparedFollower.generated_times_ = [1, 1, 1, 1, 1, 1] ∧
    (prepareTrajectory euclid chordSpline noService 5 sampleGenerator preparedFollower
      shortPath [0, 8 / 3]).1.target_path_.poses.length = 6 ∧
    (prepareTrajectory euclid chordSpline noService 5 sampleGenerator preparedFollower
      shortPath [0, 8 / 3]).1.generated_times_
      = [1, 1, 1, 1, 1, 1, 3 / 4, 3 / 4, 3 / 4, 3 / 4, 3 / 4, 3 / 4] := by
  have h : (prepareTrajectory euclid chordSpline noService 5 sampleGenerator preparedFollower
        shortPath [0, 8 / 3]).2 = .ok preparedFollower.target_path_ ∧
      preparedFollower.generated_times_ = [1, 1, 1, 1, 1, 1] ∧
      (prepareTrajectory euclid chordSpline noService 5 sampleGenerator preparedFollower
        shortPath [0, 8 / 3]).1.target_path_.poses.length = 6 ∧
      (prepareTrajectory euclid chordSpline noService 5 sampleGenerator preparedFollower
        shortPath [0, 8 / 3]).1.generated_times_
        = [1, 1, 1, 1, 1, 1, 3 / 4, 3 / 4, 3 / 4, 3 / 4, 3 / 4, 3 / 4] := by decide!
  exact ⟨prepareTrajectory_appends_times euclid chordSpline noService 5 sampleGenerator
    preparedFollower shortPath preparedFollower.target_path_ [0, 8 / 3] h.1, h.2⟩

/-! ### C34 -/

/-- C34 (amended). Every fraction that `timesToMaxVelPercentage` returns lies in `[0, 1]`;
a time difference that is not positive gives `1` when the segment has a positive length
and the limit is positive (a segment of length zero gives `0` for a negative time
difference and a NaN for the difference `0`). A call of `prepareTrajectory` that returns,
on a follower whose stored fractions lie in `[0, 1]`, stores a maximal velocity that is
not negative and fractions in `[0, 1]`. For every follower `g` in trajectory mode that
holds the maximal velocity and the fractions stored by such a call, and every tracking
tick of `g` whose look-ahead waypoint and current position have the finite `Vector3f`
images `tp` and `cp`, where neither the norm `d` computed for `tp - cp` nor the norm `n`
computed for `(tp - cp) / d` is zero, the tick returns (without debug output) the command
`((tp - cp) / d) / n * max_vel_ * generated_times_[anchor]`. Its length `m` satisfies
`m * n = max_vel_ * generated_times_[anchor] * u` for the length `u` of `(tp - cp) / d`:
it is at most `max_vel_` where `n` is not below `u`, it is
`max_vel_ * generated_times_[anchor]` where `n` is the Euclidean length `u`, and
`m * (1 - e)` is at most `max_vel_` where `n` is not below `(1 - e) * u`. -/
theorem trajectory_speed_bound (norm : Vec3 → ℚ) (ecl : EclSpline)
    (srv : String → Option ℚ) (fuel : Nat) (init : Generator) (f : Follower)
    (_init_path out : Path) (_times : List ℚ) (g : Follower) (anchor la : Nat) (t : ℚ)
    (target : Pose) (tp cp : Vec3)
    (hold : ∀ p ∈ f.generated_times_, 0 ≤ p ∧ p ≤ 1)
    (hprep : (prepareTrajectory norm ecl srv fuel init f _init_path _times).2 = .ok out)
    (hmax : g.max_vel_
      = (prepareTrajectory norm ecl srv fuel init f _init_path _times).1.max_vel_)
    (htimes : g.generated_times_
      = (prepareTrajectory norm ecl srv fuel init f _init_path _times).1.generated_times_)
    (hmode : g.follower_mode_ = 1)
    (hsize : 2 ≤ g.target_path_.poses.length)
    (htrack : g.flag_run_ = true ∨
      ∃ p0, g.target_path_.poses[0]? = some p0 ∧
        norm (g.ual_pose_.position.sub p0.position) < 1)
    (hanchor : calculatePosOnPath norm g g.ual_pose_.position (g.look_ahead_ * 1.5)
      g.prev_normal_vel_on_path_ g.target_path_ = .ok anchor)
    (ht : g.generated_times_[anchor]? = some t)
    (hla : calculatePosLookAhead norm { g with look_ahead_ := g.max_vel_ * t } anchor
      = .ok la)
    (htarget : g.target_path_.poses[la]? = some target)
    (htp : Vector3f target.position = some tp)
    (hcp : Vector3f g.ual_pose_.position = some cp)
    (hd : norm (tp.sub cp) ≠ 0)
    (hu : norm (scaledDifference norm tp cp) ≠ 0) :
    (∀ (h : Follower) (P : Path) (ts l : List ℚ),
      timesToMaxVelPercentage norm h P ts = .ok l → ∀ p ∈ l, 0 ≤ p ∧ p ≤ 1) ∧
    (∀ s d dt : ℚ, 0 < s → 0 < d → dt ≤ 0 → maxVelPercentage s d dt = .ok 1) ∧
    0 ≤ g.max_vel_ ∧ (∀ p ∈ g.generated_times_, 0 ≤ p ∧ p ≤ 1) ∧
    (g.debug_ = false →
      ∃ g', getVelocity norm g = .ok (g', trajectoryCommand norm g tp cp t)) ∧
    (∀ g' v, getVelocity norm g = .ok (g', v) →
      g'.prev_normal_vel_on_path_ = anchor ∧ v = trajectoryCommand norm g tp cp t) ∧
    0 ≤ g.max_vel_ * t ∧ g.max_vel_ * t ≤ g.max_vel_ ∧
    (trajectoryCommand norm g tp cp t).linear.sq
        * (norm (scaledDifference norm tp cp) * norm (scaledDifference norm tp cp))
      = (g.max_vel_ * t) * (g.max_vel_ * t) * (scaledDifference norm tp cp).sq ∧
    ((scaledDifference norm tp cp).sq
        ≤ norm (scaledDifference norm tp cp) * norm (scaledDifference norm tp cp) →
      (trajectoryCommand norm g tp cp t).linear.sq ≤ g.max_vel_ * g.max_vel_) ∧
    (IsLength (scaledDifference norm tp cp) (norm (scaledDifference norm tp cp)) →
      IsLength (trajectoryCommand norm g tp cp t).linear (g.max_vel_ * t)) ∧
    (∀ e : ℚ,
      (1 - e) * (1 - e) * (scaledDifference norm tp cp).sq
        ≤ norm (scaledDifference norm tp cp) * norm (scaledDifference norm tp cp) →
      (trajectoryCommand norm g tp cp t).linear.sq * ((1 - e) * (1 - e))
        ≤ g.max_vel_ * g.max_vel_) := by
  obtain ⟨percentages, hp, hT, _, _, hser, hmaxvel⟩ :=
    prepareTrajectory_stored norm ecl srv fuel init f _init_path out _times hprep
  have hfrac := timesToMaxVelPercentage_bounds norm _ _ _ _ hp
  have hm : 0 ≤ g.max_vel_ := by rw [hmax]; exact hmaxvel
  have hall : ∀ p ∈ g.generated_times_, 0 ≤ p ∧ p ≤ 1 := by
    intro p hp'
    rw [htimes, hser, List.mem_append] at hp'
    rcases hp' with hp' | hp'
    · exact hold p hp'
    · exact hfrac p (mem_timeSeries _ _ p hT hp')
  have htb := hall t (List.getElem?_mem ht)
  obtain ⟨hret, hcmd⟩ := getVelocity_trajectory_command norm g anchor la t target tp cp hmode
    hsize htrack hanchor ht hla htarget htp hcp hd hu
  have hs0 : 0 ≤ g.max_vel_ * t := mul_nonneg hm htb.1
  have hs1 : g.max_vel_ * t ≤ g.max_vel_ :=
    calc g.max_vel_ * t ≤ g.max_vel_ * 1 := mul_le_mul_of_nonneg_left htb.2 hm
      _ = g.max_vel_ := mul_one _
  have hss : (g.max_vel_ * t) * (g.max_vel_ * t) ≤ g.max_vel_ * g.max_vel_ :=
    mul_le_mul hs1 hs1 hs0 hm
  have hsq : (trajectoryCommand norm g tp cp t).linear.sq
        * (norm (scaledDifference norm tp cp) * norm (scaledDifference norm tp cp))
      = (g.max_vel_ * t) * (g.max_vel_ * t) * (scaledDifference norm tp cp).sq := by
    have e : (trajectoryCommand norm g tp cp t).linear
        = ⟨(pursuitDirection norm tp cp).x * (g.max_vel_ * t),
            (pursuitDirection norm tp cp).y * (g.max_vel_ * t),
            (pursuitDirection norm tp cp).z * (g.max_vel_ * t)⟩ := by
      simp only [trajectoryCommand, mul_assoc]
    rw [e, scaled_sq, mul_assoc, pursuitDirection_sq norm tp cp hu]
  have hN : 0 < norm (scaledDifference norm tp cp) * norm (scaledDifference norm tp cp) :=
    mul_self_pos.mpr hu
  have hC := Vec3.sq_nonneg (trajectoryCommand norm g tp cp t).linear
  have hU := Vec3.sq_nonneg (scaledDifference norm tp cp)
  have hbound : ∀ e : ℚ,
      (1 - e) * (1 - e) * (scaledDifference norm tp cp).sq
        ≤ norm (scaledDifference norm tp cp) * norm (scaledDifference norm tp cp) →
      (trajectoryCommand norm g tp cp t).linear.sq * ((1 - e) * (1 - e))
        ≤ g.max_vel_ * g.max_vel_ := by
    intro e hlo
    refine le_trans ?_ hss
    generalize (trajectoryCommand norm g tp cp t).linear.sq = C at hsq hC
    generalize norm (scaledDifference norm tp cp) * norm (scaledDifference norm tp cp) = N
      at hsq hN hlo
    generalize (scaledDifference norm tp cp).sq = U at hsq hU hlo
    have hS : 0 ≤ (g.max_vel_ * t) * (g.max_vel_ * t) := mul_self_nonneg _
    generalize (g.max_vel_ * t) * (g.max_vel_ * t) = S at hsq hS
    have h1 : C * ((1 - e) * (1 - e)) * N ≤ S * N := by
      have h2 : C * ((1 - e) * (1 - e)) * N = (1 - e) * (1 - e) * (S * U) := by
        rw [← hsq]; ring
      have h3 : (1 - e) * (1 - e) * (S * U) = S * ((1 - e) * (1 - e) * U) := by ring
      rw [h2, h3]
      exact mul_le_mul_of_nonneg_left hlo hS
    exact le_of_mul_le_mul_right h1 hN
  refine ⟨fun h P ts l hl => timesToMaxVelPercentage_bounds norm h P ts l hl,
    maxVelPercentage_nonpositive_time, hm, hall, hret, hcmd, hs0, hs1, hsq, ?_, ?_, hbound⟩
  · intro hge
    have := hbound 0 (by simpa using hge)
    simpa using this
  · intro hlen
    refine ⟨hs0, ?_⟩
    rw [← hlen.2] at hsq
    exact (mul_right_cancel₀ (ne_of_gt hN) hsq).symm

/-- Witness of C34 (amended): two waypoints `2` apart with the times `0` and `8/3` under
the limit `1` give the fraction `3/4` at each of the 6 samples; the first tick, with the
vehicle at `(1/4, 1/2, 0)`, has the anchor `0` and the look-ahead index `0`, and the
difference `(-1/4, -1/2, 0)` to the look-ahead waypoint has a length that is no rational
number. -/
theorem trajectory_speed_bound_witness :
    (∀ (h : Follower) (P : Path) (ts l : List ℚ),
      timesToMaxVelPercentage euclid h P ts = .ok l → ∀ p ∈ l, 0 ≤ p ∧ p ≤ 1) ∧
    (∀ s d dt : ℚ, 0 < s → 0 < d → dt ≤ 0 → maxVelPercentage s d dt = .ok 1) ∧
    0 ≤ besideTrajectoryFollower.max_vel_ ∧
    (∀ p ∈ besideTrajectoryFollower.generated_times_, 0 ≤ p ∧ p ≤ 1) ∧
    (besideTrajectoryFollower.debug_ = false →
      ∃ g', getVelocity euclid besideTrajectoryFollower
        = .ok (g', trajectoryCommand euclid besideTrajectoryFollower ⟨0, 0, 0⟩ ⟨1 / 4, 1 / 2, 0⟩ (3 / 4))) ∧
    (∀ g' v, getVelocity euclid besideTrajectoryFollower = .ok (g', v) →
      g'.prev_normal_vel_on_path_ = 0 ∧
      v = trajectoryCommand euclid besideTrajectoryFollower ⟨0, 0, 0⟩ ⟨1 / 4, 1 / 2, 0⟩ (3 / 4)) ∧
    0 ≤ besideTrajectoryFollower.max_vel_ * (3 / 4) ∧
    besideTrajectoryFollower.max_vel_ * (3 / 4) ≤ besideTrajectoryFollower.max_vel_ ∧
    (trajectoryCommand euclid besideTrajectoryFollower ⟨0, 0, 0⟩ ⟨1 / 4, 1 / 2, 0⟩ (3 / 4)).linear.sq
        * (euclid (scaledDifference euclid ⟨0, 0, 0⟩ ⟨1 / 4, 1 / 2, 0⟩) * euclid (scaledDifference euclid ⟨0, 0, 0⟩ ⟨1 / 4, 1 / 2, 0⟩))
      = (besideTrajectoryFollower.max_vel_ * (3 / 4)) * (besideTrajectoryFollower.max_vel_ * (3 / 4))
          * (scaledDifference euclid ⟨0, 0, 0⟩ ⟨1 / 4, 1 / 2, 0⟩).sq ∧
    ((scaledDifference euclid ⟨0, 0, 0⟩ ⟨1 / 4, 1 / 2, 0⟩).sq
        ≤ euclid (scaledDifference euclid ⟨0, 0, 0⟩ ⟨1 / 4, 1 / 2, 0⟩) * euclid (scaledDifference euclid ⟨0, 0, 0⟩ ⟨1 / 4, 1 / 2, 0⟩) →
      (trajectoryCommand euclid besideTrajectoryFollower ⟨0, 0, 0⟩ ⟨1 / 4, 1 / 2, 0⟩ (3 / 4)).linear.sq
        ≤ besideTrajectoryFollower.max_vel_ * besideTrajectoryFollower.max_vel_) ∧
    (IsLength (scaledDifference euclid ⟨0, 0, 0⟩ ⟨1 / 4, 1 / 2, 0⟩) (euclid (scaledDifference euclid ⟨0, 0, 0⟩ ⟨1 / 4, 1 / 2, 0⟩)) →
      IsLength (trajectoryCommand euclid besideTrajectoryFollower ⟨0, 0, 0⟩ ⟨1 / 4, 1 / 2, 0⟩ (3 / 4)).linear
        (besideTrajectoryFollower.max_vel_ * (3 / 4))) ∧
    (∀ e : ℚ,
      (1 - e) * (1 - e) * (scaledDifference euclid ⟨0, 0, 0⟩ ⟨1 / 4, 1 / 2, 0⟩).sq
        ≤ euclid (scaledDifference euclid ⟨0, 0, 0⟩ ⟨1 / 4, 1 / 2, 0⟩) * euclid (scaledDifference euclid ⟨0, 0, 0⟩ ⟨1 / 4, 1 / 2, 0⟩) →
      (trajectoryCommand euclid besideTrajectoryFollower ⟨0, 0, 0⟩ ⟨1 / 4, 1 / 2, 0⟩ (3 / 4)).linear.sq * ((1 - e) * (1 - e))
        ≤ besideTrajectoryFollower.max_vel_ * besideTrajectoryFollower.max_vel_) := by
  have h : (prepareTrajectory euclid chordSpline noService 5 sampleGenerator sampleFollower
        shortPath [0, 8 / 3]).2 = .ok besideTrajectoryFollower.target_path_ ∧
      besideTrajectoryFollower.follower_mode_ = 1 ∧
      2 ≤ besideTrajectoryFollower.target_path_.poses.length ∧
      (besideTrajectoryFollower.target_path_.poses[0]? = some (waypoint 0 0 0) ∧
        euclid (besideTrajectoryFollower.ual_pose_.position.sub (waypoint 0 0 0).position) < 1) ∧
      calculatePosOnPath euclid besideTrajectoryFollower besideTrajectoryFollower.ual_pose_.position
        (besideTrajectoryFollower.look_ahead_ * 1.5)
        besideTrajectoryFollower.prev_normal_vel_on_path_ besideTrajectoryFollower.target_path_
        = .ok 0 ∧
      besideTrajectoryFollower.generated_times_[0]? = some (3 / 4) ∧
      calculatePosLookAhead euclid
        { besideTrajectoryFollower with
          look_ahead_ := besideTrajectoryFollower.max_vel_ * (3 / 4) } 0 = .ok 0 ∧
      Vector3f (waypoint 0 0 0).position = some ⟨0, 0, 0⟩ ∧
      Vector3f besideTrajectoryFollower.ual_pose_.position = some ⟨1 / 4, 1 / 2, 0⟩ ∧
      euclid (((⟨0, 0, 0⟩ : Vec3)).sub ⟨1 / 4, 1 / 2, 0⟩) ≠ 0 ∧
      euclid (scaledDifference euclid ⟨0, 0, 0⟩ ⟨1 / 4, 1 / 2, 0⟩) ≠ 0 := by
    decide!
  exact trajectory_speed_bound euclid chordSpline noService 5 sampleGenerator sampleFollower
    shortPath besideTrajectoryFollower.target_path_ [0, 8 / 3] besideTrajectoryFollower 0 0
    (3 / 4) (waypoint 0 0 0) ⟨0, 0, 0⟩ ⟨1 / 4, 1 / 2, 0⟩ (by decide) h.1 rfl rfl h.2.1 h.2.2.1
    (Or.inr ⟨waypoint 0 0 0, h.2.2.2.1.1, h.2.2.2.1.2⟩) h.2.2.2.2.1 h.2.2.2.2.2.1
    h.2.2.2.2.2.2.1 h.2.2.2.1.1 h.2.2.2.2.2.2.2.1 h.2.2.2.2.2.2.2.2.1
    h.2.2.2.2.2.2.2.2.2.1 h.2.2.2.2.2.2.2.2.2.2

/-- Counterexample to C34: for two waypoints at the same point and the limit `1`, the
times `1` and `0`, whose difference is negative, give the fraction `0` and not `1`, and
the times `0` and `0` give a NaN, which lies in no interval. A tracking tick in trajectory
mode whose look-ahead waypoint differs from the current position by `1/1000000000` in a
coordinate near `1` has a zero difference of the two `Vector3f`, and its command is not
finite. -/
theorem trajectory_speed_bound_counterexample :
    maxVelPercentage 1 0 (-1) = .ok 0 ∧
    sampleFollower.smallest_max_velocity_ = 1 ∧
    timesToMaxVelPercentage euclid sampleFollower doubledPath [1, 0] = .ok [0] ∧
    timesToMaxVelPercentage euclid sampleFollower doubledPath [0, 0] = .error .nonFinite ∧
    closeTrajectoryFollower.follower_mode_ = 1 ∧
    lookAheadOfTick euclid closeTrajectoryFollower = .ok 0 ∧
    closeTrajectoryFollower.target_path_.poses[0]? = some (waypoint 1 0 0) ∧
    (waypoint 1 0 0).position ≠ closeTrajectoryFollower.ual_pose_.position ∧
    getVelocity euclid closeTrajectoryFollower = .error .nonFinite := by
  decide!

/-! ### C35 -/

/-- C35 (amended). For every path of at least 2 points and every sequence of
`getVelocity` ticks and pose updates that returns, started with both stored anchors before
the last index (at index `0`, for instance), the path is kept, both stored anchors stay
`<= size - 2`, and so does the look-ahead index that the next tick resolves: the last
waypoint is never the pursuit target. For a positive look-ahead the anchor search of the
next tick returns an index `<= size - 2` whenever its window bounds are assigned, whether
or not the look-ahead index is. -/
theorem anchor_below_last (norm : Vec3 → ℚ) (calls : List Call) (f f' : Follower)
    (hsize : 2 ≤ f.target_path_.poses.length)
    (hpos : f.prev_normal_pos_on_path_ ≤ f.target_path_.poses.length - 2)
    (hvel : f.prev_normal_vel_on_path_ ≤ f.target_path_.poses.length - 2)
    (h : runCalls norm calls f = .ok f') :
    f'.target_path_ = f.target_path_ ∧
    f'.prev_normal_pos_on_path_ ≤ f.target_path_.poses.length - 2 ∧
    f'.prev_normal_vel_on_path_ ≤ f.target_path_.poses.length - 2 ∧
    f'.anchor ≤ f.target_path_.poses.length - 2 ∧
    (∀ la, lookAheadOfTick norm f' = .ok la → la ≤ f.target_path_.poses.length - 2) ∧
    (∀ a', 0 < f'.look_ahead_ →
      calculatePosOnPath norm f' f'.ual_pose_.position (f'.look_ahead_ * 1.5) f'.anchor
        f'.target_path_ = .ok a' →
      a' ≤ f.target_path_.poses.length - 2) := by
  obtain ⟨e1, e2, e3⟩ := runCalls_anchor_bound norm calls f f' (by omega) (by omega) h
  have ha : f'.anchor + 2 ≤ f.target_path_.poses.length := by
    unfold Follower.anchor
    split
    · exact e3
    · exact e2
  refine ⟨e1, by omega, by omega, by omega, ?_, ?_⟩
  · intro la hla
    have := lookAheadOfTick_bounds norm f' la hla
    rw [e1] at this
    omega
  · intro a' hla hs
    have hR : 0 < f'.look_ahead_ * 1.5 := by
      have : (0 : ℚ) < 1.5 := by norm_num
      positivity
    have := calculatePosOnPath_below_last norm f' f'.ual_pose_.position _ f'.anchor a' hR
      (by rw [e1]; exact ha) hs
    rw [e1] at this
    omega

/-- Witness of C35 (amended): on eight waypoints one unit apart with look-ahead `12/5`, a tick at
`x = 5/2` and five ticks at `x = 7`, the end of the path; the anchor stored last is `6`,
and so is the look-ahead index of the next tick. -/
theorem anchor_below_last_witness :
    (chasedFollower.target_path_ = chaseFollower.target_path_ ∧
      chasedFollower.prev_normal_pos_on_path_ ≤ chaseFollower.target_path_.poses.length - 2 ∧
      chasedFollower.prev_normal_vel_on_path_ ≤ chaseFollower.target_path_.poses.length - 2 ∧
      chasedFollower.anchor ≤ chaseFollower.target_path_.poses.length - 2 ∧
      (∀ la, lookAheadOfTick euclid chasedFollower = .ok la →
        la ≤ chaseFollower.target_path_.poses.length - 2) ∧
      (∀ a', 0 < chasedFollower.look_ahead_ →
        calculatePosOnPath euclid chasedFollower chasedFollower.ual_pose_.position
          (chasedFollower.look_ahead_ * 1.5) chasedFollower.anchor
          chasedFollower.target_path_ = .ok a' →
        a' ≤ chaseFollower.target_path_.poses.length - 2)) ∧
    chasedFollower.anchor = 6 ∧ lookAheadOfTick euclid chasedFollower = .ok 6 := by
  have h : runCalls euclid chaseCalls chaseFollower = .ok chasedFollower ∧
      chasedFollower.anchor = 6 ∧ lookAheadOfTick euclid chasedFollower = .ok 6 := by decide!
  exact ⟨anchor_below_last euclid chaseCalls chaseFollower chasedFollower (by decide)
    (by decide) (by decide) h.1, h.2⟩

/-- Counterexample to C35: on five waypoints one unit apart, from the anchor `0` with the
look-ahead `-3`, both bounds of the search window are assigned, the lower one at the last
index `4` and the upper one at `0`; the window is empty and the anchor search returns the
last index `4`, which is above `size - 2 = 3` and which `getVelocity` stores before it
resolves the look-ahead index; from the last index the look-ahead index is returned
unassigned. -/
theorem anchor_below_last_counterexample :
    2 ≤ backwardFollower.target_path_.poses.length ∧
    backwardFollower.anchor = 0 ∧
    backwardFollower.target_path_.poses.length - 2 = 3 ∧
    calculateDistanceOnPath euclid backwardFollower 0 (-(backwardFollower.look_ahead_ * 1.5))
      = .ok 4 ∧
    calculateDistanceOnPath euclid backwardFollower 0 (backwardFollower.look_ahead_ * 1.5)
      = .ok 0 ∧
    calculatePosOnPath euclid backwardFollower backwardFollower.ual_pose_.position
      (backwardFollower.look_ahead_ * 1.5) backwardFollower.anchor
      backwardFollower.target_path_ = .ok 4 ∧
    calculatePosLookAhead euclid
      { backwardFollower with prev_normal_pos_on_path_ := 4 } 4
      = .error .undefinedBehaviour ∧
    getVelocity euclid backwardFollower = .error .undefinedBehaviour := by
  decide!

/-! ### C36 -/

/-- C36 (the code at the failing input, and in general). On a tracking tick in path mode
with a path of at least 2 points and a positive look-ahead, the anchor that the search
returns is a valid index, but when the first segment from the anchor is not shorter than
the look-ahead (or the anchor is the last index) `calculatePosLookAhead` returns its local
index without having assigned it, and so does the tick; the forward branch of
`calculateDistanceOnPath` returns its local index unassigned in the same way when the
range is below the distance to the last point and the first segment is not shorter than
the range. -/
theorem getVelocity_unassigned_index (norm : Vec3 → ℚ) (f : Follower) (anchor : Nat)
    (hsize : 2 ≤ f.target_path_.poses.length) (hmode : f.follower_mode_ ≠ 1)
    (hla : 0 < f.look_ahead_)
    (htrack : f.flag_run_ = true ∨
      ∃ p0, f.target_path_.poses[0]? = some p0 ∧
        norm (f.ual_pose_.position.sub p0.position) < 1)
    (hanchor : calculatePosOnPath norm f f.ual_pose_.position (f.look_ahead_ * 1.5)
      f.prev_normal_pos_on_path_ f.target_path_ = .ok anchor)
    (hseg : anchor + 1 = f.target_path_.poses.length ∨
      ¬ segmentLength norm f.target_path_.poses anchor < f.look_ahead_) :
    0 < f.look_ahead_ * 1.5 ∧ anchor < f.target_path_.poses.length ∧
    calculatePosLookAhead norm f anchor = .error .undefinedBehaviour ∧
    getVelocity norm f = .error .undefinedBehaviour ∧
    (∀ (a : Nat) (m : ℚ), a < f.target_path_.poses.length → 0 < m →
      m < norm ((f.target_path_.poses.getD a Pose.origin).position.sub
        (f.target_path_.poses.getD (f.target_path_.poses.length - 1) Pose.origin).position) →
      ¬ segmentLength norm f.target_path_.poses a < m →
      calculateDistanceOnPath norm f a m = .error .undefinedBehaviour) := by
  have ha := calculatePosOnPath_lt norm f _ _ _ anchor hanchor
  have hl := calculatePosLookAhead_unassigned norm f anchor ha hseg
  have hR : 0 < f.look_ahead_ * 1.5 := by
    have : (0 : ℚ) < 1.5 := by norm_num
    positivity
  refine ⟨hR, ha, hl, ?_, ?_⟩
  · rw [getVelocity_tracking norm f hsize hmode htrack, hanchor]
    simp only [bind_ok_eq]
    rw [hl]
    rfl
  · intro a m ha' hm hback hs
    exact calculateDistanceOnPath_unassigned norm f a m ha' hm hback (Or.inr hs)

/-- Witness of C36, at the failing input: three waypoints one unit apart, the anchor `0`,
the vehicle at the first waypoint and the look-ahead `4/5`. Both window bounds and the
anchor are `0`, the first segment of length `1` is not shorter than the look-ahead, and
the tick returns the unassigned index; with the range `3/4` the forward window bound is
unassigned as well. -/
theorem getVelocity_unassigned_index_witness :
    (0 < sparseFollower.look_ahead_ * 1.5 ∧ 0 < sparseFollower.target_path_.poses.length ∧
      calculatePosLookAhead euclid sparseFollower 0 = .error .undefinedBehaviour ∧
      getVelocity euclid sparseFollower = .error .undefinedBehaviour ∧
      (∀ (a : Nat) (m : ℚ), a < sparseFollower.target_path_.poses.length → 0 < m →
        m < euclid ((sparseFollower.target_path_.poses.getD a Pose.origin).position.sub
          (sparseFollower.target_path_.poses.getD
            (sparseFollower.target_path_.poses.length - 1) Pose.origin).position) →
        ¬ segmentLength euclid sparseFollower.target_path_.poses a < m →
        calculateDistanceOnPath euclid sparseFollower a m = .error .undefinedBehaviour)) ∧
    calculateDistanceOnPath euclid sparseFollower 0 (-(sparseFollower.look_ahead_ * 1.5))
      = .ok 0 ∧
    calculateDistanceOnPath euclid sparseFollower 0 (sparseFollower.look_ahead_ * 1.5)
      = .ok 0 ∧
    calculateDistanceOnPath euclid sparseFollower 0 (3 / 4) = .error .undefinedBehaviour := by
  have h : 0 < sparseFollower.look_ahead_ ∧
      calculatePosOnPath euclid sparseFollower sparseFollower.ual_pose_.position
        (sparseFollower.look_ahead_ * 1.5) sparseFollower.prev_normal_pos_on_path_
        sparseFollower.target_path_ = .ok 0 ∧
      ¬ segmentLength euclid sparseFollower.target_path_.poses 0 < sparseFollower.look_ahead_ ∧
      calculateDistanceOnPath euclid sparseFollower 0 (-(sparseFollower.look_ahead_ * 1.5))
        = .ok 0 ∧
      calculateDistanceOnPath euclid sparseFollower 0 (sparseFollower.look_ahead_ * 1.5)
        = .ok 0 ∧
      calculateDistanceOnPath euclid sparseFollower 0 (3 / 4) = .error .undefinedBehaviour := by
    decide!
  exact ⟨getVelocity_unassigned_index euclid sparseFollower 0 (by decide) (by decide) h.1
    (Or.inl rfl) h.2.1 (Or.inr h.2.2.1), h.2.2.2⟩

end upat_follower
